import Mathlib

/-!
TV demo recorder and playback: a shallow embedding.

The recorder is `code/server/sv_tv.c`, the playback side is `code/client/cl_tv.c`.
Byte strings are lists of natural numbers (one per byte).  C strings are the
bytes before the first NUL.  Signed `int` values are integers; executions in
which a signed computation would overflow are outside the embedding, because
C leaves them undefined.
-/

namespace TV

/-! ## Constants and external routines -/

/-- Engine-wide constants from headers that are not part of the two source
files (`q_shared.h`, `qcommon.h`, `server.h`, `client.h`).  Every definition
below takes them as a parameter. -/
structure Limits where
  MAX_GENTITIES : Nat
  MAX_CLIENTS : Nat
  MAX_CONFIGSTRINGS : Nat
  MAX_GAMESTATE_CHARS : Nat
  BIG_INFO_STRING : Nat
  MAX_STRING_CHARS : Nat
  MAX_RELIABLE_COMMANDS : Nat
  MAX_ENTITIES_IN_SNAPSHOT : Nat
  MAX_QPATH : Nat
  CS_SERVERINFO : Nat
  CS_PLAYERS : Nat
  TEAM_SPECTATOR : Int
  ET_EVENTS : Int
  EV_SCOREPLUM : Int
  MAX_TV_MSGLEN : Nat
  MAX_TV_CMDS : Nat
  MAX_TV_CMDBUF : Nat
  TV_PLAY_MSGLEN : Nat
  MAX_MAP_AREA_BYTES : Nat
  GENTITYNUM_BITS : Nat
deriving DecidableEq, Repr

/-- Representative values: those of the id Tech 3 headers where the constant
exists there, and plausible sizes for the recorder's own buffers. -/
def q3 : Limits where
  MAX_GENTITIES := 1024
  MAX_CLIENTS := 64
  MAX_CONFIGSTRINGS := 1024
  MAX_GAMESTATE_CHARS := 16000
  BIG_INFO_STRING := 8192
  MAX_STRING_CHARS := 1024
  MAX_RELIABLE_COMMANDS := 64
  MAX_ENTITIES_IN_SNAPSHOT := 256
  MAX_QPATH := 64
  CS_SERVERINFO := 0
  CS_PLAYERS := 544
  TEAM_SPECTATOR := 3
  ET_EVENTS := 13
  EV_SCOREPLUM := 65
  MAX_TV_MSGLEN := 65536
  MAX_TV_CMDS := 256
  MAX_TV_CMDBUF := 32768
  TV_PLAY_MSGLEN := 65536
  MAX_MAP_AREA_BYTES := 32
  GENTITYNUM_BITS := 10

/-- A small set of constants with the same shape, used to evaluate the
definitions on concrete inputs. -/
def tiny : Limits where
  MAX_GENTITIES := 8
  MAX_CLIENTS := 8
  MAX_CONFIGSTRINGS := 4
  MAX_GAMESTATE_CHARS := 24
  BIG_INFO_STRING := 16
  MAX_STRING_CHARS := 16
  MAX_RELIABLE_COMMANDS := 4
  MAX_ENTITIES_IN_SNAPSHOT := 2
  MAX_QPATH := 64
  CS_SERVERINFO := 0
  CS_PLAYERS := 2
  TEAM_SPECTATOR := 3
  ET_EVENTS := 13
  EV_SCOREPLUM := 65
  MAX_TV_MSGLEN := 256
  MAX_TV_CMDS := 4
  MAX_TV_CMDBUF := 16
  TV_PLAY_MSGLEN := 256
  MAX_MAP_AREA_BYTES := 2
  GENTITYNUM_BITS := 3

/-! ## C strings and raw memory -/

/-- Length of the C string at the start of `buf` (`strlen`). -/
def strlen (buf : List Nat) : Nat := (buf.takeWhile (fun b => b != 0)).length

/-- The C string at the start of `buf`: the bytes before the first NUL. -/
def cstr (buf : List Nat) : List Nat := buf.takeWhile (fun b => b != 0)

/-- The first `n` bytes at the start of `buf`, as `memcpy` reads them.  A byte
past the end of the modelled buffer reads as 0. -/
def memRead (buf : List Nat) (n : Nat) : List Nat :=
  (List.range n).map (fun k => buf.getD k 0)

/-- Overwrite `buf` from offset `off` with `src` (`memcpy` into an array). -/
def writeAt (buf : List Nat) (off : Nat) (src : List Nat) : List Nat :=
  buf.take off ++ src ++ buf.drop (off + src.length)

/-- Bounded string copy `Q_strncpyz( dest, src, destsize )` of `q_shared.c`:
the C string `src` cut to `destsize - 1` bytes. -/
def Q_strncpyz (src : List Nat) (destsize : Nat) : List Nat :=
  (cstr src).take (destsize - 1)

/-! ## Game records -/

/-- A `vec3_t`: three floats, kept as their raw 32-bit words. -/
structure vec3_t where
  x : Nat
  y : Nat
  z : Nat
deriving DecidableEq, Repr

/-- The all-zero vector. -/
def vec3_t.zero : vec3_t := ⟨0, 0, 0⟩

/-- The record `entityState_t`: the fields the two files read, and `rest` for
all the others. -/
structure entityState_t where
  number : Int
  eType : Int
  otherEntityNum : Int
  powerups : Int
  trBase : vec3_t
  rest : Nat
deriving DecidableEq, Repr

/-- The all-zero entity state (`Com_Memset( &es, 0, sizeof( entityState_t ) )`). -/
def entityState_t.zero : entityState_t := ⟨0, 0, 0, 0, vec3_t.zero, 0⟩

/-- The record `playerState_t`: the fields the two files read, and `rest` for
all the others.  `persistant` is the array `persistant[MAX_PERSISTANT]`. -/
structure playerState_t where
  clientNum : Int
  origin : vec3_t
  persistant : List Int
  rest : Nat
deriving DecidableEq, Repr

/-- The all-zero player state. -/
def playerState_t.zero : playerState_t := ⟨0, vec3_t.zero, List.replicate 16 0, 0⟩

/-- One element of the sort array in `CL_TV_BuildSnapshot`. -/
structure tvEntDist_t where
  entityNum : Nat
  distSq : Nat
deriving DecidableEq, Repr

/-- Routines of the engine that the two source files call and that live in
other files of the repository.  They are parameters of the embedding. -/
structure Externals where
  /-- Info string update: `Info_SetValueForKey( s, key, value )` returns the new buffer. -/
  Info_SetValueForKey : List Nat → List Nat → List Nat → List Nat
  /-- Info string lookup: `Info_ValueForKey( s, key )`. -/
  Info_ValueForKey : List Nat → List Nat → List Nat
  /-- The C library `atoi`. -/
  atoi : List Nat → Int
  /-- Text that `%i` prints for an integer. -/
  fmtInt : Int → List Nat
  /-- Tokens `Cmd_Argv( 0 ), Cmd_Argv( 1 ), ...` after `Cmd_TokenizeString( s )`. -/
  Cmd_TokenizeString : List Nat → List (List Nat)
  /-- Text `Cmd_ArgsFrom( n )` after `Cmd_TokenizeString( s )`. -/
  Cmd_ArgsFrom : List Nat → Nat → List Nat
  /-- The float `DistanceSquared( p1, p2 )`, as a raw word. -/
  DistanceSquared : vec3_t → vec3_t → Nat
  /-- The comparison `a < b` of two floats given as raw words. -/
  floatLt : Nat → Nat → Bool
  /-- The C library `qsort` with the given comparison function. -/
  qsort : (tvEntDist_t → tvEntDist_t → Int) → List tvEntDist_t → List tvEntDist_t
  /-- Message reader `MSG_ReadLong`: the value and the rest of the message. -/
  MSG_ReadLong : List Nat → Int × List Nat
  /-- Message reader `MSG_ReadShort`. -/
  MSG_ReadShort : List Nat → Int × List Nat
  /-- Message reader `MSG_ReadByte`. -/
  MSG_ReadByte : List Nat → Int × List Nat
  /-- Message reader `MSG_ReadData( msg, buf, len )`: `len` bytes and the rest. -/
  MSG_ReadData : List Nat → Nat → List Nat × List Nat
  /-- Message reader `MSG_ReadEntitynum`. -/
  MSG_ReadEntitynum : List Nat → Int × List Nat
  /-- Message reader `MSG_ReadDeltaEntity( msg, from, to, number )`. -/
  MSG_ReadDeltaEntity : List Nat → entityState_t → Int → entityState_t × List Nat
  /-- Message reader `MSG_ReadDeltaPlayerstate( msg, from, to )`. -/
  MSG_ReadDeltaPlayerstate : List Nat → playerState_t → playerState_t × List Nat
  /-- What `MSG_WriteLong` appends to the message. -/
  MSG_WriteLong : Int → List Nat
  /-- What `MSG_WriteShort` appends. -/
  MSG_WriteShort : Int → List Nat
  /-- What `MSG_WriteByte` appends. -/
  MSG_WriteByte : Int → List Nat
  /-- What `MSG_WriteBits( msg, value, bits )` appends. -/
  MSG_WriteBits : Int → Nat → List Nat
  /-- What `MSG_WriteData` appends. -/
  MSG_WriteData : List Nat → List Nat
  /-- What `MSG_WriteDeltaEntity( msg, from, to, force )` appends. -/
  MSG_WriteDeltaEntity : entityState_t → entityState_t → Bool → List Nat
  /-- What `MSG_WriteDeltaPlayerstate( msg, from, to )` appends. -/
  MSG_WriteDeltaPlayerstate : playerState_t → playerState_t → List Nat
  /-- `MSG_ReadData` fills the whole buffer it is given. -/
  MSG_ReadData_length : ∀ m n, (MSG_ReadData m n).1.length = n
  /-- `MSG_ReadEntitynum` consumes input unless it reports an exhausted message. -/
  MSG_ReadEntitynum_progress :
    ∀ m, (MSG_ReadEntitynum m).1 < 0 ∨ (MSG_ReadEntitynum m).2.length < m.length
  /-- `MSG_ReadDeltaEntity` never gives input back. -/
  MSG_ReadDeltaEntity_progress :
    ∀ m e n, (MSG_ReadDeltaEntity m e n).2.length ≤ m.length

/-! ## The configstring arena (`gameState_t`) -/

/-- The packed configstring table `gameState_t`. -/
structure gameState_t where
  stringOffsets : List Nat
  stringData : List Nat
  dataCount : Nat
deriving DecidableEq, Repr

/-- The arena after `Com_Memset( &cl.gameState, 0, sizeof( cl.gameState ) )`. -/
def gameState_t.zeroed (L : Limits) : gameState_t where
  stringOffsets := List.replicate L.MAX_CONFIGSTRINGS 0
  stringData := List.replicate L.MAX_GAMESTATE_CHARS 0
  dataCount := 0

/-- The configstring at index `i`:
`cl.gameState.stringData + cl.gameState.stringOffsets[i]`. -/
def gameState_t.configString (gs : gameState_t) (i : Nat) : List Nat :=
  cstr (gs.stringData.drop (gs.stringOffsets.getD i 0))

/-- A well-formed arena: both arrays have their declared size, the used part
lies inside the array, offset 0 holds the empty string and every offset points
at a string that ends inside the used part. -/
def gameState_t.WellFormed (L : Limits) (gs : gameState_t) : Prop :=
  gs.stringOffsets.length = L.MAX_CONFIGSTRINGS ∧
  gs.stringData.length = L.MAX_GAMESTATE_CHARS ∧
  1 ≤ gs.dataCount ∧ gs.dataCount ≤ L.MAX_GAMESTATE_CHARS ∧
  gs.stringData.headD 1 = 0 ∧
  ∀ o ∈ gs.stringOffsets, o < gs.dataCount ∧ 0 ∈ (gs.stringData.drop o).take (gs.dataCount - o)

instance (L : Limits) (gs : gameState_t) : Decidable (gs.WellFormed L) := by
  unfold gameState_t.WellFormed; infer_instance

/-- One iteration of the rebuild loop of `CL_TV_UpdateConfigstring`
(`for ( i = 0; i < MAX_CONFIGSTRINGS; i++ )`).  The result `none` is the fatal
`Com_Error( ERR_DROP, ... )`. -/
def updateConfigstringStep (L : Limits) (oldGs : gameState_t) (index : Nat)
    (data : List Nat) (dataLen : Int) (acc : Option gameState_t) (i : Nat) :
    Option gameState_t :=
  match acc with
  | none => none
  | some gs =>
    if i = index then
      if dataLen ≤ 0 then some gs
      else if dataLen + 1 + (gs.dataCount : Int) > (L.MAX_GAMESTATE_CHARS : Int) then none
      else some
        { stringOffsets := gs.stringOffsets.set i gs.dataCount
          stringData := writeAt gs.stringData gs.dataCount (memRead data dataLen.toNat ++ [0])
          dataCount := gs.dataCount + dataLen.toNat + 1 }
    else
      let dup := oldGs.stringData.drop (oldGs.stringOffsets.getD i 0)
      if dup.headD 0 = 0 then some gs
      else
        let len := strlen dup
        if len + 1 + gs.dataCount > L.MAX_GAMESTATE_CHARS then none
        else some
          { stringOffsets := gs.stringOffsets.set i gs.dataCount
            stringData := writeAt gs.stringData gs.dataCount (memRead dup (len + 1))
            dataCount := gs.dataCount + (len + 1) }

/-- The data and length that the rebuild loop of `CL_TV_UpdateConfigstring`
uses: for `CS_SERVERINFO` with `dataLen > 0` the value is copied into
`modifiedInfo[BIG_INFO_STRING]` and the key `tv` is set to `1`. -/
def effectiveData (L : Limits) (X : Externals) (index : Nat) (data : List Nat)
    (dataLen : Int) : List Nat × Int :=
  if index = L.CS_SERVERINFO ∧ dataLen > 0 then
    let modifiedInfo :=
      X.Info_SetValueForKey (Q_strncpyz data L.BIG_INFO_STRING) [116, 118] [49]
    (modifiedInfo, (strlen modifiedInfo : Int))
  else (data, dataLen)

/-- Embedding of `CL_TV_UpdateConfigstring( index, data, dataLen )`: the arena
is rebuilt from a zeroed one with `dataCount = 1`.  `index` is a natural
number because every caller checks `(unsigned)index < MAX_CONFIGSTRINGS` or
passes `CS_SERVERINFO`.  The result `none` is the fatal drop. -/
def CL_TV_UpdateConfigstring (L : Limits) (X : Externals) (gs : gameState_t)
    (index : Nat) (data : List Nat) (dataLen : Int) : Option gameState_t :=
  let e := effectiveData L X index data dataLen
  (List.range L.MAX_CONFIGSTRINGS).foldl
    (updateConfigstringStep L gs index e.1 e.2)
    (some { gameState_t.zeroed L with dataCount := 1 })

/-- The table entry that the rebuild loop stores at index `j`: the new value
at `index`, the old string elsewhere. -/
def rebuiltEntry (old : gameState_t) (index : Nat) (d : List Nat) (dl : Int) (j : Nat) :
    List Nat :=
  if j = index then (if dl ≤ 0 then [] else memRead d dl.toNat) else old.configString j

/-- Arena size that a table of strings asks for, in the words of the
specification: 1 plus the sum of (length + 1) over the non-empty entries among
the first `n`. -/
def arenaNeed (table : Nat → List Nat) (n : Nat) : Nat :=
  1 + ((List.range n).map (fun j => if table j = [] then 0 else (table j).length + 1)).sum

/-- Loop invariant of the rebuild in `CL_TV_UpdateConfigstring` after the
first `n` indices: the used part `pre` of the arena starts with a NUL, every
non-empty entry below `n` sits inside it followed by a NUL, and every other
offset is 0. -/
def RebuildInv (L : Limits) (entry : Nat → List Nat) (n : Nat) (gs : gameState_t) : Prop :=
  gs.dataCount = arenaNeed entry n ∧
  gs.stringOffsets.length = L.MAX_CONFIGSTRINGS ∧
  ∃ pre, gs.stringData = pre ++ List.replicate (L.MAX_GAMESTATE_CHARS - pre.length) 0 ∧
    pre.length = gs.dataCount ∧ pre.length ≤ L.MAX_GAMESTATE_CHARS ∧ pre.head? = some 0 ∧
    ∀ j, (j < n → entry j ≠ [] →
            ∃ a b, pre = a ++ entry j ++ 0 :: b ∧ a.length = gs.stringOffsets.getD j 0 ∧
              1 ≤ a.length) ∧
         ((n ≤ j ∨ entry j = []) → gs.stringOffsets.getD j 0 = 0)

/-- The value that `CL_TV_UpdateConfigstring( index, data, strlen( data ) )`
stores for a C string `data`: the string itself, except for a non-empty
`CS_SERVERINFO` value, which first gets the key `tv` set to `1`. -/
def storedValue (L : Limits) (X : Externals) (index : Nat) (data : List Nat) : List Nat :=
  if index = L.CS_SERVERINFO ∧ data ≠ [] then
    cstr (X.Info_SetValueForKey (Q_strncpyz data L.BIG_INFO_STRING) [116, 118] [49])
  else data

/-- The table that a call `CL_TV_UpdateConfigstring( index, data, strlen( data ) )`
is to produce: the stored value at `index`, the old strings elsewhere. -/
def resultingTable (L : Limits) (X : Externals) (gs : gameState_t) (index : Nat)
    (data : List Nat) (j : Nat) : List Nat :=
  if j = index then storedValue L X index data else gs.configString j

/-- The key/value pair `\tv\1` as bytes. -/
def tvPair : List Nat := [92, 116, 118, 92, 49]

/-- Toy message symbol of an integer: non-negative values are even, negative
ones odd. -/
def toyEncInt (v : Int) : Nat := if 0 ≤ v then 2 * v.toNat else 2 * (-v).toNat - 1

/-- Inverse of `toyEncInt`. -/
def toyDecInt (n : Nat) : Int := if n % 2 = 0 then ((n / 2 : Nat) : Int) else -(((n + 1) / 2 : Nat) : Int)

/-- Toy reader of one integer symbol; an exhausted message reads as `dflt`. -/
def toyReadInt (dflt : Int) (m : List Nat) : Int × List Nat :=
  match m with
  | [] => (dflt, [])
  | a :: t => (toyDecInt a, t)

/-- Toy entity reader: seven symbols after the entity number. -/
def toyReadDeltaEntity (m : List Nat) (old : entityState_t) (num : Int) :
    entityState_t × List Nat :=
  match m with
  | a :: b :: c :: x :: y :: z :: r :: t =>
    ({ number := num, eType := toyDecInt a, otherEntityNum := toyDecInt b,
       powerups := toyDecInt c, trBase := ⟨x, y, z⟩, rest := r }, t)
  | _ => (old, [])

/-- Toy entity writer: nothing for an unchanged state unless forced, else the
entity number and seven symbols. -/
def toyWriteDeltaEntity (old new : entityState_t) (force : Bool) : List Nat :=
  if old = new ∧ force = false then []
  else [toyEncInt new.number, toyEncInt new.eType, toyEncInt new.otherEntityNum,
    toyEncInt new.powerups, new.trBase.x, new.trBase.y, new.trBase.z, new.rest]

/-- Toy player reader. -/
def toyReadDeltaPlayerstate (m : List Nat) (old : playerState_t) : playerState_t × List Nat :=
  match m with
  | c :: x :: y :: z :: r :: n :: t =>
    ({ clientNum := toyDecInt c, origin := ⟨x, y, z⟩,
       persistant := (t.take n).map toyDecInt, rest := r }, t.drop n)
  | _ => (old, [])

/-- Toy player writer. -/
def toyWriteDeltaPlayerstate (_old new : playerState_t) : List Nat :=
  [toyEncInt new.clientNum, new.origin.x, new.origin.y, new.origin.z, new.rest,
    new.persistant.length] ++ new.persistant.map toyEncInt

/-- A concrete stand-in for the external routines, used to evaluate the
embedding on examples: `Info_SetValueForKey` appends `\key\value`, the
tokenizer splits at blanks, `%i` prints one decimal digit, a float is a small
natural number and `qsort` is an insertion sort. -/
def toyExternals : Externals where
  Info_SetValueForKey := fun s k v => cstr s ++ [92] ++ k ++ [92] ++ v
  Info_ValueForKey := fun _ _ => []
  atoi := fun s => match s with
    | [] => 0
    | c :: _ => (c : Int) - 48
  fmtInt := fun n => [48 + n.toNat % 10]
  Cmd_TokenizeString := fun s => (s.splitOn 32).filter (fun t => t != [])
  Cmd_ArgsFrom := fun s n =>
    List.intercalate [32] (((s.splitOn 32).filter (fun t => t != [])).drop n)
  DistanceSquared := fun a b =>
    ((a.x : Int) - b.x).natAbs ^ 2 + ((a.y : Int) - b.y).natAbs ^ 2 + ((a.z : Int) - b.z).natAbs ^ 2
  floatLt := fun a b => decide (a < b)
  qsort := fun cmp l => l.insertionSort (fun a b => cmp a b ≤ 0)
  MSG_ReadLong := toyReadInt 0
  MSG_ReadShort := toyReadInt 0
  MSG_ReadByte := toyReadInt 0
  MSG_ReadData := fun m n => (memRead m n, m.drop n)
  MSG_ReadEntitynum := toyReadInt (-1)
  MSG_ReadDeltaEntity := toyReadDeltaEntity
  MSG_ReadDeltaPlayerstate := toyReadDeltaPlayerstate
  MSG_WriteLong := fun v => [toyEncInt v]
  MSG_WriteShort := fun v => [toyEncInt v]
  MSG_WriteByte := fun v => [toyEncInt v]
  MSG_WriteBits := fun v _ => [toyEncInt v]
  MSG_WriteData := fun b => b
  MSG_WriteDeltaEntity := toyWriteDeltaEntity
  MSG_WriteDeltaPlayerstate := toyWriteDeltaPlayerstate
  MSG_ReadData_length := fun m n => by simp [memRead]
  MSG_ReadEntitynum_progress := fun m => by
    cases m with
    | nil => left; simp [toyReadInt]
    | cons a t => right; simp [toyReadInt]
  MSG_ReadDeltaEntity_progress := fun m e n => by
    unfold toyReadDeltaEntity
    split
    · simp; omega
    · simp

/-- A small well-formed arena: index 2 holds `hi`, every other index is empty. -/
def arenaHi : gameState_t where
  stringOffsets := [0, 0, 1, 0]
  stringData := [0, 104, 105, 0] ++ List.replicate 20 0
  dataCount := 4

/-! ## Playback state (`tvPlayback_t` and the client fields it drives) -/

/-- Bit `i` of a bitmask array: `mask[i >> 3] & ( 1 << ( i & 7 ) )`. -/
def bitTest (mask : List Nat) (i : Nat) : Bool :=
  (mask.getD (i >>> 3) 0).testBit (i &&& 7)

/-- The record `clSnapshot_t`. -/
structure clSnapshot_t where
  valid : Bool
  snapFlags : Int
  serverTime : Int
  messageNum : Int
  deltaNum : Int
  ping : Int
  areabytes : Nat
  areamask : List Nat
  ps : playerState_t
  numEntities : Nat
  parseEntitiesNum : Nat
  serverCommandNum : Nat
deriving DecidableEq, Repr

/-- The all-zero snapshot. -/
def clSnapshot_t.zero (L : Limits) : clSnapshot_t where
  valid := false
  snapFlags := 0
  serverTime := 0
  messageNum := 0
  deltaNum := 0
  ping := 0
  areabytes := 0
  areamask := List.replicate L.MAX_MAP_AREA_BYTES 0
  ps := playerState_t.zero
  numEntities := 0
  parseEntitiesNum := 0
  serverCommandNum := 0

/-- The playback singleton `tvPlay`.  `plain` is what the decompressor still
has to deliver: the decompressed bytes of the body that have not been read.
`cmdSequence` counts queued commands and is never negative. -/
structure tvPlayback_t where
  active : Bool
  atEnd : Bool
  seeking : Bool
  svFps : Int
  maxclients : Int
  serverTime : Int
  firstServerTime : Int
  lastServerTime : Int
  totalDuration : Int
  viewpoint : Nat
  viewOrigin : vec3_t
  entities : List entityState_t
  entityBitmask : List Nat
  players : List playerState_t
  playerBitmask : List Nat
  cmds : List (List Nat)
  cmdSequence : Nat
  snapCount : Int
  snapshots0 : clSnapshot_t
  snapshots1 : clSnapshot_t
  snapEntities0 : List entityState_t
  snapEntities1 : List entityState_t
  initialGameState : gameState_t
  firstFrameOffset : Nat
  plain : List Nat
deriving DecidableEq, Repr

/-- The state after `Com_Memset( &tvPlay, 0, sizeof( tvPlay ) )`. -/
def tvPlayback_t.zero (L : Limits) : tvPlayback_t where
  active := false
  atEnd := false
  seeking := false
  svFps := 0
  maxclients := 0
  serverTime := 0
  firstServerTime := 0
  lastServerTime := 0
  totalDuration := 0
  viewpoint := 0
  viewOrigin := vec3_t.zero
  entities := List.replicate L.MAX_GENTITIES entityState_t.zero
  entityBitmask := List.replicate (L.MAX_GENTITIES / 8) 0
  players := List.replicate L.MAX_CLIENTS playerState_t.zero
  playerBitmask := List.replicate (L.MAX_CLIENTS / 8) 0
  cmds := List.replicate L.MAX_RELIABLE_COMMANDS []
  cmdSequence := 0
  snapCount := 0
  snapshots0 := clSnapshot_t.zero L
  snapshots1 := clSnapshot_t.zero L
  snapEntities0 := List.replicate L.MAX_ENTITIES_IN_SNAPSHOT entityState_t.zero
  snapEntities1 := List.replicate L.MAX_ENTITIES_IN_SNAPSHOT entityState_t.zero
  initialGameState := gameState_t.zeroed L
  firstFrameOffset := 0
  plain := []

/-- The client: `tvPlay` together with the fields of `cl`, `clc` and `cls`,
the cvars, the tokenized command and the static `bigConfigString` that the
playback code reads or writes. -/
structure Client where
  tvPlay : tvPlayback_t
  gameState : gameState_t
  snap : clSnapshot_t
  newSnapshots : Bool
  serverTimeDelta : Int
  oldServerTime : Int
  oldFrameServerTime : Int
  clientNum : Int
  lastExecutedServerCommand : Int
  serverMessageSequence : Int
  serverCommandSequence : Int
  realtime : Int
  cl_tvViewpoint : Int
  cl_tvTime : Int
  cl_tvDuration : Int
  cmdArgv : List (List Nat)
  bigConfigString : List Nat
deriving DecidableEq, Repr

/-- A client with everything zero. -/
def Client.zero (L : Limits) : Client where
  tvPlay := tvPlayback_t.zero L
  gameState := gameState_t.zeroed L
  snap := clSnapshot_t.zero L
  newSnapshots := false
  serverTimeDelta := 0
  oldServerTime := 0
  oldFrameServerTime := 0
  clientNum := 0
  lastExecutedServerCommand := 0
  serverMessageSequence := 0
  serverCommandSequence := 0
  realtime := 0
  cl_tvViewpoint := 0
  cl_tvTime := 0
  cl_tvDuration := 0
  cmdArgv := []
  bigConfigString := []

/-- Append a string to the command ring:
`Q_strncpyz( tvPlay.cmds[cmdSequence & ( MAX_RELIABLE_COMMANDS - 1 )], text, MAX_STRING_CHARS )`
followed by `tvPlay.cmdSequence++`. -/
def pushCommand (L : Limits) (tv : tvPlayback_t) (text : List Nat) : tvPlayback_t :=
  { tv with
    cmds := tv.cmds.set (tv.cmdSequence &&& (L.MAX_RELIABLE_COMMANDS - 1))
      (Q_strncpyz text L.MAX_STRING_CHARS)
    cmdSequence := tv.cmdSequence + 1 }

/-- Embedding of `CL_TV_GetPlayerTeam`: the value of key `t` in configstring
`CS_PLAYERS + clientNum`. -/
def CL_TV_GetPlayerTeam (L : Limits) (X : Externals) (gs : gameState_t) (clientNum : Nat) : Int :=
  X.atoi (X.Info_ValueForKey (gs.configString (L.CS_PLAYERS + clientNum)) [116])

/-- The text of one player in the `scores` command: fourteen numbers, each
after a blank. -/
def scoreFields (X : Externals) (tv : tvPlayback_t) (i : Nat) : List Nat :=
  let ps := tv.players.getD i playerState_t.zero
  let p := fun (k : Nat) => ps.persistant.getD k 0
  let perfect : Int := if p 2 = 0 ∧ p 8 = 0 then 1 else 0
  let powerups := (tv.entities.getD i entityState_t.zero).powerups
  ([(i : Int), p 0, 0, 0, 0, powerups, 0, p 9, p 10, p 13, p 11, p 12, perfect, p 14].map
    (fun v => 32 :: X.fmtInt v)).flatten

/-- Embedding of `CL_TV_InjectScores`: the text `scores <count> 0 0` followed
by the fields of every live player is appended to the command ring. -/
def CL_TV_InjectScores (L : Limits) (X : Externals) (tv : tvPlayback_t) : tvPlayback_t :=
  let live := (List.range L.MAX_CLIENTS).filter (fun i => bitTest tv.playerBitmask i)
  let buf := [115, 99, 111, 114, 101, 115, 32] ++ X.fmtInt live.length ++ [32, 48, 32, 48]
    ++ (live.map (scoreFields X tv)).flatten
  pushCommand L tv buf

/-- Embedding of `CL_TV_SkipEventEntity`. -/
def CL_TV_SkipEventEntity (L : Limits) (tv : tvPlayback_t) (es : entityState_t) : Bool :=
  decide (es.eType = L.ET_EVENTS + L.EV_SCOREPLUM ∧ es.otherEntityNum ≠ (tv.viewpoint : Int))

/-- Embedding of `TV_EntDistCompare`. -/
def TV_EntDistCompare (X : Externals) (a b : tvEntDist_t) : Int :=
  if X.floatLt a.distSq b.distSq then -1
  else if X.floatLt b.distSq a.distSq then 1
  else 0

/-- The three tests every entity loop of `CL_TV_BuildSnapshot` applies to slot
`i`: bit set, not the viewpoint, not a filtered event. -/
def isCandidate (L : Limits) (tv : tvPlayback_t) (i : Nat) : Bool :=
  bitTest tv.entityBitmask i && (i != tv.viewpoint) &&
    !CL_TV_SkipEventEntity L tv (tv.entities.getD i entityState_t.zero)

/-- The slots `i` of the assignments
`tvPlay.snapEntities[which][count] = tvPlay.entities[i]` of
`CL_TV_BuildSnapshot`, in the order of `count`. -/
def snapshotSlots (L : Limits) (X : Externals) (tv : tvPlayback_t) : List Nat :=
  let cand := (List.range (L.MAX_GENTITIES - 1)).filter (isCandidate L tv)
  if cand.length ≤ L.MAX_ENTITIES_IN_SNAPSHOT then cand
  else
    let candidates := cand.map (fun i =>
      ({ entityNum := i
         distSq := X.DistanceSquared tv.viewOrigin
           (tv.entities.getD i entityState_t.zero).trBase } : tvEntDist_t))
    let sorted := X.qsort (TV_EntDistCompare X) candidates
    let count := if candidates.length < L.MAX_ENTITIES_IN_SNAPSHOT then candidates.length
      else L.MAX_ENTITIES_IN_SNAPSHOT
    (sorted.take count).map (fun c => c.entityNum)

/-- Overwrite the first elements of an array with `src`. -/
def writePrefix {α : Type} (arr : List α) (src : List α) : List α :=
  src ++ arr.drop src.length

/-- Embedding of `CL_TV_BuildSnapshot( which )`; `which` is 0 or 1. -/
def CL_TV_BuildSnapshot (L : Limits) (X : Externals) (tv : tvPlayback_t) (which : Fin 2) :
    tvPlayback_t :=
  let tv := CL_TV_InjectScores L X tv
  let messageNum := tv.snapCount
  let slots := snapshotSlots L X tv
  let ents := slots.map (fun i => tv.entities.getD i entityState_t.zero)
  let snap : clSnapshot_t :=
    { valid := true
      snapFlags := 0
      serverTime := tv.serverTime
      messageNum := messageNum
      deltaNum := messageNum - 1
      ping := 0
      areabytes := L.MAX_MAP_AREA_BYTES
      areamask := List.replicate L.MAX_MAP_AREA_BYTES 0
      ps := { tv.players.getD tv.viewpoint playerState_t.zero with clientNum := tv.viewpoint }
      numEntities := slots.length
      parseEntitiesNum := which.val * L.MAX_ENTITIES_IN_SNAPSHOT
      serverCommandNum := tv.cmdSequence }
  let tv := { tv with snapCount := tv.snapCount + 1 }
  if which = 0 then
    { tv with snapshots0 := snap, snapEntities0 := writePrefix tv.snapEntities0 ents }
  else
    { tv with snapshots1 := snap, snapEntities1 := writePrefix tv.snapEntities1 ents }

/-- The snapshot `tvPlay.snapshots[which]`. -/
def tvPlayback_t.snapshots (tv : tvPlayback_t) (which : Fin 2) : clSnapshot_t :=
  if which = 0 then tv.snapshots0 else tv.snapshots1

/-- The array `tvPlay.snapEntities[which]`. -/
def tvPlayback_t.snapEntities (tv : tvPlayback_t) (which : Fin 2) : List entityState_t :=
  if which = 0 then tv.snapEntities0 else tv.snapEntities1

/-- The part of `CL_TV_GetServerCommand` from the label `rescan` on, for the
string `s`.  The result `none` is a fatal drop.  `goto rescan` is taken only
after `bigConfigString` has grown, and a `bigConfigString` of
`BIG_INFO_STRING` bytes or more is a drop, so the jump is taken fewer than
`BIG_INFO_STRING` times; `fuel` counts the jumps that are left. -/
def rescan (L : Limits) (X : Externals) : Nat → Client → List Nat → Option (Bool × Client)
  | 0, _, _ => none
  | fuel + 1, c, s =>
    let argv := X.Cmd_TokenizeString s
    let c := { c with cmdArgv := argv }
    let cmd := argv.getD 0 []
    if cmd = [100, 105, 115, 99, 111, 110, 110, 101, 99, 116] then
      some (false, { c with cmdArgv := [] })
    else if cmd = [98, 99, 115, 48] then
      let text := [99, 115, 32] ++ argv.getD 1 [] ++ [32, 34] ++ argv.getD 2 []
      some (false, { c with bigConfigString := text.take (L.BIG_INFO_STRING - 1) })
    else if cmd = [98, 99, 115, 49] then
      if c.bigConfigString.length + (argv.getD 2 []).length ≥ L.BIG_INFO_STRING then none
      else some (false, { c with bigConfigString := c.bigConfigString ++ argv.getD 2 [] })
    else if cmd = [98, 99, 115, 50] then
      if c.bigConfigString.length + (argv.getD 2 []).length + 1 ≥ L.BIG_INFO_STRING then none
      else
        let big := c.bigConfigString ++ argv.getD 2 [] ++ [34]
        rescan L X fuel { c with bigConfigString := big } big
    else if cmd = [99, 115] then
      let csIndex := X.atoi (argv.getD 1 [])
      let csValue := X.Cmd_ArgsFrom s 2
      let updated :=
        if 0 ≤ csIndex ∧ csIndex < (L.MAX_CONFIGSTRINGS : Int) then
          CL_TV_UpdateConfigstring L X c.gameState csIndex.toNat csValue (strlen csValue)
        else some c.gameState
      match updated with
      | none => none
      | some gs => some (true, { c with gameState := gs, cmdArgv := X.Cmd_TokenizeString s })
    else some (true, c)

/-- Embedding of `CL_TV_GetServerCommand( serverCommandNumber )`.  The result
`none` is a fatal drop, otherwise the returned flag and the new client state. -/
def CL_TV_GetServerCommand (L : Limits) (X : Externals) (c : Client)
    (serverCommandNumber : Int) : Option (Bool × Client) :=
  if (c.tvPlay.cmdSequence : Int) - serverCommandNumber ≥ (L.MAX_RELIABLE_COMMANDS : Int) then
    some (false, { c with cmdArgv := [] })
  else if (c.tvPlay.cmdSequence : Int) - serverCommandNumber < 0 then none
  else
    let index := (Int.land serverCommandNumber ((L.MAX_RELIABLE_COMMANDS : Int) - 1)).toNat
    let s := c.tvPlay.cmds.getD index []
    rescan L X L.BIG_INFO_STRING { c with lastExecutedServerCommand := serverCommandNumber } s

/-- A playback state with four live entities (slots 1 to 4) at different
places and the viewpoint in slot 1. -/
def tvCrowded : tvPlayback_t :=
  { tvPlayback_t.zero tiny with
    entityBitmask := [30]
    viewpoint := 1
    entities := (List.range 8).map (fun (i : Nat) =>
      ({ number := (i : Int), eType := 0, otherEntityNum := 0, powerups := 0,
         trBase := ⟨i * 2, 0, 0⟩, rest := 0 } : entityState_t)) }

/-- A client that has queued exactly one command, `print` (command number 0). -/
def clientOneQueued : Client :=
  { Client.zero q3 with
    tvPlay := pushCommand q3 (tvPlayback_t.zero q3) [112, 114, 105, 110, 116] }

/-! ## Frame reader (`CL_TV_ReadFrame`) -/

/-- Value of up to four bytes read as a little-endian unsigned integer. -/
def le32 (b : List Nat) : Nat :=
  b.getD 0 0 + 256 * b.getD 1 0 + 65536 * b.getD 2 0 + 16777216 * b.getD 3 0

/-- The four bytes of an unsigned 32-bit value, little-endian. -/
def le32Bytes (n : Nat) : List Nat :=
  [n % 256, n / 256 % 256, n / 65536 % 256, n / 16777216 % 256]

/-- How a section of the frame reader ends: `done` with the new array and the
rest of the message, or `bad` when the reader sets `atEnd` and returns. -/
inductive Scan (α : Type) where
  | done (a : α) (m : List Nat)
  | bad (a : α)
deriving DecidableEq, Repr

/-- The `while ( 1 )` loop over entity deltas in `CL_TV_ReadFrame`.  Every
pass that continues has consumed input (`MSG_ReadEntitynum_progress`), so a
`fuel` above the message length is never used up. -/
def readEntities (L : Limits) (X : Externals) :
    Nat → List Nat → List entityState_t → Scan (List entityState_t)
  | 0, _, ents => Scan.bad ents
  | fuel + 1, m, ents =>
    let r := X.MSG_ReadEntitynum m
    if r.1 = (L.MAX_GENTITIES : Int) - 1 then Scan.done ents r.2
    else if r.1 < 0 then Scan.bad ents
    else if r.1 ≥ (L.MAX_GENTITIES : Int) - 1 then Scan.bad ents
    else
      let d := X.MSG_ReadDeltaEntity r.2 (ents.getD r.1.toNat entityState_t.zero) r.1
      if d.1.number = (L.MAX_GENTITIES : Int) - 1 then
        readEntities L X fuel d.2 (ents.set r.1.toNat entityState_t.zero)
      else
        readEntities L X fuel d.2 (ents.set r.1.toNat d.1)

/-- The loops that zero every slot whose bit was set in the old bitmask and is
clear in the new one. -/
def zeroLeft {α : Type} (zero : α) (n : Nat) (oldMask newMask : List Nat) (arr : List α) :
    List α :=
  (List.range n).foldl
    (fun a i => if bitTest oldMask i && !bitTest newMask i then a.set i zero else a) arr

/-- The loop over player deltas in `CL_TV_ReadFrame`, for the slots `slots`. -/
def readPlayers (L : Limits) (X : Externals) (mask : List Nat) :
    List Nat → List Nat → List playerState_t → Scan (List playerState_t)
  | [], m, ps => Scan.done ps m
  | i :: rest, m, ps =>
    if !bitTest mask i then readPlayers L X mask rest m ps
    else
      let r := X.MSG_ReadByte m
      if r.1 < 0 ∨ r.1 ≥ (L.MAX_CLIENTS : Int) then Scan.bad ps
      else
        let d := X.MSG_ReadDeltaPlayerstate r.2 (ps.getD r.1.toNat playerState_t.zero)
        readPlayers L X mask rest d.2 (ps.set r.1.toNat d.1)

/-- Embedding of `CL_TV_FindFirstActivePlayer`; `none` stands for -1. -/
def CL_TV_FindFirstActivePlayer (L : Limits) (X : Externals) (gs : gameState_t)
    (tv : tvPlayback_t) : Option Nat :=
  (List.range L.MAX_CLIENTS).find? (fun i =>
    bitTest tv.playerBitmask i && decide (CL_TV_GetPlayerTeam L X gs i ≠ L.TEAM_SPECTATOR))

/-- The bytes of a length-prefixed string of the frame: `len` bytes followed by
a NUL when `0 < len < BIG_INFO_STRING`, the empty string otherwise. -/
def readLenData (L : Limits) (X : Externals) (m : List Nat) (len : Int) : List Nat × List Nat :=
  if len > 0 ∧ len < (L.BIG_INFO_STRING : Int) then
    ((X.MSG_ReadData m len.toNat).1 ++ [0], (X.MSG_ReadData m len.toNat).2)
  else ([0], m)

/-- The loop over configstring changes in `CL_TV_ReadFrame`, `count` passes.
The result `none` is the fatal drop of `CL_TV_UpdateConfigstring`. -/
def readConfigstrings (L : Limits) (X : Externals) :
    Nat → List Nat → Client → Option (Client × List Nat)
  | 0, m, c => some (c, m)
  | count + 1, m, c =>
    let i := X.MSG_ReadShort m
    let l := X.MSG_ReadShort i.2
    let d := readLenData L X l.2 l.1
    if 0 ≤ i.1 ∧ i.1 < (L.MAX_CONFIGSTRINGS : Int) then
      match CL_TV_UpdateConfigstring L X c.gameState i.1.toNat d.1 l.1 with
      | none => none
      | some gs =>
        let csCmd := [99, 115, 32] ++ X.fmtInt i.1 ++ [32, 34] ++ cstr d.1 ++ [34]
        let tv := if c.tvPlay.seeking then c.tvPlay
          else pushCommand L c.tvPlay (csCmd.take (L.MAX_STRING_CHARS - 1))
        readConfigstrings L X count d.2 { c with gameState := gs, tvPlay := tv }
    else readConfigstrings L X count d.2 c

/-- The loop over recorded server commands in `CL_TV_ReadFrame`. -/
def readCommands (L : Limits) (X : Externals) :
    Nat → List Nat → tvPlayback_t → tvPlayback_t × List Nat
  | 0, m, tv => (tv, m)
  | count + 1, m, tv =>
    let t := X.MSG_ReadByte m
    let l := X.MSG_ReadShort t.2
    let d := readLenData L X l.2 l.1
    let tv := if !tv.seeking && (decide (t.1 = 255) || decide (t.1 = (tv.viewpoint : Int)))
      then pushCommand L tv d.1 else tv
    readCommands L X count d.2 tv

/-- The auto-switch of the viewpoint in `CL_TV_ReadFrame`. -/
def autoViewpoint (L : Limits) (X : Externals) (c : Client) : Client :=
  if !c.tvPlay.seeking &&
      (!bitTest c.tvPlay.playerBitmask c.tvPlay.viewpoint ||
        decide (CL_TV_GetPlayerTeam L X c.gameState c.tvPlay.viewpoint = L.TEAM_SPECTATOR)) then
    match CL_TV_FindFirstActivePlayer L X c.gameState c.tvPlay with
    | some newVp =>
      { c with tvPlay := { c.tvPlay with viewpoint := newVp }
               clientNum := newVp
               cl_tvViewpoint := newVp }
    | none => c
  else c

/-- The client with `tvPlay.atEnd = qtrue`. -/
def Client.atEnd (c : Client) (tv : tvPlayback_t) : Client :=
  { c with tvPlay := { tv with atEnd := true } }

/-- The entity section of `CL_TV_ReadFrame` on the message `m`: the new
bitmask, the delta loop, the zeroing of the slots that left the bitmask. -/
def readEntitySection (L : Limits) (X : Externals) (tv : tvPlayback_t) (m : List Nat) :
    Scan tvPlayback_t :=
  let oldEntityBitmask := tv.entityBitmask
  let em := X.MSG_ReadData m (L.MAX_GENTITIES / 8)
  let tv := { tv with entityBitmask := em.1 }
  match readEntities L X (em.2.length + 1) em.2 tv.entities with
  | Scan.bad ents => Scan.bad { tv with entities := ents }
  | Scan.done ents m =>
    Scan.done { tv with
      entities := zeroLeft entityState_t.zero L.MAX_GENTITIES oldEntityBitmask em.1 ents } m

/-- The player section of `CL_TV_ReadFrame` on the message `m`. -/
def readPlayerSection (L : Limits) (X : Externals) (tv : tvPlayback_t) (m : List Nat) :
    Scan tvPlayback_t :=
  let oldPlayerBitmask := tv.playerBitmask
  let pm := X.MSG_ReadData m (L.MAX_CLIENTS / 8)
  let tv := { tv with playerBitmask := pm.1 }
  match readPlayers L X pm.1 (List.range L.MAX_CLIENTS) pm.2 tv.players with
  | Scan.bad ps => Scan.bad { tv with players := ps }
  | Scan.done ps m =>
    Scan.done { tv with
      players := zeroLeft playerState_t.zero L.MAX_CLIENTS oldPlayerBitmask pm.1 ps } m

/-- The rest of `CL_TV_ReadFrame` after the player section: viewpoint
auto-switch, configstring changes, server commands, server time.  The result
`none` is the fatal drop raised inside `CL_TV_UpdateConfigstring`. -/
def readFrameTail (L : Limits) (X : Externals) (c : Client) (m : List Nat) (serverTime : Int) :
    Option Client :=
  let c := autoViewpoint L X c
  let csCount := X.MSG_ReadShort m
  match readConfigstrings L X csCount.1.toNat csCount.2 c with
  | none => none
  | some (c, m) =>
    let cmdCount := X.MSG_ReadShort m
    let tv := (readCommands L X cmdCount.1.toNat cmdCount.2 c.tvPlay).1
    some { c with tvPlay := { tv with
      serverTime := serverTime
      lastServerTime := if serverTime > tv.lastServerTime then serverTime else tv.lastServerTime } }

/-- The four bytes `CL_TV_ReadFrame` reads as `frameSize`. -/
def frameSizeBytes (c : Client) : List Nat := c.tvPlay.plain.take 4

/-- The payload `CL_TV_ReadFrame` reads into `tvPlay.msgBuf`. -/
def framePayload (c : Client) : List Nat :=
  (c.tvPlay.plain.drop 4).take (le32 (frameSizeBytes c))

/-- Whether `CL_TV_ReadFrame` gives up before it decodes anything: short read
of the size, `frameSize` zero or above the buffer size, short read of the
payload. -/
def frameUnreadable (L : Limits) (c : Client) : Prop :=
  (frameSizeBytes c).length ≠ 4 ∨ le32 (frameSizeBytes c) = 0 ∨
    le32 (frameSizeBytes c) > L.TV_PLAY_MSGLEN ∨
    (framePayload c).length ≠ le32 (frameSizeBytes c)

instance (L : Limits) (c : Client) : Decidable (frameUnreadable L c) := by
  unfold frameUnreadable; infer_instance

/-- Embedding of `CL_TV_ReadFrame`.  `CL_TV_DecompressRead` takes bytes from
`tvPlay.plain`.  The result `none` is the fatal drop raised inside
`CL_TV_UpdateConfigstring`. -/
def CL_TV_ReadFrame (L : Limits) (X : Externals) (c : Client) : Option Client :=
  let tv := { c.tvPlay with plain := c.tvPlay.plain.drop 4 }
  if (frameSizeBytes c).length ≠ 4 ∨ le32 (frameSizeBytes c) = 0 then some (c.atEnd tv)
  else if le32 (frameSizeBytes c) > L.TV_PLAY_MSGLEN then some (c.atEnd tv)
  else
    let tv := { tv with plain := tv.plain.drop (le32 (frameSizeBytes c)) }
    if (framePayload c).length ≠ le32 (frameSizeBytes c) then some (c.atEnd tv)
    else
      let time := X.MSG_ReadLong (framePayload c)
      match readEntitySection L X tv time.2 with
      | Scan.bad tv => some (c.atEnd tv)
      | Scan.done tv m =>
        match readPlayerSection L X tv m with
        | Scan.bad tv => some (c.atEnd tv)
        | Scan.done tv m => readFrameTail L X { c with tvPlay := tv } m time.1

/-- The entity numbers whose deltas the loop of `readEntities` decodes. -/
def decodedEntityNums (L : Limits) (X : Externals) :
    Nat → List Nat → List entityState_t → List Nat
  | 0, _, _ => []
  | fuel + 1, m, ents =>
    let r := X.MSG_ReadEntitynum m
    if r.1 = (L.MAX_GENTITIES : Int) - 1 then []
    else if r.1 < 0 then []
    else if r.1 ≥ (L.MAX_GENTITIES : Int) - 1 then []
    else
      let d := X.MSG_ReadDeltaEntity r.2 (ents.getD r.1.toNat entityState_t.zero) r.1
      if d.1.number = (L.MAX_GENTITIES : Int) - 1 then
        r.1.toNat :: decodedEntityNums L X fuel d.2 (ents.set r.1.toNat entityState_t.zero)
      else
        r.1.toNat :: decodedEntityNums L X fuel d.2 (ents.set r.1.toNat d.1)

/-- The client numbers whose deltas the loop of `readPlayers` decodes. -/
def decodedClientNums (L : Limits) (X : Externals) (mask : List Nat) :
    List Nat → List Nat → List playerState_t → List Nat
  | [], _, _ => []
  | i :: rest, m, ps =>
    if !bitTest mask i then decodedClientNums L X mask rest m ps
    else
      let r := X.MSG_ReadByte m
      if r.1 < 0 ∨ r.1 ≥ (L.MAX_CLIENTS : Int) then []
      else
        let d := X.MSG_ReadDeltaPlayerstate r.2 (ps.getD r.1.toNat playerState_t.zero)
        r.1.toNat :: decodedClientNums L X mask rest d.2 (ps.set r.1.toNat d.1)

/-- The running-state invariant of the specification: a slot whose bit is
clear holds the all-zero state, for entities and for players. -/
def RunningInv (L : Limits) (tv : tvPlayback_t) : Prop :=
  (∀ i, i < L.MAX_GENTITIES → bitTest tv.entityBitmask i = false →
    tv.entities.getD i entityState_t.zero = entityState_t.zero) ∧
  (∀ i, i < L.MAX_CLIENTS → bitTest tv.playerBitmask i = false →
    tv.players.getD i playerState_t.zero = playerState_t.zero)

instance (L : Limits) (tv : tvPlayback_t) : Decidable (RunningInv L tv) := by
  unfold RunningInv; infer_instance

/-- The message after the server time of the frame at the head of the stream. -/
def frameAfterTime (X : Externals) (c : Client) : List Nat :=
  (X.MSG_ReadLong (framePayload c)).2

/-- The client numbers decoded after the entity section ended in `scan`, and
whether each has its bit set in the player bitmask of the frame. -/
def clientNumbersInMask (L : Limits) (X : Externals) (scan : Scan tvPlayback_t) : Prop :=
  match scan with
  | Scan.bad _ => True
  | Scan.done tv m =>
    ∀ n ∈ decodedClientNums L X (X.MSG_ReadData m (L.MAX_CLIENTS / 8)).1
        (List.range L.MAX_CLIENTS) (X.MSG_ReadData m (L.MAX_CLIENTS / 8)).2 tv.players,
      bitTest (X.MSG_ReadData m (L.MAX_CLIENTS / 8)).1 n = true

instance (L : Limits) (X : Externals) (scan : Scan tvPlayback_t) :
    Decidable (clientNumbersInMask L X scan) := by
  cases scan <;> unfold clientNumbersInMask <;> infer_instance

/-- A frame whose slot numbers agree with its bitmasks, as in every frame the
recorder writes: each decoded entity number has its bit set in the entity
bitmask of the frame, each decoded client number has its bit set in the
player bitmask of the frame. -/
def frameNumbersInMask (L : Limits) (X : Externals) (c : Client) : Prop :=
  (∀ n ∈ decodedEntityNums L X
      ((X.MSG_ReadData (frameAfterTime X c) (L.MAX_GENTITIES / 8)).2.length + 1)
      (X.MSG_ReadData (frameAfterTime X c) (L.MAX_GENTITIES / 8)).2 c.tvPlay.entities,
    bitTest (X.MSG_ReadData (frameAfterTime X c) (L.MAX_GENTITIES / 8)).1 n = true) ∧
  clientNumbersInMask L X (readEntitySection L X
    { c.tvPlay with plain := (c.tvPlay.plain.drop 4).drop (le32 (frameSizeBytes c)) }
    (frameAfterTime X c))

instance (L : Limits) (X : Externals) (c : Client) : Decidable (frameNumbersInMask L X c) := by
  unfold frameNumbersInMask; infer_instance

/-! ## Recorder (`sv_tv.c`) -/

/-- A game entity as the recorder sees it: the state `s`, `r.linked` and
whether `r.svFlags` has `SVF_NOCLIENT`. -/
structure sharedEntity_t where
  s : entityState_t
  linked : Bool
  noclient : Bool
deriving DecidableEq, Repr

/-- A client slot as the recorder sees it: `state == CS_ACTIVE` and
`netchan.remoteAddress.type == NA_BOT`. -/
structure client_t where
  active : Bool
  bot : Bool
deriving DecidableEq, Repr

/-- What the recorder reads from the server at one call: `sv`, `svs.clients`,
the game's entities and player states, the cvars, the two clock strings of
`strftime`, and whether `FS_FOpenFileWrite` succeeds. -/
structure Server where
  inGame : Bool
  time : Int
  maxclients : Nat
  num_entities : Nat
  gentities : List sharedEntity_t
  clients : List client_t
  gameClients : List playerState_t
  configstrings : List (List Nat)
  sv_fps : Int
  sv_mapname : List Nat
  sv_tvpath : List Nat
  sv_tvauto : Bool
  g_matchState : List Nat
  g_matchUUID : List Nat
  timestamp : List Nat
  defaultName : List Nat
  openOk : Bool
deriving DecidableEq, Repr

/-- A call of the virtual filesystem. -/
inductive FsOp where
  | openWrite (path : List Nat)
  | write (data : List Nat)
  | seek (offset : Nat)
  | close
  | remove (path : List Nat)
  | rename (src dst : List Nat)
deriving DecidableEq, Repr

/-- One captured server command: target, offset into `cmdBuf`, length. -/
structure tvCmd_t where
  target : Int
  offset : Nat
  len : Nat
deriving DecidableEq, Repr

/-- The recorder singleton `tv`. -/
structure tvState_t where
  recording : Bool
  autoPending : Bool
  hadHuman : Bool
  recordingPath : List Nat
  fileOpen : Bool
  fileOffset : Nat
  fileOffsetHi : Nat
  frameCount : Nat
  firstServerTime : Int
  lastServerTime : Int
  prevEntities : List entityState_t
  prevEntityBitmask : List Nat
  prevPlayers : List playerState_t
  prevPlayerBitmask : List Nat
  csChanged : List Bool
  cmds : List tvCmd_t
  cmdBuf : List Nat
  cmdCount : Nat
  cmdBufUsed : Nat
deriving DecidableEq, Repr

/-- The recorder after `Com_Memset( &tv, 0, sizeof( tv ) )`. -/
def tvState_t.zero (L : Limits) : tvState_t where
  recording := false
  autoPending := false
  hadHuman := false
  recordingPath := []
  fileOpen := false
  fileOffset := 0
  fileOffsetHi := 0
  frameCount := 0
  firstServerTime := 0
  lastServerTime := 0
  prevEntities := List.replicate L.MAX_GENTITIES entityState_t.zero
  prevEntityBitmask := List.replicate (L.MAX_GENTITIES / 8) 0
  prevPlayers := List.replicate L.MAX_CLIENTS playerState_t.zero
  prevPlayerBitmask := List.replicate (L.MAX_CLIENTS / 8) 0
  csChanged := List.replicate L.MAX_CONFIGSTRINGS false
  cmds := List.replicate L.MAX_TV_CMDS ⟨0, 0, 0⟩
  cmdBuf := List.replicate L.MAX_TV_CMDBUF 0
  cmdCount := 0
  cmdBufUsed := 0

/-- The recorder together with the log of its filesystem calls, oldest first. -/
structure Recorder where
  tv : tvState_t
  fs : List FsOp
deriving DecidableEq, Repr

/-- The four bytes of an `int` in memory (little-endian two's complement). -/
def int32Bytes (v : Int) : List Nat := le32Bytes (v % 4294967296).toNat

/-- The two bytes of an `unsigned short` in memory. -/
def le16Bytes (n : Nat) : List Nat := [n % 256, n / 256 % 256]

/-- Embedding of `SV_TV_FileWrite`: `FS_Write` and the 32-bit offset with its
carry. -/
def SV_TV_FileWrite (r : Recorder) (data : List Nat) : Recorder :=
  let newOffset := (r.tv.fileOffset + data.length) % 4294967296
  { tv := { r.tv with
      fileOffsetHi := if newOffset < r.tv.fileOffset then r.tv.fileOffsetHi + 1
        else r.tv.fileOffsetHi
      fileOffset := newOffset }
    fs := r.fs ++ [FsOp.write data] }

/-- The suffix `.tvd.tmp`. -/
def extTmp : List Nat := [46, 116, 118, 100, 46, 116, 109, 112]

/-- The suffix `.tvd`. -/
def extTvd : List Nat := [46, 116, 118, 100]

/-- The configstring part of the header written by `SV_TV_StartRecord`: one
record for every non-empty configstring. -/
def writeHeaderConfigstrings (L : Limits) (sv : Server) (r : Recorder) : Recorder :=
  (List.range L.MAX_CONFIGSTRINGS).foldl (fun r i =>
    let cs := cstr (sv.configstrings.getD i [])
    if cs = [] then r
    else
      SV_TV_FileWrite
        (SV_TV_FileWrite (SV_TV_FileWrite r (le16Bytes (i % 65536)))
          (le16Bytes (cs.length % 65536))) cs) r

/-- Embedding of `SV_TV_StartRecord( filename )`.  The path buffers hold
`MAX_QPATH` bytes. -/
def SV_TV_StartRecord (L : Limits) (sv : Server) (r : Recorder) (filename : List Nat) :
    Recorder :=
  if !sv.inGame then r
  else if r.tv.recording then r
  else
    let recordingPath := (cstr sv.sv_tvpath ++ [47] ++ cstr filename).take (L.MAX_QPATH - 1)
    let path := (recordingPath ++ extTmp).take (L.MAX_QPATH - 1)
    let tv0 := { tvState_t.zero L with recordingPath := recordingPath }
    let r := { tv := tv0, fs := r.fs ++ [FsOp.openWrite path] }
    if !sv.openOk then r
    else
      let r := { r with tv := { r.tv with fileOpen := true } }
      let r := SV_TV_FileWrite r [84, 86, 68, 49]
      let r := SV_TV_FileWrite r (int32Bytes 1)
      let r := SV_TV_FileWrite r (int32Bytes sv.sv_fps)
      let r := SV_TV_FileWrite r (int32Bytes sv.maxclients)
      let r := SV_TV_FileWrite r (int32Bytes 0)
      let r := SV_TV_FileWrite r (cstr sv.sv_mapname ++ [0])
      let r := SV_TV_FileWrite r (cstr sv.timestamp ++ [0])
      let r := writeHeaderConfigstrings L sv r
      let r := SV_TV_FileWrite r (le16Bytes 65535)
      { r with tv := { r.tv with
          prevEntities := List.replicate L.MAX_GENTITIES entityState_t.zero
          prevEntityBitmask := List.replicate (L.MAX_GENTITIES / 8) 0
          prevPlayers := List.replicate L.MAX_CLIENTS playerState_t.zero
          prevPlayerBitmask := List.replicate (L.MAX_CLIENTS / 8) 0
          csChanged := List.replicate L.MAX_CONFIGSTRINGS false
          cmdCount := 0
          cmdBufUsed := 0
          recording := true
          frameCount := 0 } }

/-- Embedding of `SV_TV_StopRecord( discard )`. -/
def SV_TV_StopRecord (L : Limits) (r : Recorder) (discard : Bool) : Recorder :=
  let r := { r with tv := { r.tv with autoPending := false } }
  if !r.tv.recording then r
  else
    let tmpPath := (r.tv.recordingPath ++ extTmp).take (L.MAX_QPATH - 1)
    let fs :=
      if discard then r.fs ++ [FsOp.close, FsOp.remove tmpPath]
      else
        let durationMsec := r.tv.lastServerTime - r.tv.firstServerTime
        let finalPath := (r.tv.recordingPath ++ extTvd).take (L.MAX_QPATH - 1)
        r.fs ++ [FsOp.seek 16, FsOp.write (int32Bytes durationMsec), FsOp.close,
          FsOp.rename tmpPath finalPath]
    { tv := { r.tv with recording := false, fileOpen := false }, fs := fs }

/-- Set bit `i` of a bitmask array: `mask[i >> 3] |= ( 1 << ( i & 7 ) )`. -/
def bitSet (mask : List Nat) (i : Nat) : List Nat :=
  mask.set (i >>> 3) (mask.getD (i >>> 3) 0 ||| (1 <<< (i &&& 7)))

/-- A bitmask of `bytes` bytes with bit `i` set for every `i < n` that passes
`live`: the two mask-building loops of `SV_TV_WriteFrame`. -/
def buildMask (bytes n : Nat) (live : Nat → Bool) : List Nat :=
  (List.range n).foldl (fun mask i => if live i then bitSet mask i else mask)
    (List.replicate bytes 0)

/-- The message being written: the bytes so far and the overflow flag. -/
structure msg_t where
  data : List Nat
  overflowed : Bool
deriving DecidableEq, Repr

/-- Modelled from the spec: the fixed-size message buffer of `msg.c`, which is
not among the source files.  A write that does not fit in `MAX_TV_MSGLEN`
bytes is dropped and sets `overflowed`. -/
def msgWrite (L : Limits) (m : msg_t) (chunk : List Nat) : msg_t :=
  if m.data.length + chunk.length > L.MAX_TV_MSGLEN then { m with overflowed := true }
  else { m with data := m.data ++ chunk }

/-- Whether entity slot `i` is live at this tick: linked and not `SVF_NOCLIENT`. -/
def entityLive (sv : Server) (i : Nat) : Bool :=
  match sv.gentities.get? i with
  | some e => e.linked && !e.noclient
  | none => false

/-- Whether client slot `i` is active at this tick. -/
def clientLive (sv : Server) (i : Nat) : Bool :=
  match sv.clients.get? i with
  | some cl => cl.active
  | none => false

/-- The entity state `SV_GentityNum( i )->s`. -/
def gentityState (sv : Server) (i : Nat) : entityState_t :=
  match sv.gentities.get? i with
  | some e => e.s
  | none => entityState_t.zero

/-- The player state `*SV_GameClientNum( i )`. -/
def gameClientState (sv : Server) (i : Nat) : playerState_t :=
  sv.gameClients.getD i playerState_t.zero

/-- The entity bitmask `curEntityBitmask` of this tick. -/
def curEntityBitmask (L : Limits) (sv : Server) : List Nat :=
  buildMask (L.MAX_GENTITIES / 8) sv.num_entities (entityLive sv)

/-- The player bitmask `curPlayerBitmask` of this tick. -/
def curPlayerBitmask (L : Limits) (sv : Server) : List Nat :=
  buildMask (L.MAX_CLIENTS / 8) sv.maxclients (clientLive sv)

/-- The writes of the entity section of the frame, in program order: the
bitmask, the delta of every live slot against its baseline, the end marker. -/
def entityChunks (L : Limits) (X : Externals) (sv : Server) (tv : tvState_t) :
    List (List Nat) :=
  [X.MSG_WriteData (curEntityBitmask L sv)] ++
  ((List.range L.MAX_GENTITIES).filter (fun i => bitTest (curEntityBitmask L sv) i)).map
    (fun i => X.MSG_WriteDeltaEntity (tv.prevEntities.getD i entityState_t.zero)
      (gentityState sv i) false) ++
  [X.MSG_WriteBits ((L.MAX_GENTITIES : Int) - 1) L.GENTITYNUM_BITS]

/-- The writes of the player section: the bitmask, then client number and
delta of every live slot below `sv.maxclients`. -/
def playerChunks (L : Limits) (X : Externals) (sv : Server) (tv : tvState_t) :
    List (List Nat) :=
  [X.MSG_WriteData (curPlayerBitmask L sv)] ++
  (((List.range sv.maxclients).filter (fun i => bitTest (curPlayerBitmask L sv) i)).map
    (fun (i : Nat) => [X.MSG_WriteByte (i : Int),
      X.MSG_WriteDeltaPlayerstate (tv.prevPlayers.getD i playerState_t.zero)
        (gameClientState sv i)])).flatten

/-- The writes of the configstring section: the count, then index, length and
(when the length is positive) bytes of every changed configstring. -/
def configstringChunks (L : Limits) (X : Externals) (sv : Server) (tv : tvState_t) :
    List (List Nat) :=
  let changed := (List.range L.MAX_CONFIGSTRINGS).filter (fun i => tv.csChanged.getD i false)
  [X.MSG_WriteShort changed.length] ++
  (changed.map (fun (i : Nat) =>
    let cs := cstr (sv.configstrings.getD i [])
    [X.MSG_WriteShort (i : Int), X.MSG_WriteShort (cs.length : Int)] ++
      (if cs.length > 0 then [X.MSG_WriteData cs] else []))).flatten

/-- The writes of the server command section. -/
def commandChunks (X : Externals) (tv : tvState_t) : List (List Nat) :=
  [X.MSG_WriteShort tv.cmdCount] ++
  ((tv.cmds.take tv.cmdCount).map (fun cmd =>
    [X.MSG_WriteByte (if cmd.target = -1 then 255 else cmd.target % 256),
     X.MSG_WriteShort cmd.len,
     X.MSG_WriteData ((tv.cmdBuf.drop cmd.offset).take cmd.len)])).flatten

/-- All `MSG_Write*` calls of `SV_TV_WriteFrame` for this tick, in program
order, each with what it appends. -/
def frameChunks (L : Limits) (X : Externals) (sv : Server) (tv : tvState_t) :
    List (List Nat) :=
  [X.MSG_WriteLong sv.time] ++ entityChunks L X sv tv ++ playerChunks L X sv tv ++
    configstringChunks L X sv tv ++ commandChunks X tv

/-- The message `SV_TV_WriteFrame` builds for this tick. -/
def frameMessage (L : Limits) (X : Externals) (sv : Server) (tv : tvState_t) : msg_t :=
  (frameChunks L X sv tv).foldl (msgWrite L) { data := [], overflowed := false }

/-- The baselines after a written frame: the current state where the bit is
set; zero where it is clear, for every entity slot and for the player slots
below `sv.maxclients`. -/
def saveBaselines (L : Limits) (sv : Server) (tv : tvState_t) : tvState_t :=
  { tv with
    prevEntities := (List.range L.MAX_GENTITIES).foldl (fun a i =>
      if bitTest (curEntityBitmask L sv) i then a.set i (gentityState sv i)
      else a.set i entityState_t.zero) tv.prevEntities
    prevEntityBitmask := curEntityBitmask L sv
    prevPlayers := (List.range sv.maxclients).foldl (fun a i =>
      if bitTest (curPlayerBitmask L sv) i then a.set i (gameClientState sv i)
      else a.set i playerState_t.zero) tv.prevPlayers
    prevPlayerBitmask := curPlayerBitmask L sv }

/-- Whether some client slot below `sv.maxclients` is active and not a bot. -/
def humanPresent (sv : Server) : Bool :=
  (List.range sv.maxclients).any (fun i =>
    match sv.clients.get? i with
    | some cl => cl.active && !cl.bot
    | none => false)

/-- ASCII lower case of one byte. -/
def toLowerByte (b : Nat) : Nat := if 65 ≤ b ∧ b ≤ 90 then b + 32 else b

/-- Whether `Q_stricmp( a, b )` is 0: equal C strings up to ASCII case. -/
def Q_stricmpEq (a b : List Nat) : Bool :=
  (cstr a).map toLowerByte == (cstr b).map toLowerByte

/-- The deferred auto-start at the head of `SV_TV_WriteFrame`. -/
def resolveAutoStart (L : Limits) (sv : Server) (r : Recorder) : Recorder :=
  let name := if cstr sv.g_matchUUID ≠ [] then (cstr sv.g_matchUUID).take (L.MAX_QPATH - 1)
    else sv.defaultName
  if cstr sv.g_matchState ≠ [] then
    if Q_stricmpEq sv.g_matchState [97, 99, 116, 105, 118, 101] then
      SV_TV_StartRecord L sv { r with tv := { r.tv with autoPending := false } } name
    else r
  else if humanPresent sv then
    SV_TV_StartRecord L sv { r with tv := { r.tv with autoPending := false } } name
  else r

/-- Embedding of `SV_TV_WriteFrame`, called once per server tick. -/
def SV_TV_WriteFrame (L : Limits) (X : Externals) (sv : Server) (r : Recorder) : Recorder :=
  if r.tv.autoPending then resolveAutoStart L sv r
  else if !r.tv.recording then r
  else
    let tv := { r.tv with
      hadHuman := r.tv.hadHuman || humanPresent sv
      firstServerTime := if r.tv.frameCount = 0 then sv.time else r.tv.firstServerTime
      lastServerTime := sv.time }
    let msg := frameMessage L X sv tv
    let tv := { tv with
      csChanged := List.replicate L.MAX_CONFIGSTRINGS false
      cmdCount := 0
      cmdBufUsed := 0 }
    if msg.overflowed then SV_TV_StopRecord L { r with tv := tv } true
    else
      let r := SV_TV_FileWrite { r with tv := tv } (le32Bytes msg.data.length)
      let r := SV_TV_FileWrite r msg.data
      let tv := saveBaselines L sv r.tv
      { r with tv := { tv with frameCount := tv.frameCount + 1 } }

/-- Embedding of `SV_TV_ConfigstringChanged`. -/
def SV_TV_ConfigstringChanged (L : Limits) (r : Recorder) (index : Int) : Recorder :=
  if 0 ≤ index ∧ index < (L.MAX_CONFIGSTRINGS : Int) then
    { r with tv := { r.tv with csChanged := r.tv.csChanged.set index.toNat true } }
  else r

/-- Embedding of `SV_TV_CaptureServerCommand`. -/
def SV_TV_CaptureServerCommand (L : Limits) (r : Recorder) (target : Int) (cmd : List Nat) :
    Recorder :=
  if r.tv.cmdCount ≥ L.MAX_TV_CMDS then r
  else
    let len := strlen cmd
    if r.tv.cmdBufUsed + len > L.MAX_TV_CMDBUF then r
    else
      { r with tv := { r.tv with
          cmds := r.tv.cmds.set r.tv.cmdCount ⟨target, r.tv.cmdBufUsed, len⟩
          cmdBuf := writeAt r.tv.cmdBuf r.tv.cmdBufUsed (cstr cmd)
          cmdBufUsed := r.tv.cmdBufUsed + len
          cmdCount := r.tv.cmdCount + 1 } }

/-- Embedding of `SV_TV_AutoStart`. -/
def SV_TV_AutoStart (sv : Server) (r : Recorder) : Recorder :=
  if !sv.sv_tvauto || r.tv.recording || r.tv.autoPending then r
  else { r with tv := { r.tv with autoPending := true, hadHuman := false } }

/-- One call into the recorder. -/
inductive RecOp where
  | autoStart (sv : Server)
  | startRecord (sv : Server) (filename : List Nat)
  | writeFrame (sv : Server)
  | stopRecord (discard : Bool)
  | configstringChanged (index : Int)
  | captureServerCommand (target : Int) (cmd : List Nat)
deriving DecidableEq, Repr

/-- The effect of one call on the recorder. -/
def RecOp.apply (L : Limits) (X : Externals) (r : Recorder) : RecOp → Recorder
  | RecOp.autoStart sv => SV_TV_AutoStart sv r
  | RecOp.startRecord sv filename => SV_TV_StartRecord L sv r filename
  | RecOp.writeFrame sv => SV_TV_WriteFrame L X sv r
  | RecOp.stopRecord discard => SV_TV_StopRecord L r discard
  | RecOp.configstringChanged index => SV_TV_ConfigstringChanged L r index
  | RecOp.captureServerCommand target cmd => SV_TV_CaptureServerCommand L r target cmd

/-- The server the call reads, if it reads one. -/
def RecOp.server : RecOp → Option Server
  | RecOp.autoStart sv => some sv
  | RecOp.startRecord sv _ => some sv
  | RecOp.writeFrame sv => some sv
  | _ => none

/-- The recorder before any call: everything zero, no filesystem call made. -/
def Recorder.init (L : Limits) : Recorder := ⟨tvState_t.zero L, []⟩

/-- The recorder after a sequence of calls, starting from `Recorder.init`. -/
def runOps (L : Limits) (X : Externals) (ops : List RecOp) : Recorder :=
  ops.foldl (RecOp.apply L X) (Recorder.init L)

/-- The condition under which `SV_TV_WriteFrame` writes a frame: no deferred
auto-start, a recording is active, and the message did not overflow. -/
def writesFrame (L : Limits) (X : Externals) (sv : Server) (r : Recorder) : Prop :=
  r.tv.autoPending = false ∧ r.tv.recording = true ∧
    (frameMessage L X sv r.tv).overflowed = false

instance (L : Limits) (X : Externals) (sv : Server) (r : Recorder) :
    Decidable (writesFrame L X sv r) := by
  unfold writesFrame; infer_instance

/-- The baselines have their declared sizes and every player slot from `m` on
is all-zero. -/
def SlackInv (L : Limits) (m : Nat) (tv : tvState_t) : Prop :=
  tv.prevEntities.length = L.MAX_GENTITIES ∧ tv.prevPlayers.length = L.MAX_CLIENTS ∧
    ∀ i, m ≤ i → tv.prevPlayers.getD i playerState_t.zero = playerState_t.zero

/-! ## Sample inputs -/

/-- A sample entity in slot `n` with its own slot number. -/
def sampleEntity (n : Nat) (kind : Int) (linked : Bool) : sharedEntity_t :=
  { s := { number := (n : Int), eType := kind, otherEntityNum := 0, powerups := 0,
           trBase := ⟨n, 1, 2⟩, rest := 7 }
    linked := linked
    noclient := false }

/-- A sample player state. -/
def samplePlayer (n : Nat) (score : Int) : playerState_t :=
  { clientNum := (n : Int), origin := ⟨3, 4, 5⟩
    persistant := [score, 0, 1] ++ List.replicate 13 0, rest := 9 }

/-- Tick A: entities 1 and 5 and both clients are live. -/
def svA : Server where
  inGame := true
  time := 100
  maxclients := 2
  num_entities := 7
  gentities := [sampleEntity 0 1 false, sampleEntity 1 1 true, sampleEntity 2 1 false,
    sampleEntity 3 1 false, sampleEntity 4 1 false, sampleEntity 5 1 true,
    sampleEntity 6 1 false, sampleEntity 7 1 false]
  clients := [⟨true, false⟩, ⟨true, true⟩]
  gameClients := [samplePlayer 0 10, samplePlayer 1 20]
  configstrings := [[], [], [], []]
  sv_fps := 40
  sv_mapname := [113, 51]
  sv_tvpath := [100]
  sv_tvauto := false
  g_matchState := []
  g_matchUUID := []
  timestamp := [50, 48]
  defaultName := [116, 118]
  openOk := true

/-- Tick B: entity 5 and client 1 are gone. -/
def svB : Server :=
  { svA with
    time := 125
    gentities := [sampleEntity 0 1 false, sampleEntity 1 1 true, sampleEntity 2 1 false,
      sampleEntity 3 1 false, sampleEntity 4 1 false, sampleEntity 5 1 false,
      sampleEntity 6 1 false, sampleEntity 7 1 false]
    clients := [⟨true, false⟩, ⟨false, true⟩] }

/-- Tick C: entity 5 and client 1 are back, entity 1 has changed. -/
def svC : Server :=
  { svA with
    time := 150
    gentities := [sampleEntity 0 1 false, sampleEntity 1 2 true, sampleEntity 2 1 false,
      sampleEntity 3 1 false, sampleEntity 4 1 false, sampleEntity 5 1 true,
      sampleEntity 6 1 false, sampleEntity 7 1 false] }

/-- The running state proper: entities, entity bitmask, players, player bitmask. -/
def tvPlayback_t.running (tv : tvPlayback_t) :
    List entityState_t × List Nat × List playerState_t × List Nat :=
  (tv.entities, tv.entityBitmask, tv.players, tv.playerBitmask)

/-- A client about to read a malformed frame: the entity bitmask of the frame
is all clear, yet the frame carries a delta for entity 5.  In the symbols of
the toy codec the payload is: server time 100, bitmask byte 0, entity number
5 with seven state symbols, end marker 7, player bitmask byte 0, no
configstring change, no command. -/
def clientMalformed : Client :=
  { Client.zero tiny with
    tvPlay := { tvPlayback_t.zero tiny with
      plain := le32Bytes 14 ++ [200, 0, 10, 2, 0, 0, 5, 1, 2, 7, 14, 0, 0, 0] } }

/-- A client about to read the frame the recorder writes for tick A right
after `SV_TV_StartRecord`. -/
def clientBeforeA : Client :=
  { Client.zero tiny with
    tvPlay := { tvPlayback_t.zero tiny with
      plain := le32Bytes (frameMessage tiny toyExternals svA (tvState_t.zero tiny)).data.length
        ++ (frameMessage tiny toyExternals svA (tvState_t.zero tiny)).data } }

/-- The client after it has read that frame. -/
def clientAfterA : Client :=
  (CL_TV_ReadFrame tiny toyExternals clientBeforeA).getD clientBeforeA

/-! ## Recorder output fed to the frame reader -/

/-- The round-trip laws assumed of the external bit codec: a value written and
then read comes back, with the rest of the message untouched; what the entity
writer writes, when it writes anything, starts with the entity number, which
`MSG_ReadEntitynum` reads, followed by a delta that `MSG_ReadDeltaEntity`
decodes against the same baseline.  Nothing is assumed about the states for
which the writer, called with `force = qfalse`, writes nothing. -/
structure CodecRoundTrip (L : Limits) (X : Externals) : Prop where
  readLong : ∀ (v : Int) (rest : List Nat), -2147483648 ≤ v → v < 2147483648 →
    X.MSG_ReadLong (X.MSG_WriteLong v ++ rest) = (v, rest)
  readData : ∀ (b rest : List Nat), (∀ x ∈ b, x < 256) →
    X.MSG_ReadData (X.MSG_WriteData b ++ rest) b.length = (b, rest)
  readEndMarker : ∀ rest : List Nat,
    X.MSG_ReadEntitynum (X.MSG_WriteBits ((L.MAX_GENTITIES : Int) - 1) L.GENTITYNUM_BITS ++ rest)
      = ((L.MAX_GENTITIES : Int) - 1, rest)
  readEntity : ∀ (b e : entityState_t) (rest : List Nat),
    X.MSG_WriteDeltaEntity b e false ≠ [] →
    ∃ mid, X.MSG_ReadEntitynum (X.MSG_WriteDeltaEntity b e false ++ rest) = (e.number, mid) ∧
      X.MSG_ReadDeltaEntity mid b e.number = (e, rest)
  readByte : ∀ (i : Nat) (rest : List Nat), i < 256 →
    X.MSG_ReadByte (X.MSG_WriteByte (i : Int) ++ rest) = ((i : Int), rest)
  readPlayer : ∀ (b p : playerState_t) (rest : List Nat),
    X.MSG_ReadDeltaPlayerstate (X.MSG_WriteDeltaPlayerstate b p ++ rest) b = (p, rest)

/-- Relations between the constants that the real values satisfy and the
frame round trip relies on: whole bytes of bitmask, client numbers that fit
in a byte, a reader buffer no smaller than the writer's, frame sizes that fit
in 32 bits. -/
def LimitsOk (L : Limits) : Prop :=
  8 ∣ L.MAX_GENTITIES ∧ 8 ∣ L.MAX_CLIENTS ∧ L.MAX_CLIENTS ≤ 256 ∧
  L.MAX_TV_MSGLEN ≤ L.TV_PLAY_MSGLEN ∧ L.MAX_TV_MSGLEN < 4294967296 ∧ 0 < L.MAX_GENTITIES

instance (L : Limits) : Decidable (LimitsOk L) := by
  unfold LimitsOk; infer_instance

/-- A server tick the frame round trip can carry: `sv.maxclients` is `m`, the
array bounds hold, the server time is an `int`, slot `MAX_GENTITIES - 1` (the
number that ends the entity section) is not in use, and every live entity
carries its own slot number. -/
def TickOk (L : Limits) (m : Nat) (sv : Server) : Prop :=
  sv.maxclients = m ∧ m ≤ L.MAX_CLIENTS ∧ sv.num_entities ≤ L.MAX_GENTITIES - 1 ∧
  -2147483648 ≤ sv.time ∧ sv.time < 2147483648 ∧
  ∀ i, i < L.MAX_GENTITIES → bitTest (curEntityBitmask L sv) i = true →
    (gentityState sv i).number = (i : Int)

instance (L : Limits) (m : Nat) (sv : Server) : Decidable (TickOk L m sv) := by
  unfold TickOk; infer_instance

/-- The entities a tick leaves out of its frame are unchanged: for every live
slot for which `MSG_WriteDeltaEntity( msg, &tv.prevEntities[i], es, qfalse )`
writes nothing, the state of the entity equals the recorder's baseline for the
slot, `number` included. -/
def SkipsUnchanged (L : Limits) (X : Externals) (sv : Server) (tv : tvState_t) : Prop :=
  ∀ i, i < L.MAX_GENTITIES → bitTest (curEntityBitmask L sv) i = true →
    X.MSG_WriteDeltaEntity (tv.prevEntities.getD i entityState_t.zero) (gentityState sv i) false
      = [] →
    gentityState sv i = tv.prevEntities.getD i entityState_t.zero

instance (L : Limits) (X : Externals) (sv : Server) (tv : tvState_t) :
    Decidable (SkipsUnchanged L X sv tv) := by
  unfold SkipsUnchanged; infer_instance

/-- The bytes written to the file by the calls in a filesystem log. -/
def writtenBytes : List FsOp → List Nat
  | [] => []
  | FsOp.write data :: t => data ++ writtenBytes t
  | _ :: t => writtenBytes t

/-- A stretch of a recording: every call is `SV_TV_WriteFrame` on a tick that
satisfies `TickOk` and `SkipsUnchanged` and writes a frame,
`SV_TV_ConfigstringChanged` or `SV_TV_CaptureServerCommand`. -/
def GoodRun (L : Limits) (X : Externals) (m : Nat) : Recorder → List RecOp → Prop
  | _, [] => True
  | r, RecOp.writeFrame sv :: t =>
    (writesFrame L X sv r ∧ TickOk L m sv ∧ SkipsUnchanged L X sv r.tv) ∧
      GoodRun L X m (SV_TV_WriteFrame L X sv r) t
  | r, RecOp.configstringChanged i :: t => GoodRun L X m (SV_TV_ConfigstringChanged L r i) t
  | r, RecOp.captureServerCommand tg cmd :: t =>
    GoodRun L X m (SV_TV_CaptureServerCommand L r tg cmd) t
  | _, _ :: _ => False

/-- The number of `SV_TV_WriteFrame` calls in a list of calls. -/
def countFrames : List RecOp → Nat
  | [] => 0
  | RecOp.writeFrame _ :: t => countFrames t + 1
  | _ :: t => countFrames t

/-- `CL_TV_ReadFrame` called `k` times in a row; `none` as soon as a call ends
in the fatal drop. -/
def readFrames (L : Limits) (X : Externals) : Nat → Client → Option Client
  | 0, c => some c
  | k + 1, c =>
    match CL_TV_ReadFrame L X c with
    | none => none
    | some c2 => readFrames L X k c2

/-- The recorder's baselines, in the order of `tvPlayback_t.running`. -/
def tvState_t.baselines (tv : tvState_t) :
    List entityState_t × List Nat × List playerState_t × List Nat :=
  (tv.prevEntities, tv.prevEntityBitmask, tv.prevPlayers, tv.prevPlayerBitmask)

/-- The recorder invariant behind the frame round trip: the baselines have
their declared sizes, the player slots from `m` on are all-zero, and a slot
whose bit is clear in the previous bitmask has an all-zero baseline. -/
def WriterInv (L : Limits) (m : Nat) (tv : tvState_t) : Prop :=
  SlackInv L m tv ∧
  (∀ i, i < L.MAX_GENTITIES → bitTest tv.prevEntityBitmask i = false →
    tv.prevEntities.getD i entityState_t.zero = entityState_t.zero) ∧
  (∀ i, i < L.MAX_CLIENTS → bitTest tv.prevPlayerBitmask i = false →
    tv.prevPlayers.getD i playerState_t.zero = playerState_t.zero)

/-- Decision procedure for `GoodRun`. -/
def GoodRun.dec (L : Limits) (X : Externals) (m : Nat) :
    (ops : List RecOp) → (r : Recorder) → Decidable (GoodRun L X m r ops)
  | [], _ => isTrue trivial
  | RecOp.writeFrame sv :: t, r =>
    match (inferInstance :
        Decidable (writesFrame L X sv r ∧ TickOk L m sv ∧ SkipsUnchanged L X sv r.tv)),
      GoodRun.dec L X m t (SV_TV_WriteFrame L X sv r) with
    | isTrue h1, isTrue h2 => isTrue ⟨h1, h2⟩
    | isFalse h1, _ => isFalse (fun h => h1 h.1)
    | _, isFalse h2 => isFalse (fun h => h2 h.2)
  | RecOp.configstringChanged i :: t, r => GoodRun.dec L X m t (SV_TV_ConfigstringChanged L r i)
  | RecOp.captureServerCommand tg cmd :: t, r =>
    GoodRun.dec L X m t (SV_TV_CaptureServerCommand L r tg cmd)
  | RecOp.autoStart _ :: _, _ => isFalse (fun h => h)
  | RecOp.startRecord _ _ :: _, _ => isFalse (fun h => h)
  | RecOp.stopRecord _ :: _, _ => isFalse (fun h => h)

instance (L : Limits) (X : Externals) (m : Nat) (r : Recorder) (ops : List RecOp) :
    Decidable (GoodRun L X m r ops) := GoodRun.dec L X m ops r

/-- The recorder right after `SV_TV_StartRecord` at tick A. -/
def recStarted : Recorder := runOps tiny toyExternals [RecOp.startRecord svA [116]]

/-- The calls that record ticks A, B and C; configstring 1 is marked changed
and one command is captured before tick B. -/
def opsABC : List RecOp :=
  [RecOp.writeFrame svA, RecOp.configstringChanged 1,
   RecOp.captureServerCommand (-1) [104, 105], RecOp.writeFrame svB, RecOp.writeFrame svC]

/-- A client in the zeroed state whose decompressed stream is `bytes`. -/
def clientReading (L : Limits) (bytes : List Nat) : Client :=
  { Client.zero L with tvPlay := { tvPlayback_t.zero L with plain := bytes } }

/-- The bytes a run of recorder calls appends to the file. -/
def recordedBytes (L : Limits) (X : Externals) (r : Recorder) (ops : List RecOp) : List Nat :=
  writtenBytes ((ops.foldl (RecOp.apply L X) r).fs.drop r.fs.length)

/-- A tick in which slot `MAX_GENTITIES - 1` (7 for the small constants) is
live, carrying its own slot number. -/
def svSentinel : Server :=
  { svA with
    num_entities := 8
    gentities := [sampleEntity 0 1 false, sampleEntity 1 1 false, sampleEntity 2 1 false,
      sampleEntity 3 1 false, sampleEntity 4 1 false, sampleEntity 5 1 false,
      sampleEntity 6 1 false, sampleEntity 7 1 true] }

/-- A tick whose configstrings 1 and 2 hold eleven bytes each: together they
do not fit in the small arena of 24 bytes. -/
def svBigStrings : Server :=
  { svA with
    configstrings := [[], List.replicate 11 97, List.replicate 11 98, []] }

/-- A tick after tick A on which `sv.maxclients` has gone down from 2 to 1, so
that the loops over `i < sv.maxclients` no longer reach client 1. -/
def svShrunk : Server := { svA with time := 125, maxclients := 1 }

/-- The calls that record tick A and then the tick with the smaller
`sv.maxclients`. -/
def opsShrink : List RecOp := [RecOp.writeFrame svA, RecOp.writeFrame svShrunk]

/-! ## Files: what the recorder leaves on disk and how playback parses it -/

/-- The content of the file a log of filesystem calls produces: `FS_Write`
writes at the current position, `FS_Seek( f, offset, FS_SEEK_SET )` moves it.
The pair is (content, position). -/
def replayLog : List FsOp → List Nat × Nat → List Nat × Nat
  | [], st => st
  | FsOp.openWrite _ :: t, _ => replayLog t ([], 0)
  | FsOp.write data :: t, st => replayLog t (writeAt st.1 st.2 data, st.2 + data.length)
  | FsOp.seek offset :: t, st => replayLog t (st.1, offset)
  | _ :: t, st => replayLog t st

/-- The bytes of the recording a log of filesystem calls leaves behind. -/
def fileContent (fs : List FsOp) : List Nat := (replayLog fs ([], 0)).1

/-- `FS_Read( buf, n, f )` at position `pos`: the bytes delivered (fewer than
`n` at the end of the file). -/
def FS_Read (file : List Nat) (pos n : Nat) : List Nat := (file.drop pos).take n

/-- An `int` read from four bytes in memory. -/
def int32Of (b : List Nat) : Int :=
  if le32 b < 2147483648 then (le32 b : Int) else (le32 b : Int) - 4294967296

/-- An `unsigned short` read from two bytes in memory. -/
def le16 (b : List Nat) : Nat := b.getD 0 0 + 256 * b.getD 1 0

/-- Embedding of `CL_TV_ReadString( buf, bufSize )` at position `pos`, with
`n = bufSize - 1` passes of the loop left and `acc` the bytes stored so far:
the string (or `none` for the return value -1) and the new position. -/
def CL_TV_ReadString (file : List Nat) : Nat → Nat → List Nat → Option (List Nat) × Nat
  | 0, pos, acc => (some acc, pos)
  | n + 1, pos, acc =>
    match file.get? pos with
    | none => (none, pos)
    | some b => if b = 0 then (some acc, pos + 1) else CL_TV_ReadString file n (pos + 1) (acc ++ [b])

/-- The loop of `CL_TV_Open` that loads the configstrings of the header into
the arena.  `none` is `return qfalse`; otherwise the arena and the position
after the terminator.  Every pass reads at least two bytes, so `fuel` above
the file length is never used up. -/
def openConfigstrings (L : Limits) (file : List Nat) :
    Nat → Nat → gameState_t → Option (gameState_t × Nat)
  | 0, _, _ => none
  | fuel + 1, pos, gs =>
    let idxBytes := FS_Read file pos 2
    if idxBytes.length ≠ 2 then none
    else if le16 idxBytes = 65535 then some (gs, pos + 2)
    else
      let lenBytes := FS_Read file (pos + 2) 2
      if lenBytes.length ≠ 2 then none
      else if le16 lenBytes ≥ L.BIG_INFO_STRING then none
      else
        let csData := FS_Read file (pos + 4) (le16 lenBytes)
        if le16 lenBytes > 0 ∧ csData.length ≠ le16 lenBytes then none
        else if le16 idxBytes ≥ L.MAX_CONFIGSTRINGS then
          openConfigstrings L file fuel (pos + 4 + le16 lenBytes) gs
        else if le16 lenBytes + 1 + gs.dataCount > L.MAX_GAMESTATE_CHARS then none
        else
          openConfigstrings L file fuel (pos + 4 + le16 lenBytes)
            { stringOffsets := gs.stringOffsets.set (le16 idxBytes) gs.dataCount
              stringData := writeAt gs.stringData gs.dataCount (csData ++ [0])
              dataCount := gs.dataCount + (le16 lenBytes + 1) }

/-- What `CL_TV_Open` has after the header: tick rate, max clients, map name,
timestamp, the arena, and the file position after the terminator. -/
structure HeaderInfo where
  svFps : Int
  maxclients : Int
  mapname : List Nat
  timestamp : List Nat
  gameState : gameState_t
  pos : Nat
deriving DecidableEq, Repr

/-- The header part of `CL_TV_Open`, from the magic to the end of the
configstring loop; `none` is `return qfalse`.  The reads are, in this order:
magic, protocol, `svFps`, `maxclients`, map name, timestamp, configstrings. -/
def openHeader (L : Limits) (file : List Nat) : Option HeaderInfo :=
  if FS_Read file 0 4 ≠ [84, 86, 68, 49] then none
  else if (FS_Read file 4 4).length ≠ 4 ∨ int32Of (FS_Read file 4 4) ≠ 1 then none
  else if (FS_Read file 8 4).length ≠ 4 then none
  else if (FS_Read file 12 4).length ≠ 4 then none
  else
    match CL_TV_ReadString file (L.MAX_QPATH - 1) 16 [] with
    | (none, _) => none
    | (some mapname, pos) =>
      match CL_TV_ReadString file 63 pos [] with
      | (none, _) => none
      | (some timestamp, pos) =>
        match openConfigstrings L file (file.length + 1) pos
            { gameState_t.zeroed L with dataCount := 1 } with
        | none => none
        | some (gs, pos) =>
          some { svFps := int32Of (FS_Read file 8 4)
                 maxclients := int32Of (FS_Read file 12 4)
                 mapname := mapname
                 timestamp := timestamp
                 gameState := gs
                 pos := pos }

/-- The loop of `CL_TV_ReadTrailer` that reads one key: up to 63 bytes, ending
at a NUL.  `none` is a failed read; otherwise the key and the new position. -/
def readTrailerKey (file : List Nat) : Nat → Nat → List Nat → Option (List Nat × Nat)
  | 0, pos, acc => some (acc, pos)
  | n + 1, pos, acc =>
    match file.get? pos with
    | none => none
    | some b => if b = 0 then some (acc, pos + 1) else readTrailerKey file n (pos + 1) (acc ++ [b])

/-- The `while ( 1 )` loop of `CL_TV_ReadTrailer` from position `pos` with
`totalDuration = dur`: the return value and `totalDuration`.  Every pass that
continues has read a key byte inside the file, so `fuel` above the file
length is never used up. -/
def readTrailerEntries (file : List Nat) : Nat → Nat → Int → Bool × Int
  | 0, _, dur => (false, dur)
  | fuel + 1, pos, dur =>
    match readTrailerKey file 63 pos [] with
    | none => (false, dur)
    | some (key, pos) =>
      if key = [] then (true, dur)
      else
        let lenBytes := FS_Read file pos 2
        if lenBytes.length ≠ 2 then (false, dur)
        else if le16 lenBytes > 256 then
          readTrailerEntries file fuel (pos + 2 + le16 lenBytes) dur
        else
          let vbuf := FS_Read file (pos + 2) (le16 lenBytes)
          if le16 lenBytes > 0 ∧ vbuf.length ≠ le16 lenBytes then (false, dur)
          else if Q_stricmpEq key [100, 117, 114] ∧ le16 lenBytes = 4 then
            readTrailerEntries file fuel (pos + 2 + le16 lenBytes) (int32Of vbuf)
          else readTrailerEntries file fuel (pos + 2 + le16 lenBytes) dur

/-- Embedding of `CL_TV_ReadTrailer` on the bytes of the file: the return
value and `tvPlay.totalDuration` afterwards. -/
def CL_TV_ReadTrailer (file : List Nat) : Bool × Int :=
  if file.length < 9 then (false, 0)
  else
    let trailerSize := int32Of (FS_Read file (file.length - 4) 4)
    if trailerSize < 9 ∨ trailerSize > (file.length : Int) then (false, 0)
    else if FS_Read file (file.length - trailerSize.toNat) 4 ≠ [84, 86, 68, 116] then (false, 0)
    else readTrailerEntries file (file.length + 1) (file.length - trailerSize.toNat + 4) 0

/-- The server of the format scenario of the specification: 40 ticks per
second, 8 clients, map `q3dm1`, timestamp `2025-01-02T03:04:05`, configstring
0 `hello`. -/
def svScenario : Server where
  inGame := true
  time := 100
  maxclients := 8
  num_entities := 0
  gentities := []
  clients := []
  gameClients := []
  configstrings := [[104, 101, 108, 108, 111]]
  sv_fps := 40
  sv_mapname := [113, 51, 100, 109, 49]
  sv_tvpath := [100, 101, 109, 111, 115]
  sv_tvauto := false
  g_matchState := []
  g_matchUUID := []
  timestamp := [50, 48, 50, 53, 45, 48, 49, 45, 48, 50, 84, 48, 51, 58, 48, 52, 58, 48, 53]
  defaultName := [116, 118]
  openOk := true

/-- The calls of a whole recording of the scenario: start, a frame at server
time 100, a frame at server time 10100, stop without discard. -/
def opsScenario : List RecOp :=
  [RecOp.startRecord svScenario [116, 118], RecOp.writeFrame svScenario,
   RecOp.writeFrame { svScenario with time := 10100 }, RecOp.stopRecord false]

/-! ## Big configstrings (`bcs0`, `bcs1`, `bcs2`) -/

/-- A tokenizer in the manner of `Cmd_TokenizeString`: blanks separate tokens,
a double quote opens a token that runs to the next double quote or to the end
of the string, and a double quote ends an unquoted token. -/
def toyTokenize : Nat → List Nat → List (List Nat)
  | 0, _ => []
  | fuel + 1, s =>
    let s := s.dropWhile (fun b => b ≤ 32)
    if s = [] then []
    else if s.head? = some 34 then
      (s.drop 1).takeWhile (fun b => b != 34) ::
        toyTokenize fuel (((s.drop 1).dropWhile (fun b => b != 34)).drop 1)
    else
      s.takeWhile (fun b => decide (b > 32) && b != 34) ::
        toyTokenize fuel (s.dropWhile (fun b => decide (b > 32) && b != 34))

/-- The stand-in externals with the quote-aware tokenizer; `Cmd_ArgsFrom`
joins the tokens from `n` on with single blanks. -/
def quotingExternals : Externals :=
  { toyExternals with
    Cmd_TokenizeString := fun s => toyTokenize (s.length + 1) s
    Cmd_ArgsFrom := fun s n => List.intercalate [32] ((toyTokenize (s.length + 1) s).drop n) }

/-- The ring entry `bcs0 <idx> "<a>`: the first fragment, after an opening
quote. -/
def bcs0Entry (idx a : List Nat) : List Nat := [98, 99, 115, 48, 32] ++ idx ++ [32, 34] ++ a

/-- The ring entry `bcs1 <idx> <b>`. -/
def bcs1Entry (idx b : List Nat) : List Nat := [98, 99, 115, 49, 32] ++ idx ++ [32] ++ b

/-- The ring entry `bcs2 <idx> <c>"`: the last fragment, before the closing
quote. -/
def bcs2Entry (idx c : List Nat) : List Nat :=
  [98, 99, 115, 50, 32] ++ idx ++ [32] ++ c ++ [34]

/-- The command `cs <idx> "<value>"` that `bcs2` assembles in
`bigConfigString`. -/
def csCommand (idx value : List Nat) : List Nat :=
  [99, 115, 32] ++ idx ++ [32, 34] ++ value ++ [34]

/-- The ring slot that command number `n` is read from:
`tvPlay.cmds[n & ( MAX_RELIABLE_COMMANDS - 1 )]`. -/
def ringEntry (L : Limits) (c : Client) (n : Int) : List Nat :=
  c.tvPlay.cmds.getD (Int.land n ((L.MAX_RELIABLE_COMMANDS : Int) - 1)).toNat []

/-- The small constants with a `BIG_INFO_STRING` of three ring entries. -/
def tinyBig : Limits := { tiny with BIG_INFO_STRING := 48 }

/-- A client whose ring holds `bcs0 <idx> "a`, `bcs1 <idx> b`, `bcs2 <idx> c"`
as commands 0, 1 and 2, over the arena `gs`. -/
def clientBcs (L : Limits) (idx : List Nat) (gs : gameState_t) : Client :=
  { Client.zero L with
    gameState := gs
    tvPlay := pushCommand L (pushCommand L (pushCommand L (tvPlayback_t.zero L)
      (bcs0Entry idx [97])) (bcs1Entry idx [98])) (bcs2Entry idx [99]) }

/-- A well-formed small arena whose index 2 holds nineteen bytes: four more
bytes do not fit. -/
def arenaFull : gameState_t where
  stringOffsets := [0, 0, 1, 0]
  stringData := [0] ++ List.replicate 19 120 ++ List.replicate 4 0
  dataCount := 21

/-- The three calls `CL_TV_GetServerCommand( 0 )`, `( 1 )`, `( 2 )` in a row:
the three returned flags and the client after the third call; `none` as soon
as one of them ends in the fatal drop. -/
def getThreeCommands (L : Limits) (X : Externals) (c : Client) :
    Option (Bool × Bool × Bool × Client) :=
  match CL_TV_GetServerCommand L X c 0 with
  | none => none
  | some (r0, c1) =>
    match CL_TV_GetServerCommand L X c1 1 with
    | none => none
    | some (r1, c2) =>
      match CL_TV_GetServerCommand L X c2 2 with
      | none => none
      | some (r2, c3) => some (r0, r1, r2, c3)

/-- What the tokenizer and `atoi` are taken to do on the four strings of a
big-configstring sequence for index `i` with decimal text `idx` and fragments
`a`, `b`, `d`: the fragment is `Cmd_Argv( 2 )` of each ring entry, and the
assembled `cs` command splits into `cs`, the index and the whole value. -/
structure BcsTokens (X : Externals) (idx a b d : List Nat) (i : Nat) : Prop where
  cmd0 : (X.Cmd_TokenizeString (bcs0Entry idx a)).getD 0 [] = [98, 99, 115, 48]
  idx0 : (X.Cmd_TokenizeString (bcs0Entry idx a)).getD 1 [] = idx
  frag0 : (X.Cmd_TokenizeString (bcs0Entry idx a)).getD 2 [] = a
  cmd1 : (X.Cmd_TokenizeString (bcs1Entry idx b)).getD 0 [] = [98, 99, 115, 49]
  frag1 : (X.Cmd_TokenizeString (bcs1Entry idx b)).getD 2 [] = b
  cmd2 : (X.Cmd_TokenizeString (bcs2Entry idx d)).getD 0 [] = [98, 99, 115, 50]
  frag2 : (X.Cmd_TokenizeString (bcs2Entry idx d)).getD 2 [] = d
  whole : X.Cmd_TokenizeString (csCommand idx (a ++ b ++ d)) = [[99, 115], idx, a ++ b ++ d]
  args : X.Cmd_ArgsFrom (csCommand idx (a ++ b ++ d)) 2 = a ++ b ++ d
  index : X.atoi idx = (i : Int)

/-! ## Seeking, opening and viewpoint commands -/

/-- The sum `a + b` of two `int`s as a 32-bit machine computes it: the
mathematical sum reduced to the range of `int` (two's complement).  It is the
mathematical sum exactly when that fits in an `int`. -/
def addInt32 (a b : Int) : Int := (a + b + 2147483648) % 4294967296 - 2147483648

/-- The clamp at the head of `CL_TV_Seek`: the target that the loops compare
`tvPlay.serverTime` against.  `tvPlay.firstServerTime + tvPlay.totalDuration`
is a sum of two `int`s. -/
def seekTarget (tv : tvPlayback_t) (targetTime : Int) : Int :=
  let t := if targetTime < tv.firstServerTime then tv.firstServerTime else targetTime
  if tv.totalDuration > 0 ∧ t > addInt32 tv.firstServerTime tv.totalDuration then
    addInt32 tv.firstServerTime tv.totalDuration
  else t

/-- The loop `while ( tvPlay.serverTime < targetTime && !tvPlay.atEnd ) CL_TV_ReadFrame();`
with `fuel` passes left.  A call of `CL_TV_ReadFrame` that does not set
`atEnd` takes at least five bytes from the stream, so a `fuel` above the
length of the stream is never used up.  The result `none` is the fatal drop. -/
def seekLoop (L : Limits) (X : Externals) : Nat → Int → Client → Option Client
  | 0, _, c => some c
  | fuel + 1, targetTime, c =>
    if c.tvPlay.serverTime < targetTime ∧ c.tvPlay.atEnd = false then
      match CL_TV_ReadFrame L X c with
      | none => none
      | some c2 => seekLoop L X fuel targetTime c2
    else some c

/-- The client with `tvPlay.seeking` set to `b`. -/
def Client.setSeeking (c : Client) (b : Bool) : Client :=
  { c with tvPlay := { c.tvPlay with seeking := b } }

/-- The block that duplicates snapshot 0 into snapshot 1 when no further frame
can be read: `snapshots[1] = snapshots[0]`, `snapshots[1].messageNum = snapCount++`
and the copy of `snapEntities[0]`. -/
def cloneSnapshot (tv : tvPlayback_t) : tvPlayback_t :=
  { tv with
    snapshots1 := { tv.snapshots0 with messageNum := tv.snapCount }
    snapCount := tv.snapCount + 1
    snapEntities1 := tv.snapEntities0 }

/-- The state a backward seek restarts from: the arena of the header, the file
position at the first frame with a fresh decompressor session, and zeroed
running state.  `ZSTD_decompress` gives the bytes the decompressor delivers
for the file content from an offset on. -/
def seekRestart (L : Limits) (ZSTD_decompress : List Nat → List Nat) (file : List Nat)
    (c : Client) : Client :=
  { c with
    gameState := c.tvPlay.initialGameState
    tvPlay := { c.tvPlay with
      entities := List.replicate L.MAX_GENTITIES entityState_t.zero
      entityBitmask := List.replicate (L.MAX_GENTITIES / 8) 0
      players := List.replicate L.MAX_CLIENTS playerState_t.zero
      playerBitmask := List.replicate (L.MAX_CLIENTS / 8) 0
      serverTime := 0
      atEnd := false
      plain := ZSTD_decompress (file.drop c.tvPlay.firstFrameOffset) } }

/-- The end of `CL_TV_Seek`: the command `tv_seek_sync <viewpoint>` is queued,
snapshot 1 gets the new command number, and the client fields and the cvar
`cl_tvTime` are updated. -/
def seekFinish (L : Limits) (X : Externals) (c : Client) : Client :=
  let tv := pushCommand L c.tvPlay
    ([116, 118, 95, 115, 101, 101, 107, 95, 115, 121, 110, 99, 32] ++
      X.fmtInt c.tvPlay.viewpoint)
  let tv := { tv with snapshots1 := { tv.snapshots1 with serverCommandNum := tv.cmdSequence } }
  { c with
    tvPlay := tv
    snap := tv.snapshots1
    newSnapshots := true
    serverTimeDelta := tv.snapshots1.serverTime - c.realtime
    oldServerTime := tv.snapshots0.serverTime
    oldFrameServerTime := tv.snapshots0.serverTime
    cl_tvTime := tv.serverTime - tv.firstServerTime }

/-- The part of `CL_TV_Seek` that builds both snapshots: snapshot 0 from the
running state, then either one more frame and snapshot 1, or the duplicate. -/
def seekSnapshots (L : Limits) (X : Externals) (c : Client) : Option Client :=
  let c := { c with tvPlay := CL_TV_BuildSnapshot L X c.tvPlay 0 }
  if c.tvPlay.atEnd = false then
    match CL_TV_ReadFrame L X c with
    | none => none
    | some c2 => some { c2 with tvPlay := CL_TV_BuildSnapshot L X c2.tvPlay 1 }
  else some { c with tvPlay := cloneSnapshot c.tvPlay }

/-- Whether `CL_TV_Seek` continues from the current position (forward seek)
rather than restarting from the first frame. -/
def seeksForward (c : Client) (targetTime : Int) : Bool :=
  decide (seekTarget c.tvPlay targetTime ≥ c.tvPlay.serverTime) && !c.tvPlay.atEnd

/-- The state `CL_TV_Seek` starts its reading loop from. -/
def seekStart (L : Limits) (ZSTD_decompress : List Nat → List Nat) (file : List Nat)
    (c : Client) (targetTime : Int) : Client :=
  if seeksForward c targetTime then c else seekRestart L ZSTD_decompress file c

/-- Embedding of `CL_TV_Seek( targetTime )` on the open file `file`.  The
result `none` is the fatal drop. -/
def CL_TV_Seek (L : Limits) (X : Externals) (ZSTD_decompress : List Nat → List Nat)
    (file : List Nat) (c : Client) (targetTime : Int) : Option Client :=
  if c.tvPlay.active = false then some c
  else
    let start := seekStart L ZSTD_decompress file c targetTime
    match seekLoop L X (start.tvPlay.plain.length + 1) (seekTarget c.tvPlay targetTime)
        (start.setSeeking true) with
    | none => none
    | some c2 => (seekSnapshots L X (c2.setSeeking false)).map (seekFinish L X)

/-- The state of `CL_TV_Open` right before it reads the first frame: header
parsed, `tv` key injected, trailer read, `initialGameState` and
`firstFrameOffset` saved, decompressor and running state fresh.  The outer
`none` is the fatal drop, `some none` is `return qfalse`. -/
def openStart (L : Limits) (X : Externals) (ZSTD_decompress : List Nat → List Nat)
    (file : List Nat) (c : Client) : Option (Option Client) :=
  match openHeader L file with
  | none => some none
  | some h =>
    let si := h.gameState.configString L.CS_SERVERINFO
    match CL_TV_UpdateConfigstring L X h.gameState L.CS_SERVERINFO si (strlen si) with
    | none => none
    | some gs =>
      some (some { c with
        gameState := gs
        clientNum := 0
        tvPlay := { tvPlayback_t.zero L with
          svFps := h.svFps
          maxclients := h.maxclients
          totalDuration := (CL_TV_ReadTrailer file).2
          initialGameState := gs
          firstFrameOffset := h.pos
          plain := ZSTD_decompress (file.drop h.pos) } })

/-- The macro `VectorCopy( a, b )`: the three components are copied one by one. -/
def VectorCopy (a : vec3_t) : vec3_t := ⟨a.x, a.y, a.z⟩

/-- The vector `tvPlay.players[vp].origin` that `CL_TV_Open` copies into
`tvPlay.viewOrigin`. -/
@[noinline] def viewOriginOf (tv : tvPlayback_t) (vp : Nat) : vec3_t :=
  VectorCopy (tv.players.getD vp playerState_t.zero).origin

/-- The part of `CL_TV_Open` after the first frame has been read: first server
time, viewpoint, view origin, snapshot 0. -/
def openFirstSnapshot (L : Limits) (X : Externals) (c : Client) : Client :=
  let vp := (CL_TV_FindFirstActivePlayer L X c.gameState c.tvPlay).getD 0
  { c with
    clientNum := vp
    tvPlay := CL_TV_BuildSnapshot L X
      { c.tvPlay with
        firstServerTime := c.tvPlay.serverTime
        viewpoint := vp
        viewOrigin := viewOriginOf c.tvPlay vp } 0 }

/-- The end of `CL_TV_Open` after the second `CL_TV_ReadFrame`: snapshot 1 (the
duplicate when `atEnd` is set), `active`, and the client fields and cvars. -/
def openFinish (L : Limits) (X : Externals) (c : Client) : Client :=
  let tv := if c.tvPlay.atEnd then cloneSnapshot c.tvPlay
    else CL_TV_BuildSnapshot L X c.tvPlay 1
  { c with
    tvPlay := { tv with active := true }
    snap := tv.snapshots1
    newSnapshots := true
    serverMessageSequence := tv.snapshots1.messageNum
    lastExecutedServerCommand := tv.cmdSequence
    serverCommandSequence := tv.cmdSequence
    cl_tvDuration := tv.totalDuration
    cl_tvTime := 0
    cl_tvViewpoint := tv.viewpoint }

/-- Embedding of `CL_TV_Open` on the bytes `file`, for a file that could be
opened for reading.  The outer `none` is the fatal drop, `some none` is
`return qfalse`, `some (some c)` is `return qtrue` with the client `c`. -/
def CL_TV_Open (L : Limits) (X : Externals) (ZSTD_decompress : List Nat → List Nat)
    (file : List Nat) (c : Client) : Option (Option Client) :=
  match openStart L X ZSTD_decompress file c with
  | none => none
  | some none => some none
  | some (some c1) =>
    match CL_TV_ReadFrame L X c1 with
    | none => none
    | some c2 =>
      if c2.tvPlay.atEnd then some none
      else
        match CL_TV_ReadFrame L X (openFirstSnapshot L X c2) with
        | none => none
        | some c4 => some (some (openFinish L X c4))

/-- Embedding of `CL_TV_RebuildSnapshots`. -/
def CL_TV_RebuildSnapshots (L : Limits) (X : Externals) (c : Client) : Client :=
  let savedCount := c.tvPlay.snapCount
  let tv := { c.tvPlay with snapCount := if savedCount - 2 < 0 then 0 else savedCount - 2 }
  let tv := CL_TV_BuildSnapshot L X tv 0
  let tv := CL_TV_BuildSnapshot L X tv 1
  let tv := { tv with snapshots1 := { tv.snapshots1 with messageNum := tv.snapshots0.messageNum + 1 } }
  { c with
    tvPlay := tv
    snap := tv.snapshots1
    newSnapshots := true
    clientNum := tv.viewpoint
    cl_tvViewpoint := tv.viewpoint }

/-- The test of the loops in `CL_TV_ViewNext_f` and `CL_TV_ViewPrev_f`: the
slot is live and its team is not `TEAM_SPECTATOR`. -/
def viewQualifies (L : Limits) (X : Externals) (c : Client) (candidate : Nat) : Bool :=
  bitTest c.tvPlay.playerBitmask candidate &&
    decide (CL_TV_GetPlayerTeam L X c.gameState candidate ≠ L.TEAM_SPECTATOR)

/-- The viewpoint switch shared by the two commands: nothing happens when the
slot found is the current viewpoint. -/
def switchViewpoint (L : Limits) (X : Externals) (c : Client) (slot : Nat) : Client :=
  if slot ≠ c.tvPlay.viewpoint then
    CL_TV_RebuildSnapshots L X { c with tvPlay := { c.tvPlay with viewpoint := slot } }
  else c

/-- Embedding of `CL_TV_ViewNext_f`: the candidates are
`( viewpoint + i ) % MAX_CLIENTS` for `i = 1 .. MAX_CLIENTS`. -/
def CL_TV_ViewNext_f (L : Limits) (X : Externals) (c : Client) : Client :=
  if c.tvPlay.active = false then c
  else
    switchViewpoint L X c
      ((((List.range' 1 L.MAX_CLIENTS).map
        (fun i => (c.tvPlay.viewpoint + i) % L.MAX_CLIENTS)).find?
          (viewQualifies L X c)).getD c.tvPlay.viewpoint)

/-- Embedding of `CL_TV_ViewPrev_f`: the candidates are
`( viewpoint - i + MAX_CLIENTS ) % MAX_CLIENTS` for `i = 1 .. MAX_CLIENTS`. -/
def CL_TV_ViewPrev_f (L : Limits) (X : Externals) (c : Client) : Client :=
  if c.tvPlay.active = false then c
  else
    switchViewpoint L X c
      ((((List.range' 1 L.MAX_CLIENTS).map
        (fun i => (c.tvPlay.viewpoint + L.MAX_CLIENTS - i) % L.MAX_CLIENTS)).find?
          (viewQualifies L X c)).getD c.tvPlay.viewpoint)

/-- A stand-in for the decompressor: the first symbol of the compressed body is
the number of symbols that follow it as the decompressed stream; what comes
after them (the trailer) is not delivered. -/
def toyUnzstd (b : List Nat) : List Nat := (b.drop 1).take (b.headD 0)

/-- Three ticks for seeking: server times 100, 125 and 150, with configstring 1
holding `a`, then `b`, then `c`. -/
def svSeek (time : Int) (letter : Nat) : Server :=
  { svA with time := time, configstrings := [[], [letter], [], []] }

/-- The calls that record the three ticks; configstring 1 is marked changed
before the second and before the third. -/
def opsSeek : List RecOp :=
  [RecOp.writeFrame (svSeek 100 97), RecOp.configstringChanged 1,
   RecOp.writeFrame (svSeek 125 98), RecOp.configstringChanged 1,
   RecOp.writeFrame (svSeek 150 99)]

/-- A header in the layout `CL_TV_Open` parses: magic, protocol 1, 40 ticks per
second, 2 clients, map `q3`, timestamp `20`, configstring 1 = `a`, terminator. -/
def headerSeek : List Nat :=
  [84, 86, 68, 49, 1, 0, 0, 0, 40, 0, 0, 0, 2, 0, 0, 0, 113, 51, 0, 50, 48, 0,
   1, 0, 1, 0, 97, 255, 255]

/-- The trailer `TVDt`, `dur` with the four bytes of `duration`, the empty key
and the trailer size 19. -/
def trailerDur (duration : Int) : List Nat :=
  [84, 86, 68, 116, 100, 117, 114, 0, 4, 0] ++ int32Bytes duration ++ [0, 19, 0, 0, 0]

/-- A playback file with the frames `frames` as its body and a trailer that
gives the duration. -/
def tvFile (frames : List Nat) (duration : Int) : List Nat :=
  headerSeek ++ [frames.length] ++ frames ++ trailerDur duration

/-- The file with the three frames of `opsSeek` and duration 50. -/
def fileSeek : List Nat := tvFile (recordedBytes tiny toyExternals recStarted opsSeek) 50

/-- The client after `CL_TV_Open` on a file, or the zero client when it fails. -/
def openedClient (file : List Nat) : Client :=
  ((CL_TV_Open tiny toyExternals toyUnzstd file (Client.zero tiny)).getD none).getD
    (Client.zero tiny)

/-- The client right before `CL_TV_Open` reads the first frame of a file. -/
def startClient (file : List Nat) : Client :=
  ((openStart tiny toyExternals toyUnzstd file (Client.zero tiny)).getD none).getD
    (Client.zero tiny)

/-- The client after `CL_TV_Seek( targetTime )`, or the client itself when the
seek ends in the fatal drop. -/
def soughtClient (file : List Nat) (c : Client) (targetTime : Int) : Client :=
  (CL_TV_Seek tiny toyExternals toyUnzstd file c targetTime).getD c

/-! ## Inputs for the recorder's stop, overflow and auto-start paths -/

/-- A tick whose configstring 1 holds 300 bytes: marked changed, it does not
fit in the small message buffer of 256 bytes. -/
def svOverflow : Server :=
  { svA with configstrings := [[], List.replicate 300 97, [], []] }

/-- A recording started at tick A with configstring 1 marked changed. -/
def recChanged : Recorder :=
  runOps tiny toyExternals [RecOp.startRecord svA [116], RecOp.configstringChanged 1]

/-- The recorder with a deferred auto-start pending. -/
def recPending : Recorder :=
  runOps tiny toyExternals [RecOp.autoStart { svA with sv_tvauto := true }]

/-- A tick with the given match state and match UUID; both clients of tick A
are connected, client 0 is human. -/
def svMatch (matchState uuid : List Nat) : Server :=
  { svA with g_matchState := matchState, g_matchUUID := uuid }

/-- The condition under which the deferred auto-start fires: a non-empty
`g_matchState` for which `Q_stricmp( matchState, "active" )` is 0, or an
empty `g_matchState` and an active client below `sv.maxclients` that is not a
bot. -/
def autoStartFires (sv : Server) : Bool :=
  if cstr sv.g_matchState ≠ [] then Q_stricmpEq sv.g_matchState [97, 99, 116, 105, 118, 101]
  else humanPresent sv

/-- The name the deferred auto-start records under: `g_matchUUID` cut to
`MAX_QPATH - 1` bytes when it is non-empty, a name made from the clock
otherwise. -/
def autoStartName (L : Limits) (sv : Server) : List Nat :=
  if cstr sv.g_matchUUID ≠ [] then (cstr sv.g_matchUUID).take (L.MAX_QPATH - 1)
  else sv.defaultName

/-- The captured commands `cmds` tile the bytes from offset `o` to offset `e`:
each entry starts where the one before it ends. -/
def cmdsTile : List tvCmd_t → Nat → Nat → Prop
  | [], o, e => o = e
  | c :: t, o, e => c.offset = o ∧ cmdsTile t (o + c.len) e

/-- The invariant of the per-tick command buffer: the arrays have their
declared sizes, `cmdCount <= MAX_TV_CMDS`, `cmdBufUsed <= MAX_TV_CMDBUF`, and
the first `cmdCount` entries tile `cmdBuf[0 .. cmdBufUsed)` in capture order. -/
def CmdInv (L : Limits) (tv : tvState_t) : Prop :=
  tv.cmds.length = L.MAX_TV_CMDS ∧ tv.cmdBuf.length = L.MAX_TV_CMDBUF ∧
  tv.cmdCount ≤ L.MAX_TV_CMDS ∧ tv.cmdBufUsed ≤ L.MAX_TV_CMDBUF ∧
  cmdsTile (tv.cmds.take tv.cmdCount) 0 tv.cmdBufUsed

/-- A client in playback with clients 1, 5 and 7 live (none a spectator) and
the viewpoint on client 5. -/
def clientView : Client :=
  { Client.zero tiny with
    tvPlay := { tvPlayback_t.zero tiny with
      active := true
      viewpoint := 5
      playerBitmask := [162] } }

/-- The fields of `tvPlay` that `CL_TV_ReadFrame` never writes. -/
def tvPlayback_t.fixed (tv : tvPlayback_t) :
    Bool × Int × Int × Int × Int × vec3_t × Int × clSnapshot_t × clSnapshot_t ×
      List entityState_t × List entityState_t × gameState_t × Nat :=
  (tv.active, tv.svFps, tv.maxclients, tv.firstServerTime, tv.totalDuration, tv.viewOrigin,
    tv.snapCount, tv.snapshots0, tv.snapshots1, tv.snapEntities0, tv.snapEntities1,
    tv.initialGameState, tv.firstFrameOffset)

/-- The playback state a section of the frame reader ends with. -/
def Scan.state {α : Type} : Scan α → α
  | Scan.done a _ => a
  | Scan.bad a => a

/-- A file with one frame, that of tick A, and a trailer that gives duration 0. -/
def fileOneFrame : List Nat :=
  tvFile (recordedBytes tiny toyExternals recStarted [RecOp.writeFrame svA]) 0

/-- A file with a valid header and an empty body. -/
def fileNoFrame : List Nat := tvFile [] 0

/-- What the frame reader reads and writes of `tvPlay` besides the command
ring and the viewpoint: the running state, the undelivered stream, `atEnd`
and `serverTime`. -/
def tvPlayback_t.coreTv (tv : tvPlayback_t) :
    (List entityState_t × List Nat × List playerState_t × List Nat) × List Nat × Bool × Int :=
  (tv.running, tv.plain, tv.atEnd, tv.serverTime)

/-- The part of the client that decides how the rest of the stream is
decoded: `tvPlayback_t.coreTv` and the configstring arena. -/
def Client.core (c : Client) :
    ((List entityState_t × List Nat × List playerState_t × List Nat) × List Nat × Bool × Int) ×
      gameState_t :=
  (c.tvPlay.coreTv, c.gameState)

/-- The result of a section of the frame reader with `f` applied to the state. -/
def Scan.map {α β : Type} (f : α → β) : Scan α → Scan β
  | Scan.done a m => Scan.done (f a) m
  | Scan.bad a => Scan.bad (f a)

/-- The fields of `tvPlay` that tie a playback state to its file: `active`,
the arena saved by `CL_TV_Open` and the offset of the first frame. -/
def tvPlayback_t.fileRef (tv : tvPlayback_t) : Bool × gameState_t × Nat :=
  (tv.active, tv.initialGameState, tv.firstFrameOffset)

/-- The client `c` is an active playback state of the file that `c0` is about
to play from its first frame, and it agrees with the linear play that has read
`k` frames from `c0` in the running state, the rest of the stream, `atEnd`,
`serverTime` and the configstring arena. -/
structure InStep (L : Limits) (X : Externals) (c0 c : Client) (k : Nat) : Prop where
  active : c.tvPlay.active = true
  initial : c.tvPlay.initialGameState = c0.tvPlay.initialGameState
  offset : c.tvPlay.firstFrameOffset = c0.tvPlay.firstFrameOffset
  core : (readFrames L X k c0).map Client.core = some c.core

/-! ## What a frame queues in the command ring -/

/-- Several calls of `pushCommand`, one per text, in order. -/
def pushAll (L : Limits) (tv : tvPlayback_t) (texts : List (List Nat)) : tvPlayback_t :=
  texts.foldl (pushCommand L) tv

/-- The configstring changes of a frame as the loop of `CL_TV_ReadFrame` reads
them from the message `m`: `csIndex` and `csData` of each of the `count`
entries, and the rest of the message after the last entry. -/
def frameConfigstrings (L : Limits) (X : Externals) :
    Nat → List Nat → List (Int × List Nat) × List Nat
  | 0, m => ([], m)
  | count + 1, m =>
    let i := X.MSG_ReadShort m
    let l := X.MSG_ReadShort i.2
    let d := readLenData L X l.2 l.1
    ((i.1, d.1) :: (frameConfigstrings L X count d.2).1, (frameConfigstrings L X count d.2).2)

/-- The recorded server commands of a frame as the loop of `CL_TV_ReadFrame`
reads them from the message `m`: `target` and the text in `csData`. -/
def frameCommands (L : Limits) (X : Externals) : Nat → List Nat → List (Int × List Nat)
  | 0, _ => []
  | count + 1, m =>
    let t := X.MSG_ReadByte m
    let l := X.MSG_ReadShort t.2
    let d := readLenData L X l.2 l.1
    (t.1, d.1) :: frameCommands L X count d.2

/-- What `Com_sprintf( csCmd, sizeof( csCmd ), "cs %i \"%s\"", csIndex, csData )`
leaves in `csCmd`, a buffer of `MAX_STRING_CHARS` bytes. -/
def csCommandText (L : Limits) (X : Externals) (csIndex : Int) (csData : List Nat) : List Nat :=
  ([99, 115, 32] ++ X.fmtInt csIndex ++ [32, 34] ++ cstr csData ++ [34]).take
    (L.MAX_STRING_CHARS - 1)

/-- The `cs` commands `CL_TV_ReadFrame` queues for the configstring changes
`changes` when `seeking` is clear: one per change with an index below
`MAX_CONFIGSTRINGS`. -/
def csRingTexts (L : Limits) (X : Externals) (changes : List (Int × List Nat)) :
    List (List Nat) :=
  (changes.filter (fun e => decide (0 ≤ e.1 ∧ e.1 < (L.MAX_CONFIGSTRINGS : Int)))).map
    (fun e => csCommandText L X e.1 e.2)

/-- The recorded commands `CL_TV_ReadFrame` queues when `seeking` is clear and
the viewpoint is `vp`: those with target 255 or `vp`. -/
def cmdRingTexts (vp : Nat) (commands : List (Int × List Nat)) : List (List Nat) :=
  (commands.filter (fun e => decide (e.1 = 255) || decide (e.1 = (vp : Int)))).map
    (fun e => e.2)

/-- The part of the payload that follows the player section of the frame at
the head of the stream (empty when the frame is not decoded that far). -/
def afterPlayerSection (L : Limits) (X : Externals) (c : Client) : List Nat :=
  match readEntitySection L X
      { c.tvPlay with plain := (c.tvPlay.plain.drop 4).drop (le32 (frameSizeBytes c)) }
      (frameAfterTime X c) with
  | Scan.bad _ => []
  | Scan.done tv m =>
    match readPlayerSection L X tv m with
    | Scan.bad _ => []
    | Scan.done _ m => m

/-- The configstring changes of the frame at the head of the stream, in the
order of the frame, and the message after them. -/
def frameChanges (L : Limits) (X : Externals) (c : Client) : List (Int × List Nat) × List Nat :=
  frameConfigstrings L X (X.MSG_ReadShort (afterPlayerSection L X c)).1.toNat
    (X.MSG_ReadShort (afterPlayerSection L X c)).2

/-- The recorded server commands of the frame at the head of the stream, in
recorded order. -/
def frameCmds (L : Limits) (X : Externals) (c : Client) : List (Int × List Nat) :=
  frameCommands L X (X.MSG_ReadShort (frameChanges L X c).2).1.toNat
    (X.MSG_ReadShort (frameChanges L X c).2).2

/-! ## Inputs for the command ring and the viewpoint under `CL_TV_ReadFrame` -/

/-- A tick after tick A in which configstring 1 holds ten bytes `a`. -/
def svLongValue : Server :=
  { svA with time := 125, configstrings := [[], List.replicate 10 97, [], []] }

/-- The calls that record tick A and then the tick with the long value:
configstring 1 is marked changed and three commands are captured, `hi` for
everybody, `yo` for client 1 and `z` for client 0. -/
def opsLongValue : List RecOp :=
  [RecOp.writeFrame svA, RecOp.configstringChanged 1,
   RecOp.captureServerCommand (-1) [104, 105], RecOp.captureServerCommand 1 [121, 111],
   RecOp.captureServerCommand 0 [122], RecOp.writeFrame svLongValue]

/-- The client that has read the first of the two frames of `opsLongValue` and
has the second one at the head of its stream. -/
def clientLongValue : Client :=
  (CL_TV_ReadFrame tiny toyExternals
    (clientReading tiny (recordedBytes tiny toyExternals recStarted opsLongValue))).getD
    (Client.zero tiny)

/-- The client that has read tick A of `opsABC` and follows client 1, with the
frame of tick B, in which client 1 is gone, at the head of its stream. -/
def clientFollowsOne : Client :=
  { (CL_TV_ReadFrame tiny toyExternals
      (clientReading tiny (recordedBytes tiny toyExternals recStarted opsABC))).getD
      (Client.zero tiny) with
    tvPlay := { ((CL_TV_ReadFrame tiny toyExternals
      (clientReading tiny (recordedBytes tiny toyExternals recStarted opsABC))).getD
      (Client.zero tiny)).tvPlay with viewpoint := 1 } }

/-! ## Viewpoint commands and snapshot rebuilds -/

/-- The text `CL_TV_InjectScores` builds in `buf`. -/
def scoresCommand (L : Limits) (X : Externals) (tv : tvPlayback_t) : List Nat :=
  [115, 99, 111, 114, 101, 115, 32]
    ++ X.fmtInt ((List.range L.MAX_CLIENTS).filter (fun i => bitTest tv.playerBitmask i)).length
    ++ [32, 48, 32, 48]
    ++ (((List.range L.MAX_CLIENTS).filter (fun i => bitTest tv.playerBitmask i)).map
      (scoreFields X tv)).flatten

/-- Embedding of `CL_TV_View_f`, the console command `tv_view <clientnum>`;
`cmdArgv` holds the tokens of the command line. -/
def CL_TV_View_f (L : Limits) (X : Externals) (c : Client) : Client :=
  if c.tvPlay.active = false then c
  else if c.cmdArgv.length ≠ 2 then c
  else
    let n := X.atoi (c.cmdArgv.getD 1 [])
    if n < 0 ∨ n ≥ (L.MAX_CLIENTS : Int) then c
    else if !bitTest c.tvPlay.playerBitmask n.toNat then c
    else if CL_TV_GetPlayerTeam L X c.gameState n.toNat = L.TEAM_SPECTATOR then c
    else
      CL_TV_RebuildSnapshots L X { c with tvPlay := { c.tvPlay with viewpoint := n.toNat } }

/-- The playback state `tvCrowded` with only the entities 1, 2 and 4 live:
two candidates next to the viewpoint 1. -/
def tvSparse : tvPlayback_t := { tvCrowded with entityBitmask := [22] }

/-- The client `clientView` after five snapshots, with the command line
`tv_view 7`. -/
def clientViewSeven : Client :=
  { clientView with
    tvPlay := { clientView.tvPlay with snapCount := 5 }
    cmdArgv := [[116, 118, 95, 118, 105, 101, 119], [55]] }

/-- The command ring, `cmdSequence`, `seeking` and the viewpoint: what the
entity and player sections of `CL_TV_ReadFrame` leave alone. -/
def tvPlayback_t.ringView (tv : tvPlayback_t) : List (List Nat) × Nat × Bool × Nat :=
  (tv.cmds, tv.cmdSequence, tv.seeking, tv.viewpoint)

/-- The text `tv_seek_sync <viewpoint>` of the command `CL_TV_Seek` queues. -/
def seekSyncCommand (X : Externals) (vp : Nat) : List Nat :=
  [116, 118, 95, 115, 101, 101, 107, 95, 115, 121, 110, 99, 32] ++ X.fmtInt vp

/-! ## Where `CL_TV_ReadFrame` gives up -/

/-- The numbers `MSG_ReadEntitynum` returns in the passes of the `while ( 1 )`
loop of `CL_TV_ReadFrame`, the pass that leaves the loop included. -/
def entityNumsRead (L : Limits) (X : Externals) :
    Nat → List Nat → List entityState_t → List Int
  | 0, _, _ => []
  | fuel + 1, m, ents =>
    let r := X.MSG_ReadEntitynum m
    if r.1 = (L.MAX_GENTITIES : Int) - 1 then [r.1]
    else if r.1 < 0 then [r.1]
    else if r.1 ≥ (L.MAX_GENTITIES : Int) - 1 then [r.1]
    else
      let d := X.MSG_ReadDeltaEntity r.2 (ents.getD r.1.toNat entityState_t.zero) r.1
      if d.1.number = (L.MAX_GENTITIES : Int) - 1 then
        r.1 :: entityNumsRead L X fuel d.2 (ents.set r.1.toNat entityState_t.zero)
      else
        r.1 :: entityNumsRead L X fuel d.2 (ents.set r.1.toNat d.1)

/-- The numbers `MSG_ReadByte` returns as `clientNum` in the passes of the
player loop of `CL_TV_ReadFrame`, the pass that returns early included. -/
def clientNumsRead (L : Limits) (X : Externals) (mask : List Nat) :
    List Nat → List Nat → List playerState_t → List Int
  | [], _, _ => []
  | i :: rest, m, ps =>
    if !bitTest mask i then clientNumsRead L X mask rest m ps
    else
      let r := X.MSG_ReadByte m
      if r.1 < 0 ∨ r.1 ≥ (L.MAX_CLIENTS : Int) then [r.1]
      else
        let d := X.MSG_ReadDeltaPlayerstate r.2 (ps.getD r.1.toNat playerState_t.zero)
        r.1 :: clientNumsRead L X mask rest d.2 (ps.set r.1.toNat d.1)

/-- The test on `num` that makes the entity loop set `atEnd`: not the end
marker, and negative (the payload is exhausted) or not below the end marker. -/
def badEntityNum (L : Limits) (n : Int) : Prop :=
  n ≠ (L.MAX_GENTITIES : Int) - 1 ∧ (n < 0 ∨ n ≥ (L.MAX_GENTITIES : Int) - 1)

instance (L : Limits) (n : Int) : Decidable (badEntityNum L n) := by
  unfold badEntityNum; infer_instance

/-- The test on `clientNum` that makes the player loop set `atEnd`. -/
def badClientNum (L : Limits) (n : Int) : Prop := n < 0 ∨ n ≥ (L.MAX_CLIENTS : Int)

instance (L : Limits) (n : Int) : Decidable (badClientNum L n) := by
  unfold badClientNum; infer_instance

/-- The entity numbers read from the frame at the head of the stream. -/
def frameEntityNums (L : Limits) (X : Externals) (c : Client) : List Int :=
  entityNumsRead L X
    ((X.MSG_ReadData (frameAfterTime X c) (L.MAX_GENTITIES / 8)).2.length + 1)
    (X.MSG_ReadData (frameAfterTime X c) (L.MAX_GENTITIES / 8)).2 c.tvPlay.entities

/-- The client numbers read from the frame at the head of the stream (none
when the entity section has set `atEnd`). -/
def frameClientNums (L : Limits) (X : Externals) (c : Client) : List Int :=
  match readEntitySection L X
      { c.tvPlay with plain := (c.tvPlay.plain.drop 4).drop (le32 (frameSizeBytes c)) }
      (frameAfterTime X c) with
  | Scan.bad _ => []
  | Scan.done tv m =>
    clientNumsRead L X (X.MSG_ReadData m (L.MAX_CLIENTS / 8)).1 (List.range L.MAX_CLIENTS)
      (X.MSG_ReadData m (L.MAX_CLIENTS / 8)).2 tv.players

/-- The stand-in externals with the readers of `msg.c` for an exhausted
message: `MSG_ReadLong`, `MSG_ReadShort` and `MSG_ReadByte` return -1. -/
def exhaustingExternals : Externals :=
  { toyExternals with
    MSG_ReadLong := toyReadInt (-1)
    MSG_ReadShort := toyReadInt (-1)
    MSG_ReadByte := toyReadInt (-1) }

/-- A client in the zeroed state with one frame in its stream, the frame with
the payload `payload`. -/
def clientCut (payload : List Nat) : Client :=
  clientReading tiny (le32Bytes payload.length ++ payload)

/-! ## Inputs for the selection by distance, the trailer and the view origin -/

/-- The stand-in externals with another `qsort`: it sorts as the C library
must, and leaves elements that compare equal in the reverse of the order they
came in. -/
def reversingExternals : Externals :=
  { toyExternals with qsort := fun cmp l => l.reverse.insertionSort (fun a b => cmp a b ≤ 0) }

/-- The playback state `tvCrowded` with every entity at the origin: the
candidates 2, 3 and 4 are all at distance 0 from `viewOrigin`. -/
def tvTied : tvPlayback_t :=
  { tvCrowded with
    entities := (List.range 8).map (fun (i : Nat) =>
      ({ number := (i : Int), eType := 0, otherEntityNum := 0, powerups := 0,
         trBase := ⟨0, 0, 0⟩, rest := 0 } : entityState_t)) }

/-- The squared distance `CL_TV_BuildSnapshot` computes for slot `i`:
`DistanceSquared( tvPlay.viewOrigin, tvPlay.entities[i].pos.trBase )`. -/
def distSqOf (X : Externals) (tv : tvPlayback_t) (i : Nat) : Nat :=
  X.DistanceSquared tv.viewOrigin (tv.entities.getD i entityState_t.zero).trBase

/-- The selection as the specification words it: the candidates in slot
order, sorted by distance with a stable sort, cut to the first
`MAX_ENTITIES_IN_SNAPSHOT`. -/
def stableNearestSlots (L : Limits) (X : Externals) (tv : tvPlayback_t) : List Nat :=
  (((List.range (L.MAX_GENTITIES - 1)).filter (isCandidate L tv)).insertionSort
    (fun i j => ¬ X.floatLt (distSqOf X tv j) (distSqOf X tv i) = true)).take
    L.MAX_ENTITIES_IN_SNAPSHOT

/-- A trailer whose first entry has a key of `n` bytes `k` and an empty value
and whose second entry is `dur` with the value 5000: `TVDt`, the two entries,
the empty key, and the trailer size `n + 22`. -/
def trailerKey (n : Nat) : List Nat :=
  [84, 86, 68, 116] ++ List.replicate n 107 ++ [0, 0, 0] ++ [100, 117, 114, 0, 4, 0]
    ++ int32Bytes 5000 ++ [0] ++ le32Bytes (n + 22)

/-- Tick A with the entities 1, 3 and 5 live: three candidates for the two
places of a snapshot. -/
def svCrowdA : Server :=
  { svA with
    gentities := [sampleEntity 0 1 false, sampleEntity 1 1 true, sampleEntity 2 1 false,
      sampleEntity 3 1 true, sampleEntity 4 1 false, sampleEntity 5 1 true,
      sampleEntity 6 1 false, sampleEntity 7 1 false] }

/-- The next tick: client 0 has moved from (3, 4, 5) to (300, 4, 5). -/
def svCrowdB : Server :=
  { svCrowdA with
    time := 125
    gameClients := [{ samplePlayer 0 10 with origin := ⟨300, 4, 5⟩ }, samplePlayer 1 20] }

/-- The file with the frames of the two ticks. -/
def fileCrowd : List Nat :=
  tvFile (recordedBytes tiny toyExternals recStarted
    [RecOp.writeFrame svCrowdA, RecOp.writeFrame svCrowdB]) 25

/-- The client inside `CL_TV_Open` right before `CL_TV_BuildSnapshot( 1 )`: the
first frame read, viewpoint and view origin set, snapshot 0 built, the second
frame read. -/
def beforeSecondSnapshot (file : List Nat) : Client :=
  (CL_TV_ReadFrame tiny toyExternals (openFirstSnapshot tiny toyExternals
    ((CL_TV_ReadFrame tiny toyExternals (startClient file)).getD (Client.zero tiny)))).getD
    (Client.zero tiny)

/-- One entry of the trailer in the layout the header comment of
`CL_TV_ReadTrailer` gives: the key, a NUL, the value length in two bytes, the
value. -/
def trailerEntry (e : List Nat × List Nat) : List Nat :=
  e.1 ++ [0] ++ le16Bytes e.2.length ++ e.2

/-- A whole trailer in that layout: `TVDt`, the entries, the empty key, and
the size of the trailer in four bytes. -/
def trailerBytes (entries : List (List Nat × List Nat)) : List Nat :=
  [84, 86, 68, 116] ++ (entries.map trailerEntry).flatten ++ [0]
    ++ le32Bytes (([84, 86, 68, 116] ++ (entries.map trailerEntry).flatten ++ [0]).length + 4)

/-- What the entries leave in `totalDuration`, starting from `dur`: the `int`
in the value of the last entry whose key is `dur` for `Q_stricmp` and whose
value has four bytes. -/
def lastDuration (dur : Int) : List (List Nat × List Nat) → Int
  | [] => dur
  | e :: rest =>
    if Q_stricmpEq e.1 [100, 117, 114] ∧ e.2.length = 4 then lastDuration (int32Of e.2) rest
    else lastDuration dur rest

/-! ## Inputs for the late trailer failure, the request window and over-long lengths -/

/-- A file whose trailer lacks the empty key that ends it: the magic `TVDt`,
the entry `dur` with the value 5000, and the trailer size 18 right behind it. -/
def fileTrailerOpen : List Nat :=
  [84, 86, 68, 116] ++ trailerEntry ([100, 117, 114], le32Bytes 5000) ++ le32Bytes 18

/-- The playback state in which the commands `a`, `b`, `c` and `d` have been
queued (numbers 0 to 3; the ring of the small constants has four slots) and
`CL_TV_BuildSnapshot( 0 )` has run after them. -/
def tvRingFull : tvPlayback_t :=
  CL_TV_BuildSnapshot tiny toyExternals
    (pushAll tiny (tvPlayback_t.zero tiny) [[97], [98], [99], [100]]) 0

/-- A client with the playback state `tvRingFull`. -/
def clientRingFull : Client := { Client.zero tiny with tvPlay := tvRingFull }

/-- A client in the zeroed state with one frame in its stream: server time
100, no entity, no player, one configstring change for `index` carrying the
length `len` and no value bytes, no command. -/
def clientLength (index len : Int) : Client :=
  clientCut [200, 0, 14, 0, 2, toyEncInt index, toyEncInt len, 0]

/-- A client in the zeroed state with one frame in its stream: server time
100, no entity, no player, no configstring change, one command for everybody
carrying the length `len` and no bytes. -/
def clientCommandLength (len : Int) : Client :=
  clientCut [200, 0, 14, 0, 0, 2, 510, toyEncInt len]

/-- The calls of a deferred auto-start that is resolved at the first tick: with
`sv_tvauto` set `SV_TV_AutoStart` leaves the start pending, and the first
`SV_TV_WriteFrame`, with a human client active and no `g_matchState`, starts
the recording. -/
def opsAutoRecord : List RecOp :=
  [RecOp.autoStart { svA with sv_tvauto := true }, RecOp.writeFrame svA]

/-! ## Inputs for an entity writer that compares the transmitted fields only -/

/-- The stand-in externals with an entity writer that compares every field but
`number`, as a writer driven by a table of the transmitted fields does:
nothing is written for a state that differs from the baseline in `number`
alone.  What it writes is what the writer of `toyExternals` writes. -/
def netfieldExternals : Externals :=
  { toyExternals with
    MSG_WriteDeltaEntity := fun old new force =>
      if ({ new with number := old.number } : entityState_t) = old ∧ force = false then []
      else [toyEncInt new.number, toyEncInt new.eType, toyEncInt new.otherEntityNum,
        toyEncInt new.powerups, new.trBase.x, new.trBase.y, new.trBase.z, new.rest] }

/-- Tick A with another entity in slot 5: it is live and carries its slot
number, and every other field of its state is zero. -/
def svBlank : Server :=
  { svA with
    gentities := [sampleEntity 0 1 false, sampleEntity 1 1 true, sampleEntity 2 1 false,
      sampleEntity 3 1 false, sampleEntity 4 1 false,
      { s := { entityState_t.zero with number := 5 }, linked := true, noclient := false },
      sampleEntity 6 1 false, sampleEntity 7 1 false] }

/-! ## Theorems -/

theorem cstr_nil : cstr [] = [] := rfl

theorem cstr_cons_zero (t : List Nat) : cstr (0 :: t) = [] := by
  simp [cstr, List.takeWhile_cons]

theorem cstr_cons_ne (a : Nat) (t : List Nat) (h : a ≠ 0) : cstr (a :: t) = a :: cstr t := by
  simp [cstr, List.takeWhile_cons, h]

theorem cstr_eq_nil_iff (l : List Nat) : cstr l = [] ↔ l.headD 0 = 0 := by
  cases l with
  | nil => simp [cstr]
  | cons a t =>
    by_cases h : a = 0
    · subst h; simp [cstr_cons_zero]
    · simp [cstr_cons_ne a t h, h]

theorem strlen_eq (l : List Nat) : strlen l = (cstr l).length := rfl

theorem memRead_length (l : List Nat) (n : Nat) : (memRead l n).length = n := by
  simp [memRead]

theorem memRead_zero (l : List Nat) : memRead l 0 = [] := rfl

theorem memRead_cons (a : Nat) (t : List Nat) (n : Nat) :
    memRead (a :: t) (n + 1) = a :: memRead t n := by
  simp only [memRead, List.range_succ_eq_map, List.map_cons, List.map_map]
  simp [Function.comp_def]

theorem memRead_nil (n : Nat) : memRead [] n = List.replicate n 0 := by
  simp only [memRead]
  apply List.ext_getElem <;> simp

theorem memRead_strlen_succ (l : List Nat) : memRead l (strlen l + 1) = cstr l ++ [0] := by
  induction l with
  | nil => simp [memRead_nil, strlen, cstr]
  | cons a t ih =>
    by_cases h : a = 0
    · subst h
      rw [strlen_eq, cstr_cons_zero, memRead_cons]
      simp [memRead_zero]
    · rw [strlen_eq, cstr_cons_ne a t h, List.length_cons, memRead_cons, ← strlen_eq, ih]
      rfl

theorem memRead_self (l : List Nat) : memRead l l.length = l := by
  induction l with
  | nil => rfl
  | cons a t ih => rw [List.length_cons, memRead_cons, ih]

theorem cstr_append_zero (s rest : List Nat) (h : 0 ∉ s) : cstr (s ++ 0 :: rest) = s := by
  induction s with
  | nil => simp [cstr_cons_zero]
  | cons a t ih =>
    have ha : a ≠ 0 := fun e => h (by simp [e])
    have ht : 0 ∉ t := fun e => h (by simp [e])
    rw [List.cons_append, cstr_cons_ne _ _ ha, ih ht]

theorem cstr_not_mem_zero (l : List Nat) : 0 ∉ cstr l := by
  intro h
  have := List.mem_takeWhile_imp h
  simp at this

theorem writeAt_tail (pre src : List Nat) (k : Nat) :
    writeAt (pre ++ List.replicate k 0) pre.length src
      = (pre ++ src) ++ List.replicate (k - src.length) 0 := by
  unfold writeAt
  rw [List.take_left, List.drop_append, List.drop_replicate]

theorem arenaNeed_zero (table : Nat → List Nat) : arenaNeed table 0 = 1 := by
  simp [arenaNeed]

theorem arenaNeed_succ (table : Nat → List Nat) (n : Nat) :
    arenaNeed table (n + 1)
      = arenaNeed table n + (if table n = [] then 0 else (table n).length + 1) := by
  simp [arenaNeed, List.range_succ, Nat.add_assoc]

theorem arenaNeed_mono (table : Nat → List Nat) {m n : Nat} (h : m ≤ n) :
    arenaNeed table m ≤ arenaNeed table n := by
  induction h with
  | refl => exact Nat.le_refl _
  | step _ ih => rw [arenaNeed_succ]; omega

theorem updateConfigstringStep_some (L : Limits) (old : gameState_t) (index : Nat)
    (d : List Nat) (dl : Int) (gs : gameState_t) (i : Nat) :
    updateConfigstringStep L old index d dl (some gs) i =
      if rebuiltEntry old index d dl i = [] then some gs
      else if (rebuiltEntry old index d dl i).length + 1 + gs.dataCount
          > L.MAX_GAMESTATE_CHARS then none
      else some
        { stringOffsets := gs.stringOffsets.set i gs.dataCount
          stringData := writeAt gs.stringData gs.dataCount (rebuiltEntry old index d dl i ++ [0])
          dataCount := gs.dataCount + ((rebuiltEntry old index d dl i).length + 1) } := by
  unfold updateConfigstringStep rebuiltEntry
  by_cases hi : i = index
  · simp only [hi, if_true]
    by_cases hdl : dl ≤ 0
    · simp [hdl]
    · have hpos : 0 < dl.toNat := by omega
      have hne : memRead d dl.toNat ≠ [] := by
        intro h
        have := congrArg List.length h
        rw [memRead_length] at this
        simp at this
        omega
      rw [if_neg hdl, if_neg hdl, if_neg hne, memRead_length]
      have hcast : ((dl.toNat : Nat) : Int) = dl := Int.toNat_of_nonneg (by omega)
      by_cases hc : dl + 1 + (gs.dataCount : Int) > (L.MAX_GAMESTATE_CHARS : Int)
      · have : dl.toNat + 1 + gs.dataCount > L.MAX_GAMESTATE_CHARS := by omega
        rw [if_pos hc, if_pos this]
      · have : ¬ (dl.toNat + 1 + gs.dataCount > L.MAX_GAMESTATE_CHARS) := by omega
        rw [if_neg hc, if_neg this, Nat.add_assoc]
  · simp only [hi, if_false, gameState_t.configString]
    by_cases h0 : (old.stringData.drop (old.stringOffsets.getD i 0)).headD 0 = 0
    · have := (cstr_eq_nil_iff _).2 h0
      rw [if_pos h0, if_pos this]
    · have : cstr (old.stringData.drop (old.stringOffsets.getD i 0)) ≠ [] :=
        fun e => h0 ((cstr_eq_nil_iff _).1 e)
      rw [if_neg h0, if_neg this, memRead_strlen_succ, strlen_eq]

theorem foldl_updateStep_none (L : Limits) (old : gameState_t) (index : Nat)
    (d : List Nat) (dl : Int) (l : List Nat) :
    l.foldl (updateConfigstringStep L old index d dl) none = none := by
  induction l with
  | nil => rfl
  | cons a t ih => simpa [List.foldl, updateConfigstringStep] using ih

theorem getD_set_ne {α : Type} (l : List α) (i j : Nat) (v d : α) (h : j ≠ i) :
    (l.set i v).getD j d = l.getD j d := by
  simp [List.getD, List.getElem?_set, h.symm]

theorem getD_set_eq {α : Type} (l : List α) (i : Nat) (v d : α) (h : i < l.length) :
    (l.set i v).getD i d = v := by
  simp [List.getD, List.getElem?_set, h]

theorem rebuildInv_init (L : Limits) (entry : Nat → List Nat)
    (hG : 0 < L.MAX_GAMESTATE_CHARS) :
    RebuildInv L entry 0 { gameState_t.zeroed L with dataCount := 1 } := by
  refine ⟨by simp [arenaNeed_zero], by simp [gameState_t.zeroed], [0], ?_, rfl, hG, rfl, ?_⟩
  · simp only [gameState_t.zeroed, List.length_singleton]
    obtain ⟨k, hk⟩ : ∃ k, L.MAX_GAMESTATE_CHARS = k + 1 := ⟨L.MAX_GAMESTATE_CHARS - 1, by omega⟩
    rw [hk]; rfl
  · intro j
    refine ⟨fun h => absurd h (Nat.not_lt_zero j), fun _ => ?_⟩
    simp only [gameState_t.zeroed, List.getD_eq_getElem?_getD, List.getElem?_replicate]
    split <;> rfl

theorem rebuildInv_skip (L : Limits) (entry : Nat → List Nat) (n : Nat) (gs : gameState_t)
    (he : entry n = []) (h : RebuildInv L entry n gs) : RebuildInv L entry (n + 1) gs := by
  obtain ⟨hdc, hlen, pre, hdata, hpl, hple, hhd, hall⟩ := h
  refine ⟨by rw [arenaNeed_succ, he]; simpa using hdc, hlen, pre, hdata, hpl, hple, hhd, ?_⟩
  intro j
  refine ⟨fun hj hne => ?_, fun hj => ?_⟩
  · have : j < n := by
      rcases Nat.lt_succ_iff_lt_or_eq.1 hj with h | h
      · exact h
      · exact absurd (h ▸ he) hne
    exact (hall j).1 this hne
  · apply (hall j).2
    rcases hj with h | h
    · exact Or.inl (by omega)
    · exact Or.inr h

theorem rebuildInv_store (L : Limits) (entry : Nat → List Nat) (n : Nat) (gs : gameState_t)
    (hn : n < L.MAX_CONFIGSTRINGS) (he : entry n ≠ [])
    (hfit : (entry n).length + 1 + gs.dataCount ≤ L.MAX_GAMESTATE_CHARS)
    (h : RebuildInv L entry n gs) :
    RebuildInv L entry (n + 1)
      { stringOffsets := gs.stringOffsets.set n gs.dataCount
        stringData := writeAt gs.stringData gs.dataCount (entry n ++ [0])
        dataCount := gs.dataCount + ((entry n).length + 1) } := by
  obtain ⟨hdc, hlen, pre, hdata, hpl, hple, hhd, hall⟩ := h
  have h1 : 1 ≤ gs.dataCount := by rw [hdc]; unfold arenaNeed; omega
  refine ⟨by rw [arenaNeed_succ, if_neg he, hdc], by simpa using hlen,
    pre ++ (entry n ++ [0]), ?_, by simp [hpl], by simp; omega, ?_, ?_⟩
  · show writeAt gs.stringData gs.dataCount (entry n ++ [0]) = _
    rw [hdata, ← hpl, writeAt_tail]
    simp only [List.length_append, List.length_singleton]
    congr 2
    omega
  · cases pre with
    | nil => simp at hhd
    | cons a t => simpa using hhd
  · intro j
    refine ⟨fun hj hne => ?_, fun hj => ?_⟩
    · by_cases hjn : j = n
      · subst hjn
        refine ⟨pre, [], by simp, ?_, by omega⟩
        show pre.length = (gs.stringOffsets.set j gs.dataCount).getD j 0
        rw [getD_set_eq _ _ _ _ (by omega), hpl]
      · have hlt : j < n := by omega
        obtain ⟨a, b, hab, hal, ha1⟩ := (hall j).1 hlt hne
        refine ⟨a, b ++ (entry n ++ [0]), by rw [hab]; simp, ?_, ha1⟩
        show a.length = (gs.stringOffsets.set n gs.dataCount).getD j 0
        rw [getD_set_ne _ _ _ _ _ hjn, hal]
    · have hjn : j ≠ n := by
        rcases hj with h | h
        · omega
        · intro e; exact he (e ▸ h)
      show (gs.stringOffsets.set n gs.dataCount).getD j 0 = 0
      rw [getD_set_ne _ _ _ _ _ hjn]
      apply (hall j).2
      rcases hj with h | h
      · exact Or.inl (by omega)
      · exact Or.inr h

theorem rebuild_prefix (L : Limits) (old : gameState_t) (index : Nat) (d : List Nat)
    (dl : Int) (hG : 0 < L.MAX_GAMESTATE_CHARS) (n : Nat) (hn : n ≤ L.MAX_CONFIGSTRINGS) :
    (arenaNeed (rebuiltEntry old index d dl) n ≤ L.MAX_GAMESTATE_CHARS →
      ∃ gs, (List.range n).foldl (updateConfigstringStep L old index d dl)
              (some { gameState_t.zeroed L with dataCount := 1 }) = some gs ∧
            RebuildInv L (rebuiltEntry old index d dl) n gs) ∧
    (L.MAX_GAMESTATE_CHARS < arenaNeed (rebuiltEntry old index d dl) n →
      (List.range n).foldl (updateConfigstringStep L old index d dl)
        (some { gameState_t.zeroed L with dataCount := 1 }) = none) := by
  induction n with
  | zero =>
    refine ⟨fun _ => ⟨_, rfl, rebuildInv_init L _ hG⟩, fun h => ?_⟩
    rw [arenaNeed_zero] at h; omega
  | succ n ih =>
    obtain ⟨ih1, ih2⟩ := ih (by omega)
    have hmono : arenaNeed (rebuiltEntry old index d dl) n
        ≤ arenaNeed (rebuiltEntry old index d dl) (n + 1) :=
      arenaNeed_mono (rebuiltEntry old index d dl) (Nat.le_succ n)
    rw [List.range_succ, List.foldl_append]
    constructor
    · intro hfit
      obtain ⟨gs, hgs, hinv⟩ := ih1 (by omega)
      rw [hgs]
      simp only [List.foldl_cons, List.foldl_nil, updateConfigstringStep_some]
      by_cases he : rebuiltEntry old index d dl n = []
      · rw [if_pos he]
        exact ⟨gs, rfl, rebuildInv_skip L _ n gs he hinv⟩
      · rw [if_neg he]
        have hdc := hinv.1
        rw [arenaNeed_succ, if_neg he] at hfit
        have hle : (rebuiltEntry old index d dl n).length + 1 + gs.dataCount
            ≤ L.MAX_GAMESTATE_CHARS := by omega
        rw [if_neg (by omega)]
        exact ⟨_, rfl, rebuildInv_store L _ n gs (by omega) he hle hinv⟩
    · intro hbig
      by_cases hprev : L.MAX_GAMESTATE_CHARS < arenaNeed (rebuiltEntry old index d dl) n
      · rw [ih2 hprev]; rfl
      · obtain ⟨gs, hgs, hinv⟩ := ih1 (by omega)
        rw [hgs]
        simp only [List.foldl_cons, List.foldl_nil, updateConfigstringStep_some]
        have hdc := hinv.1
        rw [arenaNeed_succ] at hbig
        by_cases he : rebuiltEntry old index d dl n = []
        · rw [if_pos he] at hbig; omega
        · rw [if_neg he] at hbig
          rw [if_neg he, if_pos (by omega)]

theorem memRead_strlen (l : List Nat) : memRead l (strlen l) = cstr l := by
  induction l with
  | nil => rfl
  | cons a t ih =>
    by_cases h : a = 0
    · subst h; rw [strlen_eq, cstr_cons_zero]; rfl
    · rw [strlen_eq, cstr_cons_ne a t h, List.length_cons, memRead_cons, ← strlen_eq, ih]

theorem rebuildInv_read (L : Limits) (entry : Nat → List Nat) (n : Nat) (gs : gameState_t)
    (h : RebuildInv L entry n gs) (j : Nat) (hj : j < n) (hnul : 0 ∉ entry j) :
    gs.configString j = entry j := by
  obtain ⟨_, _, pre, hdata, _, _, hhd, hall⟩ := h
  unfold gameState_t.configString
  by_cases he : entry j = []
  · rw [(hall j).2 (Or.inr he), he, hdata, List.drop_zero]
    cases pre with
    | nil => simp at hhd
    | cons a t =>
      simp only [List.head?_cons, Option.some.injEq] at hhd
      subst hhd
      exact cstr_cons_zero _
  · obtain ⟨a, b, hab, hal, _⟩ := (hall j).1 hj he
    rw [← hal, hdata, hab]
    have : a ++ entry j ++ 0 :: b ++ List.replicate (L.MAX_GAMESTATE_CHARS - (a ++ entry j ++ 0 :: b).length) 0
        = a ++ (entry j ++ 0 :: (b ++ List.replicate (L.MAX_GAMESTATE_CHARS - (a ++ entry j ++ 0 :: b).length) 0)) := by
      simp
    rw [this, List.drop_left]
    exact cstr_append_zero _ _ hnul

theorem rebuildInv_offset (L : Limits) (entry : Nat → List Nat) (n : Nat) (gs : gameState_t)
    (h : RebuildInv L entry n gs) (j : Nat) (hj : j < n) (he : entry j ≠ []) :
    1 ≤ gs.stringOffsets.getD j 0 ∧ gs.stringOffsets.getD j 0 < gs.dataCount := by
  obtain ⟨_, _, pre, _, hpl, _, _, hall⟩ := h
  obtain ⟨a, b, hab, hal, ha1⟩ := (hall j).1 hj he
  refine ⟨by omega, ?_⟩
  rw [← hal, ← hpl, hab]
  simp

theorem rebuildInv_zero_reads_empty (L : Limits) (entry : Nat → List Nat) (n : Nat)
    (gs : gameState_t) (h : RebuildInv L entry n gs) : cstr (gs.stringData.drop 0) = [] := by
  obtain ⟨_, _, pre, hdata, _, _, hhd, _⟩ := h
  rw [hdata, List.drop_zero]
  cases pre with
  | nil => simp at hhd
  | cons a t =>
    simp only [List.head?_cons, Option.some.injEq] at hhd
    subst hhd
    exact cstr_cons_zero _

theorem rebuildInv_wellFormed (L : Limits) (entry : Nat → List Nat) (n : Nat)
    (gs : gameState_t) (h : RebuildInv L entry n gs) : gs.WellFormed L := by
  obtain ⟨hdc, hlen, pre, hdata, hpl, hple, hhd, hall⟩ := h
  have h1 : 1 ≤ gs.dataCount := by rw [hdc]; unfold arenaNeed; omega
  refine ⟨hlen, by rw [hdata]; simp; omega, h1, by omega, ?_, ?_⟩
  · rw [hdata]
    cases pre with
    | nil => simp at hhd
    | cons a t => simpa using hhd
  · intro o ho
    obtain ⟨j, hjl, hjo⟩ := List.getElem_of_mem ho
    have hgetD : gs.stringOffsets.getD j 0 = o := by
      simp [List.getD, List.getElem?_eq_getElem hjl, hjo]
    by_cases hc : j < n ∧ entry j ≠ []
    · obtain ⟨a, b, hab, hal, ha1⟩ := (hall j).1 hc.1 hc.2
      rw [hgetD] at hal
      have hlt : o < gs.dataCount := by
        rw [← hal, ← hpl, hab]; simp
      refine ⟨hlt, ?_⟩
      rw [hdata, ← hal, ← hpl, hab]
      have e1 : a ++ entry j ++ 0 :: b ++ List.replicate (L.MAX_GAMESTATE_CHARS - (a ++ entry j ++ 0 :: b).length) 0
          = a ++ (entry j ++ 0 :: (b ++ List.replicate (L.MAX_GAMESTATE_CHARS - (a ++ entry j ++ 0 :: b).length) 0)) := by
        simp
      rw [e1, List.drop_left]
      have e2 : (a ++ entry j ++ 0 :: b).length - a.length = (entry j ++ 0 :: b).length := by
        simp
      rw [e2]
      have e3 : entry j ++ 0 :: (b ++ List.replicate (L.MAX_GAMESTATE_CHARS - (a ++ entry j ++ 0 :: b).length) 0)
          = (entry j ++ 0 :: b) ++ List.replicate (L.MAX_GAMESTATE_CHARS - (a ++ entry j ++ 0 :: b).length) 0 := by
        simp
      rw [e3, List.take_left]
      simp
    · have ho0 : o = 0 := by
        rw [← hgetD]
        apply (hall j).2
        by_cases hjn : j < n
        · exact Or.inr (by_contra fun hx => hc ⟨hjn, hx⟩)
        · exact Or.inl (by omega)
      subst ho0
      refine ⟨by omega, ?_⟩
      rw [hdata, List.drop_zero, Nat.sub_zero, ← hpl, List.take_left]
      cases pre with
      | nil => simp at hhd
      | cons a t =>
        simp only [List.head?_cons, Option.some.injEq] at hhd
        subst hhd
        simp

theorem storedValue_not_mem_zero (L : Limits) (X : Externals) (index : Nat) (data : List Nat)
    (h : 0 ∉ data) : 0 ∉ storedValue L X index data := by
  unfold storedValue
  split
  · exact cstr_not_mem_zero _
  · exact h

theorem cstr_of_not_mem_zero (l : List Nat) (h : 0 ∉ l) : cstr l = l := by
  induction l with
  | nil => rfl
  | cons a t ih =>
    have ha : a ≠ 0 := fun e => h (by simp [e])
    rw [cstr_cons_ne a t ha, ih (fun e => h (by simp [e]))]

theorem rebuiltEntry_effective (L : Limits) (X : Externals) (gs : gameState_t) (index : Nat)
    (data : List Nat) (hnul : 0 ∉ data) :
    rebuiltEntry gs index (effectiveData L X index data data.length).1
        (effectiveData L X index data data.length).2
      = resultingTable L X gs index data := by
  funext j
  unfold rebuiltEntry resultingTable effectiveData storedValue
  by_cases hj : j = index
  · simp only [hj, if_true]
    by_cases hs : index = L.CS_SERVERINFO
    · by_cases hd : data = []
      · subst hd; simp [hs]
      · have hpos : (0 : Int) < (data.length : Int) := by
          have := List.length_pos.2 hd
          omega
        simp only [hs, hd, hpos, gt_iff_lt, true_and, ne_eq, not_false_eq_true, if_true]
        split
        · rename_i h0
          have : strlen (X.Info_SetValueForKey (Q_strncpyz data L.BIG_INFO_STRING) [116, 118] [49]) = 0 := by
            omega
          rw [strlen_eq] at this
          exact (List.length_eq_zero.1 this).symm
        · rw [Int.toNat_ofNat, memRead_strlen]
    · simp only [hs, false_and, if_false]
      by_cases hd : data = []
      · subst hd; simp
      · have hpos : ¬ ((data.length : Int) ≤ 0) := by
          have := List.length_pos.2 hd
          omega
        rw [if_neg hpos, Int.toNat_ofNat, memRead_self]
  · simp only [hj, if_false]

theorem updateConfigstring_spec (L : Limits) (X : Externals) (gs : gameState_t) (index : Nat)
    (data : List Nat) (hG : 0 < L.MAX_GAMESTATE_CHARS) (hnul : 0 ∉ data) :
    (arenaNeed (resultingTable L X gs index data) L.MAX_CONFIGSTRINGS ≤ L.MAX_GAMESTATE_CHARS →
      ∃ gs2, CL_TV_UpdateConfigstring L X gs index data data.length = some gs2 ∧
        RebuildInv L (resultingTable L X gs index data) L.MAX_CONFIGSTRINGS gs2) ∧
    (L.MAX_GAMESTATE_CHARS < arenaNeed (resultingTable L X gs index data) L.MAX_CONFIGSTRINGS →
      CL_TV_UpdateConfigstring L X gs index data data.length = none) := by
  have h := rebuild_prefix L gs index (effectiveData L X index data data.length).1
    (effectiveData L X index data data.length).2 hG L.MAX_CONFIGSTRINGS (Nat.le_refl _)
  rw [rebuiltEntry_effective L X gs index data hnul] at h
  exact h

theorem resultingTable_not_mem_zero (L : Limits) (X : Externals) (gs : gameState_t)
    (index : Nat) (data : List Nat) (hnul : 0 ∉ data) (j : Nat) :
    0 ∉ resultingTable L X gs index data j := by
  unfold resultingTable
  split
  · exact storedValue_not_mem_zero L X index data hnul
  · exact cstr_not_mem_zero _

theorem arenaNeed_congr (t1 t2 : Nat → List Nat) (n : Nat) (h : ∀ j, j < n → t1 j = t2 j) :
    arenaNeed t1 n = arenaNeed t2 n := by
  induction n with
  | zero => simp [arenaNeed]
  | succ k ih =>
    rw [arenaNeed_succ, arenaNeed_succ, ih (fun j hj => h j (by omega)), h k (by omega)]

theorem arenaNeed_all_nil (t : Nat → List Nat) (n : Nat) (h : ∀ j, j < n → t j = []) :
    arenaNeed t n = 1 := by
  induction n with
  | zero => simp [arenaNeed]
  | succ k ih =>
    rw [arenaNeed_succ, ih (fun j hj => h j (by omega)), h k (by omega)]
    simp

/-- C6: on a well-formed arena, for an index `i` below `MAX_CONFIGSTRINGS`
other than `CS_SERVERINFO` and NUL-free `data` whose rebuilt arena fits in
`MAX_GAMESTATE_CHARS`, `CL_TV_UpdateConfigstring( i, data, length )` returns
normally, the string read at `i` afterwards is `data` (the empty string when
the length is 0) and every other index reads the string it read before. -/
theorem C6_updateConfigstring_replaces_one_entry (L : Limits) (X : Externals)
    (gs : gameState_t) (i : Nat) (data : List Nat)
    (hwf : gs.WellFormed L) (hi : i < L.MAX_CONFIGSTRINGS) (hsi : i ≠ L.CS_SERVERINFO)
    (hnul : 0 ∉ data)
    (hfit : arenaNeed (fun j => if j = i then data else gs.configString j) L.MAX_CONFIGSTRINGS
      ≤ L.MAX_GAMESTATE_CHARS) :
    ∃ gs2, CL_TV_UpdateConfigstring L X gs i data data.length = some gs2 ∧
      gs2.configString i = data ∧
      ∀ j, j < L.MAX_CONFIGSTRINGS → j ≠ i → gs2.configString j = gs.configString j := by
  have hG : 0 < L.MAX_GAMESTATE_CHARS := by
    obtain ⟨_, _, h1, h2, _⟩ := hwf
    omega
  have htab : resultingTable L X gs i data
      = fun j => if j = i then data else gs.configString j := by
    funext j
    simp [resultingTable, storedValue, hsi]
  have hspec := (updateConfigstring_spec L X gs i data hG hnul).1
  rw [htab] at hspec
  obtain ⟨gs2, hgs2, hinv⟩ := hspec hfit
  refine ⟨gs2, hgs2, ?_, fun j hj hji => ?_⟩
  · have := rebuildInv_read L _ _ gs2 hinv i hi (by simpa using hnul)
    simpa using this
  · have := rebuildInv_read L _ _ gs2 hinv j hj
      (by simp only [hji, if_false]; exact cstr_not_mem_zero _)
    simpa [hji] using this

/-- C6 at a concrete input: index 1 of `arenaHi` is set to `ab`. -/
theorem C6_updateConfigstring_replaces_one_entry_witness :
    ∃ gs2, CL_TV_UpdateConfigstring tiny toyExternals arenaHi 1 [97, 98]
        (([97, 98] : List Nat).length : Int) = some gs2 ∧
      gs2.configString 1 = [97, 98] ∧
      ∀ j, j < tiny.MAX_CONFIGSTRINGS → j ≠ 1 → gs2.configString j = arenaHi.configString j :=
  C6_updateConfigstring_replaces_one_entry tiny toyExternals arenaHi 1 [97, 98]
    (by decide) (by decide) (by decide) (by decide) (by decide)

/-- C7, the code at the failing input: with an arena that holds no serverinfo
entry (the state `CL_TV_Open` is in when the header carried none),
`CL_TV_UpdateConfigstring( CS_SERVERINFO, "", 0 )` returns normally and the
serverinfo configstring is the empty string, which does not contain `\tv\1`:
the guard `dataLen > 0` skips the injection. -/
theorem C7_empty_serverinfo_gets_no_tv_key (X : Externals) :
    ∃ gs2, CL_TV_UpdateConfigstring q3 X { gameState_t.zeroed q3 with dataCount := 1 }
        q3.CS_SERVERINFO [] 0 = some gs2 ∧
      gs2.configString q3.CS_SERVERINFO = [] ∧
      ¬ (tvPair <:+: gs2.configString q3.CS_SERVERINFO) := by
  have hnil : ∀ j, resultingTable q3 X { gameState_t.zeroed q3 with dataCount := 1 }
      q3.CS_SERVERINFO [] j = [] := by
    intro j
    unfold resultingTable storedValue
    split
    · simp
    · unfold gameState_t.configString
      apply (cstr_eq_nil_iff _).2
      simp [gameState_t.zeroed, List.getD, List.getElem?_replicate]
      split <;> simp [q3]
  have hspec := (updateConfigstring_spec q3 X { gameState_t.zeroed q3 with dataCount := 1 }
    q3.CS_SERVERINFO [] (by decide) (by simp)).1
  rw [arenaNeed_all_nil _ _ (fun j _ => hnil j)] at hspec
  obtain ⟨gs2, hgs2, hinv⟩ := hspec (by decide)
  have hread := rebuildInv_read q3 _ _ gs2 hinv q3.CS_SERVERINFO (by decide)
    (by rw [hnil]; simp)
  rw [hnil] at hread
  refine ⟨gs2, hgs2, hread, ?_⟩
  rw [hread]
  intro h
  have := List.IsInfix.length_le h
  simp [tvPair] at this

/-- C8: on a well-formed arena, with any index and NUL-free `data`,
`CL_TV_UpdateConfigstring` raises the fatal drop if and only if 1 plus the sum of (length + 1) over the non-empty entries of the resulting
table exceeds `MAX_GAMESTATE_CHARS`; when it returns, `dataCount` is that sum,
`dataCount <= MAX_GAMESTATE_CHARS`, every index reads its entry of the
resulting table, every non-empty entry has its offset in `[1, dataCount)`,
and offset 0 reads as the empty string. -/
theorem C8_updateConfigstring_drop_iff_arena_exceeded (L : Limits) (X : Externals)
    (gs : gameState_t) (i : Nat) (data : List Nat)
    (hwf : gs.WellFormed L) (hnul : 0 ∉ data) :
    (CL_TV_UpdateConfigstring L X gs i data data.length = none ↔
      L.MAX_GAMESTATE_CHARS < arenaNeed (resultingTable L X gs i data) L.MAX_CONFIGSTRINGS) ∧
    ∀ gs2, CL_TV_UpdateConfigstring L X gs i data data.length = some gs2 →
      gs2.dataCount = arenaNeed (resultingTable L X gs i data) L.MAX_CONFIGSTRINGS ∧
      gs2.dataCount ≤ L.MAX_GAMESTATE_CHARS ∧
      (∀ j, j < L.MAX_CONFIGSTRINGS → gs2.configString j = resultingTable L X gs i data j) ∧
      (∀ j, j < L.MAX_CONFIGSTRINGS → resultingTable L X gs i data j ≠ [] →
        1 ≤ gs2.stringOffsets.getD j 0 ∧ gs2.stringOffsets.getD j 0 < gs2.dataCount) ∧
      cstr (gs2.stringData.drop 0) = [] := by
  have hG : 0 < L.MAX_GAMESTATE_CHARS := by
    obtain ⟨_, _, h1, h2, _⟩ := hwf
    omega
  obtain ⟨hok, hbad⟩ := updateConfigstring_spec L X gs i data hG hnul
  constructor
  · constructor
    · intro hnone
      by_contra hle
      obtain ⟨gs2, hgs2, _⟩ := hok (by omega)
      rw [hnone] at hgs2
      exact Option.noConfusion hgs2
    · exact hbad
  · intro gs2 hgs2
    by_cases hle : arenaNeed (resultingTable L X gs i data) L.MAX_CONFIGSTRINGS
        ≤ L.MAX_GAMESTATE_CHARS
    · obtain ⟨gs3, hgs3, hinv⟩ := hok hle
      rw [hgs2] at hgs3
      cases hgs3
      refine ⟨hinv.1, by rw [hinv.1]; exact hle, fun j hj => ?_, fun j hj hne => ?_, ?_⟩
      · exact rebuildInv_read L _ _ gs2 hinv j hj (resultingTable_not_mem_zero L X gs i data hnul j)
      · exact rebuildInv_offset L _ _ gs2 hinv j hj hne
      · exact rebuildInv_zero_reads_empty L _ _ gs2 hinv
    · rw [hbad (by omega)] at hgs2
      exact Option.noConfusion hgs2

/-- C8 at a concrete input: index 1 of `arenaHi` is set to `ab`. -/
theorem C8_updateConfigstring_drop_iff_arena_exceeded_witness :
    (CL_TV_UpdateConfigstring tiny toyExternals arenaHi 1 [97, 98]
        (([97, 98] : List Nat).length : Int) = none ↔
      tiny.MAX_GAMESTATE_CHARS
        < arenaNeed (resultingTable tiny toyExternals arenaHi 1 [97, 98]) tiny.MAX_CONFIGSTRINGS) ∧
    ∀ gs2, CL_TV_UpdateConfigstring tiny toyExternals arenaHi 1 [97, 98]
        (([97, 98] : List Nat).length : Int) = some gs2 →
      gs2.dataCount
        = arenaNeed (resultingTable tiny toyExternals arenaHi 1 [97, 98]) tiny.MAX_CONFIGSTRINGS ∧
      gs2.dataCount ≤ tiny.MAX_GAMESTATE_CHARS ∧
      (∀ j, j < tiny.MAX_CONFIGSTRINGS →
        gs2.configString j = resultingTable tiny toyExternals arenaHi 1 [97, 98] j) ∧
      (∀ j, j < tiny.MAX_CONFIGSTRINGS →
        resultingTable tiny toyExternals arenaHi 1 [97, 98] j ≠ [] →
        1 ≤ gs2.stringOffsets.getD j 0 ∧ gs2.stringOffsets.getD j 0 < gs2.dataCount) ∧
      cstr (gs2.stringData.drop 0) = [] :=
  C8_updateConfigstring_drop_iff_arena_exceeded tiny toyExternals arenaHi 1 [97, 98]
    (by decide) (by decide)

theorem snapshotSlots_injectScores (L : Limits) (X : Externals) (tv : tvPlayback_t) :
    snapshotSlots L X (CL_TV_InjectScores L X tv) = snapshotSlots L X tv := rfl

theorem snapshotSlots_sublist_perm (L : Limits) (X : Externals) (tv : tvPlayback_t)
    (hq : ∀ cmp l, (X.qsort cmp l).Perm l) :
    ∃ l, (snapshotSlots L X tv).Sublist l ∧
      l.Perm ((List.range (L.MAX_GENTITIES - 1)).filter (isCandidate L tv)) := by
  unfold snapshotSlots
  dsimp only
  split
  · exact ⟨_, List.Sublist.refl _, List.Perm.refl _⟩
  · refine ⟨(X.qsort (TV_EntDistCompare X) _).map (fun c => c.entityNum),
      List.Sublist.map _ (List.take_sublist _ _), ?_⟩
    refine ((hq _ _).map _).trans ?_
    rw [List.map_map]
    have : ((fun c : tvEntDist_t => c.entityNum) ∘ fun i =>
        ({ entityNum := i
           distSq := X.DistanceSquared tv.viewOrigin
             (tv.entities.getD i entityState_t.zero).trBase } : tvEntDist_t)) = id := by
      funext i; rfl
    rw [this, List.map_id]

theorem snapshotSlots_length_le (L : Limits) (X : Externals) (tv : tvPlayback_t) :
    (snapshotSlots L X tv).length ≤ L.MAX_ENTITIES_IN_SNAPSHOT := by
  unfold snapshotSlots
  dsimp only
  split
  · assumption
  · rw [List.length_map, List.length_take]
    split <;> omega

theorem snapshotSlots_mem (L : Limits) (X : Externals) (tv : tvPlayback_t)
    (hq : ∀ cmp l, (X.qsort cmp l).Perm l) (i : Nat) (hi : i ∈ snapshotSlots L X tv) :
    i < L.MAX_GENTITIES - 1 ∧ isCandidate L tv i = true := by
  obtain ⟨l, hsub, hperm⟩ := snapshotSlots_sublist_perm L X tv hq
  have := (hperm.mem_iff).1 (hsub.subset hi)
  simpa using this

theorem snapshotSlots_nodup (L : Limits) (X : Externals) (tv : tvPlayback_t)
    (hq : ∀ cmp l, (X.qsort cmp l).Perm l) : (snapshotSlots L X tv).Nodup := by
  obtain ⟨l, hsub, hperm⟩ := snapshotSlots_sublist_perm L X tv hq
  exact (hperm.nodup_iff.2 ((List.nodup_range _).filter _)).sublist hsub

theorem take_writePrefix {α : Type} (arr src : List α) :
    (writePrefix arr src).take src.length = src := by
  simp [writePrefix]

/-- C9: for every running state and `which` in {0, 1}, after
`CL_TV_BuildSnapshot( which )` the snapshot has `numEntities` at most
`MAX_ENTITIES_IN_SNAPSHOT`, the first `numEntities` elements of
`snapEntities[which]` are the states of the copied slots, every copied slot
has its `entityBitmask` bit set and differs from the viewpoint, and no slot is
copied twice.  The C library `qsort` is taken to permute its array. -/
theorem C9_buildSnapshot_entity_selection (L : Limits) (X : Externals) (tv : tvPlayback_t)
    (which : Fin 2) (hq : ∀ cmp l, (X.qsort cmp l).Perm l) :
    ((CL_TV_BuildSnapshot L X tv which).snapshots which).numEntities
        ≤ L.MAX_ENTITIES_IN_SNAPSHOT ∧
    ((CL_TV_BuildSnapshot L X tv which).snapshots which).numEntities
        = (snapshotSlots L X tv).length ∧
    ((CL_TV_BuildSnapshot L X tv which).snapEntities which).take
        ((CL_TV_BuildSnapshot L X tv which).snapshots which).numEntities
        = (snapshotSlots L X tv).map (fun i => tv.entities.getD i entityState_t.zero) ∧
    (∀ i ∈ snapshotSlots L X tv, bitTest tv.entityBitmask i = true ∧ i ≠ tv.viewpoint) ∧
    (snapshotSlots L X tv).Nodup := by
  have hnum : ((CL_TV_BuildSnapshot L X tv which).snapshots which).numEntities
      = (snapshotSlots L X tv).length := by
    unfold CL_TV_BuildSnapshot tvPlayback_t.snapshots
    by_cases hw : which = 0 <;> simp [hw, snapshotSlots_injectScores]
  have hents : ((CL_TV_BuildSnapshot L X tv which).snapEntities which).take
      (snapshotSlots L X tv).length
      = (snapshotSlots L X tv).map (fun i => tv.entities.getD i entityState_t.zero) := by
    have hlen : (snapshotSlots L X tv).length
        = ((snapshotSlots L X tv).map (fun i => tv.entities.getD i entityState_t.zero)).length := by
      simp
    unfold CL_TV_BuildSnapshot tvPlayback_t.snapEntities
    by_cases hw : which = 0
    · simp only [hw, if_true, snapshotSlots_injectScores]
      conv_lhs => rw [hlen]
      exact take_writePrefix _ _
    · simp only [hw, if_false, snapshotSlots_injectScores]
      conv_lhs => rw [hlen]
      exact take_writePrefix _ _
  refine ⟨by rw [hnum]; exact snapshotSlots_length_le L X tv, hnum, by rw [hnum]; exact hents,
    fun i hi => ?_, snapshotSlots_nodup L X tv hq⟩
  have := (snapshotSlots_mem L X tv hq i hi).2
  unfold isCandidate at this
  simp only [Bool.and_eq_true, bne_iff_ne, ne_eq] at this
  exact ⟨this.1.1, this.1.2⟩

/-- C9 at a concrete input: three candidates for two places. -/
theorem C9_buildSnapshot_entity_selection_witness :
    ((CL_TV_BuildSnapshot tiny toyExternals tvCrowded 0).snapshots 0).numEntities
        ≤ tiny.MAX_ENTITIES_IN_SNAPSHOT ∧
    ((CL_TV_BuildSnapshot tiny toyExternals tvCrowded 0).snapshots 0).numEntities
        = (snapshotSlots tiny toyExternals tvCrowded).length ∧
    ((CL_TV_BuildSnapshot tiny toyExternals tvCrowded 0).snapEntities 0).take
        ((CL_TV_BuildSnapshot tiny toyExternals tvCrowded 0).snapshots 0).numEntities
        = (snapshotSlots tiny toyExternals tvCrowded).map
            (fun i => tvCrowded.entities.getD i entityState_t.zero) ∧
    (∀ i ∈ snapshotSlots tiny toyExternals tvCrowded,
      bitTest tvCrowded.entityBitmask i = true ∧ i ≠ tvCrowded.viewpoint) ∧
    (snapshotSlots tiny toyExternals tvCrowded).Nodup :=
  C9_buildSnapshot_entity_selection tiny toyExternals tvCrowded 0
    (fun _ l => List.perm_insertionSort _ l)

/-- C10, the code at the failing input: one command has been queued (number
0, `cmdSequence = 1`) and command number 1, which has not been queued, is
requested.  `cmdSequence - 1 = 0` is neither `>= MAX_RELIABLE_COMMANDS` nor
`< 0`, so there is no drop: the unwritten ring slot 1 is tokenized, the call
returns true and `lastExecutedServerCommand` becomes 1. -/
theorem C10_request_of_unqueued_command_is_accepted :
    clientOneQueued.tvPlay.cmdSequence = 1 ∧
    (CL_TV_GetServerCommand q3 toyExternals clientOneQueued 1).map
        (fun r => (r.1, r.2.lastExecutedServerCommand, r.2.cmdArgv))
      = some (true, 1, []) := by
  decide

theorem shiftRight_three (i : Nat) : i >>> 3 = i / 8 := by
  rw [Nat.shiftRight_eq_div_pow]

theorem and_seven (i : Nat) : i &&& 7 = i % 8 := by
  have := Nat.and_pow_two_sub_one_eq_mod i 3
  simpa using this

theorem bitSet_length (mask : List Nat) (j : Nat) : (bitSet mask j).length = mask.length := by
  simp [bitSet]

theorem bitTest_bitSet (mask : List Nat) (i j : Nat) (hj : j / 8 < mask.length) :
    bitTest (bitSet mask j) i = (decide (i = j) || bitTest mask i) := by
  unfold bitTest bitSet
  simp only [shiftRight_three, and_seven, Nat.one_shiftLeft]
  by_cases hq : i / 8 = j / 8
  · rw [hq, getD_set_eq _ _ _ _ hj, Nat.testBit_or, Nat.testBit_two_pow, Bool.or_comm]
    congr 1
    have : (j % 8 = i % 8) ↔ (i = j) := by
      constructor
      · intro h
        have h1 := Nat.div_add_mod i 8
        have h2 := Nat.div_add_mod j 8
        omega
      · intro h; rw [h]
    exact decide_eq_decide.2 this
  · rw [getD_set_ne _ _ _ _ _ hq]
    have : ¬ i = j := fun e => hq (by rw [e])
    simp [this]

theorem bitTest_replicate_zero (n i : Nat) : bitTest (List.replicate n 0) i = false := by
  unfold bitTest
  simp only [List.getD_eq_getElem?_getD, List.getElem?_replicate]
  split <;> simp

theorem foldl_bitSet_length (live : Nat → Bool) (l : List Nat) (mask : List Nat) :
    (l.foldl (fun mask i => if live i then bitSet mask i else mask) mask).length
      = mask.length := by
  induction l generalizing mask with
  | nil => rfl
  | cons a t ih =>
    simp only [List.foldl_cons]
    rw [ih]
    split
    · exact bitSet_length _ _
    · rfl

theorem buildMask_length (bytes n : Nat) (live : Nat → Bool) :
    (buildMask bytes n live).length = bytes := by
  unfold buildMask
  rw [foldl_bitSet_length]
  simp

theorem bitTest_buildMask (bytes n : Nat) (live : Nat → Bool) (i : Nat) (hn : n ≤ 8 * bytes) :
    bitTest (buildMask bytes n live) i = (decide (i < n) && live i) := by
  induction n with
  | zero => simp [buildMask, bitTest_replicate_zero]
  | succ k ih =>
    have ihk := ih (by omega)
    unfold buildMask at ihk ⊢
    rw [List.range_succ, List.foldl_append]
    simp only [List.foldl_cons, List.foldl_nil]
    by_cases hl : live k = true
    · rw [if_pos hl, bitTest_bitSet _ _ _ (by rw [foldl_bitSet_length]; simp; omega), ihk]
      by_cases hik : i = k
      · subst hik; simp [hl]
      · have : (decide (i < k + 1)) = decide (i < k) := decide_eq_decide.2 (by omega)
        simp [hik, this]
    · rw [if_neg hl, ihk]
      by_cases hik : i = k
      · subst hik; simp [hl]
      · have : (decide (i < k + 1)) = decide (i < k) := decide_eq_decide.2 (by omega)
        rw [this]

theorem foldl_set_range_getD {α : Type} (f : Nat → α) (d : α) (n : Nat) (arr : List α) (i : Nat) :
    ((List.range n).foldl (fun a j => a.set j (f j)) arr).getD i d
      = if i < n ∧ i < arr.length then f i else arr.getD i d := by
  induction n with
  | zero => simp
  | succ k ih =>
    rw [List.range_succ, List.foldl_append]
    simp only [List.foldl_cons, List.foldl_nil]
    have hlen : ((List.range k).foldl (fun a j => a.set j (f j)) arr).length = arr.length := by
      clear ih
      induction k with
      | zero => rfl
      | succ q ihq =>
        rw [List.range_succ, List.foldl_append]
        simp [ihq]
    by_cases hik : i = k
    · subst hik
      by_cases hl : i < arr.length
      · rw [getD_set_eq _ _ _ _ (by rw [hlen]; exact hl)]
        simp [hl]
      · have : ¬ (i < i + 1 ∧ i < arr.length) := fun h => hl h.2
        rw [if_neg this]
        simp only [List.getD_eq_getElem?_getD]
        rw [List.getElem?_eq_none (by simp [hlen]; omega), List.getElem?_eq_none (by omega)]
    · rw [getD_set_ne _ _ _ _ _ hik, ih]
      have : (i < k + 1 ∧ i < arr.length) ↔ (i < k ∧ i < arr.length) := by
        constructor <;> intro h <;> exact ⟨by omega, h.2⟩
      simp only [this]

theorem foldl_set_range_length {α : Type} (f : Nat → α) (n : Nat) (arr : List α) :
    ((List.range n).foldl (fun a j => a.set j (f j)) arr).length = arr.length := by
  induction n with
  | zero => rfl
  | succ q ihq =>
    rw [List.range_succ, List.foldl_append]
    simp [ihq]

theorem fileWrite_tv_baselines (r : Recorder) (d : List Nat) :
    (SV_TV_FileWrite r d).tv.prevEntities = r.tv.prevEntities ∧
    (SV_TV_FileWrite r d).tv.prevEntityBitmask = r.tv.prevEntityBitmask ∧
    (SV_TV_FileWrite r d).tv.prevPlayers = r.tv.prevPlayers ∧
    (SV_TV_FileWrite r d).tv.prevPlayerBitmask = r.tv.prevPlayerBitmask :=
  ⟨rfl, rfl, rfl, rfl⟩

theorem getD_replicate_self {α : Type} (n i : Nat) (z : α) : (List.replicate n z).getD i z = z := by
  simp only [List.getD_eq_getElem?_getD, List.getElem?_replicate]
  split <;> rfl

theorem slackInv_zero (L : Limits) (m : Nat) (tv : tvState_t)
    (h1 : tv.prevEntities = List.replicate L.MAX_GENTITIES entityState_t.zero)
    (h2 : tv.prevPlayers = List.replicate L.MAX_CLIENTS playerState_t.zero) :
    SlackInv L m tv := by
  refine ⟨by rw [h1]; simp, by rw [h2]; simp, fun i _ => ?_⟩
  rw [h2]; exact getD_replicate_self _ _ _

theorem startRecord_slackInv (L : Limits) (sv : Server) (r : Recorder) (filename : List Nat)
    (m : Nat) (h : SlackInv L m r.tv) :
    SlackInv L m (SV_TV_StartRecord L sv r filename).tv := by
  unfold SV_TV_StartRecord
  by_cases h1 : sv.inGame = true
  · by_cases h2 : r.tv.recording = true
    · simpa [h1, h2] using h
    · by_cases h3 : sv.openOk = true
      · simp only [h1, h2, h3, Bool.not_true, Bool.false_eq_true, if_false]
        exact slackInv_zero L m _ rfl rfl
      · simp only [h1, h2, h3, Bool.not_true, Bool.not_false, Bool.false_eq_true, if_false,
          if_true]
        exact slackInv_zero L m _ rfl rfl
  · simpa [h1] using h

theorem stopRecord_baselines (L : Limits) (r : Recorder) (discard : Bool) :
    (SV_TV_StopRecord L r discard).tv.prevEntities = r.tv.prevEntities ∧
    (SV_TV_StopRecord L r discard).tv.prevEntityBitmask = r.tv.prevEntityBitmask ∧
    (SV_TV_StopRecord L r discard).tv.prevPlayers = r.tv.prevPlayers ∧
    (SV_TV_StopRecord L r discard).tv.prevPlayerBitmask = r.tv.prevPlayerBitmask := by
  unfold SV_TV_StopRecord
  by_cases h : r.tv.recording = true <;> simp [h]

theorem stopRecord_slackInv (L : Limits) (r : Recorder) (discard : Bool) (m : Nat)
    (h : SlackInv L m r.tv) : SlackInv L m (SV_TV_StopRecord L r discard).tv := by
  obtain ⟨h1, _, h3, _⟩ := stopRecord_baselines L r discard
  unfold SlackInv
  rw [h1, h3]
  exact h

theorem saveBaselines_entities (L : Limits) (sv : Server) (tv : tvState_t) (i : Nat)
    (hlen : tv.prevEntities.length = L.MAX_GENTITIES) (hi : i < L.MAX_GENTITIES) :
    (saveBaselines L sv tv).prevEntities.getD i entityState_t.zero
      = if bitTest (curEntityBitmask L sv) i then gentityState sv i else entityState_t.zero := by
  unfold saveBaselines
  simp only
  have hf : (fun (a : List entityState_t) (j : Nat) =>
      if bitTest (curEntityBitmask L sv) j = true then a.set j (gentityState sv j)
      else a.set j entityState_t.zero)
      = fun a j => a.set j
          (if bitTest (curEntityBitmask L sv) j = true then gentityState sv j
           else entityState_t.zero) := by
    funext a j; split <;> rfl
  rw [hf, foldl_set_range_getD, if_pos ⟨hi, by omega⟩]

theorem saveBaselines_players (L : Limits) (sv : Server) (tv : tvState_t) (i : Nat)
    (hlen : tv.prevPlayers.length = L.MAX_CLIENTS) (hm : sv.maxclients ≤ L.MAX_CLIENTS) :
    (saveBaselines L sv tv).prevPlayers.getD i playerState_t.zero
      = if i < sv.maxclients then
          (if bitTest (curPlayerBitmask L sv) i then gameClientState sv i
           else playerState_t.zero)
        else tv.prevPlayers.getD i playerState_t.zero := by
  unfold saveBaselines
  simp only
  have hf : (fun (a : List playerState_t) (j : Nat) =>
      if bitTest (curPlayerBitmask L sv) j = true then a.set j (gameClientState sv j)
      else a.set j playerState_t.zero)
      = fun a j => a.set j
          (if bitTest (curPlayerBitmask L sv) j = true then gameClientState sv j
           else playerState_t.zero) := by
    funext a j; split <;> rfl
  rw [hf, foldl_set_range_getD]
  by_cases hi : i < sv.maxclients
  · rw [if_pos ⟨hi, by omega⟩, if_pos hi]
  · rw [if_neg (fun h => hi h.1), if_neg hi]

theorem saveBaselines_lengths (L : Limits) (sv : Server) (tv : tvState_t) :
    (saveBaselines L sv tv).prevEntities.length = tv.prevEntities.length ∧
    (saveBaselines L sv tv).prevPlayers.length = tv.prevPlayers.length := by
  unfold saveBaselines
  simp only
  have hf : (fun (a : List entityState_t) (j : Nat) =>
      if bitTest (curEntityBitmask L sv) j = true then a.set j (gentityState sv j)
      else a.set j entityState_t.zero)
      = fun a j => a.set j
          (if bitTest (curEntityBitmask L sv) j = true then gentityState sv j
           else entityState_t.zero) := by
    funext a j; split <;> rfl
  have hg : (fun (a : List playerState_t) (j : Nat) =>
      if bitTest (curPlayerBitmask L sv) j = true then a.set j (gameClientState sv j)
      else a.set j playerState_t.zero)
      = fun a j => a.set j
          (if bitTest (curPlayerBitmask L sv) j = true then gameClientState sv j
           else playerState_t.zero) := by
    funext a j; split <;> rfl
  rw [hf, hg, foldl_set_range_length, foldl_set_range_length]
  exact ⟨rfl, rfl⟩

theorem writeFrame_written (L : Limits) (X : Externals) (sv : Server) (r : Recorder)
    (h : writesFrame L X sv r) :
    (SV_TV_WriteFrame L X sv r).tv.prevEntities = (saveBaselines L sv r.tv).prevEntities ∧
    (SV_TV_WriteFrame L X sv r).tv.prevEntityBitmask = curEntityBitmask L sv ∧
    (SV_TV_WriteFrame L X sv r).tv.prevPlayers = (saveBaselines L sv r.tv).prevPlayers ∧
    (SV_TV_WriteFrame L X sv r).tv.prevPlayerBitmask = curPlayerBitmask L sv := by
  obtain ⟨h1, h2, h3⟩ := h
  have h3' : (frameMessage L X sv
      { r.tv with
        hadHuman := r.tv.hadHuman || humanPresent sv
        firstServerTime := if r.tv.frameCount = 0 then sv.time else r.tv.firstServerTime
        lastServerTime := sv.time }).overflowed = false := h3
  unfold SV_TV_WriteFrame
  rw [if_neg (by rw [h1]; simp), if_neg (by rw [h2]; simp)]
  dsimp only
  rw [if_neg (by rw [h3']; simp)]
  exact ⟨rfl, rfl, rfl, rfl⟩

theorem slackInv_congr (L : Limits) (m : Nat) (a b : tvState_t)
    (h1 : a.prevEntities = b.prevEntities) (h2 : a.prevPlayers = b.prevPlayers)
    (h : SlackInv L m b) : SlackInv L m a := by
  unfold SlackInv
  rw [h1, h2]
  exact h

theorem resolveAutoStart_slackInv (L : Limits) (sv : Server) (r : Recorder) (m : Nat)
    (h : SlackInv L m r.tv) : SlackInv L m (resolveAutoStart L sv r).tv := by
  unfold resolveAutoStart
  dsimp only
  split
  · split
    · exact startRecord_slackInv L sv _ _ m (slackInv_congr L m _ _ rfl rfl h)
    · exact h
  · split
    · exact startRecord_slackInv L sv _ _ m (slackInv_congr L m _ _ rfl rfl h)
    · exact h

theorem writeFrame_slackInv (L : Limits) (X : Externals) (sv : Server) (r : Recorder)
    (hm : sv.maxclients ≤ L.MAX_CLIENTS) (h : SlackInv L sv.maxclients r.tv) :
    SlackInv L sv.maxclients (SV_TV_WriteFrame L X sv r).tv := by
  by_cases hw : writesFrame L X sv r
  · obtain ⟨e1, _, e3, _⟩ := writeFrame_written L X sv r hw
    obtain ⟨l1, l2⟩ := saveBaselines_lengths L sv r.tv
    refine ⟨by rw [e1, l1]; exact h.1, by rw [e3, l2]; exact h.2.1, fun i hi => ?_⟩
    rw [e3, saveBaselines_players L sv r.tv i h.2.1 hm, if_neg (by omega)]
    exact h.2.2 i hi
  · unfold SV_TV_WriteFrame
    by_cases h1 : r.tv.autoPending = true
    · rw [if_pos h1]
      exact resolveAutoStart_slackInv L sv r _ h
    · rw [if_neg h1]
      by_cases h2 : r.tv.recording = true
      · rw [if_neg (by rw [h2]; simp)]
        dsimp only
        have h3 : (frameMessage L X sv
            { r.tv with
              hadHuman := r.tv.hadHuman || humanPresent sv
              firstServerTime := if r.tv.frameCount = 0 then sv.time else r.tv.firstServerTime
              lastServerTime := sv.time }).overflowed = true := by
          by_contra hc
          apply hw
          refine ⟨by simpa using h1, h2, ?_⟩
          simpa using hc
        rw [if_pos h3]
        exact stopRecord_slackInv L _ true _ (slackInv_congr L _ _ _ rfl rfl h)
      · rw [if_pos (by simpa using h2)]
        exact h

theorem apply_slackInv (L : Limits) (X : Externals) (m : Nat) (hm : m ≤ L.MAX_CLIENTS)
    (r : Recorder) (op : RecOp) (hop : ∀ sv, op.server = some sv → sv.maxclients = m)
    (h : SlackInv L m r.tv) : SlackInv L m (op.apply L X r).tv := by
  cases op with
  | autoStart sv =>
    simp only [RecOp.apply, SV_TV_AutoStart]
    split
    · exact h
    · exact slackInv_congr L m _ _ rfl rfl h
  | startRecord sv filename => exact startRecord_slackInv L sv r filename m h
  | writeFrame sv =>
    have e : sv.maxclients = m := hop sv rfl
    subst e
    exact writeFrame_slackInv L X sv r hm h
  | stopRecord discard => exact stopRecord_slackInv L r discard m h
  | configstringChanged index =>
    simp only [RecOp.apply, SV_TV_ConfigstringChanged]
    split
    · exact slackInv_congr L m _ _ rfl rfl h
    · exact h
  | captureServerCommand target cmd =>
    simp only [RecOp.apply, SV_TV_CaptureServerCommand]
    split
    · exact h
    · split
      · exact h
      · exact slackInv_congr L m _ _ rfl rfl h

theorem foldl_apply_slackInv (L : Limits) (X : Externals) (m : Nat) (hm : m ≤ L.MAX_CLIENTS)
    (ops : List RecOp) (r : Recorder)
    (hops : ∀ op ∈ ops, ∀ sv, op.server = some sv → sv.maxclients = m)
    (h : SlackInv L m r.tv) : SlackInv L m (ops.foldl (RecOp.apply L X) r).tv := by
  induction ops generalizing r with
  | nil => exact h
  | cons op t ih =>
    simp only [List.foldl_cons]
    apply ih
    · intro op2 hop2; exact hops op2 (List.mem_cons_of_mem _ hop2)
    · exact apply_slackInv L X m hm r op (hops op (List.mem_cons_self _ _)) h

theorem runOps_slackInv (L : Limits) (X : Externals) (m : Nat) (hm : m ≤ L.MAX_CLIENTS)
    (ops : List RecOp) (hops : ∀ op ∈ ops, ∀ sv, op.server = some sv → sv.maxclients = m) :
    SlackInv L m (runOps L X ops).tv :=
  foldl_apply_slackInv L X m hm ops _ hops (slackInv_zero L m _ rfl rfl)

theorem written_baselines (L : Limits) (X : Externals) (sv : Server) (r : Recorder)
    (h8 : 8 ∣ L.MAX_CLIENTS) (hm : sv.maxclients ≤ L.MAX_CLIENTS)
    (hinv : SlackInv L sv.maxclients r.tv) (hw : writesFrame L X sv r) :
    (SV_TV_WriteFrame L X sv r).tv.prevEntityBitmask = curEntityBitmask L sv ∧
    (SV_TV_WriteFrame L X sv r).tv.prevPlayerBitmask = curPlayerBitmask L sv ∧
    (∀ i, i < L.MAX_GENTITIES →
      (SV_TV_WriteFrame L X sv r).tv.prevEntities.getD i entityState_t.zero
        = if bitTest (curEntityBitmask L sv) i then gentityState sv i
          else entityState_t.zero) ∧
    (∀ i, i < L.MAX_CLIENTS →
      (SV_TV_WriteFrame L X sv r).tv.prevPlayers.getD i playerState_t.zero
        = if bitTest (curPlayerBitmask L sv) i then gameClientState sv i
          else playerState_t.zero) := by
  obtain ⟨e1, e2, e3, e4⟩ := writeFrame_written L X sv r hw
  refine ⟨e2, e4, fun i hi => ?_, fun i _ => ?_⟩
  · rw [e1]; exact saveBaselines_entities L sv r.tv i hinv.1 hi
  · rw [e3, saveBaselines_players L sv r.tv i hinv.2.1 hm]
    by_cases hi : i < sv.maxclients
    · rw [if_pos hi]
    · rw [if_neg hi, hinv.2.2 i (by omega)]
      have hb : bitTest (curPlayerBitmask L sv) i = false := by
        unfold curPlayerBitmask
        rw [bitTest_buildMask _ _ _ _ (by
          obtain ⟨k, hk⟩ := h8
          rw [hk, Nat.mul_div_cancel_left k (by decide : 0 < 8)]
          omega)]
        simp [hi]
      rw [hb]
      rfl

/-- C5, counterexample: tick A is written with `sv.maxclients = 2` and client 1
live, the next tick with `sv.maxclients = 1`.  The second call writes a frame;
afterwards bit 1 of `prevPlayerBitmask` is clear and `prevPlayers[1]` still
holds the state of tick A, because the loop that saves the player baselines
stops at `sv.maxclients`. -/
theorem C5_counterexample_maxclients_shrinks :
    writesFrame tiny toyExternals svShrunk (SV_TV_WriteFrame tiny toyExternals svA recStarted) ∧
    bitTest (SV_TV_WriteFrame tiny toyExternals svShrunk
      (SV_TV_WriteFrame tiny toyExternals svA recStarted)).tv.prevPlayerBitmask 1 = false ∧
    (SV_TV_WriteFrame tiny toyExternals svShrunk
      (SV_TV_WriteFrame tiny toyExternals svA recStarted)).tv.prevPlayers.getD 1 playerState_t.zero
      = gameClientState svA 1 ∧
    gameClientState svA 1 ≠ playerState_t.zero := by
  decide

/-- C5 (amended): in a run of recorder calls from the all-zero state during which
`sv.maxclients` keeps one value `m <= MAX_CLIENTS`, after every
`SV_TV_WriteFrame` call that writes a frame `prevEntityBitmask` and
`prevPlayerBitmask` are the bitmasks written in that frame, every slot whose
bit is set has as baseline the state that was just encoded, and every slot
whose bit is clear has an all-zero baseline, over all `MAX_GENTITIES` entity
slots and all `MAX_CLIENTS` player slots, those at or above `sv.maxclients`
included. -/
theorem C5_baselines_after_written_frame (L : Limits) (X : Externals) (ops : List RecOp)
    (sv : Server) (h8 : 8 ∣ L.MAX_CLIENTS) (hm : sv.maxclients ≤ L.MAX_CLIENTS)
    (hops : ∀ op ∈ ops, ∀ sv2, op.server = some sv2 → sv2.maxclients = sv.maxclients)
    (hw : writesFrame L X sv (runOps L X ops)) :
    (SV_TV_WriteFrame L X sv (runOps L X ops)).tv.prevEntityBitmask = curEntityBitmask L sv ∧
    (SV_TV_WriteFrame L X sv (runOps L X ops)).tv.prevPlayerBitmask = curPlayerBitmask L sv ∧
    (∀ i, i < L.MAX_GENTITIES →
      (SV_TV_WriteFrame L X sv (runOps L X ops)).tv.prevEntities.getD i entityState_t.zero
        = if bitTest (curEntityBitmask L sv) i then gentityState sv i
          else entityState_t.zero) ∧
    (∀ i, i < L.MAX_CLIENTS →
      (SV_TV_WriteFrame L X sv (runOps L X ops)).tv.prevPlayers.getD i playerState_t.zero
        = if bitTest (curPlayerBitmask L sv) i then gameClientState sv i
          else playerState_t.zero) :=
  written_baselines L X sv (runOps L X ops) h8 hm
    (runOps_slackInv L X sv.maxclients hm ops hops) hw

/-- C5 (amended) at a concrete input: the frame of tick B, written after a recording was
started and tick A was written. -/
theorem C5_baselines_after_written_frame_witness :
    writesFrame tiny toyExternals svB
      (runOps tiny toyExternals [RecOp.startRecord svA [116], RecOp.writeFrame svA]) ∧
    ((SV_TV_WriteFrame tiny toyExternals svB
        (runOps tiny toyExternals [RecOp.startRecord svA [116], RecOp.writeFrame svA])
      ).tv.prevEntityBitmask = curEntityBitmask tiny svB ∧
    (SV_TV_WriteFrame tiny toyExternals svB
        (runOps tiny toyExternals [RecOp.startRecord svA [116], RecOp.writeFrame svA])
      ).tv.prevPlayerBitmask = curPlayerBitmask tiny svB ∧
    (∀ i, i < tiny.MAX_GENTITIES →
      (SV_TV_WriteFrame tiny toyExternals svB
          (runOps tiny toyExternals [RecOp.startRecord svA [116], RecOp.writeFrame svA])
        ).tv.prevEntities.getD i entityState_t.zero
        = if bitTest (curEntityBitmask tiny svB) i then gentityState svB i
          else entityState_t.zero) ∧
    (∀ i, i < tiny.MAX_CLIENTS →
      (SV_TV_WriteFrame tiny toyExternals svB
          (runOps tiny toyExternals [RecOp.startRecord svA [116], RecOp.writeFrame svA])
        ).tv.prevPlayers.getD i playerState_t.zero
        = if bitTest (curPlayerBitmask tiny svB) i then gameClientState svB i
          else playerState_t.zero)) :=
  ⟨by decide,
   C5_baselines_after_written_frame tiny toyExternals
    [RecOp.startRecord svA [116], RecOp.writeFrame svA] svB (by decide) (by decide)
    (by
      intro op hop sv2 h
      simp only [List.mem_cons, List.mem_singleton, List.not_mem_nil, or_false] at hop
      rcases hop with e | e <;> subst e <;> simp only [RecOp.server, Option.some.injEq] at h <;>
        subst h <;> rfl)
    (by decide)⟩

theorem readEntities_untouched (L : Limits) (X : Externals) (fuel : Nat) (m : List Nat)
    (ents ents2 : List entityState_t) (m2 : List Nat)
    (h : readEntities L X fuel m ents = Scan.done ents2 m2) :
    ents2.length = ents.length ∧
    ∀ i, i ∉ decodedEntityNums L X fuel m ents →
      ents2.getD i entityState_t.zero = ents.getD i entityState_t.zero := by
  induction fuel generalizing m ents with
  | zero => simp [readEntities] at h
  | succ k ih =>
    unfold readEntities at h
    unfold decodedEntityNums
    dsimp only at h ⊢
    by_cases h1 : (X.MSG_ReadEntitynum m).1 = (L.MAX_GENTITIES : Int) - 1
    · rw [if_pos h1] at h
      rw [if_pos h1]
      cases h
      exact ⟨rfl, fun _ _ => rfl⟩
    · rw [if_neg h1] at h
      rw [if_neg h1]
      by_cases h2 : (X.MSG_ReadEntitynum m).1 < 0
      · rw [if_pos h2] at h; cases h
      · rw [if_neg h2] at h
        rw [if_neg h2]
        by_cases h3 : (X.MSG_ReadEntitynum m).1 ≥ (L.MAX_GENTITIES : Int) - 1
        · rw [if_pos h3] at h; cases h
        · rw [if_neg h3] at h
          rw [if_neg h3]
          split at h
          · rename_i h4
            rw [if_pos h4]
            obtain ⟨hl, hg⟩ := ih _ _ h
            refine ⟨by rw [hl]; simp, fun i hi => ?_⟩
            simp only [List.mem_cons, not_or] at hi
            rw [hg i hi.2, getD_set_ne _ _ _ _ _ hi.1]
          · rename_i h4
            rw [if_neg h4]
            obtain ⟨hl, hg⟩ := ih _ _ h
            refine ⟨by rw [hl]; simp, fun i hi => ?_⟩
            simp only [List.mem_cons, not_or] at hi
            rw [hg i hi.2, getD_set_ne _ _ _ _ _ hi.1]

theorem readPlayers_untouched (L : Limits) (X : Externals) (mask : List Nat)
    (slots : List Nat) (m : List Nat) (ps ps2 : List playerState_t) (m2 : List Nat)
    (h : readPlayers L X mask slots m ps = Scan.done ps2 m2) :
    ps2.length = ps.length ∧
    ∀ i, i ∉ decodedClientNums L X mask slots m ps →
      ps2.getD i playerState_t.zero = ps.getD i playerState_t.zero := by
  induction slots generalizing m ps with
  | nil =>
    simp only [readPlayers, Scan.done.injEq] at h
    obtain ⟨h1, _⟩ := h
    subst h1
    exact ⟨rfl, fun _ _ => rfl⟩
  | cons a t ih =>
    unfold readPlayers at h
    unfold decodedClientNums
    by_cases hb : (!bitTest mask a) = true
    · rw [if_pos hb] at h
      rw [if_pos hb]
      exact ih _ _ h
    · rw [if_neg hb] at h
      rw [if_neg hb]
      dsimp only at h ⊢
      split at h
      · cases h
      · rename_i hr
        rw [if_neg hr]
        obtain ⟨hl, hg⟩ := ih _ _ h
        refine ⟨by rw [hl]; simp, fun i hi => ?_⟩
        simp only [List.mem_cons, not_or] at hi
        rw [hg i hi.2, getD_set_ne _ _ _ _ _ hi.1]

theorem zeroLeft_length {α : Type} (z : α) (n : Nat) (old new : List Nat) (arr : List α) :
    (zeroLeft z n old new arr).length = arr.length := by
  unfold zeroLeft
  induction n with
  | zero => rfl
  | succ k ih =>
    rw [List.range_succ, List.foldl_append]
    simp only [List.foldl_cons, List.foldl_nil]
    split
    · rw [List.length_set, ih]
    · exact ih

theorem zeroLeft_getD {α : Type} (z : α) (n : Nat) (old new : List Nat) (arr : List α)
    (i : Nat) :
    (zeroLeft z n old new arr).getD i z
      = if i < n ∧ bitTest old i = true ∧ bitTest new i = false then z else arr.getD i z := by
  induction n with
  | zero => simp [zeroLeft]
  | succ k ih =>
    have hlen := zeroLeft_length z k old new arr
    unfold zeroLeft at ih hlen ⊢
    rw [List.range_succ, List.foldl_append]
    simp only [List.foldl_cons, List.foldl_nil]
    by_cases hc : (bitTest old k && !bitTest new k) = true
    · rw [if_pos hc]
      simp only [Bool.and_eq_true, Bool.not_eq_true'] at hc
      by_cases hik : i = k
      · subst hik
        rw [if_pos ⟨by omega, hc.1, hc.2⟩]
        by_cases hl : i < arr.length
        · rw [getD_set_eq _ _ _ _ (by rw [hlen]; exact hl)]
        · simp only [List.getD_eq_getElem?_getD]
          rw [List.getElem?_eq_none (by rw [List.length_set, hlen]; omega)]
          rfl
      · rw [getD_set_ne _ _ _ _ _ hik, ih]
        have : (i < k + 1 ∧ bitTest old i = true ∧ bitTest new i = false)
            ↔ (i < k ∧ bitTest old i = true ∧ bitTest new i = false) := by
          constructor <;> intro h <;> exact ⟨by omega, h.2⟩
        simp only [this]
    · rw [if_neg hc, ih]
      have : (i < k + 1 ∧ bitTest old i = true ∧ bitTest new i = false)
          ↔ (i < k ∧ bitTest old i = true ∧ bitTest new i = false) := by
        constructor
        · intro h
          refine ⟨?_, h.2⟩
          by_contra hx
          have hik : i = k := by omega
          subst hik
          apply hc
          simp [h.2.1, h.2.2]
        · intro h; exact ⟨by omega, h.2⟩
      simp only [this]

theorem pushCommand_running (L : Limits) (tv : tvPlayback_t) (text : List Nat) :
    (pushCommand L tv text).running = tv.running ∧
    (pushCommand L tv text).plain = tv.plain ∧
    (pushCommand L tv text).atEnd = tv.atEnd ∧
    (pushCommand L tv text).seeking = tv.seeking :=
  ⟨rfl, rfl, rfl, rfl⟩

theorem autoViewpoint_running (L : Limits) (X : Externals) (c : Client) :
    (autoViewpoint L X c).tvPlay.running = c.tvPlay.running ∧
    (autoViewpoint L X c).tvPlay.plain = c.tvPlay.plain ∧
    (autoViewpoint L X c).tvPlay.atEnd = c.tvPlay.atEnd := by
  unfold autoViewpoint
  split
  · split
    · exact ⟨rfl, rfl, rfl⟩
    · exact ⟨rfl, rfl, rfl⟩
  · exact ⟨rfl, rfl, rfl⟩

theorem readConfigstrings_running (L : Limits) (X : Externals) (count : Nat) (m : List Nat)
    (c c2 : Client) (m2 : List Nat) (h : readConfigstrings L X count m c = some (c2, m2)) :
    c2.tvPlay.running = c.tvPlay.running ∧ c2.tvPlay.plain = c.tvPlay.plain ∧
    c2.tvPlay.atEnd = c.tvPlay.atEnd := by
  induction count generalizing m c with
  | zero =>
    simp only [readConfigstrings, Option.some.injEq, Prod.mk.injEq] at h
    obtain ⟨h1, _⟩ := h
    subst h1
    exact ⟨rfl, rfl, rfl⟩
  | succ k ih =>
    unfold readConfigstrings at h
    dsimp only at h
    split at h
    · split at h
      · cases h
      · obtain ⟨e1, e2, e3⟩ := ih _ _ h
        dsimp only at e1 e2 e3
        split at e1 <;> split at e2 <;> split at e3 <;> exact ⟨e1, e2, e3⟩
    · exact ih _ _ h

theorem readCommands_running (L : Limits) (X : Externals) (count : Nat) (m : List Nat)
    (tv : tvPlayback_t) :
    (readCommands L X count m tv).1.running = tv.running ∧
    (readCommands L X count m tv).1.plain = tv.plain ∧
    (readCommands L X count m tv).1.atEnd = tv.atEnd := by
  induction count generalizing m tv with
  | zero => exact ⟨rfl, rfl, rfl⟩
  | succ k ih =>
    unfold readCommands
    dsimp only
    obtain ⟨e1, e2, e3⟩ := ih (readLenData L X (X.MSG_ReadShort (X.MSG_ReadByte m).2).2
      (X.MSG_ReadShort (X.MSG_ReadByte m).2).1).2
      (if (!tv.seeking && (decide ((X.MSG_ReadByte m).1 = 255) ||
          decide ((X.MSG_ReadByte m).1 = (tv.viewpoint : Int)))) = true
        then pushCommand L tv (readLenData L X (X.MSG_ReadShort (X.MSG_ReadByte m).2).2
          (X.MSG_ReadShort (X.MSG_ReadByte m).2).1).1 else tv)
    rw [e1, e2, e3]
    split <;> exact ⟨rfl, rfl, rfl⟩

theorem readFrameTail_running (L : Limits) (X : Externals) (c c2 : Client) (m : List Nat)
    (t : Int) (h : readFrameTail L X c m t = some c2) :
    c2.tvPlay.running = c.tvPlay.running ∧ c2.tvPlay.plain = c.tvPlay.plain ∧
    c2.tvPlay.atEnd = c.tvPlay.atEnd := by
  unfold readFrameTail at h
  dsimp only at h
  split at h
  · cases h
  · rename_i c3 m3 hcs
    obtain ⟨a1, a2, a3⟩ := autoViewpoint_running L X c
    obtain ⟨b1, b2, b3⟩ := readConfigstrings_running L X _ _ _ _ _ hcs
    obtain ⟨d1, d2, d3⟩ := readCommands_running L X
      (X.MSG_ReadShort m3).1.toNat (X.MSG_ReadShort m3).2 c3.tvPlay
    simp only [Option.some.injEq] at h
    subst h
    refine ⟨?_, ?_, ?_⟩
    · show (readCommands L X _ _ c3.tvPlay).1.running = _
      rw [d1, b1, a1]
    · show (readCommands L X _ _ c3.tvPlay).1.plain = _
      rw [d2, b2, a2]
    · show (readCommands L X _ _ c3.tvPlay).1.atEnd = _
      rw [d3, b3, a3]

theorem readFrame_complete (L : Limits) (X : Externals) (c c2 : Client)
    (h : CL_TV_ReadFrame L X c = some c2) (hend : c2.tvPlay.atEnd = false) :
    ¬ frameUnreadable L c ∧
    ∃ tv1 m1 tv2 m2,
      readEntitySection L X
        { c.tvPlay with plain := (c.tvPlay.plain.drop 4).drop (le32 (frameSizeBytes c)) }
        (frameAfterTime X c) = Scan.done tv1 m1 ∧
      readPlayerSection L X tv1 m1 = Scan.done tv2 m2 ∧
      readFrameTail L X { c with tvPlay := tv2 } m2 (X.MSG_ReadLong (framePayload c)).1
        = some c2 := by
  unfold CL_TV_ReadFrame at h
  dsimp only at h
  split at h
  · simp only [Option.some.injEq] at h
    subst h
    simp [Client.atEnd] at hend
  · rename_i h1
    split at h
    · simp only [Option.some.injEq] at h
      subst h
      simp [Client.atEnd] at hend
    · rename_i h2
      split at h
      · simp only [Option.some.injEq] at h
        subst h
        simp [Client.atEnd] at hend
      · rename_i h3
        refine ⟨?_, ?_⟩
        · unfold frameUnreadable
          intro hx
          rcases hx with hx | hx | hx | hx
          · exact h1 (Or.inl hx)
          · exact h1 (Or.inr hx)
          · exact h2 hx
          · exact h3 hx
        · split at h
          · simp only [Option.some.injEq] at h
            subst h
            simp [Client.atEnd] at hend
          · rename_i tv1 m1 he
            split at h
            · simp only [Option.some.injEq] at h
              subst h
              simp [Client.atEnd] at hend
            · rename_i tv2 m2 hp
              exact ⟨tv1, m1, tv2, m2, he, hp, h⟩

theorem readFrame_unreadable (L : Limits) (X : Externals) (c : Client)
    (h : frameUnreadable L c) :
    ∃ c2, CL_TV_ReadFrame L X c = some c2 ∧ c2.tvPlay.atEnd = true ∧
      c2.tvPlay.running = c.tvPlay.running := by
  unfold CL_TV_ReadFrame
  dsimp only
  by_cases h1 : (frameSizeBytes c).length ≠ 4 ∨ le32 (frameSizeBytes c) = 0
  · rw [if_pos h1]
    exact ⟨_, rfl, rfl, rfl⟩
  · rw [if_neg h1]
    by_cases h2 : le32 (frameSizeBytes c) > L.TV_PLAY_MSGLEN
    · rw [if_pos h2]
      exact ⟨_, rfl, rfl, rfl⟩
    · rw [if_neg h2]
      by_cases h3 : (framePayload c).length ≠ le32 (frameSizeBytes c)
      · rw [if_pos h3]
        exact ⟨_, rfl, rfl, rfl⟩
      · exfalso
        unfold frameUnreadable at h
        rcases h with hx | hx | hx | hx
        · exact h1 (Or.inl hx)
        · exact h1 (Or.inr hx)
        · exact h2 hx
        · exact h3 hx

theorem readEntitySection_done (L : Limits) (X : Externals) (tv tv1 : tvPlayback_t)
    (m m1 : List Nat) (h : readEntitySection L X tv m = Scan.done tv1 m1) :
    ∃ ents,
      readEntities L X ((X.MSG_ReadData m (L.MAX_GENTITIES / 8)).2.length + 1)
        (X.MSG_ReadData m (L.MAX_GENTITIES / 8)).2 tv.entities = Scan.done ents m1 ∧
      tv1 = { tv with
        entityBitmask := (X.MSG_ReadData m (L.MAX_GENTITIES / 8)).1
        entities := zeroLeft entityState_t.zero L.MAX_GENTITIES tv.entityBitmask
          (X.MSG_ReadData m (L.MAX_GENTITIES / 8)).1 ents } := by
  unfold readEntitySection at h
  dsimp only at h
  split at h
  · cases h
  · rename_i ents m2 he
    simp only [Scan.done.injEq] at h
    obtain ⟨h1, h2⟩ := h
    subst h1 h2
    exact ⟨ents, he, rfl⟩

theorem readPlayerSection_done (L : Limits) (X : Externals) (tv tv1 : tvPlayback_t)
    (m m1 : List Nat) (h : readPlayerSection L X tv m = Scan.done tv1 m1) :
    ∃ ps,
      readPlayers L X (X.MSG_ReadData m (L.MAX_CLIENTS / 8)).1 (List.range L.MAX_CLIENTS)
        (X.MSG_ReadData m (L.MAX_CLIENTS / 8)).2 tv.players = Scan.done ps m1 ∧
      tv1 = { tv with
        playerBitmask := (X.MSG_ReadData m (L.MAX_CLIENTS / 8)).1
        players := zeroLeft playerState_t.zero L.MAX_CLIENTS tv.playerBitmask
          (X.MSG_ReadData m (L.MAX_CLIENTS / 8)).1 ps } := by
  unfold readPlayerSection at h
  dsimp only at h
  split at h
  · cases h
  · rename_i ps m2 he
    simp only [Scan.done.injEq] at h
    obtain ⟨h1, h2⟩ := h
    subst h1 h2
    exact ⟨ps, he, rfl⟩

theorem runningInv_zero (L : Limits) : RunningInv L (tvPlayback_t.zero L) := by
  constructor
  · intro i _ _
    exact getD_replicate_self _ _ _
  · intro i _ _
    exact getD_replicate_self _ _ _

theorem runningInv_of_running (L : Limits) (a b : tvPlayback_t) (h : a.running = b.running)
    (hb : RunningInv L b) : RunningInv L a := by
  unfold tvPlayback_t.running at h
  simp only [Prod.mk.injEq] at h
  obtain ⟨h1, h2, h3, h4⟩ := h
  unfold RunningInv
  rw [h1, h2, h3, h4]
  exact hb

theorem readFrame_keeps_runningInv (L : Limits) (X : Externals) (c c2 : Client)
    (hinv : RunningInv L c.tvPlay) (h : CL_TV_ReadFrame L X c = some c2)
    (hend : c2.tvPlay.atEnd = false) (hnum : frameNumbersInMask L X c) :
    RunningInv L c2.tvPlay := by
  obtain ⟨_, tv1, m1, tv2, m2, he, hp, ht⟩ := readFrame_complete L X c c2 h hend
  obtain ⟨hnumE, hnumP⟩ := hnum
  rw [he] at hnumP
  obtain ⟨ents, hents, htv1⟩ := readEntitySection_done L X _ _ _ _ he
  obtain ⟨ps, hps, htv2⟩ := readPlayerSection_done L X _ _ _ _ hp
  obtain ⟨hrun, _, _⟩ := readFrameTail_running L X _ _ _ _ ht
  apply runningInv_of_running L c2.tvPlay tv2 hrun
  obtain ⟨_, hentsG⟩ := readEntities_untouched L X _ _ _ _ _ hents
  obtain ⟨_, hpsG⟩ := readPlayers_untouched L X _ _ _ _ _ _ hps
  have hpl : tv1.players = c.tvPlay.players := by rw [htv1]
  have hpm : tv1.playerBitmask = c.tvPlay.playerBitmask := by rw [htv1]
  constructor
  · intro i hi hbit
    have e1 : tv2.entities = zeroLeft entityState_t.zero L.MAX_GENTITIES c.tvPlay.entityBitmask
        (X.MSG_ReadData (frameAfterTime X c) (L.MAX_GENTITIES / 8)).1 ents := by
      rw [htv2, htv1]
    have e2 : tv2.entityBitmask
        = (X.MSG_ReadData (frameAfterTime X c) (L.MAX_GENTITIES / 8)).1 := by
      rw [htv2, htv1]
    rw [e2] at hbit
    rw [e1, zeroLeft_getD]
    split
    · rfl
    · rename_i hz
      have hnot : i ∉ decodedEntityNums L X
          ((X.MSG_ReadData (frameAfterTime X c) (L.MAX_GENTITIES / 8)).2.length + 1)
          (X.MSG_ReadData (frameAfterTime X c) (L.MAX_GENTITIES / 8)).2 c.tvPlay.entities := by
        intro hmem
        have := hnumE i hmem
        rw [hbit] at this
        exact Bool.noConfusion this
      rw [hentsG i hnot]
      apply hinv.1 i hi
      by_contra hold
      exact hz ⟨hi, by simpa using hold, hbit⟩
  · intro i hi hbit
    have e1 : tv2.players = zeroLeft playerState_t.zero L.MAX_CLIENTS c.tvPlay.playerBitmask
        (X.MSG_ReadData m1 (L.MAX_CLIENTS / 8)).1 ps := by
      rw [htv2, hpm]
    have e2 : tv2.playerBitmask = (X.MSG_ReadData m1 (L.MAX_CLIENTS / 8)).1 := by
      rw [htv2]
    rw [e2] at hbit
    rw [e1, zeroLeft_getD]
    split
    · rfl
    · rename_i hz
      have hnot : i ∉ decodedClientNums L X (X.MSG_ReadData m1 (L.MAX_CLIENTS / 8)).1
          (List.range L.MAX_CLIENTS) (X.MSG_ReadData m1 (L.MAX_CLIENTS / 8)).2 tv1.players := by
        intro hmem
        have := hnumP i hmem
        rw [hbit] at this
        exact Bool.noConfusion this
      rw [hpsG i hnot, hpl]
      apply hinv.2 i hi
      by_contra hold
      exact hz ⟨hi, by simpa using hold, hbit⟩

/-- C4, counterexample: from the zeroed running state, one call of
`CL_TV_ReadFrame` on a malformed frame (entity bitmask all clear, one delta
for entity 5) decodes the frame completely and leaves `entities[5]` non-zero
while bit 5 of `entityBitmask` is clear. -/
theorem C4_counterexample_malformed_frame :
    clientMalformed.tvPlay.running = (tvPlayback_t.zero tiny).running ∧
    (CL_TV_ReadFrame tiny toyExternals clientMalformed).map
        (fun c => (c.tvPlay.atEnd, bitTest c.tvPlay.entityBitmask 5,
          decide (c.tvPlay.entities.getD 5 entityState_t.zero = entityState_t.zero),
          decide (RunningInv tiny c.tvPlay)))
      = some (false, false, false, false) := by
  decide

/-- C4 (amended): the zeroed running state satisfies the invariant (a slot
whose bit is clear is all-zero, for entities and for players), and a call of
`CL_TV_ReadFrame` keeps it when the call gives up before decoding (short
read, zero or oversized `frameSize`) or decodes the frame completely and
every entity number and client number decoded from the frame has its bit set
in the bitmask of that frame. -/
theorem C4_running_invariant_kept_by_consistent_frames (L : Limits) (X : Externals) :
    RunningInv L (tvPlayback_t.zero L) ∧
    ∀ c c2 : Client, RunningInv L c.tvPlay → CL_TV_ReadFrame L X c = some c2 →
      (frameUnreadable L c ∨ (c2.tvPlay.atEnd = false ∧ frameNumbersInMask L X c)) →
      RunningInv L c2.tvPlay := by
  refine ⟨runningInv_zero L, fun c c2 hinv h hcase => ?_⟩
  rcases hcase with hu | ⟨hend, hnum⟩
  · obtain ⟨c3, h3, _, hrun⟩ := readFrame_unreadable L X c hu
    rw [h] at h3
    cases h3
    exact runningInv_of_running L _ _ hrun hinv
  · exact readFrame_keeps_runningInv L X c c2 hinv h hend hnum

/-- C4 (amended) at a concrete input: the frame of tick A read from the zeroed
state. -/
theorem C4_running_invariant_kept_by_consistent_frames_witness :
    CL_TV_ReadFrame tiny toyExternals clientBeforeA = some clientAfterA ∧
    clientAfterA.tvPlay.atEnd = false ∧
    RunningInv tiny clientAfterA.tvPlay :=
  ⟨by decide, by decide,
   (C4_running_invariant_kept_by_consistent_frames tiny toyExternals).2
    clientBeforeA clientAfterA (by decide) (by decide) (Or.inr ⟨by decide, by decide⟩)⟩

theorem foldl_msgWrite (L : Limits) (chunks : List (List Nat)) (m : msg_t)
    (h : (chunks.foldl (msgWrite L) m).overflowed = false) :
    m.overflowed = false ∧ (chunks.foldl (msgWrite L) m).data = m.data ++ chunks.flatten ∧
    (chunks ≠ [] → (chunks.foldl (msgWrite L) m).data.length ≤ L.MAX_TV_MSGLEN) := by
  induction chunks generalizing m with
  | nil => exact ⟨h, by simp, fun hx => absurd rfl hx⟩
  | cons a t ih =>
    simp only [List.foldl_cons] at h ⊢
    obtain ⟨h1, h2, h3⟩ := ih _ h
    unfold msgWrite at h1 h2 h3
    by_cases hbig : m.data.length + a.length > L.MAX_TV_MSGLEN
    · rw [if_pos hbig] at h1
      exact Bool.noConfusion h1
    · rw [if_neg hbig] at h1 h2 h3
      refine ⟨h1, ?_, fun _ => ?_⟩
      · unfold msgWrite
        rw [if_neg hbig, h2]
        simp
      · unfold msgWrite
        rw [if_neg hbig]
        by_cases ht : t = []
        · subst ht
          simp only [List.foldl_nil, List.length_append]
          omega
        · exact h3 ht

theorem frameMessage_data (L : Limits) (X : Externals) (sv : Server) (tv : tvState_t)
    (h : (frameMessage L X sv tv).overflowed = false) :
    (frameMessage L X sv tv).data = (frameChunks L X sv tv).flatten ∧
    (frameMessage L X sv tv).data.length ≤ L.MAX_TV_MSGLEN := by
  unfold frameMessage at h ⊢
  obtain ⟨_, h2, h3⟩ := foldl_msgWrite L _ _ h
  refine ⟨by simpa using h2, h3 ?_⟩
  simp [frameChunks]

theorem le32_le32Bytes (n : Nat) (h : n < 4294967296) : le32 (le32Bytes n) = n := by
  unfold le32 le32Bytes
  simp only [List.getD_cons_zero, List.getD_cons_succ]
  omega

theorem le32Bytes_length (n : Nat) : (le32Bytes n).length = 4 := rfl

theorem ext_getD {α : Type} (d : α) (a b : List α) (hl : a.length = b.length)
    (h : ∀ i, i < a.length → a.getD i d = b.getD i d) : a = b := by
  apply List.ext_getElem hl
  intro i h1 h2
  have := h i h1
  simp only [List.getD_eq_getElem?_getD, List.getElem?_eq_getElem h1,
    List.getElem?_eq_getElem h2, Option.getD_some] at this
  exact this

theorem readEntities_written (L : Limits) (X : Externals) (hC : CodecRoundTrip L X)
    (prev cur : Nat → entityState_t) (rest : List Nat) (ls : List Nat) :
    ∀ (ents : List entityState_t) (fuel : Nat),
      (∀ i ∈ ls, (i : Int) < (L.MAX_GENTITIES : Int) - 1 ∧ (cur i).number = (i : Int) ∧
        ents.getD i entityState_t.zero = prev i ∧ i < ents.length) →
      (∀ i ∈ ls, X.MSG_WriteDeltaEntity (prev i) (cur i) false = [] → cur i = prev i) →
      ls.Nodup →
      (ls.map (fun i => X.MSG_WriteDeltaEntity (prev i) (cur i) false)).flatten.length + 1
        ≤ fuel →
      ∃ ents2,
        readEntities L X fuel
          ((ls.map (fun i => X.MSG_WriteDeltaEntity (prev i) (cur i) false)).flatten ++
            (X.MSG_WriteBits ((L.MAX_GENTITIES : Int) - 1) L.GENTITYNUM_BITS ++ rest)) ents
          = Scan.done ents2 rest ∧
        ents2.length = ents.length ∧
        ∀ j, ents2.getD j entityState_t.zero
          = if j ∈ ls then cur j else ents.getD j entityState_t.zero := by
  induction ls with
  | nil =>
    intro ents fuel _ _ _ hf
    obtain ⟨k, hk⟩ : ∃ k, fuel = k + 1 := ⟨fuel - 1, by simp at hf; omega⟩
    subst hk
    refine ⟨ents, ?_, rfl, fun j => by simp⟩
    simp only [List.map_nil, List.flatten_nil, List.nil_append]
    unfold readEntities
    dsimp only
    rw [hC.readEndMarker rest]
    simp
  | cons i t ih =>
    intro ents fuel hall hskip hnd hf
    obtain ⟨hi1, hi2, hi3, hi4⟩ := hall i (List.mem_cons_self _ _)
    have hskip2 : ∀ j ∈ t, X.MSG_WriteDeltaEntity (prev j) (cur j) false = [] →
        cur j = prev j := fun j hj => hskip j (List.mem_cons_of_mem _ hj)
    have hnd2 : t.Nodup := (List.nodup_cons.1 hnd).2
    have hit : i ∉ t := (List.nodup_cons.1 hnd).1
    simp only [List.map_cons, List.flatten_cons, List.length_append] at hf ⊢
    by_cases hw : X.MSG_WriteDeltaEntity (prev i) (cur i) false = []
    · have hsame : cur i = prev i := hskip i (List.mem_cons_self _ _) hw
      rw [hw] at hf ⊢
      simp only [List.length_nil, Nat.zero_add, List.nil_append] at hf ⊢
      obtain ⟨ents2, h1, h2, h3⟩ := ih ents fuel
        (fun j hj => hall j (List.mem_cons_of_mem _ hj)) hskip2 hnd2 hf
      refine ⟨ents2, h1, h2, fun j => ?_⟩
      rw [h3 j]
      by_cases hji : j = i
      · subst hji
        simp only [hit, if_false, List.mem_cons, true_or, if_true]
        rw [hi3, hsame]
      · simp [hji]
    · have hpos : 0 < (X.MSG_WriteDeltaEntity (prev i) (cur i) false).length :=
        List.length_pos.2 hw
      obtain ⟨k, hk⟩ : ∃ k, fuel = k + 1 := ⟨fuel - 1, by omega⟩
      subst hk
      obtain ⟨mid, hr1, hr2⟩ := hC.readEntity (prev i) (cur i)
        ((t.map (fun i => X.MSG_WriteDeltaEntity (prev i) (cur i) false)).flatten ++
          (X.MSG_WriteBits ((L.MAX_GENTITIES : Int) - 1) L.GENTITYNUM_BITS ++ rest)) hw
      have hset : ∀ j ∈ t, (j : Int) < (L.MAX_GENTITIES : Int) - 1 ∧
          (cur j).number = (j : Int) ∧
          (ents.set i (cur i)).getD j entityState_t.zero = prev j ∧
          j < (ents.set i (cur i)).length := by
        intro j hj
        obtain ⟨a1, a2, a3, a4⟩ := hall j (List.mem_cons_of_mem _ hj)
        have hji : j ≠ i := fun e => hit (e ▸ hj)
        exact ⟨a1, a2, by rw [getD_set_ne _ _ _ _ _ hji, a3], by simpa using a4⟩
      obtain ⟨ents2, h1, h2, h3⟩ := ih (ents.set i (cur i)) k hset hskip2 hnd2 (by omega)
      refine ⟨ents2, ?_, by rw [h2]; simp, fun j => ?_⟩
      · unfold readEntities
        dsimp only
        rw [List.append_assoc, hr1]
        dsimp only
        rw [hi2]
        have e1 : ¬ ((i : Int) = (L.MAX_GENTITIES : Int) - 1) := by omega
        have e2 : ¬ ((i : Int) < 0) := by omega
        have e3 : ¬ ((i : Int) ≥ (L.MAX_GENTITIES : Int) - 1) := by omega
        rw [if_neg e1, if_neg e2, if_neg e3, Int.toNat_ofNat, hi3, ← hi2, hr2]
        dsimp only
        rw [hi2, if_neg e1]
        exact h1
      · rw [h3 j]
        by_cases hji : j = i
        · subst hji
          simp only [hit, if_false, List.mem_cons, true_or, if_true]
          exact getD_set_eq _ _ _ _ hi4
        · simp only [List.mem_cons, hji, false_or]
          rw [getD_set_ne _ _ _ _ _ hji]

theorem readPlayers_filter (L : Limits) (X : Externals) (mask : List Nat) (slots : List Nat) :
    ∀ (m : List Nat) (ps : List playerState_t),
      readPlayers L X mask slots m ps
        = readPlayers L X mask (slots.filter (fun i => bitTest mask i)) m ps := by
  induction slots with
  | nil => intro m ps; rfl
  | cons a t ih =>
    intro m ps
    by_cases hb : bitTest mask a = true
    · rw [List.filter_cons_of_pos hb]
      unfold readPlayers
      simp only [hb, Bool.not_true, Bool.false_eq_true, if_false]
      split
      · rfl
      · exact ih _ _
    · rw [List.filter_cons_of_neg hb]
      conv_lhs => unfold readPlayers
      simp only [Bool.not_eq_true] at hb
      simp only [hb, Bool.not_false, if_true]
      exact ih _ _

theorem readPlayers_written (L : Limits) (X : Externals) (hC : CodecRoundTrip L X)
    (mask : List Nat) (prev cur : Nat → playerState_t) (rest : List Nat) (ls : List Nat) :
    ∀ (ps : List playerState_t),
      (∀ i ∈ ls, bitTest mask i = true ∧ i < L.MAX_CLIENTS ∧ i < 256 ∧
        ps.getD i playerState_t.zero = prev i ∧ i < ps.length) →
      ls.Nodup →
      ∃ ps2,
        readPlayers L X mask ls
          ((ls.map (fun (i : Nat) => X.MSG_WriteByte (i : Int) ++
              X.MSG_WriteDeltaPlayerstate (prev i) (cur i))).flatten ++ rest) ps
          = Scan.done ps2 rest ∧
        ps2.length = ps.length ∧
        ∀ j, ps2.getD j playerState_t.zero
          = if j ∈ ls then cur j else ps.getD j playerState_t.zero := by
  induction ls with
  | nil =>
    intro ps _ _
    exact ⟨ps, by simp [readPlayers], rfl, fun j => by simp⟩
  | cons i t ih =>
    intro ps hall hnd
    obtain ⟨hi1, hi2, hi3, hi4, hi5⟩ := hall i (List.mem_cons_self _ _)
    have hnd2 : t.Nodup := (List.nodup_cons.1 hnd).2
    have hit : i ∉ t := (List.nodup_cons.1 hnd).1
    have hset : ∀ j ∈ t, bitTest mask j = true ∧ j < L.MAX_CLIENTS ∧ j < 256 ∧
        (ps.set i (cur i)).getD j playerState_t.zero = prev j ∧
        j < (ps.set i (cur i)).length := by
      intro j hj
      obtain ⟨a1, a2, a3, a4, a5⟩ := hall j (List.mem_cons_of_mem _ hj)
      have hji : j ≠ i := fun e => hit (e ▸ hj)
      exact ⟨a1, a2, a3, by rw [getD_set_ne _ _ _ _ _ hji, a4], by simpa using a5⟩
    obtain ⟨ps2, h1, h2, h3⟩ := ih (ps.set i (cur i)) hset hnd2
    refine ⟨ps2, ?_, by rw [h2]; simp, fun j => ?_⟩
    · unfold readPlayers
      simp only [hi1, Bool.not_true, Bool.false_eq_true, if_false, List.map_cons,
        List.flatten_cons, List.append_assoc]
      rw [hC.readByte i _ hi3]
      dsimp only
      have e1 : ¬ ((i : Int) < 0 ∨ (i : Int) ≥ (L.MAX_CLIENTS : Int)) := by omega
      rw [if_neg e1, Int.toNat_ofNat, hi4, hC.readPlayer]
      exact h1
    · rw [h3 j]
      by_cases hji : j = i
      · subst hji
        simp only [hit, if_false, List.mem_cons, true_or, if_true]
        exact getD_set_eq _ _ _ _ hi5
      · simp only [List.mem_cons, hji, false_or]
        rw [getD_set_ne _ _ _ _ _ hji]

theorem filter_range_of_false_beyond (p : Nat → Bool) (m n : Nat) (hmn : m ≤ n)
    (h : ∀ i, m ≤ i → i < n → p i = false) :
    (List.range n).filter p = (List.range m).filter p := by
  induction n with
  | zero =>
    have : m = 0 := by omega
    subst this; rfl
  | succ k ih =>
    by_cases hk : m = k + 1
    · subst hk; rfl
    · rw [List.range_succ, List.filter_append, ih (by omega) (fun i h1 h2 => h i h1 (by omega))]
      have : p k = false := h k (by omega) (by omega)
      simp [this]

theorem flatten_pairs (ls : List Nat) (a b : Nat → List Nat) :
    ((ls.map (fun i => [a i, b i])).flatten).flatten = (ls.map (fun i => a i ++ b i)).flatten := by
  induction ls with
  | nil => rfl
  | cons x t ih =>
    simp only [List.map_cons, List.flatten_cons, List.flatten_append, ih]
    simp

theorem getD_lt_of_all_lt (mask : List Nat) (k : Nat) (h : ∀ x ∈ mask, x < 256) :
    mask.getD k 0 < 256 := by
  by_cases hk : k < mask.length
  · rw [List.getD_eq_getElem _ _ hk]
    exact h _ (List.getElem_mem _)
  · rw [List.getD_eq_default _ _ (by omega)]
    decide

theorem bitSet_bytes_lt (mask : List Nat) (i : Nat) (h : ∀ x ∈ mask, x < 256) :
    ∀ x ∈ bitSet mask i, x < 256 := by
  intro x hx
  unfold bitSet at hx
  rcases List.mem_or_eq_of_mem_set hx with h1 | h1
  · exact h x h1
  · subst h1
    have h2 : mask.getD (i >>> 3) 0 < 2 ^ 8 := getD_lt_of_all_lt mask _ h
    have h3 : 1 <<< (i &&& 7) < 2 ^ 8 := by
      rw [Nat.one_shiftLeft, and_seven]
      exact Nat.pow_lt_pow_right (by decide) (by omega)
    exact Nat.or_lt_two_pow h2 h3

theorem buildMask_bytes_lt (bytes n : Nat) (live : Nat → Bool) :
    ∀ x ∈ buildMask bytes n live, x < 256 := by
  unfold buildMask
  induction n with
  | zero =>
    intro x hx
    simp only [List.range_zero, List.foldl_nil] at hx
    rw [(List.mem_replicate.1 hx).2]
    decide
  | succ k ih =>
    rw [List.range_succ, List.foldl_append]
    simp only [List.foldl_cons, List.foldl_nil]
    split
    · exact bitSet_bytes_lt _ _ ih
    · exact ih

theorem mul_div_eight (n : Nat) (h : 8 ∣ n) : 8 * (n / 8) = n :=
  Nat.mul_div_cancel' h

theorem curEntityBitmask_test (L : Limits) (sv : Server) (h8 : 8 ∣ L.MAX_GENTITIES)
    (hn : sv.num_entities ≤ L.MAX_GENTITIES) (i : Nat) :
    bitTest (curEntityBitmask L sv) i = (decide (i < sv.num_entities) && entityLive sv i) := by
  unfold curEntityBitmask
  exact bitTest_buildMask _ _ _ _ (by rw [mul_div_eight _ h8]; exact hn)

theorem curPlayerBitmask_test (L : Limits) (sv : Server) (h8 : 8 ∣ L.MAX_CLIENTS)
    (hn : sv.maxclients ≤ L.MAX_CLIENTS) (i : Nat) :
    bitTest (curPlayerBitmask L sv) i = (decide (i < sv.maxclients) && clientLive sv i) := by
  unfold curPlayerBitmask
  exact bitTest_buildMask _ _ _ _ (by rw [mul_div_eight _ h8]; exact hn)

theorem entitySection_written (L : Limits) (X : Externals) (hL : LimitsOk L)
    (hC : CodecRoundTrip L X) (sv : Server) (rtv : tvState_t) (tv : tvPlayback_t)
    (rest : List Nat) (ht : TickOk L sv.maxclients sv) (hs : SkipsUnchanged L X sv rtv)
    (hinv : WriterInv L sv.maxclients rtv)
    (he : tv.entities = rtv.prevEntities) (hm : tv.entityBitmask = rtv.prevEntityBitmask) :
    readEntitySection L X tv ((entityChunks L X sv rtv).flatten ++ rest)
      = Scan.done { tv with
          entityBitmask := curEntityBitmask L sv
          entities := (saveBaselines L sv rtv).prevEntities } rest := by
  obtain ⟨h8e, h8c, hc256, _, _, _⟩ := hL
  obtain ⟨_, hmc, hne, _, _, hown⟩ := ht
  obtain ⟨⟨hle, hlp, _⟩, hze, _⟩ := hinv
  have hmlen : (curEntityBitmask L sv).length = L.MAX_GENTITIES / 8 := buildMask_length _ _ _
  have hsplit : (entityChunks L X sv rtv).flatten ++ rest
      = X.MSG_WriteData (curEntityBitmask L sv) ++
        ((((List.range L.MAX_GENTITIES).filter
            (fun i => bitTest (curEntityBitmask L sv) i)).map
          (fun i => X.MSG_WriteDeltaEntity (rtv.prevEntities.getD i entityState_t.zero)
            (gentityState sv i) false)).flatten ++
         (X.MSG_WriteBits ((L.MAX_GENTITIES : Int) - 1) L.GENTITYNUM_BITS ++ rest)) := by
    simp [entityChunks]
  have hrd := hC.readData (curEntityBitmask L sv)
    ((((List.range L.MAX_GENTITIES).filter
            (fun i => bitTest (curEntityBitmask L sv) i)).map
          (fun i => X.MSG_WriteDeltaEntity (rtv.prevEntities.getD i entityState_t.zero)
            (gentityState sv i) false)).flatten ++
         (X.MSG_WriteBits ((L.MAX_GENTITIES : Int) - 1) L.GENTITYNUM_BITS ++ rest))
    (buildMask_bytes_lt _ _ _)
  rw [hmlen] at hrd
  have hall : ∀ i ∈ (List.range L.MAX_GENTITIES).filter
      (fun i => bitTest (curEntityBitmask L sv) i),
      (i : Int) < (L.MAX_GENTITIES : Int) - 1 ∧ (gentityState sv i).number = (i : Int) ∧
        tv.entities.getD i entityState_t.zero = rtv.prevEntities.getD i entityState_t.zero ∧
        i < tv.entities.length := by
    intro i hi
    simp only [List.mem_filter, List.mem_range] at hi
    have hb := hi.2
    rw [curEntityBitmask_test L sv h8e (by omega)] at hb
    simp only [Bool.and_eq_true, decide_eq_true_eq] at hb
    refine ⟨by omega, hown i hi.1 hi.2, by rw [he], by rw [he, hle]; exact hi.1⟩
  obtain ⟨ents2, hr, hl2, hg2⟩ := readEntities_written L X hC
    (fun i => rtv.prevEntities.getD i entityState_t.zero) (gentityState sv) rest
    ((List.range L.MAX_GENTITIES).filter (fun i => bitTest (curEntityBitmask L sv) i))
    tv.entities
    (((((List.range L.MAX_GENTITIES).filter
            (fun i => bitTest (curEntityBitmask L sv) i)).map
          (fun i => X.MSG_WriteDeltaEntity (rtv.prevEntities.getD i entityState_t.zero)
            (gentityState sv i) false)).flatten ++
         (X.MSG_WriteBits ((L.MAX_GENTITIES : Int) - 1) L.GENTITYNUM_BITS ++ rest)).length + 1)
    hall
    (fun i hi => by
      simp only [List.mem_filter, List.mem_range] at hi
      exact hs i hi.1 hi.2)
    ((List.nodup_range _).filter _) (by simp only [List.length_append]; omega)
  unfold readEntitySection
  dsimp only
  rw [hsplit, hrd]
  dsimp only
  rw [hr]
  dsimp only
  congr 1
  have hfinal : zeroLeft entityState_t.zero L.MAX_GENTITIES tv.entityBitmask
      (curEntityBitmask L sv) ents2 = (saveBaselines L sv rtv).prevEntities := by
    apply ext_getD entityState_t.zero
    · rw [zeroLeft_length, hl2, he, (saveBaselines_lengths L sv rtv).1]
    · intro i hi
      rw [zeroLeft_length, hl2, he, hle] at hi
      rw [zeroLeft_getD, hg2 i, saveBaselines_entities L sv rtv i hle hi]
      by_cases hnew : bitTest (curEntityBitmask L sv) i = true
      · have hmem : i ∈ (List.range L.MAX_GENTITIES).filter
            (fun i => bitTest (curEntityBitmask L sv) i) := by
          simp only [List.mem_filter, List.mem_range]
          exact ⟨hi, hnew⟩
        rw [if_neg (by rw [hnew]; simp), if_pos hmem, if_pos hnew]
      · have hmem : i ∉ (List.range L.MAX_GENTITIES).filter
            (fun i => bitTest (curEntityBitmask L sv) i) := by
          simp only [List.mem_filter, List.mem_range]
          exact fun h => hnew h.2
        rw [if_neg hmem, if_neg hnew]
        split
        · rfl
        · rename_i hz
          rw [he]
          apply hze i hi
          rw [← hm]
          by_contra hold
          apply hz
          exact ⟨hi, by simpa using hold, by simpa using hnew⟩
  rw [hfinal]

theorem playerSection_written (L : Limits) (X : Externals) (hL : LimitsOk L)
    (hC : CodecRoundTrip L X) (sv : Server) (rtv : tvState_t) (tv : tvPlayback_t)
    (rest : List Nat) (ht : TickOk L sv.maxclients sv) (hinv : WriterInv L sv.maxclients rtv)
    (he : tv.players = rtv.prevPlayers) (hm : tv.playerBitmask = rtv.prevPlayerBitmask) :
    readPlayerSection L X tv ((playerChunks L X sv rtv).flatten ++ rest)
      = Scan.done { tv with
          playerBitmask := curPlayerBitmask L sv
          players := (saveBaselines L sv rtv).prevPlayers } rest := by
  obtain ⟨h8e, h8c, hc256, _, _, _⟩ := hL
  obtain ⟨_, hmc, hne, _, _, hown⟩ := ht
  obtain ⟨⟨hle, hlp, hslack⟩, _, hzp⟩ := hinv
  have hmlen : (curPlayerBitmask L sv).length = L.MAX_CLIENTS / 8 := buildMask_length _ _ _
  have hbeyond : ∀ i, sv.maxclients ≤ i → bitTest (curPlayerBitmask L sv) i = false := by
    intro i hi
    rw [curPlayerBitmask_test L sv h8c hmc]
    simp only [Bool.and_eq_false_imp, decide_eq_true_eq]
    intro hx; omega
  have hfilter : (List.range L.MAX_CLIENTS).filter (fun i => bitTest (curPlayerBitmask L sv) i)
      = (List.range sv.maxclients).filter (fun i => bitTest (curPlayerBitmask L sv) i) :=
    filter_range_of_false_beyond _ _ _ hmc (fun i h1 _ => hbeyond i h1)
  have hsplit : (playerChunks L X sv rtv).flatten ++ rest
      = X.MSG_WriteData (curPlayerBitmask L sv) ++
        ((((List.range sv.maxclients).filter
            (fun i => bitTest (curPlayerBitmask L sv) i)).map
          (fun (i : Nat) => X.MSG_WriteByte (i : Int) ++
            X.MSG_WriteDeltaPlayerstate (rtv.prevPlayers.getD i playerState_t.zero)
              (gameClientState sv i))).flatten ++ rest) := by
    unfold playerChunks
    rw [List.flatten_append, flatten_pairs]
    simp
  have hrd := hC.readData (curPlayerBitmask L sv)
    ((((List.range sv.maxclients).filter
            (fun i => bitTest (curPlayerBitmask L sv) i)).map
          (fun (i : Nat) => X.MSG_WriteByte (i : Int) ++
            X.MSG_WriteDeltaPlayerstate (rtv.prevPlayers.getD i playerState_t.zero)
              (gameClientState sv i))).flatten ++ rest)
    (buildMask_bytes_lt _ _ _)
  rw [hmlen] at hrd
  have hall : ∀ i ∈ (List.range sv.maxclients).filter
      (fun i => bitTest (curPlayerBitmask L sv) i),
      bitTest (curPlayerBitmask L sv) i = true ∧ i < L.MAX_CLIENTS ∧ i < 256 ∧
        tv.players.getD i playerState_t.zero = rtv.prevPlayers.getD i playerState_t.zero ∧
        i < tv.players.length := by
    intro i hi
    simp only [List.mem_filter, List.mem_range] at hi
    refine ⟨hi.2, by omega, by omega, by rw [he], by rw [he, hlp]; omega⟩
  obtain ⟨ps2, hr, hl2, hg2⟩ := readPlayers_written L X hC (curPlayerBitmask L sv)
    (fun i => rtv.prevPlayers.getD i playerState_t.zero) (gameClientState sv) rest
    ((List.range sv.maxclients).filter (fun i => bitTest (curPlayerBitmask L sv) i))
    tv.players hall ((List.nodup_range _).filter _)
  unfold readPlayerSection
  dsimp only
  rw [hsplit, hrd]
  dsimp only
  rw [readPlayers_filter, hfilter, hr]
  dsimp only
  congr 1
  have hfinal : zeroLeft playerState_t.zero L.MAX_CLIENTS tv.playerBitmask
      (curPlayerBitmask L sv) ps2 = (saveBaselines L sv rtv).prevPlayers := by
    apply ext_getD playerState_t.zero
    · rw [zeroLeft_length, hl2, he, (saveBaselines_lengths L sv rtv).2]
    · intro i hi
      rw [zeroLeft_length, hl2, he, hlp] at hi
      rw [zeroLeft_getD, hg2 i, saveBaselines_players L sv rtv i hlp hmc]
      by_cases hnew : bitTest (curPlayerBitmask L sv) i = true
      · have hlt : i < sv.maxclients := by
          by_contra hx
          rw [hbeyond i (by omega)] at hnew
          exact Bool.noConfusion hnew
        have hmem : i ∈ (List.range sv.maxclients).filter
            (fun i => bitTest (curPlayerBitmask L sv) i) := by
          simp only [List.mem_filter, List.mem_range]
          exact ⟨hlt, hnew⟩
        rw [if_neg (by rw [hnew]; simp), if_pos hmem, if_pos hlt, if_pos hnew]
      · have hmem : i ∉ (List.range sv.maxclients).filter
            (fun i => bitTest (curPlayerBitmask L sv) i) := by
          simp only [List.mem_filter, List.mem_range]
          exact fun h => hnew h.2
        rw [if_neg hmem]
        have hgoal : (if i < sv.maxclients then
            (if bitTest (curPlayerBitmask L sv) i = true then gameClientState sv i
             else playerState_t.zero)
            else rtv.prevPlayers.getD i playerState_t.zero) = playerState_t.zero := by
          by_cases hlt : i < sv.maxclients
          · rw [if_pos hlt, if_neg hnew]
          · rw [if_neg hlt]
            exact hslack i (by omega)
        rw [hgoal]
        split
        · rfl
        · rename_i hz
          rw [he]
          apply hzp i hi
          rw [← hm]
          by_contra hold
          apply hz
          exact ⟨hi, by simpa using hold, by simpa using hnew⟩
  rw [hfinal]

theorem endMarker_ne_nil (L : Limits) (X : Externals) (hC : CodecRoundTrip L X)
    (h0 : 0 < L.MAX_GENTITIES) :
    X.MSG_WriteBits ((L.MAX_GENTITIES : Int) - 1) L.GENTITYNUM_BITS ≠ [] := by
  intro h
  have h1 := hC.readEndMarker []
  rw [h] at h1
  have h2 := X.MSG_ReadEntitynum_progress []
  simp only [List.append_nil] at h1
  rw [h1] at h2
  simp only [List.length_nil, Nat.lt_irrefl, or_false] at h2
  omega

theorem frameChunks_flatten (L : Limits) (X : Externals) (sv : Server) (tv : tvState_t) :
    (frameChunks L X sv tv).flatten
      = X.MSG_WriteLong sv.time ++ ((entityChunks L X sv tv).flatten ++
          ((playerChunks L X sv tv).flatten ++
            (configstringChunks L X sv tv ++ commandChunks X tv).flatten)) := by
  simp [frameChunks]

theorem frameChunks_length_pos (L : Limits) (X : Externals) (hC : CodecRoundTrip L X)
    (h0 : 0 < L.MAX_GENTITIES) (sv : Server) (tv : tvState_t) :
    0 < (frameChunks L X sv tv).flatten.length := by
  have := List.length_pos.2 (endMarker_ne_nil L X hC h0)
  rw [frameChunks_flatten]
  simp only [entityChunks, List.flatten_append, List.length_append, List.flatten_cons,
    List.flatten_nil, List.append_nil]
  omega

theorem readFrame_of_written (L : Limits) (X : Externals) (hL : LimitsOk L)
    (hC : CodecRoundTrip L X) (sv : Server) (r : Recorder) (c : Client) (tail : List Nat)
    (hw : writesFrame L X sv r) (ht : TickOk L sv.maxclients sv)
    (hs : SkipsUnchanged L X sv r.tv)
    (hinv : WriterInv L sv.maxclients r.tv) (hmatch : c.tvPlay.running = r.tv.baselines)
    (hplain : c.tvPlay.plain = le32Bytes (frameMessage L X sv r.tv).data.length ++
      (frameMessage L X sv r.tv).data ++ tail) :
    CL_TV_ReadFrame L X c = none ∨
    ∃ c2, CL_TV_ReadFrame L X c = some c2 ∧
      c2.tvPlay.running = (SV_TV_WriteFrame L X sv r).tv.baselines ∧
      c2.tvPlay.plain = tail ∧ c2.tvPlay.atEnd = c.tvPlay.atEnd := by
  obtain ⟨hdata, hdlen⟩ := frameMessage_data L X sv r.tv hw.2.2
  have hLc := hL
  obtain ⟨_, _, _, hbuf, h32, h0⟩ := hLc
  have hpos : 0 < (frameMessage L X sv r.tv).data.length := by
    rw [hdata]; exact frameChunks_length_pos L X hC h0 sv r.tv
  have hsz : frameSizeBytes c = le32Bytes (frameMessage L X sv r.tv).data.length := by
    unfold frameSizeBytes
    rw [hplain, List.append_assoc]
    exact List.take_left' (le32Bytes_length _)
  have hle : le32 (frameSizeBytes c) = (frameMessage L X sv r.tv).data.length := by
    rw [hsz]; exact le32_le32Bytes _ (by omega)
  have hdrop : c.tvPlay.plain.drop 4 = (frameMessage L X sv r.tv).data ++ tail := by
    rw [hplain, List.append_assoc]
    exact List.drop_left' (le32Bytes_length _)
  have hpay : framePayload c = (frameMessage L X sv r.tv).data := by
    unfold framePayload
    rw [hle, hdrop]
    exact List.take_left' rfl
  have hrun := hmatch
  unfold tvPlayback_t.running tvState_t.baselines at hrun
  simp only [Prod.mk.injEq] at hrun
  obtain ⟨r1, r2, r3, r4⟩ := hrun
  have hE := entitySection_written L X hL hC sv r.tv
    { c.tvPlay with plain := (c.tvPlay.plain.drop 4).drop (le32 (frameSizeBytes c)) }
    ((playerChunks L X sv r.tv).flatten ++
      (configstringChunks L X sv r.tv ++ commandChunks X r.tv).flatten) ht hs hinv r1 r2
  have hP := playerSection_written L X hL hC sv r.tv
    { c.tvPlay with
        plain := (c.tvPlay.plain.drop 4).drop (le32 (frameSizeBytes c))
        entityBitmask := curEntityBitmask L sv
        entities := (saveBaselines L sv r.tv).prevEntities }
    ((configstringChunks L X sv r.tv ++ commandChunks X r.tv).flatten) ht hinv r3 r4
  obtain ⟨w1, w2, w3, w4⟩ := writeFrame_written L X sv r hw
  have hread : CL_TV_ReadFrame L X c
      = readFrameTail L X
          { c with tvPlay :=
            { c.tvPlay with
              plain := (c.tvPlay.plain.drop 4).drop (le32 (frameSizeBytes c))
              entityBitmask := curEntityBitmask L sv
              entities := (saveBaselines L sv r.tv).prevEntities
              playerBitmask := curPlayerBitmask L sv
              players := (saveBaselines L sv r.tv).prevPlayers } }
          ((configstringChunks L X sv r.tv ++ commandChunks X r.tv).flatten) sv.time := by
    unfold CL_TV_ReadFrame
    dsimp only
    have hc1 : ¬ ((frameSizeBytes c).length ≠ 4 ∨ le32 (frameSizeBytes c) = 0) := by
      intro h
      rcases h with h | h
      · rw [hsz] at h; exact h rfl
      · rw [hle] at h; omega
    rw [if_neg hc1, if_neg (by rw [hle]; omega), if_neg (by rw [hpay, hle]; simp)]
    rw [hpay, hdata, frameChunks_flatten, hC.readLong _ _ ht.2.2.2.1 ht.2.2.2.2.1]
    dsimp only
    rw [hE]
    dsimp only
    rw [hP]
  rw [hread]
  cases htail : readFrameTail L X
          { c with tvPlay :=
            { c.tvPlay with
              plain := (c.tvPlay.plain.drop 4).drop (le32 (frameSizeBytes c))
              entityBitmask := curEntityBitmask L sv
              entities := (saveBaselines L sv r.tv).prevEntities
              playerBitmask := curPlayerBitmask L sv
              players := (saveBaselines L sv r.tv).prevPlayers } }
          ((configstringChunks L X sv r.tv ++ commandChunks X r.tv).flatten) sv.time with
  | none => exact Or.inl rfl
  | some c2 =>
    right
    obtain ⟨t1, t2, t3⟩ := readFrameTail_running L X _ _ _ _ htail
    refine ⟨c2, rfl, ?_, ?_, ?_⟩
    · rw [t1]
      unfold tvPlayback_t.running tvState_t.baselines
      dsimp only
      rw [w1, w2, w3, w4]
    · rw [t2]
      dsimp only
      rw [hle, hdrop]
      exact List.drop_left' rfl
    · rw [t3]

theorem writerInv_of_zero (L : Limits) (m : Nat) (tv : tvState_t)
    (h : tv.baselines = (tvState_t.zero L).baselines) : WriterInv L m tv := by
  unfold tvState_t.baselines at h
  simp only [Prod.mk.injEq] at h
  obtain ⟨h1, _, h3, _⟩ := h
  refine ⟨slackInv_zero L m tv h1 h3, fun i _ _ => ?_, fun i _ _ => ?_⟩
  · rw [h1]; exact getD_replicate_self _ _ _
  · rw [h3]; exact getD_replicate_self _ _ _

theorem writeFrame_writerInv (L : Limits) (X : Externals) (hL : LimitsOk L) (sv : Server)
    (r : Recorder) (hw : writesFrame L X sv r) (ht : TickOk L sv.maxclients sv)
    (hinv : WriterInv L sv.maxclients r.tv) :
    WriterInv L sv.maxclients (SV_TV_WriteFrame L X sv r).tv := by
  obtain ⟨_, h8c, _, _, _, _⟩ := hL
  obtain ⟨b1, b2, b3, b4⟩ := written_baselines L X sv r h8c ht.2.1 hinv.1 hw
  refine ⟨writeFrame_slackInv L X sv r ht.2.1 hinv.1, fun i hi hb => ?_, fun i hi hb => ?_⟩
  · rw [b1] at hb
    rw [b3 i hi, if_neg (by rw [hb]; simp)]
  · rw [b2] at hb
    rw [b4 i hi, if_neg (by rw [hb]; simp)]

theorem writeFrame_fs (L : Limits) (X : Externals) (sv : Server) (r : Recorder)
    (h : writesFrame L X sv r) :
    (SV_TV_WriteFrame L X sv r).fs
      = r.fs ++ [FsOp.write (le32Bytes (frameMessage L X sv r.tv).data.length),
          FsOp.write (frameMessage L X sv r.tv).data] := by
  obtain ⟨h1, h2, h3⟩ := h
  have h3' : (frameMessage L X sv
      { r.tv with
        hadHuman := r.tv.hadHuman || humanPresent sv
        firstServerTime := if r.tv.frameCount = 0 then sv.time else r.tv.firstServerTime
        lastServerTime := sv.time }).overflowed = false := h3
  unfold SV_TV_WriteFrame
  rw [if_neg (by rw [h1]; simp), if_neg (by rw [h2]; simp)]
  dsimp only
  rw [if_neg (by rw [h3']; simp)]
  show (r.fs ++ [FsOp.write _]) ++ [FsOp.write _] = _
  rw [List.append_assoc]
  rfl

theorem configstringChanged_same (L : Limits) (r : Recorder) (i : Int) :
    (SV_TV_ConfigstringChanged L r i).fs = r.fs ∧
    (SV_TV_ConfigstringChanged L r i).tv.baselines = r.tv.baselines ∧
    (SV_TV_ConfigstringChanged L r i).tv.prevEntities = r.tv.prevEntities ∧
    (SV_TV_ConfigstringChanged L r i).tv.prevPlayers = r.tv.prevPlayers := by
  unfold SV_TV_ConfigstringChanged
  split <;> exact ⟨rfl, rfl, rfl, rfl⟩

theorem captureServerCommand_same (L : Limits) (r : Recorder) (tg : Int) (cmd : List Nat) :
    (SV_TV_CaptureServerCommand L r tg cmd).fs = r.fs ∧
    (SV_TV_CaptureServerCommand L r tg cmd).tv.baselines = r.tv.baselines ∧
    (SV_TV_CaptureServerCommand L r tg cmd).tv.prevEntities = r.tv.prevEntities ∧
    (SV_TV_CaptureServerCommand L r tg cmd).tv.prevPlayers = r.tv.prevPlayers := by
  unfold SV_TV_CaptureServerCommand
  split
  · exact ⟨rfl, rfl, rfl, rfl⟩
  · dsimp only
    split <;> exact ⟨rfl, rfl, rfl, rfl⟩

theorem writerInv_of_baselines (L : Limits) (m : Nat) (a b : tvState_t)
    (h : a.baselines = b.baselines) (hb : WriterInv L m b) : WriterInv L m a := by
  unfold tvState_t.baselines at h
  simp only [Prod.mk.injEq] at h
  obtain ⟨h1, h2, h3, h4⟩ := h
  unfold WriterInv SlackInv
  rw [h1, h2, h3, h4]
  exact hb

theorem goodRun_fs_prefix (L : Limits) (X : Externals) (m : Nat) (ops : List RecOp) :
    ∀ r : Recorder, GoodRun L X m r ops →
      ∃ ext, (ops.foldl (RecOp.apply L X) r).fs = r.fs ++ ext := by
  induction ops with
  | nil => intro r _; exact ⟨[], by simp⟩
  | cons op t ih =>
    intro r h
    cases op with
    | writeFrame sv =>
      obtain ⟨⟨hw, _⟩, hrest⟩ := h
      obtain ⟨ext, he⟩ := ih _ hrest
      refine ⟨[FsOp.write (le32Bytes (frameMessage L X sv r.tv).data.length),
          FsOp.write (frameMessage L X sv r.tv).data] ++ ext, ?_⟩
      simp only [List.foldl_cons, RecOp.apply]
      rw [he, writeFrame_fs L X sv r hw, List.append_assoc]
    | configstringChanged i =>
      obtain ⟨ext, he⟩ := ih _ h
      refine ⟨ext, ?_⟩
      simp only [List.foldl_cons, RecOp.apply]
      rw [he, (configstringChanged_same L r i).1]
    | captureServerCommand tg cmd =>
      obtain ⟨ext, he⟩ := ih _ h
      refine ⟨ext, ?_⟩
      simp only [List.foldl_cons, RecOp.apply]
      rw [he, (captureServerCommand_same L r tg cmd).1]
    | autoStart sv => exact absurd h (by simp [GoodRun])
    | startRecord sv f => exact absurd h (by simp [GoodRun])
    | stopRecord d => exact absurd h (by simp [GoodRun])

theorem writtenBytes_append (a b : List FsOp) :
    writtenBytes (a ++ b) = writtenBytes a ++ writtenBytes b := by
  induction a with
  | nil => rfl
  | cons x t ih =>
    cases x <;> simp [writtenBytes, ih]

theorem readFrames_of_goodRun (L : Limits) (X : Externals) (hL : LimitsOk L)
    (hC : CodecRoundTrip L X) (m : Nat) (ops : List RecOp) :
    ∀ (r : Recorder) (c : Client) (tail : List Nat),
      GoodRun L X m r ops → WriterInv L m r.tv → c.tvPlay.running = r.tv.baselines →
      c.tvPlay.plain
        = writtenBytes ((ops.foldl (RecOp.apply L X) r).fs.drop r.fs.length) ++ tail →
      readFrames L X (countFrames ops) c = none ∨
      ∃ c2, readFrames L X (countFrames ops) c = some c2 ∧
        c2.tvPlay.running = (ops.foldl (RecOp.apply L X) r).tv.baselines ∧
        c2.tvPlay.plain = tail ∧ c2.tvPlay.atEnd = c.tvPlay.atEnd := by
  induction ops with
  | nil =>
    intro r c tail _ _ hm hp
    right
    refine ⟨c, rfl, hm, ?_, rfl⟩
    simpa [writtenBytes] using hp
  | cons op t ih =>
    intro r c tail hg hinv hm hp
    cases op with
    | writeFrame sv =>
      obtain ⟨⟨hw, ht, hs⟩, hrest⟩ := hg
      have hmc : sv.maxclients = m := ht.1
      subst hmc
      obtain ⟨ext, he⟩ := goodRun_fs_prefix L X _ t _ hrest
      have hfs := writeFrame_fs L X sv r hw
      simp only [List.foldl_cons, RecOp.apply] at hp ⊢
      have hp2 : c.tvPlay.plain = le32Bytes (frameMessage L X sv r.tv).data.length ++
          (frameMessage L X sv r.tv).data ++ (writtenBytes ext ++ tail) := by
        rw [hp, he, hfs, List.append_assoc, List.drop_left' rfl, writtenBytes_append]
        simp [writtenBytes]
      rcases readFrame_of_written L X hL hC sv r c _ hw ht hs hinv hm hp2
        with h1 | ⟨c2, h1, h2, h3, h4⟩
      · left
        simp only [countFrames, readFrames, h1]
      · have hp3 : c2.tvPlay.plain
            = writtenBytes ((t.foldl (RecOp.apply L X) (SV_TV_WriteFrame L X sv r)).fs.drop
                (SV_TV_WriteFrame L X sv r).fs.length) ++ tail := by
          rw [h3, he, List.drop_left' rfl]
        rcases ih _ c2 tail hrest (writeFrame_writerInv L X hL sv r hw ht hinv) h2 hp3
          with g1 | ⟨c3, g1, g2, g3, g4⟩
        · left
          simp only [countFrames, readFrames, h1, g1]
        · right
          refine ⟨c3, ?_, g2, g3, by rw [g4, h4]⟩
          simp only [countFrames, readFrames, h1, g1]
    | configstringChanged i =>
      obtain ⟨e1, e2, _, _⟩ := configstringChanged_same L r i
      simp only [List.foldl_cons, RecOp.apply, countFrames] at hp ⊢
      exact ih _ c tail hg (writerInv_of_baselines L m _ _ e2 hinv) (by rw [hm, e2])
        (by rw [hp, e1])
    | captureServerCommand tg cmd =>
      obtain ⟨e1, e2, _, _⟩ := captureServerCommand_same L r tg cmd
      simp only [List.foldl_cons, RecOp.apply, countFrames] at hp ⊢
      exact ih _ c tail hg (writerInv_of_baselines L m _ _ e2 hinv) (by rw [hm, e2])
        (by rw [hp, e1])
    | autoStart sv => exact absurd hg (by simp [GoodRun])
    | startRecord sv f => exact absurd hg (by simp [GoodRun])
    | stopRecord d => exact absurd hg (by simp [GoodRun])

theorem goodRun_append (L : Limits) (X : Externals) (m : Nat) (a b : List RecOp) :
    ∀ r : Recorder, GoodRun L X m r (a ++ b) →
      GoodRun L X m r a ∧ GoodRun L X m (a.foldl (RecOp.apply L X) r) b := by
  induction a with
  | nil => intro r h; exact ⟨trivial, h⟩
  | cons op t ih =>
    intro r h
    cases op with
    | writeFrame sv =>
      obtain ⟨h1, h2⟩ := h
      obtain ⟨g1, g2⟩ := ih _ h2
      exact ⟨⟨h1, g1⟩, g2⟩
    | configstringChanged i => exact ih _ h
    | captureServerCommand tg cmd => exact ih _ h
    | autoStart sv => exact absurd h (by simp [GoodRun])
    | startRecord sv f => exact absurd h (by simp [GoodRun])
    | stopRecord d => exact absurd h (by simp [GoodRun])

theorem toyDecInt_toyEncInt (v : Int) : toyDecInt (toyEncInt v) = v := by
  unfold toyDecInt toyEncInt
  by_cases h : 0 ≤ v
  · rw [if_pos h]
    have h1 : 2 * v.toNat % 2 = 0 := by omega
    rw [if_pos h1]
    have h2 : 2 * v.toNat / 2 = v.toNat := by omega
    rw [h2]
    omega
  · rw [if_neg h]
    have h1 : ¬ ((2 * (-v).toNat - 1) % 2 = 0) := by omega
    rw [if_neg h1]
    have h2 : (2 * (-v).toNat - 1 + 1) / 2 = (-v).toNat := by omega
    rw [h2]
    omega

theorem memRead_append_left (b rest : List Nat) : memRead (b ++ rest) b.length = b := by
  induction b with
  | nil => rfl
  | cons a t ih => rw [List.cons_append, List.length_cons, memRead_cons, ih]

theorem toy_roundTrip (L : Limits) : CodecRoundTrip L toyExternals where
  readLong := fun v rest _ _ => by
    show toyReadInt 0 ([toyEncInt v] ++ rest) = (v, rest)
    simp [toyReadInt, toyDecInt_toyEncInt]
  readData := fun b rest _ => by
    show (memRead (b ++ rest) b.length, (b ++ rest).drop b.length) = (b, rest)
    rw [memRead_append_left, List.drop_left]
  readEndMarker := fun rest => by
    show toyReadInt (-1) ([toyEncInt _] ++ rest) = (_, rest)
    simp [toyReadInt, toyDecInt_toyEncInt]
  readEntity := fun b e rest h => by
    have h2 : toyWriteDeltaEntity b e false ≠ [] := h
    have h3 : toyWriteDeltaEntity b e false
        = [toyEncInt e.number, toyEncInt e.eType, toyEncInt e.otherEntityNum,
            toyEncInt e.powerups, e.trBase.x, e.trBase.y, e.trBase.z, e.rest] := by
      unfold toyWriteDeltaEntity at h2 ⊢
      split
      · rename_i hc; rw [if_pos hc] at h2; exact absurd rfl h2
      · rfl
    refine ⟨[toyEncInt e.eType, toyEncInt e.otherEntityNum, toyEncInt e.powerups,
      e.trBase.x, e.trBase.y, e.trBase.z, e.rest] ++ rest, ?_, ?_⟩
    · show toyReadInt (-1) (toyWriteDeltaEntity b e false ++ rest) = _
      rw [h3]
      simp [toyReadInt, toyDecInt_toyEncInt]
    · show toyReadDeltaEntity ([toyEncInt e.eType, toyEncInt e.otherEntityNum,
        toyEncInt e.powerups, e.trBase.x, e.trBase.y, e.trBase.z, e.rest] ++ rest)
        b e.number = (e, rest)
      simp [toyReadDeltaEntity, toyDecInt_toyEncInt]
  readByte := fun i rest _ => by
    show toyReadInt 0 ([toyEncInt (i : Int)] ++ rest) = ((i : Int), rest)
    simp [toyReadInt, toyDecInt_toyEncInt]
  readPlayer := fun b p rest => by
    show toyReadDeltaPlayerstate (toyWriteDeltaPlayerstate b p ++ rest) b = (p, rest)
    unfold toyWriteDeltaPlayerstate toyReadDeltaPlayerstate
    have hid : (toyDecInt ∘ toyEncInt) = id := by
      funext v; exact toyDecInt_toyEncInt v
    have hlen : p.persistant.length = (p.persistant.map toyEncInt).length := by simp
    simp only [List.cons_append, List.nil_append, List.append_assoc]
    rw [hlen, List.take_left, List.drop_left, List.map_map, hid, List.map_id,
      toyDecInt_toyEncInt]

theorem netfield_roundTrip (L : Limits) : CodecRoundTrip L netfieldExternals where
  readLong := (toy_roundTrip L).readLong
  readData := (toy_roundTrip L).readData
  readEndMarker := (toy_roundTrip L).readEndMarker
  readEntity := fun b e rest h => by
    have h3 : netfieldExternals.MSG_WriteDeltaEntity b e false
        = [toyEncInt e.number, toyEncInt e.eType, toyEncInt e.otherEntityNum,
            toyEncInt e.powerups, e.trBase.x, e.trBase.y, e.trBase.z, e.rest] := by
      by_cases hc : ({ e with number := b.number } : entityState_t) = b ∧ false = false
      · exact absurd (if_pos hc) h
      · exact if_neg hc
    refine ⟨[toyEncInt e.eType, toyEncInt e.otherEntityNum, toyEncInt e.powerups,
      e.trBase.x, e.trBase.y, e.trBase.z, e.rest] ++ rest, ?_, ?_⟩
    · rw [h3]
      show toyReadInt (-1) ([toyEncInt e.number, toyEncInt e.eType, toyEncInt e.otherEntityNum,
        toyEncInt e.powerups, e.trBase.x, e.trBase.y, e.trBase.z, e.rest] ++ rest)
        = (e.number, [toyEncInt e.eType, toyEncInt e.otherEntityNum, toyEncInt e.powerups,
            e.trBase.x, e.trBase.y, e.trBase.z, e.rest] ++ rest)
      simp [toyReadInt, toyDecInt_toyEncInt]
    · show toyReadDeltaEntity ([toyEncInt e.eType, toyEncInt e.otherEntityNum,
        toyEncInt e.powerups, e.trBase.x, e.trBase.y, e.trBase.z, e.rest] ++ rest)
        b e.number = (e, rest)
      simp [toyReadDeltaEntity, toyDecInt_toyEncInt]
  readByte := (toy_roundTrip L).readByte
  readPlayer := (toy_roundTrip L).readPlayer

set_option maxRecDepth 100000 in
/-- C1, counterexample: with a codec that round-trips, live entities that carry
their own slot number and no overflow, the claim fails in four ways.  (a) A
tick in which slot `MAX_GENTITIES - 1` is live: the recorder writes its
delta, the reader takes that entity number for the end marker, and after the
frame `tvPlay.entities` differs from `prevEntities`.  (b) A tick whose
changed configstrings do not fit in the arena: `CL_TV_ReadFrame` ends in the
fatal drop instead of yielding a state.  (c) A tick on which `sv.maxclients`
is smaller than on the tick before: the recorder keeps the baseline of the
client that fell out of range, the reader zeroes it.  (d) An entity writer
that compares the transmitted fields only, and a tick in which the entity of
slot 5 appears with every field but `number` zero: called with
`force = qfalse` the writer writes nothing for it, the recorder's baseline of
slot 5 becomes the state with `number = 5`, and the reader, which gets the bit
of slot 5 and no delta, keeps the all-zero state. -/
theorem C1_counterexample_round_trip_failures :
    CodecRoundTrip tiny toyExternals ∧
    (writesFrame tiny toyExternals svSentinel recStarted ∧
      (∀ i, i < tiny.MAX_GENTITIES → bitTest (curEntityBitmask tiny svSentinel) i = true →
        (gentityState svSentinel i).number = (i : Int)) ∧
      (CL_TV_ReadFrame tiny toyExternals
          (clientReading tiny
            (recordedBytes tiny toyExternals recStarted [RecOp.writeFrame svSentinel]))).map
        (fun c => decide (c.tvPlay.entities
          = (SV_TV_WriteFrame tiny toyExternals svSentinel recStarted).tv.prevEntities))
        = some false) ∧
    (GoodRun tiny toyExternals 2 recStarted
        [RecOp.configstringChanged 1, RecOp.configstringChanged 2,
          RecOp.writeFrame svBigStrings] ∧
      CL_TV_ReadFrame tiny toyExternals
          (clientReading tiny (recordedBytes tiny toyExternals recStarted
            [RecOp.configstringChanged 1, RecOp.configstringChanged 2,
              RecOp.writeFrame svBigStrings]))
        = none) ∧
    (writesFrame tiny toyExternals svA recStarted ∧
      writesFrame tiny toyExternals svShrunk (SV_TV_WriteFrame tiny toyExternals svA recStarted) ∧
      (readFrames tiny toyExternals 2
          (clientReading tiny (recordedBytes tiny toyExternals recStarted opsShrink))).map
        (fun c => decide (c.tvPlay.players
          = (opsShrink.foldl (RecOp.apply tiny toyExternals) recStarted).tv.prevPlayers))
        = some false) ∧
    (CodecRoundTrip tiny netfieldExternals ∧
      writesFrame tiny netfieldExternals svBlank recStarted ∧
      TickOk tiny 2 svBlank ∧
      ¬ SkipsUnchanged tiny netfieldExternals svBlank recStarted.tv ∧
      netfieldExternals.MSG_WriteDeltaEntity entityState_t.zero (gentityState svBlank 5) false
        = [] ∧
      (SV_TV_WriteFrame tiny netfieldExternals svBlank recStarted).tv.prevEntities.getD 5
          entityState_t.zero = { entityState_t.zero with number := 5 } ∧
      (CL_TV_ReadFrame tiny netfieldExternals
          (clientReading tiny
            (recordedBytes tiny netfieldExternals recStarted [RecOp.writeFrame svBlank]))).map
        (fun c => (c.tvPlay.atEnd, c.tvPlay.entityBitmask,
          c.tvPlay.entities.getD 5 entityState_t.zero,
          decide (c.tvPlay.entities
            = (SV_TV_WriteFrame tiny netfieldExternals svBlank recStarted).tv.prevEntities)))
        = some (false, [34], entityState_t.zero, false)) :=
  ⟨toy_roundTrip tiny, by decide, by decide, by decide,
    netfield_roundTrip tiny, by decide, by decide, by decide, by decide, by decide, by decide⟩

/-- C1 (amended): assume the codec laws `CodecRoundTrip`, constants with
`LimitsOk`, a recorder `r0` with zeroed baselines (as `SV_TV_StartRecord`
leaves them) and a reader in the zeroed running state whose decompressed
stream is what the run `ops1 ++ ops2` appends to the file.  Let every
`SV_TV_WriteFrame` of the run write a frame for a tick with `sv.maxclients = m`,
live entities that carry their own slot number, slot `MAX_GENTITIES - 1` not
in use, and no live entity left out of the frame by the entity writer unless
its state equals the recorder's baseline for the slot, `number` included
(`GoodRun`).  Then for every prefix `ops1` of the run, calling
`CL_TV_ReadFrame` once per frame of `ops1` either ends in the fatal
`MAX_GAMESTATE_CHARS` drop or yields, without setting `atEnd`, a state whose
`entities`, `entityBitmask`, `players` and `playerBitmask` equal the
recorder's `prevEntities`, `prevEntityBitmask`, `prevPlayers` and
`prevPlayerBitmask` right after `ops1`, also across ticks in which a slot
disappears and later reappears. -/
theorem C1_frames_round_trip (L : Limits) (X : Externals) (hL : LimitsOk L)
    (hC : CodecRoundTrip L X) (m : Nat) (r0 : Recorder) (ops1 ops2 : List RecOp)
    (c0 : Client) (tail : List Nat)
    (hr0 : r0.tv.baselines = (tvState_t.zero L).baselines)
    (hc0 : c0.tvPlay.running = (tvPlayback_t.zero L).running)
    (hrun : GoodRun L X m r0 (ops1 ++ ops2))
    (hplain : c0.tvPlay.plain = recordedBytes L X r0 (ops1 ++ ops2) ++ tail) :
    readFrames L X (countFrames ops1) c0 = none ∨
    ∃ c, readFrames L X (countFrames ops1) c0 = some c ∧
      c.tvPlay.atEnd = c0.tvPlay.atEnd ∧
      c.tvPlay.entities = (ops1.foldl (RecOp.apply L X) r0).tv.prevEntities ∧
      c.tvPlay.entityBitmask = (ops1.foldl (RecOp.apply L X) r0).tv.prevEntityBitmask ∧
      c.tvPlay.players = (ops1.foldl (RecOp.apply L X) r0).tv.prevPlayers ∧
      c.tvPlay.playerBitmask = (ops1.foldl (RecOp.apply L X) r0).tv.prevPlayerBitmask := by
  obtain ⟨g1, g2⟩ := goodRun_append L X m ops1 ops2 r0 hrun
  obtain ⟨ext1, he1⟩ := goodRun_fs_prefix L X m ops1 r0 g1
  obtain ⟨ext2, he2⟩ := goodRun_fs_prefix L X m ops2 _ g2
  have hp : c0.tvPlay.plain
      = writtenBytes ((ops1.foldl (RecOp.apply L X) r0).fs.drop r0.fs.length) ++
          (writtenBytes ext2 ++ tail) := by
    rw [hplain]
    unfold recordedBytes
    rw [List.foldl_append, he2, he1, List.append_assoc, List.drop_left' rfl,
      List.drop_left' rfl, writtenBytes_append, List.append_assoc]
  have hm : c0.tvPlay.running = r0.tv.baselines := by
    rw [hc0, hr0]; rfl
  rcases readFrames_of_goodRun L X hL hC m ops1 r0 c0 _ g1 (writerInv_of_zero L m _ hr0) hm hp
    with h | ⟨c, h1, h2, _, h4⟩
  · exact Or.inl h
  · right
    unfold tvPlayback_t.running tvState_t.baselines at h2
    simp only [Prod.mk.injEq] at h2
    exact ⟨c, h1, h4, h2.1, h2.2.1, h2.2.2.1, h2.2.2.2⟩

set_option maxRecDepth 100000 in
/-- C1 (amended) at a concrete input: ticks A, B and C, where entity 5 and
client 1 are live in A, gone in B and back in C.  The three frames are read
without a drop, with the entity writer of `toyExternals` and with the one of
`netfieldExternals`, which compares the transmitted fields only. -/
theorem C1_frames_round_trip_witness :
    readFrames tiny toyExternals (countFrames opsABC)
        (clientReading tiny (recordedBytes tiny toyExternals recStarted opsABC)) ≠ none ∧
    (readFrames tiny toyExternals (countFrames opsABC)
        (clientReading tiny (recordedBytes tiny toyExternals recStarted opsABC)) = none ∨
    ∃ c, readFrames tiny toyExternals (countFrames opsABC)
        (clientReading tiny (recordedBytes tiny toyExternals recStarted opsABC)) = some c ∧
      c.tvPlay.atEnd
        = (clientReading tiny (recordedBytes tiny toyExternals recStarted opsABC)).tvPlay.atEnd ∧
      c.tvPlay.entities
        = (opsABC.foldl (RecOp.apply tiny toyExternals) recStarted).tv.prevEntities ∧
      c.tvPlay.entityBitmask
        = (opsABC.foldl (RecOp.apply tiny toyExternals) recStarted).tv.prevEntityBitmask ∧
      c.tvPlay.players
        = (opsABC.foldl (RecOp.apply tiny toyExternals) recStarted).tv.prevPlayers ∧
      c.tvPlay.playerBitmask
        = (opsABC.foldl (RecOp.apply tiny toyExternals) recStarted).tv.prevPlayerBitmask) ∧
    readFrames tiny netfieldExternals (countFrames opsABC)
        (clientReading tiny (recordedBytes tiny netfieldExternals recStarted opsABC)) ≠ none ∧
    (readFrames tiny netfieldExternals (countFrames opsABC)
        (clientReading tiny (recordedBytes tiny netfieldExternals recStarted opsABC)) = none ∨
    ∃ c, readFrames tiny netfieldExternals (countFrames opsABC)
        (clientReading tiny (recordedBytes tiny netfieldExternals recStarted opsABC)) = some c ∧
      c.tvPlay.atEnd
        = (clientReading tiny
            (recordedBytes tiny netfieldExternals recStarted opsABC)).tvPlay.atEnd ∧
      c.tvPlay.entities
        = (opsABC.foldl (RecOp.apply tiny netfieldExternals) recStarted).tv.prevEntities ∧
      c.tvPlay.entityBitmask
        = (opsABC.foldl (RecOp.apply tiny netfieldExternals) recStarted).tv.prevEntityBitmask ∧
      c.tvPlay.players
        = (opsABC.foldl (RecOp.apply tiny netfieldExternals) recStarted).tv.prevPlayers ∧
      c.tvPlay.playerBitmask
        = (opsABC.foldl (RecOp.apply tiny netfieldExternals) recStarted).tv.prevPlayerBitmask) :=
  ⟨by decide,
   C1_frames_round_trip tiny toyExternals (by decide) (toy_roundTrip tiny) 2 recStarted opsABC []
    (clientReading tiny (recordedBytes tiny toyExternals recStarted opsABC)) []
    (by decide) (by decide) (by decide) (by simp [clientReading]),
   by decide,
   C1_frames_round_trip tiny netfieldExternals (by decide) (netfield_roundTrip tiny) 2 recStarted
    opsABC [] (clientReading tiny (recordedBytes tiny netfieldExternals recStarted opsABC)) []
    (by decide) (by decide) (by decide) (by simp [clientReading])⟩

/-! ## The header and the trailer of a recording -/

set_option maxRecDepth 100000 in
/-- C2 (evaluation of the code): for the header `SV_TV_StartRecord` writes for
a server with 40 ticks per second, 8 clients, map `q3dm1`, timestamp
`2025-01-02T03:04:05` and configstring 0 `hello`, the header parse of
`CL_TV_Open` reads the map name at offset 16, where the recorder has put the
4-byte duration field.  With the field still 0 the map name read is empty and
the parse returns false; patched to 10000 ms the parse returns false; patched to
a value without a zero byte the parse succeeds with the four bytes in front of
the map name. -/
theorem C2_open_header_reads_duration_as_map_name :
    fileContent (SV_TV_StartRecord q3 svScenario (Recorder.init q3) [116, 118]).fs =
      [84, 86, 68, 49, 1, 0, 0, 0, 40, 0, 0, 0, 8, 0, 0, 0, 0, 0, 0, 0,
       113, 51, 100, 109, 49, 0,
       50, 48, 50, 53, 45, 48, 49, 45, 48, 50, 84, 48, 51, 58, 48, 52, 58, 48, 53, 0,
       0, 0, 5, 0, 104, 101, 108, 108, 111, 255, 255] ∧
    CL_TV_ReadString
        (fileContent (SV_TV_StartRecord q3 svScenario (Recorder.init q3) [116, 118]).fs)
        (q3.MAX_QPATH - 1) 16 [] = (some [], 17) ∧
    openHeader q3
        (fileContent (SV_TV_StartRecord q3 svScenario (Recorder.init q3) [116, 118]).fs) = none ∧
    openHeader q3
        (fileContent ((SV_TV_StartRecord q3 svScenario (Recorder.init q3) [116, 118]).fs ++
          [FsOp.seek 16, FsOp.write (int32Bytes 10000)])) = none ∧
    (openHeader q3
        (fileContent ((SV_TV_StartRecord q3 svScenario (Recorder.init q3) [116, 118]).fs ++
          [FsOp.seek 16, FsOp.write (int32Bytes 16843009)]))).map (fun h => h.mapname) =
      some [1, 1, 1, 1, 113, 51, 100, 109, 49] := by
  decide

set_option maxRecDepth 100000 in
/-- C3 (evaluation of the code): a recording of two frames at server times 100
and 10100 is finalized by `SV_TV_StopRecord( qfalse )` with a seek to offset
16, a write of the four bytes of 10000, the close and the rename, and nothing
else: the four bytes at offset 16 hold the duration, the file is as long as
before and ends with the last frame, and `CL_TV_ReadTrailer` on it returns
false with `totalDuration` 0. -/
theorem C3_stopRecord_writes_no_trailer :
    (runOps tiny toyExternals opsScenario).tv.recording = false ∧
    (runOps tiny toyExternals opsScenario).fs =
      (runOps tiny toyExternals (opsScenario.take 3)).fs ++
        [FsOp.seek 16, FsOp.write [16, 39, 0, 0], FsOp.close,
         FsOp.rename
           [100, 101, 109, 111, 115, 47, 116, 118, 46, 116, 118, 100, 46, 116, 109, 112]
           [100, 101, 109, 111, 115, 47, 116, 118, 46, 116, 118, 100]] ∧
    FS_Read (fileContent (runOps tiny toyExternals opsScenario).fs) 16 4 = int32Bytes 10000 ∧
    (fileContent (runOps tiny toyExternals opsScenario).fs).drop 20 =
      (fileContent (runOps tiny toyExternals (opsScenario.take 3)).fs).drop 20 ∧
    CL_TV_ReadTrailer (fileContent (runOps tiny toyExternals opsScenario).fs) = (false, 0) := by
  decide

/-! ## Big configstrings -/

theorem updateConfigstring_sets (L : Limits) (X : Externals)
    (gs : gameState_t) (i : Nat) (data : List Nat)
    (hwf : gs.WellFormed L) (hi : i < L.MAX_CONFIGSTRINGS) (hsi : i ≠ L.CS_SERVERINFO)
    (hnul : 0 ∉ data)
    (hfit : arenaNeed (fun j => if j = i then data else gs.configString j) L.MAX_CONFIGSTRINGS
      ≤ L.MAX_GAMESTATE_CHARS) :
    ∃ gs2, CL_TV_UpdateConfigstring L X gs i data data.length = some gs2 ∧
      gs2.configString i = data ∧
      ∀ j, j < L.MAX_CONFIGSTRINGS → j ≠ i → gs2.configString j = gs.configString j := by
  have hG : 0 < L.MAX_GAMESTATE_CHARS := by
    obtain ⟨_, _, h1, h2, _⟩ := hwf
    omega
  have htab : resultingTable L X gs i data
      = fun j => if j = i then data else gs.configString j := by
    funext j
    simp [resultingTable, storedValue, hsi]
  have hspec := (updateConfigstring_spec L X gs i data hG hnul).1
  rw [htab] at hspec
  obtain ⟨gs2, hgs2, hinv⟩ := hspec hfit
  refine ⟨gs2, hgs2, ?_, fun j hj hji => ?_⟩
  · have := rebuildInv_read L _ _ gs2 hinv i hi (by simpa using hnul)
    simpa using this
  · have := rebuildInv_read L _ _ gs2 hinv j hj
      (by simp only [hji, if_false]; exact cstr_not_mem_zero _)
    simpa [hji] using this

theorem rescan_bcs0 (L : Limits) (X : Externals) (fuel : Nat) (c : Client) (s : List Nat)
    (h : (X.Cmd_TokenizeString s).getD 0 [] = [98, 99, 115, 48]) :
    rescan L X (fuel + 1) c s = some (false,
      { c with
        cmdArgv := X.Cmd_TokenizeString s
        bigConfigString := ([99, 115, 32] ++ (X.Cmd_TokenizeString s).getD 1 [] ++ [32, 34] ++
          (X.Cmd_TokenizeString s).getD 2 []).take (L.BIG_INFO_STRING - 1) }) := by
  unfold rescan
  simp only [h, ↓reduceIte]
  repeat rw [if_neg (by decide)]

theorem rescan_bcs1 (L : Limits) (X : Externals) (fuel : Nat) (c : Client) (s : List Nat)
    (h : (X.Cmd_TokenizeString s).getD 0 [] = [98, 99, 115, 49])
    (hlen : c.bigConfigString.length + ((X.Cmd_TokenizeString s).getD 2 []).length
      < L.BIG_INFO_STRING) :
    rescan L X (fuel + 1) c s = some (false,
      { c with
        cmdArgv := X.Cmd_TokenizeString s
        bigConfigString := c.bigConfigString ++ (X.Cmd_TokenizeString s).getD 2 [] }) := by
  unfold rescan
  simp only [h, ↓reduceIte]
  repeat (first | rw [if_neg (by decide)] | rw [if_neg (by omega)])

theorem rescan_bcs2 (L : Limits) (X : Externals) (fuel : Nat) (c : Client) (s : List Nat)
    (h : (X.Cmd_TokenizeString s).getD 0 [] = [98, 99, 115, 50])
    (hlen : c.bigConfigString.length + ((X.Cmd_TokenizeString s).getD 2 []).length + 1
      < L.BIG_INFO_STRING) :
    rescan L X (fuel + 1) c s =
      rescan L X fuel
        { c with
          cmdArgv := X.Cmd_TokenizeString s
          bigConfigString := c.bigConfigString ++ (X.Cmd_TokenizeString s).getD 2 [] ++ [34] }
        (c.bigConfigString ++ (X.Cmd_TokenizeString s).getD 2 [] ++ [34]) := by
  conv => lhs; unfold rescan
  simp only [h, ↓reduceIte]
  repeat (first | rw [if_neg (by decide)] | rw [if_neg (by omega)])

theorem rescan_cs (L : Limits) (X : Externals) (fuel : Nat) (c : Client) (s : List Nat)
    (i : Nat) (gs : gameState_t)
    (h : (X.Cmd_TokenizeString s).getD 0 [] = [99, 115])
    (hidx : X.atoi ((X.Cmd_TokenizeString s).getD 1 []) = (i : Int))
    (hi : i < L.MAX_CONFIGSTRINGS)
    (hup : CL_TV_UpdateConfigstring L X c.gameState i (X.Cmd_ArgsFrom s 2)
      (strlen (X.Cmd_ArgsFrom s 2)) = some gs) :
    rescan L X (fuel + 1) c s = some (true,
      { c with cmdArgv := X.Cmd_TokenizeString s, gameState := gs }) := by
  unfold rescan
  have hr : (0 : Int) ≤ (i : Int) ∧ (i : Int) < (L.MAX_CONFIGSTRINGS : Int) :=
    ⟨by omega, by exact_mod_cast hi⟩
  simp only [h, hidx, ↓reduceIte]
  repeat rw [if_neg (by decide)]
  rw [if_pos hr]
  simp only [Int.toNat_ofNat, hup]

theorem getServerCommand_in_window (L : Limits) (X : Externals) (c : Client) (n : Int)
    (hlo : (c.tvPlay.cmdSequence : Int) - n < (L.MAX_RELIABLE_COMMANDS : Int))
    (hhi : 0 ≤ (c.tvPlay.cmdSequence : Int) - n) :
    CL_TV_GetServerCommand L X c n
      = rescan L X L.BIG_INFO_STRING { c with lastExecutedServerCommand := n }
          (ringEntry L c n) := by
  unfold CL_TV_GetServerCommand ringEntry
  rw [if_neg (by omega), if_neg (by omega)]

/-- C11 (amended): let the ring entries number `n`, `n + 1`, `n + 2` be
`bcs0 <idx> "<a>`, `bcs1 <idx> <b>`, `bcs2 <idx> <d>"`, all three inside the
window of `CL_TV_GetServerCommand` and, as ring entries are, shorter than
`MAX_STRING_CHARS`, with `3 * MAX_STRING_CHARS <= BIG_INFO_STRING`; let the
tokenizer split them as in `BcsTokens`, let `i < MAX_CONFIGSTRINGS` be other
than `CS_SERVERINFO`, the fragments NUL-free, the arena well-formed and large
enough for the new table.  Then the three calls return false, false and true,
the arena is unchanged after the first two, and after the third the
configstring at `i` is `a b d`, every other configstring is as before, and the
tokenized command is `cs`, the index, `a b d`. -/
theorem C11_bcs_sequence_assembles_configstring (L : Limits) (X : Externals) (c : Client)
    (n : Int) (i : Nat) (idx a b d : List Nat)
    (hX : BcsTokens X idx a b d i)
    (h0 : ringEntry L c n = bcs0Entry idx a)
    (h1 : ringEntry L c (n + 1) = bcs1Entry idx b)
    (h2 : ringEntry L c (n + 2) = bcs2Entry idx d)
    (hlo : (c.tvPlay.cmdSequence : Int) - n < (L.MAX_RELIABLE_COMMANDS : Int))
    (hhi : 0 ≤ (c.tvPlay.cmdSequence : Int) - (n + 2))
    (hr0 : (bcs0Entry idx a).length < L.MAX_STRING_CHARS)
    (hr1 : (bcs1Entry idx b).length < L.MAX_STRING_CHARS)
    (hr2 : (bcs2Entry idx d).length < L.MAX_STRING_CHARS)
    (hbig : 3 * L.MAX_STRING_CHARS ≤ L.BIG_INFO_STRING)
    (hi : i < L.MAX_CONFIGSTRINGS) (hsi : i ≠ L.CS_SERVERINFO)
    (hnul : 0 ∉ a ++ b ++ d)
    (hwf : c.gameState.WellFormed L)
    (hfit : arenaNeed (fun j => if j = i then a ++ b ++ d else c.gameState.configString j)
      L.MAX_CONFIGSTRINGS ≤ L.MAX_GAMESTATE_CHARS) :
    ∃ c1 c2 c3,
      CL_TV_GetServerCommand L X c n = some (false, c1) ∧ c1.gameState = c.gameState ∧
      CL_TV_GetServerCommand L X c1 (n + 1) = some (false, c2) ∧ c2.gameState = c.gameState ∧
      CL_TV_GetServerCommand L X c2 (n + 2) = some (true, c3) ∧
      c3.gameState.configString i = a ++ b ++ d ∧
      (∀ j, j < L.MAX_CONFIGSTRINGS → j ≠ i →
        c3.gameState.configString j = c.gameState.configString j) ∧
      c3.cmdArgv = [[99, 115], idx, a ++ b ++ d] := by
  have l0 : (bcs0Entry idx a).length = 7 + idx.length + a.length := by
    simp [bcs0Entry]; omega
  have l1 : (bcs1Entry idx b).length = 6 + idx.length + b.length := by
    simp [bcs1Entry]; omega
  have l2 : (bcs2Entry idx d).length = 7 + idx.length + d.length := by
    simp [bcs2Entry]; omega
  obtain ⟨k, hk⟩ : ∃ k, L.BIG_INFO_STRING = k + 2 := ⟨L.BIG_INFO_STRING - 2, by omega⟩
  obtain ⟨gs3, hgs3, hread, hothers⟩ :=
    updateConfigstring_sets L X c.gameState i (a ++ b ++ d) hwf hi hsi hnul hfit
  have hbig0 : ([99, 115, 32] ++ idx ++ [32, 34] ++ a).take (L.BIG_INFO_STRING - 1)
      = [99, 115, 32] ++ idx ++ [32, 34] ++ a := by
    apply List.take_of_length_le
    simp only [List.length_append, List.length_cons, List.length_nil]
    omega
  have e1 : CL_TV_GetServerCommand L X c n = some (false,
      { c with
        lastExecutedServerCommand := n
        cmdArgv := X.Cmd_TokenizeString (bcs0Entry idx a)
        bigConfigString := [99, 115, 32] ++ idx ++ [32, 34] ++ a }) := by
    rw [getServerCommand_in_window L X c n hlo (by omega), h0, hk,
      rescan_bcs0 L X (k + 1) _ _ hX.cmd0, hX.idx0, hX.frag0, hbig0]
  have e2 : CL_TV_GetServerCommand L X
      { c with
        lastExecutedServerCommand := n
        cmdArgv := X.Cmd_TokenizeString (bcs0Entry idx a)
        bigConfigString := [99, 115, 32] ++ idx ++ [32, 34] ++ a } (n + 1) = some (false,
      { c with
        lastExecutedServerCommand := n + 1
        cmdArgv := X.Cmd_TokenizeString (bcs1Entry idx b)
        bigConfigString := [99, 115, 32] ++ idx ++ [32, 34] ++ a ++ b }) := by
    rw [getServerCommand_in_window L X _ (n + 1) (by simp only; omega) (by simp only; omega)]
    have hre : ringEntry L
        { c with
          lastExecutedServerCommand := n
          cmdArgv := X.Cmd_TokenizeString (bcs0Entry idx a)
          bigConfigString := [99, 115, 32] ++ idx ++ [32, 34] ++ a } (n + 1)
        = bcs1Entry idx b := h1
    rw [hre, hk, rescan_bcs1 L X (k + 1) _ _ hX.cmd1
      (by
        rw [hX.frag1]
        simp only [List.length_append, List.length_cons, List.length_nil]
        omega), hX.frag1]
  have e3 : CL_TV_GetServerCommand L X
      { c with
        lastExecutedServerCommand := n + 1
        cmdArgv := X.Cmd_TokenizeString (bcs1Entry idx b)
        bigConfigString := [99, 115, 32] ++ idx ++ [32, 34] ++ a ++ b } (n + 2) = some (true,
      { c with
        lastExecutedServerCommand := n + 2
        cmdArgv := [[99, 115], idx, a ++ b ++ d]
        bigConfigString := csCommand idx (a ++ b ++ d)
        gameState := gs3 }) := by
    rw [getServerCommand_in_window L X _ (n + 2) (by simp only; omega) (by simp only; omega)]
    have hre : ringEntry L
        { c with
          lastExecutedServerCommand := n + 1
          cmdArgv := X.Cmd_TokenizeString (bcs1Entry idx b)
          bigConfigString := [99, 115, 32] ++ idx ++ [32, 34] ++ a ++ b } (n + 2)
        = bcs2Entry idx d := h2
    have hcs : [99, 115, 32] ++ idx ++ [32, 34] ++ a ++ b ++ d ++ [34]
        = csCommand idx (a ++ b ++ d) := by
      simp [csCommand]
    rw [hre, hk, rescan_bcs2 L X (k + 1) _ _ hX.cmd2
      (by
        rw [hX.frag2]
        simp only [List.length_append, List.length_cons, List.length_nil]
        omega), hX.frag2]
    simp only [hcs]
    rw [rescan_cs L X k _ _ i gs3 (by rw [hX.whole]; rfl) (by rw [hX.whole]; exact hX.index) hi
      (by
        rw [hX.args, strlen_eq, cstr_of_not_mem_zero _ hnul]
        exact hgs3), hX.whole]
  exact ⟨_, _, _, e1, rfl, e2, rfl, e3, hread, hothers, rfl⟩

/-- C11 (amended) at a concrete input: `bcs0 1 "a`, `bcs1 1 b`, `bcs2 1 c"` as
commands 0, 1, 2 over the arena `arenaHi`. -/
theorem C11_bcs_sequence_assembles_configstring_witness :
    ∃ c1 c2 c3,
      CL_TV_GetServerCommand tinyBig quotingExternals (clientBcs tinyBig [49] arenaHi) 0
        = some (false, c1) ∧
      c1.gameState = (clientBcs tinyBig [49] arenaHi).gameState ∧
      CL_TV_GetServerCommand tinyBig quotingExternals c1 (0 + 1) = some (false, c2) ∧
      c2.gameState = (clientBcs tinyBig [49] arenaHi).gameState ∧
      CL_TV_GetServerCommand tinyBig quotingExternals c2 (0 + 2) = some (true, c3) ∧
      c3.gameState.configString 1 = [97] ++ [98] ++ [99] ∧
      (∀ j, j < tinyBig.MAX_CONFIGSTRINGS → j ≠ 1 →
        c3.gameState.configString j = (clientBcs tinyBig [49] arenaHi).gameState.configString j) ∧
      c3.cmdArgv = [[99, 115], [49], [97] ++ [98] ++ [99]] :=
  C11_bcs_sequence_assembles_configstring tinyBig quotingExternals
    (clientBcs tinyBig [49] arenaHi) 0 1 [49] [97] [98] [99]
    ⟨by decide, by decide, by decide, by decide, by decide, by decide, by decide, by decide,
      by decide, by decide⟩
    (by decide) (by decide) (by decide) (by decide) (by decide) (by decide) (by decide)
    (by decide) (by decide) (by decide) (by decide) (by decide) (by decide) (by decide)

/-- C11, counterexample: with the ring entries `bcs0 0 "a`, `bcs1 0 b`,
`bcs2 0 c"` for index 0 = `CS_SERVERINFO`, the three calls return false, false
and true, and the configstring at index 0 is `abc\tv\1`, not `abc`.  With the
entries for index 1 over a well-formed arena that has no room for four more
bytes, the third call ends in the fatal drop. -/
theorem C11_counterexample_serverinfo_and_full_arena :
    (BcsTokens quotingExternals [48] [97] [98] [99] 0 ∧
      ringEntry tinyBig (clientBcs tinyBig [48] arenaHi) 0 = bcs0Entry [48] [97] ∧
      ringEntry tinyBig (clientBcs tinyBig [48] arenaHi) 1 = bcs1Entry [48] [98] ∧
      ringEntry tinyBig (clientBcs tinyBig [48] arenaHi) 2 = bcs2Entry [48] [99] ∧
      tinyBig.CS_SERVERINFO = 0 ∧
      (getThreeCommands tinyBig quotingExternals (clientBcs tinyBig [48] arenaHi)).map
          (fun r => (r.1, r.2.1, r.2.2.1, r.2.2.2.gameState.configString 0))
        = some (false, false, true, [97, 98, 99, 92, 116, 118, 92, 49])) ∧
    (BcsTokens quotingExternals [49] [97] [98] [99] 1 ∧
      arenaFull.WellFormed tinyBig ∧
      ringEntry tinyBig (clientBcs tinyBig [49] arenaFull) 0 = bcs0Entry [49] [97] ∧
      ringEntry tinyBig (clientBcs tinyBig [49] arenaFull) 1 = bcs1Entry [49] [98] ∧
      ringEntry tinyBig (clientBcs tinyBig [49] arenaFull) 2 = bcs2Entry [49] [99] ∧
      getThreeCommands tinyBig quotingExternals (clientBcs tinyBig [49] arenaFull) = none) :=
  ⟨⟨⟨by decide, by decide, by decide, by decide, by decide, by decide, by decide, by decide,
      by decide, by decide⟩, by decide, by decide, by decide, by decide, by decide⟩,
   ⟨⟨by decide, by decide, by decide, by decide, by decide, by decide, by decide, by decide,
      by decide, by decide⟩, by decide, by decide, by decide, by decide, by decide⟩⟩

/-! ## Seeking -/

theorem addInt32_of_fits (a b : Int) (h1 : -2147483648 ≤ a + b) (h2 : a + b ≤ 2147483647) :
    addInt32 a b = a + b := by
  unfold addInt32
  omega

set_option maxRecDepth 100000 in
/-- C12, counterexample.  (a) With `totalDuration = 0` (duration unknown),
`firstServerTime = 100` and the requested time 5000, the target `CL_TV_Seek`
compares `serverTime` against is 5000, above `firstServerTime + totalDuration`;
on the file with frames at 100, 125 and 150 and a trailer that gives duration 0
the seek reads to the end of the stream.  (b) The same file with a trailer that
gives the duration 2147483647: `CL_TV_Open` takes it over, the `int` sum
`firstServerTime + totalDuration` is -2147483549, and for the requested time
140 the target is that sum, below `firstServerTime`; the seek, which ends at
the frame of time 150 when the duration is 50, goes back to the first frame. -/
theorem C12_counterexample_unknown_duration_and_overflow :
    seekTarget { tvPlayback_t.zero tiny with firstServerTime := 100, totalDuration := 0 } 5000
      = 5000 ∧
    (openedClient (tvFile (recordedBytes tiny toyExternals recStarted opsSeek) 0)).tvPlay.active
      = true ∧
    (openedClient (tvFile (recordedBytes tiny toyExternals recStarted opsSeek) 0)
      ).tvPlay.firstServerTime = 100 ∧
    (openedClient (tvFile (recordedBytes tiny toyExternals recStarted opsSeek) 0)
      ).tvPlay.totalDuration = 0 ∧
    seekTarget (openedClient (tvFile (recordedBytes tiny toyExternals recStarted opsSeek) 0)).tvPlay
      5000 = 5000 ∧
    (soughtClient (tvFile (recordedBytes tiny toyExternals recStarted opsSeek) 0)
      (openedClient (tvFile (recordedBytes tiny toyExternals recStarted opsSeek) 0)) 5000
      ).tvPlay.atEnd = true ∧
    (openedClient (tvFile (recordedBytes tiny toyExternals recStarted opsSeek) 2147483647)
      ).tvPlay.active = true ∧
    (openedClient (tvFile (recordedBytes tiny toyExternals recStarted opsSeek) 2147483647)
      ).tvPlay.firstServerTime = 100 ∧
    (openedClient (tvFile (recordedBytes tiny toyExternals recStarted opsSeek) 2147483647)
      ).tvPlay.totalDuration = 2147483647 ∧
    seekTarget (openedClient
      (tvFile (recordedBytes tiny toyExternals recStarted opsSeek) 2147483647)).tvPlay 140
      = -2147483549 ∧
    (soughtClient (tvFile (recordedBytes tiny toyExternals recStarted opsSeek) 2147483647)
      (openedClient (tvFile (recordedBytes tiny toyExternals recStarted opsSeek) 2147483647)) 140
      ).tvPlay.serverTime = 100 ∧
    (soughtClient fileSeek (openedClient fileSeek) 140).tvPlay.serverTime = 150 := by
  decide

/-- C12 (amended): when `totalDuration > 0` and the sum
`firstServerTime + totalDuration` fits in an `int`, the target `CL_TV_Seek`
compares `serverTime` against lies in
`[firstServerTime, firstServerTime + totalDuration]`: a target below
`firstServerTime` is replaced by `firstServerTime`, one above
`firstServerTime + totalDuration` by `firstServerTime + totalDuration`, one in
between is kept.  When `totalDuration <= 0` (duration unknown) the target is
never below `firstServerTime` and only the lower bound is applied: a target at
or above `firstServerTime` is kept. -/
theorem C12_seek_target_clamp (tv : tvPlayback_t) (targetTime : Int) :
    (0 < tv.totalDuration → -2147483648 ≤ tv.firstServerTime →
      tv.firstServerTime + tv.totalDuration ≤ 2147483647 →
      tv.firstServerTime ≤ seekTarget tv targetTime ∧
      seekTarget tv targetTime ≤ tv.firstServerTime + tv.totalDuration ∧
      (targetTime < tv.firstServerTime → seekTarget tv targetTime = tv.firstServerTime) ∧
      (tv.firstServerTime + tv.totalDuration < targetTime →
        seekTarget tv targetTime = tv.firstServerTime + tv.totalDuration) ∧
      (tv.firstServerTime ≤ targetTime → targetTime ≤ tv.firstServerTime + tv.totalDuration →
        seekTarget tv targetTime = targetTime)) ∧
    (tv.totalDuration ≤ 0 →
      tv.firstServerTime ≤ seekTarget tv targetTime ∧
      (targetTime < tv.firstServerTime → seekTarget tv targetTime = tv.firstServerTime) ∧
      (tv.firstServerTime ≤ targetTime → seekTarget tv targetTime = targetTime)) := by
  constructor
  · intro hd hlo hhi
    have hs : addInt32 tv.firstServerTime tv.totalDuration
        = tv.firstServerTime + tv.totalDuration := addInt32_of_fits _ _ (by omega) hhi
    unfold seekTarget
    rw [hs]
    refine ⟨?_, ?_, fun h => ?_, fun h => ?_, fun h1 h2 => ?_⟩ <;> dsimp only <;>
      split_ifs <;> omega
  · intro hd
    unfold seekTarget
    refine ⟨?_, fun h => ?_, fun h => ?_⟩ <;> dsimp only <;> split_ifs <;> omega

/-- C12 (amended) at a concrete input: `firstServerTime = 100`,
`totalDuration = 50`, requested time 500. -/
theorem C12_seek_target_clamp_witness :
    seekTarget { tvPlayback_t.zero tiny with firstServerTime := 100, totalDuration := 50 } 500
      = 150 :=
  ((C12_seek_target_clamp
    { tvPlayback_t.zero tiny with firstServerTime := 100, totalDuration := 50 } 500).1
      (by decide) (by decide) (by decide)).2.2.2.1 (by decide)

/-! ## Stopping, overflow and auto-start of the recorder -/

/-- C17: for every recorder state and flags `d1`, `d2`,
`SV_TV_StopRecord( d1 )` followed by `SV_TV_StopRecord( d2 )` gives the state
and the file operations of `SV_TV_StopRecord( d1 )` alone; a call while not
recording performs no file operation and changes nothing but `autoPending`,
which it clears. -/
theorem C17_stopRecord_idempotent (L : Limits) (r : Recorder) (d1 d2 : Bool) :
    SV_TV_StopRecord L (SV_TV_StopRecord L r d1) d2 = SV_TV_StopRecord L r d1 ∧
    (r.tv.recording = false →
      SV_TV_StopRecord L r d1 = { r with tv := { r.tv with autoPending := false } } ∧
      (SV_TV_StopRecord L r d1).fs = r.fs) := by
  constructor
  · unfold SV_TV_StopRecord
    by_cases h : r.tv.recording = true <;> simp [h]
  · intro h
    unfold SV_TV_StopRecord
    simp [h]

/-- C17 at a concrete input: a stop right after the recorder was created. -/
theorem C17_stopRecord_idempotent_witness :
    SV_TV_StopRecord tiny (Recorder.init tiny) false
      = { Recorder.init tiny with
          tv := { (Recorder.init tiny).tv with autoPending := false } } ∧
    (SV_TV_StopRecord tiny (Recorder.init tiny) false).fs = (Recorder.init tiny).fs :=
  (C17_stopRecord_idempotent tiny (Recorder.init tiny) false true).2 (by decide)

/-- C18: when a recording is active, no auto-start is pending and the message
built for the tick overflows, `SV_TV_WriteFrame` makes exactly two file calls,
the close and the removal of the `.tvd.tmp` file (no write, no rename), sets
`recording` to false and leaves the baselines and `frameCount` as they were. -/
theorem C18_overflowing_frame_discards_recording (L : Limits) (X : Externals) (sv : Server)
    (r : Recorder) (hauto : r.tv.autoPending = false) (hrec : r.tv.recording = true)
    (hov : (frameMessage L X sv r.tv).overflowed = true) :
    (SV_TV_WriteFrame L X sv r).fs
      = r.fs ++ [FsOp.close,
          FsOp.remove ((r.tv.recordingPath ++ extTmp).take (L.MAX_QPATH - 1))] ∧
    (SV_TV_WriteFrame L X sv r).tv.recording = false ∧
    (SV_TV_WriteFrame L X sv r).tv.baselines = r.tv.baselines ∧
    (SV_TV_WriteFrame L X sv r).tv.frameCount = r.tv.frameCount := by
  have hov2 : (frameMessage L X sv
      { r.tv with
        hadHuman := r.tv.hadHuman || humanPresent sv
        firstServerTime := if r.tv.frameCount = 0 then sv.time else r.tv.firstServerTime
        lastServerTime := sv.time }).overflowed = true := hov
  unfold SV_TV_WriteFrame
  rw [if_neg (by rw [hauto]; simp), if_neg (by rw [hrec]; simp)]
  dsimp only
  rw [if_pos hov2]
  unfold SV_TV_StopRecord
  simp [hrec, tvState_t.baselines]

set_option maxRecDepth 100000 in
/-- C18 at a concrete input: configstring 1, marked changed, holds 300 bytes
and the message buffer 256. -/
theorem C18_overflowing_frame_discards_recording_witness :
    (SV_TV_WriteFrame tiny toyExternals svOverflow recChanged).fs
      = recChanged.fs ++ [FsOp.close,
          FsOp.remove ((recChanged.tv.recordingPath ++ extTmp).take (tiny.MAX_QPATH - 1))] ∧
    (SV_TV_WriteFrame tiny toyExternals svOverflow recChanged).tv.recording = false ∧
    (SV_TV_WriteFrame tiny toyExternals svOverflow recChanged).tv.baselines
      = recChanged.tv.baselines ∧
    (SV_TV_WriteFrame tiny toyExternals svOverflow recChanged).tv.frameCount
      = recChanged.tv.frameCount :=
  C18_overflowing_frame_discards_recording tiny toyExternals svOverflow recChanged
    (by decide) (by decide) (by decide)

theorem writeHeaderConfigstrings_path (L : Limits) (sv : Server) (r : Recorder) :
    (writeHeaderConfigstrings L sv r).tv.recordingPath = r.tv.recordingPath ∧
    (writeHeaderConfigstrings L sv r).tv.autoPending = r.tv.autoPending := by
  unfold writeHeaderConfigstrings
  generalize List.range L.MAX_CONFIGSTRINGS = l
  induction l generalizing r with
  | nil => exact ⟨rfl, rfl⟩
  | cons i t ih =>
    rw [List.foldl_cons]
    by_cases h : cstr (sv.configstrings.getD i []) = []
    · simp only [h, if_true]
      exact ih r
    · simp only [h, if_false]
      exact ih _

/-- C20, counterexample: with an auto-start pending, (a) `g_matchState` is
`ACTIVE`, a string different from `active`, and `SV_TV_WriteFrame` starts a
recording, because the comparison is `Q_stricmp`; (b) `g_matchState` is
`active` and the file cannot be opened: `autoPending` is cleared and no
recording is started; (c) `g_matchUUID` is 70 bytes long and the recording
path holds only its first bytes. -/
theorem C20_counterexample_case_open_failure_long_uuid :
    recPending.tv.autoPending = true ∧
    ((SV_TV_WriteFrame tiny toyExternals (svMatch [65, 67, 84, 73, 86, 69] [117]) recPending
        ).tv.recording = true ∧
      ([65, 67, 84, 73, 86, 69] : List Nat) ≠ [97, 99, 116, 105, 118, 101]) ∧
    ((SV_TV_WriteFrame tiny toyExternals
        { svMatch [97, 99, 116, 105, 118, 101] [117] with openOk := false } recPending
        ).tv.recording = false ∧
      (SV_TV_WriteFrame tiny toyExternals
        { svMatch [97, 99, 116, 105, 118, 101] [117] with openOk := false } recPending
        ).tv.autoPending = false) ∧
    ((SV_TV_WriteFrame tiny toyExternals
        (svMatch [97, 99, 116, 105, 118, 101] (List.replicate 70 117)) recPending
        ).tv.recording = true ∧
      (SV_TV_WriteFrame tiny toyExternals
        (svMatch [97, 99, 116, 105, 118, 101] (List.replicate 70 117)) recPending
        ).tv.recordingPath = [100, 47] ++ List.replicate 61 117) := by
  decide

/-- C20 (amended): while `autoPending` is set, a call of `SV_TV_WriteFrame`
writes no frame.  When the auto-start does not fire (`g_matchState` non-empty
and not `active` up to ASCII case, or empty with no active human client below
`sv.maxclients`) the recorder is unchanged and `autoPending` stays set.  When
it fires, `autoPending` is cleared and `SV_TV_StartRecord` is called with
`g_matchUUID` (cut to `MAX_QPATH - 1` bytes) as the name whenever that cvar is
non-empty; with the server in game, no recording active and a file that
opens, the recording is started with no frame written and its path is
`sv_tvpath`, a slash and that name. -/
theorem C20_deferred_auto_start (L : Limits) (X : Externals) (sv : Server) (r : Recorder)
    (hauto : r.tv.autoPending = true) :
    (autoStartFires sv = false → SV_TV_WriteFrame L X sv r = r) ∧
    (autoStartFires sv = true →
      SV_TV_WriteFrame L X sv r
        = SV_TV_StartRecord L sv { r with tv := { r.tv with autoPending := false } }
            (autoStartName L sv) ∧
      (SV_TV_WriteFrame L X sv r).tv.autoPending = false ∧
      (sv.inGame = true → r.tv.recording = false → sv.openOk = true →
        (SV_TV_WriteFrame L X sv r).tv.recording = true ∧
        (SV_TV_WriteFrame L X sv r).tv.frameCount = 0 ∧
        (SV_TV_WriteFrame L X sv r).tv.recordingPath
          = (cstr sv.sv_tvpath ++ [47] ++ cstr (autoStartName L sv)).take (L.MAX_QPATH - 1))) ∧
    (cstr sv.g_matchUUID ≠ [] →
      autoStartName L sv = (cstr sv.g_matchUUID).take (L.MAX_QPATH - 1)) := by
  have hw : SV_TV_WriteFrame L X sv r = resolveAutoStart L sv r := by
    unfold SV_TV_WriteFrame
    rw [if_pos hauto]
  refine ⟨fun hf => ?_, fun hf => ?_, fun hu => ?_⟩
  · rw [hw]
    unfold resolveAutoStart
    unfold autoStartFires at hf
    by_cases hm : cstr sv.g_matchState ≠ []
    · rw [if_pos hm] at hf
      rw [if_pos hm, if_neg (by rw [hf]; simp)]
    · rw [if_neg hm] at hf
      rw [if_neg hm, if_neg (by rw [hf]; simp)]
  · have hs : resolveAutoStart L sv r
        = SV_TV_StartRecord L sv { r with tv := { r.tv with autoPending := false } }
            (autoStartName L sv) := by
      unfold resolveAutoStart autoStartName
      unfold autoStartFires at hf
      by_cases hm : cstr sv.g_matchState ≠ []
      · rw [if_pos hm] at hf
        rw [if_pos hm, if_pos hf]
      · rw [if_neg hm] at hf
        rw [if_neg hm, if_pos hf]
    rw [hw, hs]
    refine ⟨rfl, ?_, fun h1 h2 h3 => ?_⟩
    · unfold SV_TV_StartRecord
      by_cases h1 : sv.inGame = true
      · by_cases h2 : r.tv.recording = true
        · simp [h1, h2]
        · by_cases h3 : sv.openOk = true
          · simp [h1, h2, h3, SV_TV_FileWrite, (writeHeaderConfigstrings_path L sv _).2,
              tvState_t.zero]
          · simp [h1, h2, h3, tvState_t.zero]
      · simp [h1]
    · unfold SV_TV_StartRecord
      simp [h1, h2, h3, SV_TV_FileWrite, (writeHeaderConfigstrings_path L sv _).1]
  · unfold autoStartName
    rw [if_pos hu]

/-- C20 (amended) at concrete inputs: with an auto-start pending, the match
state `active` starts the recording `d/u` and the match state `warmup` leaves
the recorder as it is. -/
theorem C20_deferred_auto_start_witness :
    recPending.tv.autoPending = true ∧
    autoStartFires (svMatch [97, 99, 116, 105, 118, 101] [117]) = true ∧
    ((SV_TV_WriteFrame tiny toyExternals (svMatch [97, 99, 116, 105, 118, 101] [117]) recPending
        ).tv.recording = true ∧
      (SV_TV_WriteFrame tiny toyExternals (svMatch [97, 99, 116, 105, 118, 101] [117]) recPending
        ).tv.frameCount = 0 ∧
      (SV_TV_WriteFrame tiny toyExternals (svMatch [97, 99, 116, 105, 118, 101] [117]) recPending
        ).tv.recordingPath
        = (cstr (svMatch [97, 99, 116, 105, 118, 101] [117]).sv_tvpath ++ [47] ++
            cstr (autoStartName tiny (svMatch [97, 99, 116, 105, 118, 101] [117]))).take
            (tiny.MAX_QPATH - 1)) ∧
    autoStartFires (svMatch [119, 97, 114, 109, 117, 112] [117]) = false ∧
    SV_TV_WriteFrame tiny toyExternals (svMatch [119, 97, 114, 109, 117, 112] [117]) recPending
      = recPending :=
  ⟨by decide, by decide,
   ((C20_deferred_auto_start tiny toyExternals (svMatch [97, 99, 116, 105, 118, 101] [117])
      recPending (by decide)).2.1 (by decide)).2.2 (by decide) (by decide) (by decide),
   by decide, by decide⟩

/-! ## The per-tick command buffer of the recorder -/

theorem cmdsTile_snoc (l : List tvCmd_t) (o m : Nat) (c : tvCmd_t) (h : cmdsTile l o m)
    (hc : c.offset = m) : cmdsTile (l ++ [c]) o (m + c.len) := by
  induction l generalizing o with
  | nil =>
    have e : o = m := h
    subst e
    exact ⟨hc, rfl⟩
  | cons a t ih => exact ⟨h.1, ih _ h.2⟩

theorem take_succ_set {α : Type} (l : List α) (n : Nat) (x : α) (h : n < l.length) :
    (l.set n x).take (n + 1) = l.take n ++ [x] := by
  induction l generalizing n with
  | nil => simp at h
  | cons a t ih =>
    cases n with
    | zero => simp
    | succ k =>
      simp only [List.set_cons_succ, List.take_succ_cons, List.cons_append, List.cons.injEq,
        true_and]
      exact ih k (by simpa using h)

theorem cmdInv_congr (L : Limits) (a b : tvState_t) (h : CmdInv L a) (h1 : b.cmds = a.cmds)
    (h2 : b.cmdBuf = a.cmdBuf) (h3 : b.cmdCount = a.cmdCount)
    (h4 : b.cmdBufUsed = a.cmdBufUsed) : CmdInv L b := by
  unfold CmdInv
  rw [h1, h2, h3, h4]
  exact h

theorem cmdInv_reset (L : Limits) (a b : tvState_t) (h : CmdInv L a) (h1 : b.cmds = a.cmds)
    (h2 : b.cmdBuf = a.cmdBuf) (h3 : b.cmdCount = 0) (h4 : b.cmdBufUsed = 0) : CmdInv L b := by
  unfold CmdInv
  rw [h1, h2, h3, h4]
  exact ⟨h.1, h.2.1, Nat.zero_le _, Nat.zero_le _, rfl⟩

theorem cmdInv_zero (L : Limits) : CmdInv L (tvState_t.zero L) := by
  unfold CmdInv tvState_t.zero
  simp [cmdsTile]

theorem writeHeaderConfigstrings_cmds (L : Limits) (sv : Server) (r : Recorder) :
    (writeHeaderConfigstrings L sv r).tv.cmds = r.tv.cmds ∧
    (writeHeaderConfigstrings L sv r).tv.cmdBuf = r.tv.cmdBuf := by
  unfold writeHeaderConfigstrings
  generalize List.range L.MAX_CONFIGSTRINGS = l
  induction l generalizing r with
  | nil => exact ⟨rfl, rfl⟩
  | cons i t ih =>
    rw [List.foldl_cons]
    by_cases h : cstr (sv.configstrings.getD i []) = []
    · simp only [h, if_true]
      exact ih r
    · simp only [h, if_false]
      exact ih _

theorem startRecord_cmdInv (L : Limits) (sv : Server) (r : Recorder) (filename : List Nat)
    (h : CmdInv L r.tv) : CmdInv L (SV_TV_StartRecord L sv r filename).tv := by
  unfold SV_TV_StartRecord
  by_cases h1 : sv.inGame = true
  · by_cases h2 : r.tv.recording = true
    · simpa [h1, h2] using h
    · by_cases h3 : sv.openOk = true
      · simp only [h1, h2, h3, Bool.not_true, Bool.false_eq_true, if_false]
        refine cmdInv_reset L (tvState_t.zero L) _ (cmdInv_zero L) ?_ ?_ rfl rfl
        · exact (writeHeaderConfigstrings_cmds L sv _).1
        · exact (writeHeaderConfigstrings_cmds L sv _).2
      · simp only [h1, h2, h3, Bool.not_true, Bool.not_false, Bool.false_eq_true, if_false,
          if_true]
        exact cmdInv_congr L (tvState_t.zero L) _ (cmdInv_zero L) rfl rfl rfl rfl
  · simpa [h1] using h

theorem stopRecord_cmdInv (L : Limits) (r : Recorder) (discard : Bool) (h : CmdInv L r.tv) :
    CmdInv L (SV_TV_StopRecord L r discard).tv := by
  unfold SV_TV_StopRecord
  by_cases h1 : r.tv.recording = true
  · simp only [h1, Bool.not_true, Bool.false_eq_true, if_false]
    exact cmdInv_congr L r.tv _ h rfl rfl rfl rfl
  · simp only [h1, Bool.not_false, if_true]
    exact cmdInv_congr L r.tv _ h rfl rfl rfl rfl

theorem writeFrame_cmdInv (L : Limits) (X : Externals) (sv : Server) (r : Recorder)
    (h : CmdInv L r.tv) : CmdInv L (SV_TV_WriteFrame L X sv r).tv := by
  unfold SV_TV_WriteFrame
  by_cases h1 : r.tv.autoPending = true
  · rw [if_pos h1]
    unfold resolveAutoStart
    have hs : ∀ name, CmdInv L
        (SV_TV_StartRecord L sv { r with tv := { r.tv with autoPending := false } } name).tv :=
      fun name => startRecord_cmdInv L sv _ name (cmdInv_congr L r.tv _ h rfl rfl rfl rfl)
    dsimp only
    split_ifs <;> first | exact hs _ | exact h
  · rw [if_neg h1]
    by_cases h2 : r.tv.recording = true
    · rw [if_neg (by rw [h2]; simp)]
      dsimp only
      split_ifs <;>
        first
        | exact stopRecord_cmdInv L _ true (cmdInv_reset L r.tv _ h rfl rfl rfl rfl)
        | exact cmdInv_reset L r.tv _ h rfl rfl rfl rfl
    · rw [if_pos (by simpa using h2)]
      exact h

theorem captureServerCommand_cmdInv (L : Limits) (r : Recorder) (target : Int)
    (cmd : List Nat) (h : CmdInv L r.tv) :
    CmdInv L (SV_TV_CaptureServerCommand L r target cmd).tv := by
  unfold SV_TV_CaptureServerCommand
  by_cases h1 : r.tv.cmdCount ≥ L.MAX_TV_CMDS
  · rw [if_pos h1]
    exact h
  · rw [if_neg h1]
    dsimp only
    by_cases h2 : r.tv.cmdBufUsed + strlen cmd > L.MAX_TV_CMDBUF
    · rw [if_pos h2]
      exact h
    · rw [if_neg h2]
      obtain ⟨l1, l2, l3, l4, l5⟩ := h
      refine ⟨by simp [l1], ?_, by simp only; omega, by simp only; omega, ?_⟩
      · simp only [writeAt, List.length_append, List.length_take, List.length_drop, l2]
        have : (cstr cmd).length = strlen cmd := rfl
        omega
      · simp only
        rw [take_succ_set _ _ _ (by omega)]
        exact cmdsTile_snoc _ 0 _ ⟨target, r.tv.cmdBufUsed, strlen cmd⟩ l5 rfl

theorem apply_cmdInv (L : Limits) (X : Externals) (r : Recorder) (op : RecOp)
    (h : CmdInv L r.tv) : CmdInv L (op.apply L X r).tv := by
  cases op with
  | autoStart sv =>
    simp only [RecOp.apply, SV_TV_AutoStart]
    split
    · exact h
    · exact cmdInv_congr L r.tv _ h rfl rfl rfl rfl
  | startRecord sv filename => exact startRecord_cmdInv L sv r filename h
  | writeFrame sv => exact writeFrame_cmdInv L X sv r h
  | stopRecord discard => exact stopRecord_cmdInv L r discard h
  | configstringChanged index =>
    simp only [RecOp.apply, SV_TV_ConfigstringChanged]
    split
    · exact cmdInv_congr L r.tv _ h rfl rfl rfl rfl
    · exact h
  | captureServerCommand target cmd => exact captureServerCommand_cmdInv L r target cmd h

theorem runOps_cmdInv (L : Limits) (X : Externals) (ops : List RecOp) :
    CmdInv L (runOps L X ops).tv := by
  unfold runOps
  have : ∀ (r : Recorder), CmdInv L r.tv → CmdInv L (ops.foldl (RecOp.apply L X) r).tv := by
    induction ops with
    | nil => exact fun r h => h
    | cons op t ih => exact fun r h => ih _ (apply_cmdInv L X r op h)
  exact this _ (cmdInv_zero L)

/-- C19: in every state the recorder reaches from its initial state by any
sequence of calls, `cmdCount <= MAX_TV_CMDS`, `cmdBufUsed <= MAX_TV_CMDBUF`
and the entries tile `cmdBuf[0 .. cmdBufUsed)` in capture order (`CmdInv`).
In such a state `SV_TV_CaptureServerCommand( target, text )` leaves the
recorder unchanged when `cmdCount >= MAX_TV_CMDS` or
`cmdBufUsed + strlen( text ) > MAX_TV_CMDBUF`; otherwise it appends the one
entry `{target, previous cmdBufUsed, strlen( text )}`, copies the text at that
offset, keeps every earlier entry and every earlier byte, and changes nothing
else. -/
theorem C19_capture_server_command (L : Limits) (X : Externals) (ops : List RecOp)
    (target : Int) (cmd : List Nat) :
    CmdInv L (runOps L X ops).tv ∧
    CmdInv L (SV_TV_CaptureServerCommand L (runOps L X ops) target cmd).tv ∧
    ((runOps L X ops).tv.cmdCount ≥ L.MAX_TV_CMDS ∨
        (runOps L X ops).tv.cmdBufUsed + strlen cmd > L.MAX_TV_CMDBUF →
      SV_TV_CaptureServerCommand L (runOps L X ops) target cmd = runOps L X ops) ∧
    ((runOps L X ops).tv.cmdCount < L.MAX_TV_CMDS →
        (runOps L X ops).tv.cmdBufUsed + strlen cmd ≤ L.MAX_TV_CMDBUF →
      (SV_TV_CaptureServerCommand L (runOps L X ops) target cmd).tv.cmdCount
        = (runOps L X ops).tv.cmdCount + 1 ∧
      (SV_TV_CaptureServerCommand L (runOps L X ops) target cmd).tv.cmdBufUsed
        = (runOps L X ops).tv.cmdBufUsed + strlen cmd ∧
      (SV_TV_CaptureServerCommand L (runOps L X ops) target cmd).tv.cmds.getD
          (runOps L X ops).tv.cmdCount ⟨0, 0, 0⟩
        = ⟨target, (runOps L X ops).tv.cmdBufUsed, strlen cmd⟩ ∧
      (∀ k, k ≠ (runOps L X ops).tv.cmdCount →
        (SV_TV_CaptureServerCommand L (runOps L X ops) target cmd).tv.cmds.getD k ⟨0, 0, 0⟩
          = (runOps L X ops).tv.cmds.getD k ⟨0, 0, 0⟩) ∧
      ((SV_TV_CaptureServerCommand L (runOps L X ops) target cmd).tv.cmdBuf.drop
          (runOps L X ops).tv.cmdBufUsed).take (strlen cmd) = cstr cmd ∧
      (SV_TV_CaptureServerCommand L (runOps L X ops) target cmd).tv.cmdBuf.take
          (runOps L X ops).tv.cmdBufUsed
        = (runOps L X ops).tv.cmdBuf.take (runOps L X ops).tv.cmdBufUsed ∧
      SV_TV_CaptureServerCommand L (runOps L X ops) target cmd
        = { runOps L X ops with
            tv := { (runOps L X ops).tv with
              cmds := (SV_TV_CaptureServerCommand L (runOps L X ops) target cmd).tv.cmds
              cmdBuf := (SV_TV_CaptureServerCommand L (runOps L X ops) target cmd).tv.cmdBuf
              cmdBufUsed := (runOps L X ops).tv.cmdBufUsed + strlen cmd
              cmdCount := (runOps L X ops).tv.cmdCount + 1 } }) := by
  have hinv := runOps_cmdInv L X ops
  generalize runOps L X ops = r at hinv ⊢
  refine ⟨hinv, captureServerCommand_cmdInv L r target cmd hinv, fun h => ?_, fun h1 h2 => ?_⟩
  · unfold SV_TV_CaptureServerCommand
    by_cases hc : r.tv.cmdCount ≥ L.MAX_TV_CMDS
    · rw [if_pos hc]
    · rw [if_neg hc]
      dsimp only
      rw [if_pos (by omega)]
  · obtain ⟨l1, l2, _, _, _⟩ := hinv
    have hlen : (cstr cmd).length = strlen cmd := rfl
    have e : SV_TV_CaptureServerCommand L r target cmd
        = { r with tv := { r.tv with
              cmds := r.tv.cmds.set r.tv.cmdCount ⟨target, r.tv.cmdBufUsed, strlen cmd⟩
              cmdBuf := writeAt r.tv.cmdBuf r.tv.cmdBufUsed (cstr cmd)
              cmdBufUsed := r.tv.cmdBufUsed + strlen cmd
              cmdCount := r.tv.cmdCount + 1 } } := by
      unfold SV_TV_CaptureServerCommand
      rw [if_neg (by omega)]
      dsimp only
      rw [if_neg (by omega)]
    rw [e]
    refine ⟨rfl, rfl, ?_, fun k hk => ?_, ?_, ?_, rfl⟩
    · exact getD_set_eq _ _ _ _ (by omega)
    · exact getD_set_ne _ _ _ _ _ hk
    · simp only [writeAt]
      rw [List.append_assoc, List.drop_left' (by simp; omega), List.take_left' hlen]
    · simp only [writeAt]
      rw [List.append_assoc, List.take_left' (by simp; omega)]

/-- C19 at a concrete input: one command `hi` is in the buffer, `yo` for
client 1 is captured. -/
theorem C19_capture_server_command_witness :
    (SV_TV_CaptureServerCommand tiny
        (runOps tiny toyExternals
          [RecOp.startRecord svA [116], RecOp.captureServerCommand (-1) [104, 105]])
        1 [121, 111]).tv.cmds.getD 1 ⟨0, 0, 0⟩ = ⟨1, 2, 2⟩ ∧
    ((SV_TV_CaptureServerCommand tiny
        (runOps tiny toyExternals
          [RecOp.startRecord svA [116], RecOp.captureServerCommand (-1) [104, 105]])
        1 [121, 111]).tv.cmdBuf.drop 2).take 2 = [121, 111] :=
  ⟨((C19_capture_server_command tiny toyExternals
      [RecOp.startRecord svA [116], RecOp.captureServerCommand (-1) [104, 105]]
      1 [121, 111]).2.2.2 (by decide) (by decide)).2.2.1,
   ((C19_capture_server_command tiny toyExternals
      [RecOp.startRecord svA [116], RecOp.captureServerCommand (-1) [104, 105]]
      1 [121, 111]).2.2.2 (by decide) (by decide)).2.2.2.2.1⟩

/-! ## Viewpoint commands -/

theorem find?_range'_first (q : Nat → Bool) (n : Nat) :
    ∀ (s i : Nat), s ≤ i → i < s + n → q i = true →
      (∀ j, s ≤ j → j < i → q j = false) → (List.range' s n).find? q = some i := by
  induction n with
  | zero => intro s i h1 h2; omega
  | succ k ih =>
    intro s i h1 h2 hq hfirst
    rw [List.range'_succ]
    by_cases e : s = i
    · subst e
      simp [hq]
    · have hs : q s = false := hfirst s (Nat.le_refl _) (by omega)
      rw [List.find?_cons, hs]
      exact ih (s + 1) i (by omega) (by omega) hq (fun j hj1 hj2 => hfirst j (by omega) hj2)

theorem find?_candidates_first (q : Nat → Bool) (f : Nat → Nat) (n i : Nat) (h1 : 1 ≤ i)
    (h2 : i ≤ n) (hq : q (f i) = true) (hfirst : ∀ j, 1 ≤ j → j < i → q (f j) = false) :
    ((List.range' 1 n).map f).find? q = some (f i) := by
  rw [List.find?_map, find?_range'_first (q ∘ f) n 1 i h1 (by omega) hq hfirst]
  rfl

theorem find?_candidates_only (q : Nat → Bool) (f : Nat → Nat) (n v : Nat)
    (h : ∀ i, 1 ≤ i → i ≤ n → f i ≠ v → q (f i) = false) :
    (((List.range' 1 n).map f).find? q).getD v = v := by
  cases hr : ((List.range' 1 n).map f).find? q with
  | none => rfl
  | some s =>
    have hq := List.find?_some hr
    have hm := List.mem_of_find?_eq_some hr
    simp only [List.mem_map, List.mem_range'_1] at hm
    obtain ⟨i, ⟨hi1, hi2⟩, rfl⟩ := hm
    by_cases e : f i = v
    · simpa using e
    · rw [h i hi1 (by omega) e] at hq
      exact absurd hq (by simp)

theorem buildSnapshot_viewpoint (L : Limits) (X : Externals) (tv : tvPlayback_t)
    (which : Fin 2) : (CL_TV_BuildSnapshot L X tv which).viewpoint = tv.viewpoint := by
  unfold CL_TV_BuildSnapshot
  dsimp only
  split <;> rfl

theorem rebuildSnapshots_viewpoint (L : Limits) (X : Externals) (c : Client) :
    (CL_TV_RebuildSnapshots L X c).tvPlay.viewpoint = c.tvPlay.viewpoint := by
  unfold CL_TV_RebuildSnapshots
  dsimp only
  rw [buildSnapshot_viewpoint, buildSnapshot_viewpoint]

theorem switchViewpoint_other (L : Limits) (X : Externals) (c : Client) (slot : Nat)
    (h : slot ≠ c.tvPlay.viewpoint) :
    switchViewpoint L X c slot
      = CL_TV_RebuildSnapshots L X { c with tvPlay := { c.tvPlay with viewpoint := slot } } ∧
    (switchViewpoint L X c slot).tvPlay.viewpoint = slot := by
  unfold switchViewpoint
  rw [if_pos h]
  exact ⟨rfl, rebuildSnapshots_viewpoint L X _⟩

/-- C16: during playback, `tv_view_next` sets the viewpoint to the first slot
in the cyclic order `v + 1, v + 2, ...` (modulo `MAX_CLIENTS`) that is live and
not a spectator and rebuilds the snapshots, and leaves the client (viewpoint
and both snapshots included) unchanged when no slot other than `v` qualifies;
`tv_view_prev` does the same in the cyclic order `v - 1, v - 2, ...`. -/
theorem C16_view_next_prev (L : Limits) (X : Externals) (c : Client)
    (hact : c.tvPlay.active = true) :
    (∀ i, 1 ≤ i → i ≤ L.MAX_CLIENTS →
      viewQualifies L X c ((c.tvPlay.viewpoint + i) % L.MAX_CLIENTS) = true →
      (∀ j, 1 ≤ j → j < i →
        viewQualifies L X c ((c.tvPlay.viewpoint + j) % L.MAX_CLIENTS) = false) →
      (c.tvPlay.viewpoint + i) % L.MAX_CLIENTS ≠ c.tvPlay.viewpoint →
      (CL_TV_ViewNext_f L X c).tvPlay.viewpoint = (c.tvPlay.viewpoint + i) % L.MAX_CLIENTS ∧
      CL_TV_ViewNext_f L X c = CL_TV_RebuildSnapshots L X
        { c with tvPlay := { c.tvPlay with
            viewpoint := (c.tvPlay.viewpoint + i) % L.MAX_CLIENTS } }) ∧
    ((∀ s, s < L.MAX_CLIENTS → s ≠ c.tvPlay.viewpoint → viewQualifies L X c s = false) →
      CL_TV_ViewNext_f L X c = c) ∧
    (∀ i, 1 ≤ i → i ≤ L.MAX_CLIENTS →
      viewQualifies L X c ((c.tvPlay.viewpoint + L.MAX_CLIENTS - i) % L.MAX_CLIENTS) = true →
      (∀ j, 1 ≤ j → j < i →
        viewQualifies L X c ((c.tvPlay.viewpoint + L.MAX_CLIENTS - j) % L.MAX_CLIENTS)
          = false) →
      (c.tvPlay.viewpoint + L.MAX_CLIENTS - i) % L.MAX_CLIENTS ≠ c.tvPlay.viewpoint →
      (CL_TV_ViewPrev_f L X c).tvPlay.viewpoint
        = (c.tvPlay.viewpoint + L.MAX_CLIENTS - i) % L.MAX_CLIENTS ∧
      CL_TV_ViewPrev_f L X c = CL_TV_RebuildSnapshots L X
        { c with tvPlay := { c.tvPlay with
            viewpoint := (c.tvPlay.viewpoint + L.MAX_CLIENTS - i) % L.MAX_CLIENTS } }) ∧
    ((∀ s, s < L.MAX_CLIENTS → s ≠ c.tvPlay.viewpoint → viewQualifies L X c s = false) →
      CL_TV_ViewPrev_f L X c = c) := by
  have hmod : ∀ x, 1 ≤ L.MAX_CLIENTS → x % L.MAX_CLIENTS < L.MAX_CLIENTS :=
    fun x h => Nat.mod_lt _ (by omega)
  refine ⟨fun i h1 h2 hq hfirst hne => ?_, fun hnone => ?_,
    fun i h1 h2 hq hfirst hne => ?_, fun hnone => ?_⟩
  · unfold CL_TV_ViewNext_f
    rw [if_neg (by rw [hact]; simp),
      find?_candidates_first (viewQualifies L X c)
        (fun i => (c.tvPlay.viewpoint + i) % L.MAX_CLIENTS) L.MAX_CLIENTS i h1 h2 hq hfirst]
    have := switchViewpoint_other L X c _ hne
    exact ⟨this.2, this.1⟩
  · unfold CL_TV_ViewNext_f
    rw [if_neg (by rw [hact]; simp),
      find?_candidates_only (viewQualifies L X c)
        (fun i => (c.tvPlay.viewpoint + i) % L.MAX_CLIENTS) L.MAX_CLIENTS c.tvPlay.viewpoint
        (fun i hi1 hi2 hne => hnone _ (hmod _ (by omega)) hne)]
    unfold switchViewpoint
    rw [if_neg (by simp)]
  · unfold CL_TV_ViewPrev_f
    rw [if_neg (by rw [hact]; simp),
      find?_candidates_first (viewQualifies L X c)
        (fun i => (c.tvPlay.viewpoint + L.MAX_CLIENTS - i) % L.MAX_CLIENTS) L.MAX_CLIENTS i
        h1 h2 hq hfirst]
    have := switchViewpoint_other L X c _ hne
    exact ⟨this.2, this.1⟩
  · unfold CL_TV_ViewPrev_f
    rw [if_neg (by rw [hact]; simp),
      find?_candidates_only (viewQualifies L X c)
        (fun i => (c.tvPlay.viewpoint + L.MAX_CLIENTS - i) % L.MAX_CLIENTS) L.MAX_CLIENTS
        c.tvPlay.viewpoint (fun i hi1 hi2 hne => hnone _ (hmod _ (by omega)) hne)]
    unfold switchViewpoint
    rw [if_neg (by simp)]

set_option maxRecDepth 100000 in
/-- C16 at the input of the specification: live non-spectators 1, 5 and 7 and
the viewpoint on 5.  Three `tv_view_next` calls select 7, then 1, then 5; three
`tv_view_prev` calls select 1, then 7, then 5. -/
theorem C16_view_next_prev_witness :
    (CL_TV_ViewNext_f tiny toyExternals clientView).tvPlay.viewpoint = (5 + 2) % 8 ∧
    (CL_TV_ViewNext_f tiny toyExternals
      (CL_TV_ViewNext_f tiny toyExternals clientView)).tvPlay.viewpoint = 1 ∧
    (CL_TV_ViewNext_f tiny toyExternals (CL_TV_ViewNext_f tiny toyExternals
      (CL_TV_ViewNext_f tiny toyExternals clientView))).tvPlay.viewpoint = 5 ∧
    (CL_TV_ViewPrev_f tiny toyExternals clientView).tvPlay.viewpoint = 1 ∧
    (CL_TV_ViewPrev_f tiny toyExternals
      (CL_TV_ViewPrev_f tiny toyExternals clientView)).tvPlay.viewpoint = 7 ∧
    (CL_TV_ViewPrev_f tiny toyExternals (CL_TV_ViewPrev_f tiny toyExternals
      (CL_TV_ViewPrev_f tiny toyExternals clientView))).tvPlay.viewpoint = 5 :=
  ⟨((C16_view_next_prev tiny toyExternals clientView (by decide)).1 2 (by decide) (by decide)
      (by decide) (by decide) (by decide)).1,
   by decide, by decide, by decide, by decide, by decide⟩

/-! ## Opening a file -/

theorem autoViewpoint_fixed (L : Limits) (X : Externals) (c : Client) :
    (autoViewpoint L X c).tvPlay.fixed = c.tvPlay.fixed := by
  unfold autoViewpoint
  split
  · split <;> rfl
  · rfl

theorem readConfigstrings_fixed (L : Limits) (X : Externals) (count : Nat) (m : List Nat)
    (c c2 : Client) (m2 : List Nat) (h : readConfigstrings L X count m c = some (c2, m2)) :
    c2.tvPlay.fixed = c.tvPlay.fixed := by
  induction count generalizing m c with
  | zero =>
    simp only [readConfigstrings, Option.some.injEq, Prod.mk.injEq] at h
    obtain ⟨h1, _⟩ := h
    subst h1
    rfl
  | succ k ih =>
    unfold readConfigstrings at h
    dsimp only at h
    split at h
    · split at h
      · cases h
      · have e := ih _ _ h
        dsimp only at e
        split at e <;> exact e
    · exact ih _ _ h

theorem readCommands_fixed (L : Limits) (X : Externals) (count : Nat) (m : List Nat)
    (tv : tvPlayback_t) : (readCommands L X count m tv).1.fixed = tv.fixed := by
  induction count generalizing m tv with
  | zero => rfl
  | succ k ih =>
    unfold readCommands
    dsimp only
    rw [ih]
    split <;> rfl

theorem readFrameTail_fixed (L : Limits) (X : Externals) (c c2 : Client) (m : List Nat)
    (t : Int) (h : readFrameTail L X c m t = some c2) : c2.tvPlay.fixed = c.tvPlay.fixed := by
  unfold readFrameTail at h
  dsimp only at h
  split at h
  · cases h
  · rename_i c3 m3 hcs
    have a := autoViewpoint_fixed L X c
    have b := readConfigstrings_fixed L X _ _ _ _ _ hcs
    have d := readCommands_fixed L X (X.MSG_ReadShort m3).1.toNat (X.MSG_ReadShort m3).2
      c3.tvPlay
    simp only [Option.some.injEq] at h
    subst h
    show (readCommands L X _ _ c3.tvPlay).1.fixed = _
    rw [d, b, a]

theorem readEntitySection_fixed (L : Limits) (X : Externals) (tv : tvPlayback_t)
    (m : List Nat) : (readEntitySection L X tv m).state.fixed = tv.fixed := by
  unfold readEntitySection
  dsimp only
  split <;> rfl

theorem readPlayerSection_fixed (L : Limits) (X : Externals) (tv : tvPlayback_t)
    (m : List Nat) : (readPlayerSection L X tv m).state.fixed = tv.fixed := by
  unfold readPlayerSection
  dsimp only
  split <;> rfl

theorem readFrame_fixed (L : Limits) (X : Externals) (c c2 : Client)
    (h : CL_TV_ReadFrame L X c = some c2) : c2.tvPlay.fixed = c.tvPlay.fixed := by
  unfold CL_TV_ReadFrame at h
  dsimp only at h
  split at h
  · simp only [Option.some.injEq] at h
    subst h
    rfl
  · split at h
    · simp only [Option.some.injEq] at h
      subst h
      rfl
    · split at h
      · simp only [Option.some.injEq] at h
        subst h
        rfl
      · split at h
        · rename_i tv1 he
          simp only [Option.some.injEq] at h
          subst h
          have := readEntitySection_fixed L X
            { c.tvPlay with plain := (c.tvPlay.plain.drop 4).drop (le32 (frameSizeBytes c)) }
            (X.MSG_ReadLong (framePayload c)).2
          rw [he] at this
          exact this
        · rename_i tv1 m1 he
          have e1 := readEntitySection_fixed L X
            { c.tvPlay with plain := (c.tvPlay.plain.drop 4).drop (le32 (frameSizeBytes c)) }
            (X.MSG_ReadLong (framePayload c)).2
          rw [he] at e1
          split at h
          · rename_i tv2 hp
            simp only [Option.some.injEq] at h
            subst h
            have e2 := readPlayerSection_fixed L X tv1 m1
            rw [hp] at e2
            exact e2.trans e1
          · rename_i tv2 m2 hp
            have e2 := readPlayerSection_fixed L X tv1 m1
            rw [hp] at e2
            have e3 := readFrameTail_fixed L X _ _ _ _ h
            exact e3.trans (e2.trans e1)

theorem openStart_snapCount (L : Limits) (X : Externals) (Z : List Nat → List Nat)
    (file : List Nat) (c c1 : Client) (h : openStart L X Z file c = some (some c1)) :
    c1.tvPlay.snapCount = 0 := by
  unfold openStart at h
  split at h
  · cases h
  · dsimp only at h
    split at h
    · cases h
    · simp only [Option.some.injEq] at h
      subst h
      rfl

theorem buildSnapshot_zero_counts (L : Limits) (X : Externals) (tv : tvPlayback_t) :
    (CL_TV_BuildSnapshot L X tv 0).snapCount = tv.snapCount + 1 ∧
    (CL_TV_BuildSnapshot L X tv 0).snapshots0.messageNum = tv.snapCount := by
  unfold CL_TV_BuildSnapshot
  dsimp only
  rw [if_pos rfl]
  exact ⟨rfl, rfl⟩

theorem fixed_snapshots (a b : tvPlayback_t) (h : a.fixed = b.fixed) :
    a.snapCount = b.snapCount ∧ a.snapshots0 = b.snapshots0 ∧
    a.snapEntities0 = b.snapEntities0 := by
  unfold tvPlayback_t.fixed at h
  simp only [Prod.mk.injEq] at h
  exact ⟨h.2.2.2.2.2.2.1, h.2.2.2.2.2.2.2.1, h.2.2.2.2.2.2.2.2.2.1⟩

theorem openFinish_atEnd (L : Limits) (X : Externals) (c : Client)
    (h : c.tvPlay.atEnd = true) :
    (openFinish L X c).tvPlay.active = true ∧
    (openFinish L X c).tvPlay.snapshots1
      = { c.tvPlay.snapshots0 with messageNum := c.tvPlay.snapCount } ∧
    (openFinish L X c).tvPlay.snapshots0 = c.tvPlay.snapshots0 ∧
    (openFinish L X c).tvPlay.snapCount = c.tvPlay.snapCount + 1 ∧
    (openFinish L X c).tvPlay.snapEntities1 = c.tvPlay.snapEntities0 ∧
    (openFinish L X c).tvPlay.snapEntities0 = c.tvPlay.snapEntities0 := by
  unfold openFinish
  dsimp only
  rw [if_pos h]
  exact ⟨rfl, rfl, rfl, rfl, rfl, rfl⟩

/-- C15: let `CL_TV_Open` get to the body of the file (the header parses and
the `tv` key fits in the arena).  If the first `CL_TV_ReadFrame` reads a frame
and the second one sets `atEnd` (the body holds exactly one readable frame),
`CL_TV_Open` returns true with snapshot 1 equal to snapshot 0 in every field
except `messageNum`, `snapshots[0].messageNum = 0`, `snapshots[1].messageNum = 1`,
`snapCount = 2` and `snapEntities[1]` equal to `snapEntities[0]`.  If the
first `CL_TV_ReadFrame` sets `atEnd` (no readable frame), `CL_TV_Open` returns
false. -/
theorem C15_open_with_one_frame_or_none (L : Limits) (X : Externals)
    (Z : List Nat → List Nat) (file : List Nat) (c c1 c2 : Client)
    (hstart : openStart L X Z file c = some (some c1))
    (hfirst : CL_TV_ReadFrame L X c1 = some c2) :
    (c2.tvPlay.atEnd = true → CL_TV_Open L X Z file c = some none) ∧
    (c2.tvPlay.atEnd = false →
      ∀ c4, CL_TV_ReadFrame L X (openFirstSnapshot L X c2) = some c4 →
        c4.tvPlay.atEnd = true →
        ∃ c5, CL_TV_Open L X Z file c = some (some c5) ∧
          c5.tvPlay.active = true ∧
          c5.tvPlay.snapshots1 = { c5.tvPlay.snapshots0 with messageNum := 1 } ∧
          c5.tvPlay.snapshots0.messageNum = 0 ∧
          c5.tvPlay.snapshots1.messageNum = 1 ∧
          c5.tvPlay.snapCount = 2 ∧
          c5.tvPlay.snapEntities1 = c5.tvPlay.snapEntities0) := by
  constructor
  · intro hend
    unfold CL_TV_Open
    rw [hstart]
    dsimp only
    rw [hfirst]
    dsimp only
    rw [if_pos hend]
  · intro hend c4 hsecond hend4
    have h0 : c1.tvPlay.snapCount = 0 := openStart_snapCount L X Z file c c1 hstart
    have h2 := (fixed_snapshots _ _ (readFrame_fixed L X c1 c2 hfirst)).1
    have hb := buildSnapshot_zero_counts L X
      { c2.tvPlay with
        firstServerTime := c2.tvPlay.serverTime
        viewpoint := (CL_TV_FindFirstActivePlayer L X c2.gameState c2.tvPlay).getD 0
        viewOrigin := viewOriginOf c2.tvPlay
          ((CL_TV_FindFirstActivePlayer L X c2.gameState c2.tvPlay).getD 0) }
    have hb1 : (openFirstSnapshot L X c2).tvPlay.snapCount = 1 := by
      have e : (openFirstSnapshot L X c2).tvPlay.snapCount = c2.tvPlay.snapCount + 1 := hb.1
      rw [e, h2, h0]
      rfl
    have hb2 : (openFirstSnapshot L X c2).tvPlay.snapshots0.messageNum = 0 := by
      have e : (openFirstSnapshot L X c2).tvPlay.snapshots0.messageNum = c2.tvPlay.snapCount :=
        hb.2
      rw [e, h2, h0]
    obtain ⟨f1, f2, _⟩ := fixed_snapshots _ _ (readFrame_fixed L X _ c4 hsecond)
    refine ⟨openFinish L X c4, ?_, ?_⟩
    · unfold CL_TV_Open
      rw [hstart]
      dsimp only
      rw [hfirst]
      dsimp only
      rw [if_neg (by rw [hend]; simp), hsecond]
    · obtain ⟨g1, g2, g3, g4, g5, g6⟩ := openFinish_atEnd L X c4 hend4
      rw [g1, g2, g3, g4, g5, g6, f1, f2, hb1, hb2]
      exact ⟨rfl, rfl, rfl, rfl, rfl, rfl⟩

set_option maxRecDepth 100000 in
/-- C15 at concrete inputs: a file whose body is the frame of tick A, and a
file with an empty body. -/
theorem C15_open_with_one_frame_or_none_witness :
    (∃ c5, CL_TV_Open tiny toyExternals toyUnzstd fileOneFrame (Client.zero tiny)
          = some (some c5) ∧
        c5.tvPlay.active = true ∧
        c5.tvPlay.snapshots1 = { c5.tvPlay.snapshots0 with messageNum := 1 } ∧
        c5.tvPlay.snapshots0.messageNum = 0 ∧
        c5.tvPlay.snapshots1.messageNum = 1 ∧
        c5.tvPlay.snapCount = 2 ∧
        c5.tvPlay.snapEntities1 = c5.tvPlay.snapEntities0) ∧
    CL_TV_Open tiny toyExternals toyUnzstd fileNoFrame (Client.zero tiny) = some none :=
  ⟨(C15_open_with_one_frame_or_none tiny toyExternals toyUnzstd fileOneFrame (Client.zero tiny)
      (startClient fileOneFrame)
      ((CL_TV_ReadFrame tiny toyExternals (startClient fileOneFrame)).getD (Client.zero tiny))
      (by decide) (by decide)).2 (by decide)
      ((CL_TV_ReadFrame tiny toyExternals (openFirstSnapshot tiny toyExternals
        ((CL_TV_ReadFrame tiny toyExternals (startClient fileOneFrame)).getD
          (Client.zero tiny)))).getD (Client.zero tiny))
      (by decide) (by decide),
   (C15_open_with_one_frame_or_none tiny toyExternals toyUnzstd fileNoFrame (Client.zero tiny)
      (startClient fileNoFrame)
      ((CL_TV_ReadFrame tiny toyExternals (startClient fileNoFrame)).getD (Client.zero tiny))
      (by decide) (by decide)).1 (by decide)⟩

/-! ## Reading frames depends only on the core of the client -/

theorem coreTv_eq (a b : tvPlayback_t) (h : a.coreTv = b.coreTv) :
    a.entities = b.entities ∧ a.entityBitmask = b.entityBitmask ∧ a.players = b.players ∧
    a.playerBitmask = b.playerBitmask ∧ a.plain = b.plain ∧ a.atEnd = b.atEnd ∧
    a.serverTime = b.serverTime := by
  unfold tvPlayback_t.coreTv tvPlayback_t.running at h
  simp only [Prod.mk.injEq] at h
  obtain ⟨⟨h1, h2, h3, h4⟩, h5, h6, h7⟩ := h
  exact ⟨h1, h2, h3, h4, h5, h6, h7⟩

theorem coreTv_of_eq (a b : tvPlayback_t) (h1 : a.entities = b.entities)
    (h2 : a.entityBitmask = b.entityBitmask) (h3 : a.players = b.players)
    (h4 : a.playerBitmask = b.playerBitmask) (h5 : a.plain = b.plain) (h6 : a.atEnd = b.atEnd)
    (h7 : a.serverTime = b.serverTime) : a.coreTv = b.coreTv := by
  unfold tvPlayback_t.coreTv tvPlayback_t.running
  rw [h1, h2, h3, h4, h5, h6, h7]

theorem readEntitySection_core (L : Limits) (X : Externals) (a b : tvPlayback_t) (m : List Nat)
    (h : a.coreTv = b.coreTv) :
    (readEntitySection L X a m).map tvPlayback_t.coreTv
      = (readEntitySection L X b m).map tvPlayback_t.coreTv := by
  obtain ⟨h1, h2, h3, h4, h5, h6, h7⟩ := coreTv_eq a b h
  unfold readEntitySection
  dsimp only
  rw [h1, h2]
  cases readEntities L X ((X.MSG_ReadData m (L.MAX_GENTITIES / 8)).2.length + 1)
      (X.MSG_ReadData m (L.MAX_GENTITIES / 8)).2 b.entities with
  | done ents m2 =>
    simp only [Scan.map, Scan.done.injEq, and_true]
    exact coreTv_of_eq _ _ rfl rfl h3 h4 h5 h6 h7
  | bad ents =>
    simp only [Scan.map, Scan.bad.injEq]
    exact coreTv_of_eq _ _ rfl rfl h3 h4 h5 h6 h7

theorem readPlayerSection_core (L : Limits) (X : Externals) (a b : tvPlayback_t) (m : List Nat)
    (h : a.coreTv = b.coreTv) :
    (readPlayerSection L X a m).map tvPlayback_t.coreTv
      = (readPlayerSection L X b m).map tvPlayback_t.coreTv := by
  obtain ⟨h1, h2, h3, h4, h5, h6, h7⟩ := coreTv_eq a b h
  unfold readPlayerSection
  dsimp only
  rw [h3, h4]
  cases readPlayers L X (X.MSG_ReadData m (L.MAX_CLIENTS / 8)).1 (List.range L.MAX_CLIENTS)
      (X.MSG_ReadData m (L.MAX_CLIENTS / 8)).2 b.players with
  | done ps m2 =>
    simp only [Scan.map, Scan.done.injEq, and_true]
    exact coreTv_of_eq _ _ h1 h2 rfl rfl h5 h6 h7
  | bad ps =>
    simp only [Scan.map, Scan.bad.injEq]
    exact coreTv_of_eq _ _ h1 h2 rfl rfl h5 h6 h7

theorem autoViewpoint_core (L : Limits) (X : Externals) (c : Client) :
    (autoViewpoint L X c).core = c.core := by
  unfold autoViewpoint
  split
  · split <;> rfl
  · rfl

theorem readConfigstrings_core (L : Limits) (X : Externals) (count : Nat) :
    ∀ (m : List Nat) (c d : Client), c.core = d.core →
      (readConfigstrings L X count m c).map (fun r => (r.1.core, r.2))
        = (readConfigstrings L X count m d).map (fun r => (r.1.core, r.2)) := by
  induction count with
  | zero =>
    intro m c d h
    simp only [readConfigstrings, Option.map_some', h]
  | succ k ih =>
    intro m c d h
    have hg : c.gameState = d.gameState := by
      unfold Client.core at h
      exact (Prod.mk.inj h).2
    have ht : c.tvPlay.coreTv = d.tvPlay.coreTv := by
      unfold Client.core at h
      exact (Prod.mk.inj h).1
    unfold readConfigstrings
    dsimp only
    split
    · rw [hg]
      cases CL_TV_UpdateConfigstring L X d.gameState (X.MSG_ReadShort m).1.toNat
          (readLenData L X (X.MSG_ReadShort (X.MSG_ReadShort m).2).2
            (X.MSG_ReadShort (X.MSG_ReadShort m).2).1).1
          (X.MSG_ReadShort (X.MSG_ReadShort m).2).1 with
      | none => rfl
      | some gs =>
        dsimp only
        apply ih
        unfold Client.core
        dsimp only
        congr 1
        split <;> split <;> exact ht
    · exact ih _ c d h

theorem readCommands_core (L : Limits) (X : Externals) (count : Nat) :
    ∀ (m : List Nat) (a b : tvPlayback_t),
      (readCommands L X count m a).1.coreTv = a.coreTv ∧
      (readCommands L X count m a).2 = (readCommands L X count m b).2 := by
  induction count with
  | zero => exact fun m a b => ⟨rfl, rfl⟩
  | succ k ih =>
    intro m a b
    unfold readCommands
    dsimp only
    constructor
    · rw [(ih _ _ b).1]
      split <;> rfl
    · exact (ih _ _ _).2

theorem readFrameTail_core (L : Limits) (X : Externals) (c d : Client) (m : List Nat)
    (t : Int) (h : c.core = d.core) :
    (readFrameTail L X c m t).map Client.core = (readFrameTail L X d m t).map Client.core := by
  have ha : (autoViewpoint L X c).core = (autoViewpoint L X d).core := by
    rw [autoViewpoint_core, autoViewpoint_core, h]
  have hc := readConfigstrings_core L X (X.MSG_ReadShort m).1.toNat (X.MSG_ReadShort m).2
    _ _ ha
  unfold readFrameTail
  dsimp only
  cases h1 : readConfigstrings L X (X.MSG_ReadShort m).1.toNat (X.MSG_ReadShort m).2
      (autoViewpoint L X c) with
  | none =>
    rw [h1] at hc
    cases h2 : readConfigstrings L X (X.MSG_ReadShort m).1.toNat (X.MSG_ReadShort m).2
        (autoViewpoint L X d) with
    | none => rfl
    | some r2 =>
      rw [h2] at hc
      simp at hc
  | some r1 =>
    rw [h1] at hc
    cases h2 : readConfigstrings L X (X.MSG_ReadShort m).1.toNat (X.MSG_ReadShort m).2
        (autoViewpoint L X d) with
    | none =>
      rw [h2] at hc
      simp at hc
    | some r2 =>
      rw [h2] at hc
      simp only [Option.map_some', Option.some.injEq, Prod.mk.injEq] at hc
      obtain ⟨hcore, hm⟩ := hc
      have hg : r1.1.gameState = r2.1.gameState := by
        unfold Client.core at hcore
        exact (Prod.mk.inj hcore).2
      have ht : r1.1.tvPlay.coreTv = r2.1.tvPlay.coreTv := by
        unfold Client.core at hcore
        exact (Prod.mk.inj hcore).1
      obtain ⟨p1, _⟩ := readCommands_core L X (X.MSG_ReadShort r1.2).1.toNat
        (X.MSG_ReadShort r1.2).2 r1.1.tvPlay r1.1.tvPlay
      obtain ⟨p2, _⟩ := readCommands_core L X (X.MSG_ReadShort r2.2).1.toNat
        (X.MSG_ReadShort r2.2).2 r2.1.tvPlay r2.1.tvPlay
      obtain ⟨q1, q2, q3, q4, q5, q6, _⟩ := coreTv_eq _ _ (p1.trans (ht.trans p2.symm))
      simp only [Option.map_some', Option.some.injEq]
      unfold Client.core
      dsimp only
      rw [hg]
      congr 1
      exact coreTv_of_eq _ _ q1 q2 q3 q4 q5 q6 rfl

theorem atEnd_core (c d : Client) (a b : tvPlayback_t) (hg : c.gameState = d.gameState)
    (h : a.coreTv = b.coreTv) : (c.atEnd a).core = (d.atEnd b).core := by
  obtain ⟨h1, h2, h3, h4, h5, _, h7⟩ := coreTv_eq a b h
  unfold Client.core Client.atEnd
  dsimp only
  rw [hg]
  congr 1
  exact coreTv_of_eq _ _ h1 h2 h3 h4 h5 rfl h7

theorem readFrame_core (L : Limits) (X : Externals) (c d : Client) (h : c.core = d.core) :
    (CL_TV_ReadFrame L X c).map Client.core = (CL_TV_ReadFrame L X d).map Client.core := by
  have hg : c.gameState = d.gameState := by
    unfold Client.core at h
    exact (Prod.mk.inj h).2
  have ht : c.tvPlay.coreTv = d.tvPlay.coreTv := by
    unfold Client.core at h
    exact (Prod.mk.inj h).1
  obtain ⟨h1, h2, h3, h4, h5, h6, h7⟩ := coreTv_eq _ _ ht
  have hs : frameSizeBytes c = frameSizeBytes d := by
    unfold frameSizeBytes
    rw [h5]
  have hp : framePayload c = framePayload d := by
    unfold framePayload
    rw [hs, h5]
  have hdrop : ∀ n, ({ c.tvPlay with plain := c.tvPlay.plain.drop n } : tvPlayback_t).coreTv
      = ({ d.tvPlay with plain := d.tvPlay.plain.drop n } : tvPlayback_t).coreTv :=
    fun n => coreTv_of_eq _ _ h1 h2 h3 h4 (by simp only; rw [h5]) h6 h7
  have hdrop2 : ∀ n k,
      ({ c.tvPlay with plain := (c.tvPlay.plain.drop n).drop k } : tvPlayback_t).coreTv
      = ({ d.tvPlay with plain := (d.tvPlay.plain.drop n).drop k } : tvPlayback_t).coreTv :=
    fun n k => coreTv_of_eq _ _ h1 h2 h3 h4 (by simp only; rw [h5]) h6 h7
  unfold CL_TV_ReadFrame
  dsimp only
  rw [hs, hp]
  split
  · simp only [Option.map_some', Option.some.injEq]
    exact atEnd_core c d _ _ hg (hdrop 4)
  · split
    · simp only [Option.map_some', Option.some.injEq]
      exact atEnd_core c d _ _ hg (hdrop 4)
    · split
      · simp only [Option.map_some', Option.some.injEq]
        exact atEnd_core c d _ _ hg (hdrop2 4 _)
      · have he := readEntitySection_core L X _ _ (X.MSG_ReadLong (framePayload d)).2
          (hdrop2 4 (le32 (frameSizeBytes d)))
        cases e1 : readEntitySection L X
            { c.tvPlay with plain := (c.tvPlay.plain.drop 4).drop (le32 (frameSizeBytes d)) }
            (X.MSG_ReadLong (framePayload d)).2 with
        | bad tv1 =>
          cases e2 : readEntitySection L X
              { d.tvPlay with plain := (d.tvPlay.plain.drop 4).drop (le32 (frameSizeBytes d)) }
              (X.MSG_ReadLong (framePayload d)).2 with
          | bad tv2 =>
            rw [e1, e2] at he
            simp only [Scan.map, Scan.bad.injEq] at he
            simp only [Option.map_some', Option.some.injEq]
            exact atEnd_core c d _ _ hg he
          | done tv2 m2 =>
            rw [e1, e2] at he
            simp [Scan.map] at he
        | done tv1 m1 =>
          cases e2 : readEntitySection L X
              { d.tvPlay with plain := (d.tvPlay.plain.drop 4).drop (le32 (frameSizeBytes d)) }
              (X.MSG_ReadLong (framePayload d)).2 with
          | bad tv2 =>
            rw [e1, e2] at he
            simp [Scan.map] at he
          | done tv2 m2 =>
            rw [e1, e2] at he
            simp only [Scan.map, Scan.done.injEq] at he
            obtain ⟨hcore, hm⟩ := he
            subst hm
            dsimp only
            have hpl := readPlayerSection_core L X tv1 tv2 m1 hcore
            cases p1 : readPlayerSection L X tv1 m1 with
            | bad tv3 =>
              cases p2 : readPlayerSection L X tv2 m1 with
              | bad tv4 =>
                rw [p1, p2] at hpl
                simp only [Scan.map, Scan.bad.injEq] at hpl
                simp only [Option.map_some', Option.some.injEq]
                exact atEnd_core c d _ _ hg hpl
              | done tv4 m4 =>
                rw [p1, p2] at hpl
                simp [Scan.map] at hpl
            | done tv3 m3 =>
              cases p2 : readPlayerSection L X tv2 m1 with
              | bad tv4 =>
                rw [p1, p2] at hpl
                simp [Scan.map] at hpl
              | done tv4 m4 =>
                rw [p1, p2] at hpl
                simp only [Scan.map, Scan.done.injEq] at hpl
                obtain ⟨hcore2, hm2⟩ := hpl
                subst hm2
                dsimp only
                apply readFrameTail_core
                unfold Client.core
                dsimp only
                rw [hg, hcore2]

theorem readFrames_core (L : Limits) (X : Externals) (k : Nat) :
    ∀ (c d : Client), c.core = d.core →
      (readFrames L X k c).map Client.core = (readFrames L X k d).map Client.core := by
  induction k with
  | zero =>
    intro c d h
    simp only [readFrames, Option.map_some', h]
  | succ n ih =>
    intro c d h
    have h1 := readFrame_core L X c d h
    unfold readFrames
    cases e1 : CL_TV_ReadFrame L X c with
    | none =>
      cases e2 : CL_TV_ReadFrame L X d with
      | none => rfl
      | some d2 =>
        rw [e1, e2] at h1
        simp at h1
    | some c2 =>
      cases e2 : CL_TV_ReadFrame L X d with
      | none =>
        rw [e1, e2] at h1
        simp at h1
      | some d2 =>
        rw [e1, e2] at h1
        simp only [Option.map_some', Option.some.injEq] at h1
        exact ih c2 d2 h1

/-! ## The reading loop of a seek -/

theorem readFrames_step (L : Limits) (X : Externals) (k : Nat) (c : Client) :
    readFrames L X (k + 1) c = (CL_TV_ReadFrame L X c).bind (readFrames L X k) := by
  conv => lhs; unfold readFrames
  cases CL_TV_ReadFrame L X c <;> rfl

theorem readFrames_add (L : Limits) (X : Externals) (a b : Nat) :
    ∀ c : Client, readFrames L X (a + b) c = (readFrames L X a c).bind (readFrames L X b) := by
  induction a with
  | zero =>
    intro c
    rw [Nat.zero_add]
    rfl
  | succ n ih =>
    intro c
    rw [Nat.succ_add, readFrames_step, readFrames_step]
    cases CL_TV_ReadFrame L X c with
    | none => rfl
    | some c2 => exact ih c2

theorem readFrames_succ (L : Limits) (X : Externals) (k : Nat) (c : Client) :
    readFrames L X (k + 1) c = (readFrames L X k c).bind (CL_TV_ReadFrame L X) := by
  rw [readFrames_add]
  congr 1
  funext d
  rw [show (1 : Nat) = 0 + 1 from rfl, readFrames_step]
  cases CL_TV_ReadFrame L X d <;> rfl

theorem core_bind_readFrame (L : Limits) (X : Externals) (a b : Option Client)
    (h : a.map Client.core = b.map Client.core) :
    (a.bind (CL_TV_ReadFrame L X)).map Client.core
      = (b.bind (CL_TV_ReadFrame L X)).map Client.core := by
  cases a with
  | none =>
    cases b with
    | none => rfl
    | some d => simp at h
  | some c =>
    cases b with
    | none => simp at h
    | some d =>
      simp only [Option.map_some', Option.some.injEq] at h
      exact readFrame_core L X c d h

theorem core_bind_readFrames (L : Limits) (X : Externals) (k : Nat) (a b : Option Client)
    (h : a.map Client.core = b.map Client.core) :
    (a.bind (readFrames L X k)).map Client.core
      = (b.bind (readFrames L X k)).map Client.core := by
  cases a with
  | none =>
    cases b with
    | none => rfl
    | some d => simp at h
  | some c =>
    cases b with
    | none => simp at h
    | some d =>
      simp only [Option.map_some', Option.some.injEq] at h
      exact readFrames_core L X k c d h

theorem seekLoop_as_readFrames (L : Limits) (X : Externals) (t : Int) (fuel : Nat) :
    ∀ c : Client, ∃ j, j ≤ fuel ∧ seekLoop L X fuel t c = readFrames L X j c ∧
      ∀ i, i < j → ∃ ci, readFrames L X i c = some ci ∧
        ci.tvPlay.serverTime < t ∧ ci.tvPlay.atEnd = false := by
  induction fuel with
  | zero => exact fun c => ⟨0, Nat.le_refl _, rfl, fun i hi => absurd hi (by omega)⟩
  | succ n ih =>
    intro c
    unfold seekLoop
    by_cases hc : c.tvPlay.serverTime < t ∧ c.tvPlay.atEnd = false
    · rw [if_pos hc]
      cases hr : CL_TV_ReadFrame L X c with
      | none =>
        refine ⟨1, by omega, ?_, fun i hi => ?_⟩
        · unfold readFrames
          rw [hr]
        · have : i = 0 := by omega
          subst this
          exact ⟨c, rfl, hc.1, hc.2⟩
      | some c2 =>
        obtain ⟨j, hj, hk, hpre⟩ := ih c2
        refine ⟨j + 1, by omega, ?_, fun i hi => ?_⟩
        · dsimp only
          rw [hk]
          conv => rhs; unfold readFrames
          rw [hr]
        · cases i with
          | zero => exact ⟨c, rfl, hc.1, hc.2⟩
          | succ i2 =>
            obtain ⟨ci, h1, h2⟩ := hpre i2 (by omega)
            refine ⟨ci, ?_, h2⟩
            unfold readFrames
            rw [hr]
            exact h1
    · rw [if_neg hc]
      exact ⟨0, Nat.zero_le _, rfl, fun i hi => absurd hi (by omega)⟩

theorem readFrame_progress (L : Limits) (X : Externals) (c c2 : Client)
    (h : CL_TV_ReadFrame L X c = some c2) (hend : c2.tvPlay.atEnd = false) :
    c2.tvPlay.plain.length < c.tvPlay.plain.length := by
  obtain ⟨hu, tv1, m1, tv2, m2, he, hp, ht⟩ := readFrame_complete L X c c2 h hend
  obtain ⟨_, _, e1⟩ := readEntitySection_done L X _ _ _ _ he
  obtain ⟨_, _, e2⟩ := readPlayerSection_done L X _ _ _ _ hp
  obtain ⟨_, e3, _⟩ := readFrameTail_running L X _ _ _ _ ht
  have hpl : c2.tvPlay.plain = (c.tvPlay.plain.drop 4).drop (le32 (frameSizeBytes c)) := by
    rw [e3]
    show tv2.plain = _
    rw [e2]
    show tv1.plain = _
    rw [e1]
  have h4 : (frameSizeBytes c).length = 4 := by
    by_contra hne
    exact hu (Or.inl hne)
  unfold frameSizeBytes at h4
  rw [List.length_take] at h4
  rw [hpl, List.length_drop, List.length_drop]
  omega

theorem seekLoop_exit (L : Limits) (X : Externals) (t : Int) (fuel : Nat) :
    ∀ c c2 : Client, c.tvPlay.plain.length < fuel → seekLoop L X fuel t c = some c2 →
      ¬ (c2.tvPlay.serverTime < t ∧ c2.tvPlay.atEnd = false) := by
  induction fuel with
  | zero => exact fun c c2 h => absurd h (by omega)
  | succ n ih =>
    intro c c2 hf h
    unfold seekLoop at h
    by_cases hc : c.tvPlay.serverTime < t ∧ c.tvPlay.atEnd = false
    · rw [if_pos hc] at h
      cases hr : CL_TV_ReadFrame L X c with
      | none =>
        rw [hr] at h
        cases h
      | some c3 =>
        rw [hr] at h
        dsimp only at h
        by_cases hend : c3.tvPlay.atEnd = false
        · have := readFrame_progress L X c c3 hr hend
          exact ih c3 c2 (by omega) h
        · cases n with
          | zero =>
            simp only [seekLoop, Option.some.injEq] at h
            subst h
            exact fun hx => hend hx.2
          | succ n2 =>
            unfold seekLoop at h
            rw [if_neg (fun hx => hend hx.2)] at h
            simp only [Option.some.injEq] at h
            subst h
            exact fun hx => hend hx.2
    · rw [if_neg hc] at h
      simp only [Option.some.injEq] at h
      subst h
      exact hc

/-! ## Seeking against the linear play -/

theorem fileRef_of_fixed (a b : tvPlayback_t) (h : a.fixed = b.fixed) : a.fileRef = b.fileRef := by
  unfold tvPlayback_t.fixed at h
  simp only [Prod.mk.injEq] at h
  unfold tvPlayback_t.fileRef
  rw [h.1, h.2.2.2.2.2.2.2.2.2.2.2.1, h.2.2.2.2.2.2.2.2.2.2.2.2]

theorem fileRef_eq (a b : tvPlayback_t) (h : a.fileRef = b.fileRef) :
    a.active = b.active ∧ a.initialGameState = b.initialGameState ∧
    a.firstFrameOffset = b.firstFrameOffset := by
  unfold tvPlayback_t.fileRef at h
  simp only [Prod.mk.injEq] at h
  exact h

theorem readFrame_fileRef (L : Limits) (X : Externals) (c c2 : Client)
    (h : CL_TV_ReadFrame L X c = some c2) : c2.tvPlay.fileRef = c.tvPlay.fileRef :=
  fileRef_of_fixed _ _ (readFrame_fixed L X c c2 h)

theorem readFrames_fileRef (L : Limits) (X : Externals) (k : Nat) :
    ∀ c c2 : Client, readFrames L X k c = some c2 → c2.tvPlay.fileRef = c.tvPlay.fileRef := by
  induction k with
  | zero =>
    intro c c2 h
    simp only [readFrames, Option.some.injEq] at h
    rw [h]
  | succ n ih =>
    intro c c2 h
    rw [readFrames_step] at h
    cases hr : CL_TV_ReadFrame L X c with
    | none =>
      rw [hr] at h
      cases h
    | some c3 =>
      rw [hr] at h
      rw [ih c3 c2 h, readFrame_fileRef L X c c3 hr]

theorem buildSnapshot_coreTv (L : Limits) (X : Externals) (tv : tvPlayback_t) (which : Fin 2) :
    (CL_TV_BuildSnapshot L X tv which).coreTv = tv.coreTv := by
  unfold CL_TV_BuildSnapshot
  dsimp only
  split <;> rfl

theorem buildSnapshot_fileRef (L : Limits) (X : Externals) (tv : tvPlayback_t) (which : Fin 2) :
    (CL_TV_BuildSnapshot L X tv which).fileRef = tv.fileRef := by
  unfold CL_TV_BuildSnapshot
  dsimp only
  split <;> rfl

theorem withSnapshot_core (L : Limits) (X : Externals) (c : Client) (which : Fin 2) :
    ({ c with tvPlay := CL_TV_BuildSnapshot L X c.tvPlay which } : Client).core = c.core := by
  unfold Client.core
  dsimp only
  rw [buildSnapshot_coreTv]

theorem seekFinish_core (L : Limits) (X : Externals) (c : Client) :
    (seekFinish L X c).core = c.core := rfl

theorem seekFinish_fileRef (L : Limits) (X : Externals) (c : Client) :
    (seekFinish L X c).tvPlay.fileRef = c.tvPlay.fileRef := rfl

theorem seekSnapshots_core (L : Limits) (X : Externals) (c : Client) :
    (seekSnapshots L X c).map Client.core
      = if c.tvPlay.atEnd = false then (CL_TV_ReadFrame L X c).map Client.core
        else some c.core := by
  have hc := withSnapshot_core L X c 0
  have hend : (CL_TV_BuildSnapshot L X c.tvPlay 0).atEnd = c.tvPlay.atEnd :=
    (coreTv_eq _ _ (buildSnapshot_coreTv L X c.tvPlay 0)).2.2.2.2.2.1
  unfold seekSnapshots
  dsimp only
  rw [hend]
  by_cases h : c.tvPlay.atEnd = false
  · rw [if_pos h, if_pos h, ← readFrame_core L X _ c hc]
    cases CL_TV_ReadFrame L X { c with tvPlay := CL_TV_BuildSnapshot L X c.tvPlay 0 } with
    | none => rfl
    | some c2 =>
      dsimp only [Option.map_some']
      rw [withSnapshot_core]
  · rw [if_neg h, if_neg h]
    dsimp only [Option.map_some']
    rw [← hc]
    rfl

theorem seekSnapshots_fileRef (L : Limits) (X : Externals) (c c2 : Client)
    (h : seekSnapshots L X c = some c2) : c2.tvPlay.fileRef = c.tvPlay.fileRef := by
  unfold seekSnapshots at h
  dsimp only at h
  split at h
  · split at h
    · cases h
    · rename_i c3 hr
      simp only [Option.some.injEq] at h
      subst h
      dsimp only
      rw [buildSnapshot_fileRef, readFrame_fileRef L X _ c3 hr]
      exact buildSnapshot_fileRef L X c.tvPlay 0
  · simp only [Option.some.injEq] at h
    subst h
    exact buildSnapshot_fileRef L X c.tvPlay 0

theorem openStart_props (L : Limits) (X : Externals) (Z : List Nat → List Nat)
    (file : List Nat) (c c0 : Client) (h : openStart L X Z file c = some (some c0)) :
    c0.gameState = c0.tvPlay.initialGameState ∧
    c0.tvPlay.plain = Z (file.drop c0.tvPlay.firstFrameOffset) ∧
    c0.tvPlay.running = (tvPlayback_t.zero L).running ∧
    c0.tvPlay.atEnd = false ∧ c0.tvPlay.serverTime = 0 := by
  unfold openStart at h
  split at h
  · cases h
  · dsimp only at h
    split at h
    · cases h
    · simp only [Option.some.injEq] at h
      subst h
      exact ⟨rfl, rfl, rfl, rfl, rfl⟩

theorem seekRestart_core (L : Limits) (X : Externals) (Z : List Nat → List Nat)
    (file : List Nat) (cp c0 c : Client) (h : openStart L X Z file cp = some (some c0))
    (hi : c.tvPlay.initialGameState = c0.tvPlay.initialGameState)
    (ho : c.tvPlay.firstFrameOffset = c0.tvPlay.firstFrameOffset) :
    (seekRestart L Z file c).core = c0.core := by
  obtain ⟨h1, h2, h3, h4, h5⟩ := openStart_props L X Z file cp c0 h
  unfold Client.core tvPlayback_t.coreTv
  rw [h1, h2, h3, h4, h5, ← hi, ← ho]
  rfl

theorem seek_unfold (L : Limits) (X : Externals) (Z : List Nat → List Nat) (file : List Nat)
    (c : Client) (t : Int) (h : c.tvPlay.active = true) :
    CL_TV_Seek L X Z file c t
      = (seekLoop L X ((seekStart L Z file c t).tvPlay.plain.length + 1)
          (seekTarget c.tvPlay t) ((seekStart L Z file c t).setSeeking true)).bind
          (fun c2 => (seekSnapshots L X (c2.setSeeking false)).map (seekFinish L X)) := by
  unfold CL_TV_Seek
  rw [if_neg (by rw [h]; simp)]
  dsimp only
  cases seekLoop L X ((seekStart L Z file c t).tvPlay.plain.length + 1)
      (seekTarget c.tvPlay t) ((seekStart L Z file c t).setSeeking true) <;> rfl

theorem seek_fileRef (L : Limits) (X : Externals) (Z : List Nat → List Nat) (file : List Nat)
    (c c2 : Client) (t : Int) (h : CL_TV_Seek L X Z file c t = some c2) :
    c2.tvPlay.fileRef = c.tvPlay.fileRef := by
  by_cases ha : c.tvPlay.active = true
  · rw [seek_unfold L X Z file c t ha] at h
    obtain ⟨j, _, hl, _⟩ := seekLoop_as_readFrames L X (seekTarget c.tvPlay t)
      ((seekStart L Z file c t).tvPlay.plain.length + 1) ((seekStart L Z file c t).setSeeking true)
    rw [hl] at h
    cases hr : readFrames L X j ((seekStart L Z file c t).setSeeking true) with
    | none =>
      rw [hr] at h
      cases h
    | some c3 =>
      rw [hr] at h
      have e3 := readFrames_fileRef L X j _ c3 hr
      simp only [Option.some_bind, Option.map_eq_some'] at h
      obtain ⟨c4, h4, h5⟩ := h
      have e4 := seekSnapshots_fileRef L X _ c4 h4
      rw [← h5, seekFinish_fileRef, e4]
      have e5 : (c3.setSeeking false).tvPlay.fileRef = c3.tvPlay.fileRef := rfl
      rw [e5, e3]
      have e6 : ((seekStart L Z file c t).setSeeking true).tvPlay.fileRef
          = (seekStart L Z file c t).tvPlay.fileRef := rfl
      rw [e6]
      unfold seekStart
      split <;> rfl
  · unfold CL_TV_Seek at h
    rw [if_pos (by simpa using ha)] at h
    simp only [Option.some.injEq] at h
    rw [h]

theorem seek_linear_from (L : Limits) (X : Externals) (Z : List Nat → List Nat)
    (file : List Nat) (c0 c : Client) (ks : Nat) (t : Int) (ha : c.tvPlay.active = true)
    (hs : (readFrames L X ks c0).map Client.core = some (seekStart L Z file c t).core) :
    ∃ j,
      (∀ i, i < j → ∃ ci, readFrames L X (ks + i) c0 = some ci ∧
        ci.tvPlay.serverTime < seekTarget c.tvPlay t ∧ ci.tvPlay.atEnd = false) ∧
      (readFrames L X (ks + j) c0 = none → CL_TV_Seek L X Z file c t = none) ∧
      ∀ cj, readFrames L X (ks + j) c0 = some cj →
        ¬ (cj.tvPlay.serverTime < seekTarget c.tvPlay t ∧ cj.tvPlay.atEnd = false) ∧
        (CL_TV_Seek L X Z file c t).map Client.core
          = (readFrames L X (if cj.tvPlay.atEnd then ks + j else ks + j + 1) c0).map
              Client.core := by
  obtain ⟨j, _, hl, hpre⟩ := seekLoop_as_readFrames L X (seekTarget c.tvPlay t)
    ((seekStart L Z file c t).tvPlay.plain.length + 1) ((seekStart L Z file c t).setSeeking true)
  have htr : ∀ i, (readFrames L X (ks + i) c0).map Client.core
      = (readFrames L X i ((seekStart L Z file c t).setSeeking true)).map Client.core := by
    intro i
    rw [readFrames_add]
    exact core_bind_readFrames L X i (readFrames L X ks c0)
      (some ((seekStart L Z file c t).setSeeking true)) (by rw [hs]; rfl)
  refine ⟨j, ?_, ?_, ?_⟩
  · intro i hi
    obtain ⟨ci, h1, h2, h3⟩ := hpre i hi
    have e := htr i
    rw [h1] at e
    simp only [Option.map_some', Option.map_eq_some'] at e
    obtain ⟨di, hd, hcore⟩ := e
    have hx := coreTv_eq _ _ (congrArg Prod.fst hcore)
    refine ⟨di, hd, ?_, ?_⟩
    · rw [hx.2.2.2.2.2.2]
      exact h2
    · rw [hx.2.2.2.2.2.1]
      exact h3
  · intro hn
    have e := htr j
    rw [hn] at e
    have hnone : readFrames L X j ((seekStart L Z file c t).setSeeking true) = none := by
      cases hr : readFrames L X j ((seekStart L Z file c t).setSeeking true) with
      | none => rfl
      | some x =>
        rw [hr] at e
        simp at e
    rw [seek_unfold L X Z file c t ha, hl, hnone]
    rfl
  · intro cj hj
    have e := htr j
    rw [hj] at e
    cases hr : readFrames L X j ((seekStart L Z file c t).setSeeking true) with
    | none =>
      rw [hr] at e
      simp at e
    | some c2 =>
      rw [hr] at e
      simp only [Option.map_some', Option.some.injEq] at e
      have hcj := coreTv_eq _ _ (congrArg Prod.fst e)
      have hexit := seekLoop_exit L X (seekTarget c.tvPlay t)
        ((seekStart L Z file c t).tvPlay.plain.length + 1)
        ((seekStart L Z file c t).setSeeking true) c2 (Nat.lt_succ_self _) (hl.trans hr)
      constructor
      · rw [hcj.2.2.2.2.2.2, hcj.2.2.2.2.2.1]
        exact hexit
      · rw [seek_unfold L X Z file c t ha, hl, hr]
        simp only [Option.some_bind, Option.map_map]
        have hf : (Client.core ∘ seekFinish L X) = Client.core := rfl
        rw [hf, seekSnapshots_core]
        have hd : (c2.setSeeking false).core = cj.core := e.symm
        have hde : (c2.setSeeking false).tvPlay.atEnd = cj.tvPlay.atEnd := hcj.2.2.2.2.2.1.symm
        rw [hde]
        by_cases hend : cj.tvPlay.atEnd = true
        · rw [if_pos hend, if_neg (by rw [hend]; simp), hj, hd]
          rfl
        · rw [if_neg hend, if_pos (by simpa using hend), readFrames_succ, hj]
          exact readFrame_core L X _ _ hd

theorem seekStart_sync (L : Limits) (X : Externals) (Z : List Nat → List Nat)
    (file : List Nat) (cp c0 c : Client) (k0 : Nat) (t : Int)
    (hopen : openStart L X Z file cp = some (some c0)) (hstep : InStep L X c0 c k0) :
    (readFrames L X (if seeksForward c t = true then k0 else 0) c0).map Client.core
      = some (seekStart L Z file c t).core := by
  unfold seekStart
  by_cases hf : seeksForward c t = true
  · rw [if_pos hf, if_pos hf]
    exact hstep.core
  · rw [if_neg hf, if_neg hf, seekRestart_core L X Z file cp c0 c hopen hstep.initial hstep.offset]
    rfl

theorem seek_inStep (L : Limits) (X : Externals) (Z : List Nat → List Nat)
    (file : List Nat) (c0 c c2 : Client) (k0 k : Nat) (t : Int) (hstep : InStep L X c0 c k0)
    (h : CL_TV_Seek L X Z file c t = some c2)
    (hk : (CL_TV_Seek L X Z file c t).map Client.core = (readFrames L X k c0).map Client.core) :
    InStep L X c0 c2 k := by
  obtain ⟨e1, e2, e3⟩ := fileRef_eq _ _ (seek_fileRef L X Z file c c2 t h)
  refine ⟨e1.trans hstep.active, e2.trans hstep.initial, e3.trans hstep.offset, ?_⟩
  rw [← hk, h]
  rfl

theorem openFirstSnapshot_core (L : Limits) (X : Externals) (c : Client) :
    (openFirstSnapshot L X c).core = c.core := by
  unfold openFirstSnapshot Client.core
  dsimp only
  rw [buildSnapshot_coreTv]
  rfl

theorem openFirstSnapshot_fileRef (L : Limits) (X : Externals) (c : Client) :
    (openFirstSnapshot L X c).tvPlay.fileRef = c.tvPlay.fileRef := by
  unfold openFirstSnapshot
  dsimp only
  rw [buildSnapshot_fileRef]
  rfl

theorem openFinish_core (L : Limits) (X : Externals) (c : Client) :
    (openFinish L X c).core = c.core := by
  unfold openFinish Client.core
  dsimp only
  split
  · rfl
  · have h := buildSnapshot_coreTv L X c.tvPlay 1
    unfold tvPlayback_t.coreTv tvPlayback_t.running at h ⊢
    exact congrArg (fun x => (x, c.gameState)) h

theorem openFinish_fileRef (L : Limits) (X : Externals) (c : Client) :
    (openFinish L X c).tvPlay.active = true ∧
    (openFinish L X c).tvPlay.initialGameState = c.tvPlay.initialGameState ∧
    (openFinish L X c).tvPlay.firstFrameOffset = c.tvPlay.firstFrameOffset := by
  unfold openFinish
  dsimp only
  split
  · exact ⟨rfl, rfl, rfl⟩
  · obtain ⟨_, h2, h3⟩ := fileRef_eq _ _ (buildSnapshot_fileRef L X c.tvPlay 1)
    exact ⟨rfl, h2, h3⟩

theorem open_inStep (L : Limits) (X : Externals) (Z : List Nat → List Nat)
    (file : List Nat) (cp c0 c : Client) (hopen : openStart L X Z file cp = some (some c0))
    (h : CL_TV_Open L X Z file cp = some (some c)) : InStep L X c0 c 2 := by
  unfold CL_TV_Open at h
  rw [hopen] at h
  dsimp only at h
  cases h1 : CL_TV_ReadFrame L X c0 with
  | none =>
    rw [h1] at h
    cases h
  | some c2 =>
    rw [h1] at h
    dsimp only at h
    split at h
    · cases h
    · cases h2 : CL_TV_ReadFrame L X (openFirstSnapshot L X c2) with
      | none =>
        rw [h2] at h
        cases h
      | some c4 =>
        rw [h2] at h
        simp only [Option.some.injEq] at h
        subst h
        obtain ⟨a1, a2, a3⟩ := openFinish_fileRef L X c4
        obtain ⟨_, b2, b3⟩ := fileRef_eq _ _ (readFrame_fileRef L X _ c4 h2)
        obtain ⟨_, d2, d3⟩ := fileRef_eq _ _ (openFirstSnapshot_fileRef L X c2)
        obtain ⟨_, f2, f3⟩ := fileRef_eq _ _ (readFrame_fileRef L X c0 c2 h1)
        refine ⟨a1, ?_, ?_, ?_⟩
        · rw [a2, b2, d2, f2]
        · rw [a3, b3, d3, f3]
        · rw [readFrames_step, h1]
          have e := readFrame_core L X c2 (openFirstSnapshot L X c2)
            (openFirstSnapshot_core L X c2).symm
          rw [h2] at e
          rw [openFinish_core]
          have e1 : readFrames L X 1 c2 = CL_TV_ReadFrame L X c2 := by
            rw [show (1 : Nat) = 0 + 1 from rfl, readFrames_step]
            cases CL_TV_ReadFrame L X c2 <;> rfl
          rw [Option.some_bind, e1, e]
          rfl

theorem readFrame_inStep (L : Limits) (X : Externals) (c0 c c2 : Client) (k : Nat)
    (hstep : InStep L X c0 c k) (h : CL_TV_ReadFrame L X c = some c2) :
    InStep L X c0 c2 (k + 1) := by
  obtain ⟨e1, e2, e3⟩ := fileRef_eq _ _ (readFrame_fileRef L X c c2 h)
  refine ⟨e1.trans hstep.active, e2.trans hstep.initial, e3.trans hstep.offset, ?_⟩
  rw [readFrames_succ]
  have e := core_bind_readFrame L X (readFrames L X k c0) (some c) hstep.core
  rw [e, Option.some_bind, h]
  rfl

/-- C13: let `c0` be the state in which `CL_TV_Open` starts to read the frames
of a file, and let `c` be an active playback state of that file that agrees
with the linear play after `k0` frames (the state `CL_TV_Open` returns does so
with `k0 = 2`, and `CL_TV_ReadFrame` and `CL_TV_Seek` keep the agreement).
For every target `t` and on either path there is a number `k` of frames, at
least `k0` on the forward path, such that after `CL_TV_Seek( t )` the running
entities, players and bitmasks, the rest of the stream, `atEnd`, `serverTime`
and the configstring arena equal those of the linear play that has read `k`
frames from `c0`, the next `CL_TV_ReadFrame` gives the same of these in both
runs, and the state after the seek agrees with the linear play after `k`
frames. -/
theorem C13_seek_agrees_with_linear_play (L : Limits) (X : Externals)
    (Z : List Nat → List Nat) (file : List Nat) (cp c0 c : Client) (k0 : Nat) (t : Int)
    (hopen : openStart L X Z file cp = some (some c0)) (hstep : InStep L X c0 c k0) :
    ∃ k, (seeksForward c t = true → k0 ≤ k) ∧
      (CL_TV_Seek L X Z file c t).map Client.core = (readFrames L X k c0).map Client.core ∧
      ((CL_TV_Seek L X Z file c t).bind (CL_TV_ReadFrame L X)).map Client.core
        = (readFrames L X (k + 1) c0).map Client.core ∧
      ∀ c2, CL_TV_Seek L X Z file c t = some c2 → InStep L X c0 c2 k := by
  obtain ⟨j, _, hnone, hsome⟩ := seek_linear_from L X Z file c0 c
    (if seeksForward c t = true then k0 else 0) t hstep.active
    (seekStart_sync L X Z file cp c0 c k0 t hopen hstep)
  have hle : seeksForward c t = true → k0 ≤ (if seeksForward c t = true then k0 else 0) + j := by
    intro hf
    rw [if_pos hf]
    omega
  cases hr : readFrames L X ((if seeksForward c t = true then k0 else 0) + j) c0 with
  | none =>
    have hs := hnone hr
    refine ⟨(if seeksForward c t = true then k0 else 0) + j, hle, ?_, ?_, ?_⟩
    · rw [hs, hr]
    · rw [hs, readFrames_succ, hr]
    · intro c2 h2
      rw [hs] at h2
      cases h2
  | some cj =>
    obtain ⟨_, hcore⟩ := hsome cj hr
    refine ⟨if cj.tvPlay.atEnd then (if seeksForward c t = true then k0 else 0) + j
      else (if seeksForward c t = true then k0 else 0) + j + 1, ?_, hcore, ?_, ?_⟩
    · intro hf
      have := hle hf
      split <;> omega
    · rw [readFrames_succ]
      exact core_bind_readFrame L X _ _ hcore
    · intro c2 h2
      exact seek_inStep L X Z file c0 c c2 k0 _ t hstep h2 hcore

set_option maxRecDepth 100000 in
/-- C13 at a concrete input: the file with frames at 100, 125 and 150, the
client that `CL_TV_Open` returns, and the target 150. -/
theorem C13_seek_agrees_with_linear_play_witness :
    openStart tiny toyExternals toyUnzstd fileSeek (Client.zero tiny)
      = some (some (startClient fileSeek)) ∧
    InStep tiny toyExternals (startClient fileSeek) (openedClient fileSeek) 2 ∧
    ∃ k, (seeksForward (openedClient fileSeek) 150 = true → 2 ≤ k) ∧
      (CL_TV_Seek tiny toyExternals toyUnzstd fileSeek (openedClient fileSeek) 150).map
          Client.core
        = (readFrames tiny toyExternals k (startClient fileSeek)).map Client.core ∧
      ((CL_TV_Seek tiny toyExternals toyUnzstd fileSeek (openedClient fileSeek) 150).bind
          (CL_TV_ReadFrame tiny toyExternals)).map Client.core
        = (readFrames tiny toyExternals (k + 1) (startClient fileSeek)).map Client.core ∧
      ∀ c2, CL_TV_Seek tiny toyExternals toyUnzstd fileSeek (openedClient fileSeek) 150
          = some c2 → InStep tiny toyExternals (startClient fileSeek) c2 k :=
  ⟨by decide,
   open_inStep tiny toyExternals toyUnzstd fileSeek (Client.zero tiny) (startClient fileSeek)
     (openedClient fileSeek) (by decide) (by decide),
   C13_seek_agrees_with_linear_play tiny toyExternals toyUnzstd fileSeek (Client.zero tiny)
     (startClient fileSeek) (openedClient fileSeek) 2 150 (by decide)
     (open_inStep tiny toyExternals toyUnzstd fileSeek (Client.zero tiny) (startClient fileSeek)
       (openedClient fileSeek) (by decide) (by decide))⟩

theorem core_map_eq (a b : Option Client)
    (h1 : a.map (fun d => d.tvPlay.running) = b.map (fun d => d.tvPlay.running))
    (h2 : a.map (fun d => (d.tvPlay.plain, d.tvPlay.atEnd, d.tvPlay.serverTime))
      = b.map (fun d => (d.tvPlay.plain, d.tvPlay.atEnd, d.tvPlay.serverTime)))
    (h3 : a.map Client.gameState = b.map Client.gameState) :
    a.map Client.core = b.map Client.core := by
  cases a with
  | none =>
    cases b with
    | none => rfl
    | some d => simp at h1
  | some c =>
    cases b with
    | none => simp at h1
    | some d =>
      simp only [Option.map_some', Option.some.injEq, Prod.mk.injEq] at h1 h2 h3
      simp only [Option.map_some', Option.some.injEq]
      unfold Client.core tvPlayback_t.coreTv
      rw [h1, h2.1, h2.2.1, h2.2.2, h3]

set_option maxRecDepth 100000 in
/-- C14 fails as stated: the file has frames at 100, 125 and 150, the header
gives configstring 1 the value `a` and the frames at 125 and 150 change it to
`b` and `c`.  The targets 150 and 100 are in the range from 100 to 150, the
seek to 100 after the seek to 150 takes the backward path, and afterwards
configstring 1 is `b`: the change of the frame at 125 is present, although
the only frame with `serverTime` at most 100 leaves the value `a`. -/
theorem C14_counterexample_later_frame_applied :
    (openedClient fileSeek).tvPlay.firstServerTime = 100 ∧
    (openedClient fileSeek).tvPlay.totalDuration = 50 ∧
    seeksForward (soughtClient fileSeek (openedClient fileSeek) 150) 100 = false ∧
    (readFrames tiny toyExternals 1 (startClient fileSeek)).map
        (fun d => (d.tvPlay.serverTime, d.gameState.configString 1)) = some (100, [97]) ∧
    (readFrames tiny toyExternals 2 (startClient fileSeek)).map
        (fun d => (d.tvPlay.serverTime, d.gameState.configString 1)) = some (125, [98]) ∧
    (CL_TV_Seek tiny toyExternals toyUnzstd fileSeek
        (soughtClient fileSeek (openedClient fileSeek) 150) 100).map
        (fun d => d.gameState.configString 1) = some [98] := by
  decide

/-- C14, amended: let `c0` be the state in which `CL_TV_Open` starts to read
the frames (its arena is `initialGameState`), and let `c` be an active
playback state of the file for which `CL_TV_Seek( t2 )` takes the backward
path.  With `j` the number of frames the linear play from `c0` reads before
`serverTime` reaches the clamped target or `atEnd` is set, the configstring
arena after the seek equals that of the linear play after `j + 1` frames
(after `j` frames when `atEnd` is set): `initialGameState` with the
configstring changes of exactly these frames applied in stream order. -/
theorem C14_backward_seek_arena (L : Limits) (X : Externals)
    (Z : List Nat → List Nat) (file : List Nat) (cp c0 c : Client) (k0 : Nat) (t2 : Int)
    (hopen : openStart L X Z file cp = some (some c0)) (hstep : InStep L X c0 c k0)
    (hback : seeksForward c t2 = false) :
    c0.gameState = c.tvPlay.initialGameState ∧
    ∃ j,
      (∀ i, i < j → ∃ ci, readFrames L X i c0 = some ci ∧
        ci.tvPlay.serverTime < seekTarget c.tvPlay t2 ∧ ci.tvPlay.atEnd = false) ∧
      (readFrames L X j c0 = none → CL_TV_Seek L X Z file c t2 = none) ∧
      ∀ cj, readFrames L X j c0 = some cj →
        (seekTarget c.tvPlay t2 ≤ cj.tvPlay.serverTime ∨ cj.tvPlay.atEnd = true) ∧
        (CL_TV_Seek L X Z file c t2).map Client.gameState
          = (readFrames L X (if cj.tvPlay.atEnd then j else j + 1) c0).map Client.gameState := by
  have hs := seekStart_sync L X Z file cp c0 c k0 t2 hopen hstep
  rw [if_neg (by rw [hback]; simp)] at hs
  obtain ⟨j, hpre, hnone, hsome⟩ := seek_linear_from L X Z file c0 c 0 t2 hstep.active hs
  simp only [Nat.zero_add] at hpre hnone hsome
  refine ⟨?_, j, hpre, hnone, ?_⟩
  · rw [hstep.initial]
    exact (openStart_props L X Z file cp c0 hopen).1
  · intro cj hj
    obtain ⟨hexit, hcore⟩ := hsome cj hj
    constructor
    · by_cases hend : cj.tvPlay.atEnd = true
      · exact Or.inr hend
      · left
        by_contra hlt
        exact hexit ⟨by omega, by simpa using hend⟩
    · have e := congrArg (Option.map Prod.snd) hcore
      simp only [Option.map_map] at e
      exact e

set_option maxRecDepth 100000 in
/-- C14, amended, at a concrete input: the seek to 100 after the seek to 150
in the file with frames at 100, 125 and 150. -/
theorem C14_backward_seek_arena_witness :
    seeksForward (soughtClient fileSeek (openedClient fileSeek) 150) 100 = false ∧
    (startClient fileSeek).gameState
      = (soughtClient fileSeek (openedClient fileSeek) 150).tvPlay.initialGameState ∧
    ∃ j,
      (∀ i, i < j → ∃ ci, readFrames tiny toyExternals i (startClient fileSeek) = some ci ∧
        ci.tvPlay.serverTime
          < seekTarget (soughtClient fileSeek (openedClient fileSeek) 150).tvPlay 100 ∧
        ci.tvPlay.atEnd = false) ∧
      (readFrames tiny toyExternals j (startClient fileSeek) = none →
        CL_TV_Seek tiny toyExternals toyUnzstd fileSeek
          (soughtClient fileSeek (openedClient fileSeek) 150) 100 = none) ∧
      ∀ cj, readFrames tiny toyExternals j (startClient fileSeek) = some cj →
        (seekTarget (soughtClient fileSeek (openedClient fileSeek) 150).tvPlay 100
            ≤ cj.tvPlay.serverTime ∨ cj.tvPlay.atEnd = true) ∧
        (CL_TV_Seek tiny toyExternals toyUnzstd fileSeek
            (soughtClient fileSeek (openedClient fileSeek) 150) 100).map Client.gameState
          = (readFrames tiny toyExternals (if cj.tvPlay.atEnd then j else j + 1)
              (startClient fileSeek)).map Client.gameState :=
  ⟨by decide,
   C14_backward_seek_arena tiny toyExternals toyUnzstd fileSeek (Client.zero tiny)
     (startClient fileSeek) (soughtClient fileSeek (openedClient fileSeek) 150) 4 100
     (by decide)
     (seek_inStep tiny toyExternals toyUnzstd fileSeek (startClient fileSeek)
       (openedClient fileSeek) (soughtClient fileSeek (openedClient fileSeek) 150) 2 4 150
       (open_inStep tiny toyExternals toyUnzstd fileSeek (Client.zero tiny)
         (startClient fileSeek) (openedClient fileSeek) (by decide) (by decide))
       (by decide) (core_map_eq _ _ (by decide) (by decide) (by decide)))
     (by decide)⟩

/-! ## The command ring under `CL_TV_ReadFrame` -/

theorem pushAll_nil (L : Limits) (tv : tvPlayback_t) : pushAll L tv [] = tv := rfl

theorem pushAll_cons (L : Limits) (tv : tvPlayback_t) (t : List Nat) (ts : List (List Nat)) :
    pushAll L tv (t :: ts) = pushAll L (pushCommand L tv t) ts := rfl

theorem pushAll_append (L : Limits) (tv : tvPlayback_t) (a b : List (List Nat)) :
    pushAll L tv (a ++ b) = pushAll L (pushAll L tv a) b := by
  unfold pushAll
  rw [List.foldl_append]

theorem pushAll_cmdSequence (L : Limits) (texts : List (List Nat)) :
    ∀ tv : tvPlayback_t, (pushAll L tv texts).cmdSequence = tv.cmdSequence + texts.length := by
  induction texts with
  | nil => exact fun tv => rfl
  | cons t ts ih =>
    intro tv
    rw [pushAll_cons, ih, List.length_cons]
    show tv.cmdSequence + 1 + ts.length = _
    omega

theorem pushAll_cmds_length (L : Limits) (texts : List (List Nat)) :
    ∀ tv : tvPlayback_t, (pushAll L tv texts).cmds.length = tv.cmds.length := by
  induction texts with
  | nil => exact fun tv => rfl
  | cons t ts ih =>
    intro tv
    rw [pushAll_cons, ih]
    show (tv.cmds.set _ _).length = _
    rw [List.length_set]

theorem pushAll_rest (L : Limits) (texts : List (List Nat)) :
    ∀ tv : tvPlayback_t,
      pushAll L tv texts
        = { tv with cmds := (pushAll L tv texts).cmds
                    cmdSequence := (pushAll L tv texts).cmdSequence } := by
  induction texts with
  | nil => exact fun tv => rfl
  | cons t ts ih =>
    intro tv
    rw [pushAll_cons]
    exact ih (pushCommand L tv t)

theorem pushAll_seeking (L : Limits) (tv : tvPlayback_t) (texts : List (List Nat)) :
    (pushAll L tv texts).seeking = tv.seeking := by
  rw [pushAll_rest]

theorem pushAll_viewpoint (L : Limits) (tv : tvPlayback_t) (texts : List (List Nat)) :
    (pushAll L tv texts).viewpoint = tv.viewpoint := by
  rw [pushAll_rest]

theorem readConfigstrings_ring (L : Limits) (X : Externals) (count : Nat) :
    ∀ (m : List Nat) (c c2 : Client) (m2 : List Nat),
      readConfigstrings L X count m c = some (c2, m2) →
      m2 = (frameConfigstrings L X count m).2 ∧
      c2.tvPlay = if c.tvPlay.seeking then c.tvPlay
        else pushAll L c.tvPlay (csRingTexts L X (frameConfigstrings L X count m).1) := by
  induction count with
  | zero =>
    intro m c c2 m2 h
    simp only [readConfigstrings, Option.some.injEq, Prod.mk.injEq] at h
    obtain ⟨h1, h2⟩ := h
    subst h1 h2
    refine ⟨rfl, ?_⟩
    split <;> rfl
  | succ k ih =>
    intro m c c2 m2 h
    unfold readConfigstrings at h
    dsimp only at h
    unfold frameConfigstrings csRingTexts
    dsimp only
    split at h
    · rename_i hin
      rw [List.filter_cons_of_pos (by simpa using hin)]
      split at h
      · cases h
      · by_cases hs : c.tvPlay.seeking = true
        · rw [if_pos hs] at h
          obtain ⟨e1, e2⟩ := ih _ _ _ _ h
          dsimp only at e2
          rw [if_pos hs] at e2
          rw [if_pos hs]
          exact ⟨e1, e2⟩
        · rw [if_neg hs] at h
          obtain ⟨e1, e2⟩ := ih _ _ _ _ h
          dsimp only at e2
          have hp : ∀ x, (pushCommand L c.tvPlay x).seeking = c.tvPlay.seeking := fun _ => rfl
          rw [hp, if_neg hs] at e2
          rw [if_neg hs, List.map_cons, pushAll_cons]
          exact ⟨e1, e2⟩
    · rename_i hin
      rw [List.filter_cons_of_neg (by simpa using hin)]
      exact ih _ _ _ _ h

theorem frameCommands_succ (L : Limits) (X : Externals) (k : Nat) (m : List Nat) :
    frameCommands L X (k + 1) m
      = ((X.MSG_ReadByte m).1, (readLenData L X (X.MSG_ReadShort (X.MSG_ReadByte m).2).2
            (X.MSG_ReadShort (X.MSG_ReadByte m).2).1).1)
        :: frameCommands L X k (readLenData L X (X.MSG_ReadShort (X.MSG_ReadByte m).2).2
            (X.MSG_ReadShort (X.MSG_ReadByte m).2).1).2 := rfl

theorem readCommands_succ (L : Limits) (X : Externals) (k : Nat) (m : List Nat)
    (tv : tvPlayback_t) :
    readCommands L X (k + 1) m tv
      = readCommands L X k (readLenData L X (X.MSG_ReadShort (X.MSG_ReadByte m).2).2
            (X.MSG_ReadShort (X.MSG_ReadByte m).2).1).2
          (if !tv.seeking && (decide ((X.MSG_ReadByte m).1 = 255) ||
              decide ((X.MSG_ReadByte m).1 = (tv.viewpoint : Int)))
            then pushCommand L tv (readLenData L X (X.MSG_ReadShort (X.MSG_ReadByte m).2).2
              (X.MSG_ReadShort (X.MSG_ReadByte m).2).1).1
            else tv) := rfl

theorem readCommands_ring (L : Limits) (X : Externals) (count : Nat) :
    ∀ (m : List Nat) (tv : tvPlayback_t),
      (readCommands L X count m tv).1 = if tv.seeking then tv
        else pushAll L tv (cmdRingTexts tv.viewpoint (frameCommands L X count m)) := by
  induction count with
  | zero =>
    intro m tv
    unfold readCommands
    split <;> rfl
  | succ k ih =>
    intro m tv
    rw [readCommands_succ, frameCommands_succ]
    by_cases hs : tv.seeking = true
    · rw [if_neg (by rw [hs]; simp), ih, if_pos hs, if_pos hs]
    · have hs2 : tv.seeking = false := by simpa using hs
      rw [if_neg hs]
      unfold cmdRingTexts
      by_cases ht : (decide ((X.MSG_ReadByte m).1 = 255) ||
          decide ((X.MSG_ReadByte m).1 = (tv.viewpoint : Int))) = true
      · rw [if_pos (by rw [hs2, ht]; rfl), ih]
        have hp : ∀ x, (pushCommand L tv x).seeking = tv.seeking := fun _ => rfl
        have hv : ∀ x, (pushCommand L tv x).viewpoint = tv.viewpoint := fun _ => rfl
        rw [hp, if_neg hs, hv]
        simp only [List.filter_cons, ht, ↓reduceIte, List.map_cons, pushAll_cons]
        rfl
      · rw [if_neg (by rw [hs2]; simpa using ht), ih, if_neg hs]
        simp only [List.filter_cons, ht, ↓reduceIte]
        rfl

theorem pushAll_ring_congr (L : Limits) (texts : List (List Nat)) :
    ∀ a b : tvPlayback_t, a.cmds = b.cmds → a.cmdSequence = b.cmdSequence →
      (pushAll L a texts).cmds = (pushAll L b texts).cmds ∧
      (pushAll L a texts).cmdSequence = (pushAll L b texts).cmdSequence := by
  induction texts with
  | nil => exact fun a b h1 h2 => ⟨h1, h2⟩
  | cons t ts ih =>
    intro a b h1 h2
    rw [pushAll_cons, pushAll_cons]
    apply ih
    · show a.cmds.set _ _ = b.cmds.set _ _
      rw [h1, h2]
    · show a.cmdSequence + 1 = b.cmdSequence + 1
      rw [h2]

theorem autoViewpoint_tvPlay (L : Limits) (X : Externals) (c : Client) :
    (autoViewpoint L X c).tvPlay
      = { c.tvPlay with viewpoint := (autoViewpoint L X c).tvPlay.viewpoint } ∧
    (autoViewpoint L X c).gameState = c.gameState := by
  unfold autoViewpoint
  split
  · split <;> exact ⟨rfl, rfl⟩
  · exact ⟨rfl, rfl⟩

theorem autoViewpoint_viewpoint (L : Limits) (X : Externals) (c : Client) :
    (autoViewpoint L X c).tvPlay.viewpoint
      = if (!c.tvPlay.seeking &&
            (!bitTest c.tvPlay.playerBitmask c.tvPlay.viewpoint ||
              decide (CL_TV_GetPlayerTeam L X c.gameState c.tvPlay.viewpoint
                = L.TEAM_SPECTATOR))) = true
        then (CL_TV_FindFirstActivePlayer L X c.gameState c.tvPlay).getD c.tvPlay.viewpoint
        else c.tvPlay.viewpoint := by
  unfold autoViewpoint
  split
  · split
    · rename_i n hn
      rw [hn]
      rfl
    · rename_i hn
      rw [hn]
      rfl
  · rfl

theorem readFrameTail_ring (L : Limits) (X : Externals) (c c2 : Client) (m : List Nat)
    (t : Int) (h : readFrameTail L X c m t = some c2) :
    ∃ ring : tvPlayback_t,
      ring = (if (autoViewpoint L X c).tvPlay.seeking then (autoViewpoint L X c).tvPlay
        else pushAll L (autoViewpoint L X c).tvPlay
          (csRingTexts L X
              (frameConfigstrings L X (X.MSG_ReadShort m).1.toNat (X.MSG_ReadShort m).2).1
            ++ cmdRingTexts (autoViewpoint L X c).tvPlay.viewpoint
              (frameCommands L X
                (X.MSG_ReadShort (frameConfigstrings L X (X.MSG_ReadShort m).1.toNat
                  (X.MSG_ReadShort m).2).2).1.toNat
                (X.MSG_ReadShort (frameConfigstrings L X (X.MSG_ReadShort m).1.toNat
                  (X.MSG_ReadShort m).2).2).2))) ∧
      c2.tvPlay = { ring with
        serverTime := t
        lastServerTime := if t > ring.lastServerTime then t else ring.lastServerTime } := by
  unfold readFrameTail at h
  dsimp only at h
  split at h
  · cases h
  · rename_i c3 m3 hcs
    obtain ⟨e1, e2⟩ := readConfigstrings_ring L X _ _ _ _ _ hcs
    have e3 := readCommands_ring L X (X.MSG_ReadShort m3).1.toNat (X.MSG_ReadShort m3).2
      c3.tvPlay
    simp only [Option.some.injEq] at h
    subst h
    refine ⟨(readCommands L X (X.MSG_ReadShort m3).1.toNat (X.MSG_ReadShort m3).2
      c3.tvPlay).1, ?_, rfl⟩
    rw [e3, e2, ← e1]
    by_cases hs : (autoViewpoint L X c).tvPlay.seeking = true
    · simp only [hs, if_true]
    · simp only [hs, if_false, Bool.false_eq_true, pushAll_seeking, pushAll_viewpoint,
        pushAll_append]

theorem sections_keep (L : Limits) (X : Externals) (tv tv1 tv2 : tvPlayback_t)
    (m m1 m2 : List Nat) (he : readEntitySection L X tv m = Scan.done tv1 m1)
    (hp : readPlayerSection L X tv1 m1 = Scan.done tv2 m2) :
    tv2.viewpoint = tv.viewpoint ∧ tv2.seeking = tv.seeking ∧ tv2.cmds = tv.cmds ∧
    tv2.cmdSequence = tv.cmdSequence ∧ tv2.lastServerTime = tv.lastServerTime := by
  obtain ⟨_, _, e1⟩ := readEntitySection_done L X _ _ _ _ he
  obtain ⟨_, _, e2⟩ := readPlayerSection_done L X _ _ _ _ hp
  subst e1 e2
  exact ⟨rfl, rfl, rfl, rfl, rfl⟩

theorem afterPlayerSection_eq (L : Limits) (X : Externals) (c : Client)
    (tv1 tv2 : tvPlayback_t) (m1 m2 : List Nat)
    (he : readEntitySection L X
      { c.tvPlay with plain := (c.tvPlay.plain.drop 4).drop (le32 (frameSizeBytes c)) }
      (frameAfterTime X c) = Scan.done tv1 m1)
    (hp : readPlayerSection L X tv1 m1 = Scan.done tv2 m2) :
    afterPlayerSection L X c = m2 := by
  unfold afterPlayerSection
  rw [he]
  dsimp only
  rw [hp]

theorem readFrame_ring (L : Limits) (X : Externals) (c c2 : Client)
    (h : CL_TV_ReadFrame L X c = some c2) (hend : c2.tvPlay.atEnd = false) :
    c2.tvPlay.seeking = c.tvPlay.seeking ∧
    c2.tvPlay.viewpoint
      = (if (!c.tvPlay.seeking &&
            (!bitTest c2.tvPlay.playerBitmask c.tvPlay.viewpoint ||
              decide (CL_TV_GetPlayerTeam L X c.gameState c.tvPlay.viewpoint
                = L.TEAM_SPECTATOR))) = true
        then ((List.range L.MAX_CLIENTS).find? (fun i =>
            bitTest c2.tvPlay.playerBitmask i &&
              decide (CL_TV_GetPlayerTeam L X c.gameState i ≠ L.TEAM_SPECTATOR))).getD
          c.tvPlay.viewpoint
        else c.tvPlay.viewpoint) ∧
    (c.tvPlay.seeking = true →
      c2.tvPlay.cmds = c.tvPlay.cmds ∧ c2.tvPlay.cmdSequence = c.tvPlay.cmdSequence) ∧
    (c.tvPlay.seeking = false →
      c2.tvPlay.cmds = (pushAll L c.tvPlay (csRingTexts L X (frameChanges L X c).1
        ++ cmdRingTexts c2.tvPlay.viewpoint (frameCmds L X c))).cmds ∧
      c2.tvPlay.cmdSequence = (pushAll L c.tvPlay (csRingTexts L X (frameChanges L X c).1
        ++ cmdRingTexts c2.tvPlay.viewpoint (frameCmds L X c))).cmdSequence) := by
  obtain ⟨_, tv1, m1, tv2, m2, he, hp, ht⟩ := readFrame_complete L X c c2 h hend
  obtain ⟨k1, k2, k3, k4, _⟩ := sections_keep L X _ _ _ _ _ _ he hp
  have hm := afterPlayerSection_eq L X c tv1 tv2 m1 m2 he hp
  obtain ⟨ring, hring, hc2⟩ := readFrameTail_ring L X _ _ _ _ ht
  obtain ⟨a1, a2⟩ := autoViewpoint_tvPlay L X { c with tvPlay := tv2 }
  have a3 := autoViewpoint_viewpoint L X { c with tvPlay := tv2 }
  obtain ⟨r1, _, _⟩ := readFrameTail_running L X _ _ _ _ ht
  have hpb : c2.tvPlay.playerBitmask = tv2.playerBitmask := by
    unfold tvPlayback_t.running at r1
    simp only [Prod.mk.injEq] at r1
    exact r1.2.2.2
  have hseek : (autoViewpoint L X { c with tvPlay := tv2 }).tvPlay.seeking = c.tvPlay.seeking := by
    rw [a1]
    exact k2
  have hcm : (autoViewpoint L X { c with tvPlay := tv2 }).tvPlay.cmds = c.tvPlay.cmds := by
    rw [a1]
    exact k3
  have hcq : (autoViewpoint L X { c with tvPlay := tv2 }).tvPlay.cmdSequence
      = c.tvPlay.cmdSequence := by
    rw [a1]
    exact k4
  have hvp : c2.tvPlay.viewpoint = (autoViewpoint L X { c with tvPlay := tv2 }).tvPlay.viewpoint := by
    rw [hc2, hring]
    split
    · rfl
    · exact pushAll_viewpoint L _ _
  have hsk : c2.tvPlay.seeking = c.tvPlay.seeking := by
    rw [hc2, hring, ← hseek]
    split
    · rfl
    · exact pushAll_seeking L _ _
  refine ⟨hsk, ?_, ?_, ?_⟩
  · rw [hvp, a3]
    unfold CL_TV_FindFirstActivePlayer
    dsimp only
    rw [k1, k2, hpb]
  · intro hs
    rw [hseek, hs] at hring
    simp only [if_true] at hring
    rw [hc2, hring]
    exact ⟨hcm, hcq⟩
  · intro hs
    rw [hseek, hs] at hring
    simp only [Bool.false_eq_true, if_false] at hring
    rw [← hvp] at hring
    have e := pushAll_ring_congr L
      (csRingTexts L X (frameChanges L X c).1
        ++ cmdRingTexts c2.tvPlay.viewpoint (frameCmds L X c))
      (autoViewpoint L X { c with tvPlay := tv2 }).tvPlay c.tvPlay hcm hcq
    unfold frameCmds frameChanges at e ⊢
    rw [hm] at e ⊢
    constructor
    · rw [← e.1]
      conv_lhs => rw [hc2, hring]
    · rw [← e.2]
      conv_lhs => rw [hc2, hring]

set_option maxRecDepth 100000 in
/-- C26 fails as stated: the frame carries one configstring change, index 1
with a value of ten bytes `a`.  The frame is decoded completely with `seeking`
clear, the index is in range, and the entry queued for it is the fifteen bytes
`cs 1 "aaaaaaaaa`, the command text cut to `MAX_STRING_CHARS - 1 = 15` bytes,
not `cs 1 "aaaaaaaaaa"`. -/
theorem C26_counterexample_long_value_is_cut :
    clientLongValue.tvPlay.seeking = false ∧
    (CL_TV_ReadFrame tiny toyExternals clientLongValue).map (fun d => d.tvPlay.atEnd)
      = some false ∧
    (frameChanges tiny toyExternals clientLongValue).1 = [(1, List.replicate 10 97 ++ [0])] ∧
    (CL_TV_ReadFrame tiny toyExternals clientLongValue).map
        (fun d => d.tvPlay.cmds.getD (clientLongValue.tvPlay.cmdSequence &&& 3) [])
      = some ([99, 115, 32, 49, 32, 34] ++ List.replicate 9 97) ∧
    [99, 115, 32, 49, 32, 34] ++ List.replicate 9 97
      ≠ [99, 115, 32, 49, 32, 34] ++ List.replicate 10 97 ++ [34] := by
  decide

/-- C26, amended: for every frame that `CL_TV_ReadFrame` decodes completely
(it returns with `atEnd` clear): when `seeking` is clear, the command ring and
`cmdSequence` afterwards are those after queueing, in this order, one `cs`
command per configstring change of the frame with an index below
`MAX_CONFIGSTRINGS`, its text `cs <index> "<value>"` cut to
`MAX_STRING_CHARS - 1` bytes, and then the recorded commands of the frame whose
target is 255 or the viewpoint, in recorded order (`pushCommand` stores each
text cut to `MAX_STRING_CHARS - 1` bytes), and `cmdSequence` has grown by the
number of these entries; when `seeking` is set, the ring, `cmdSequence` and
the viewpoint are unchanged. -/
theorem C26_frame_ring_entries (L : Limits) (X : Externals) (c c2 : Client)
    (h : CL_TV_ReadFrame L X c = some c2) (hend : c2.tvPlay.atEnd = false) :
    (c.tvPlay.seeking = false →
      c2.tvPlay.cmds = (pushAll L c.tvPlay (csRingTexts L X (frameChanges L X c).1
        ++ cmdRingTexts c2.tvPlay.viewpoint (frameCmds L X c))).cmds ∧
      c2.tvPlay.cmdSequence = c.tvPlay.cmdSequence
        + ((csRingTexts L X (frameChanges L X c).1).length
          + (cmdRingTexts c2.tvPlay.viewpoint (frameCmds L X c)).length)) ∧
    (c.tvPlay.seeking = true →
      c2.tvPlay.cmds = c.tvPlay.cmds ∧ c2.tvPlay.cmdSequence = c.tvPlay.cmdSequence ∧
      c2.tvPlay.viewpoint = c.tvPlay.viewpoint) := by
  obtain ⟨_, hv, hseek, hplay⟩ := readFrame_ring L X c c2 h hend
  constructor
  · intro hs
    obtain ⟨e1, e2⟩ := hplay hs
    refine ⟨e1, ?_⟩
    rw [e2, pushAll_cmdSequence, List.length_append]
  · intro hs
    obtain ⟨e1, e2⟩ := hseek hs
    refine ⟨e1, e2, ?_⟩
    rw [hv, hs]
    rfl

set_option maxRecDepth 100000 in
/-- C26, amended, at a concrete input: the frame with the long configstring
value and three recorded commands, read with viewpoint 0. -/
theorem C26_frame_ring_entries_witness :
    ((CL_TV_ReadFrame tiny toyExternals clientLongValue).getD clientLongValue).tvPlay.cmds
      = (pushAll tiny clientLongValue.tvPlay
          [[99, 115, 32, 49, 32, 34] ++ List.replicate 9 97, [104, 105, 0], [122, 0]]).cmds ∧
    ((CL_TV_ReadFrame tiny toyExternals clientLongValue).getD clientLongValue).tvPlay.cmdSequence
      = clientLongValue.tvPlay.cmdSequence + (1 + 2) :=
  (C26_frame_ring_entries tiny toyExternals clientLongValue
    ((CL_TV_ReadFrame tiny toyExternals clientLongValue).getD clientLongValue)
    (by decide) (by decide)).1 (by decide)

/-- C27: after a frame that `CL_TV_ReadFrame` decodes completely with `seeking`
clear: if the bit of the viewpoint in the new `playerBitmask` is clear or its
team, read from configstring `CS_PLAYERS + viewpoint` as it is when the frame
arrives, is `TEAM_SPECTATOR`, the viewpoint becomes the lowest slot below
`MAX_CLIENTS` that is live and not a spectator, and stays as it is when there
is none; otherwise it is unchanged; a viewpoint below `MAX_CLIENTS` stays
below `MAX_CLIENTS`. -/
theorem C27_auto_viewpoint (L : Limits) (X : Externals) (c c2 : Client)
    (h : CL_TV_ReadFrame L X c = some c2) (hend : c2.tvPlay.atEnd = false)
    (hs : c.tvPlay.seeking = false) :
    ((bitTest c2.tvPlay.playerBitmask c.tvPlay.viewpoint = false ∨
        CL_TV_GetPlayerTeam L X c.gameState c.tvPlay.viewpoint = L.TEAM_SPECTATOR) →
      (∀ i, i < L.MAX_CLIENTS →
        (bitTest c2.tvPlay.playerBitmask i = true ∧
          CL_TV_GetPlayerTeam L X c.gameState i ≠ L.TEAM_SPECTATOR) →
        (∀ j, j < i → ¬ (bitTest c2.tvPlay.playerBitmask j = true ∧
          CL_TV_GetPlayerTeam L X c.gameState j ≠ L.TEAM_SPECTATOR)) →
        c2.tvPlay.viewpoint = i) ∧
      ((∀ i, i < L.MAX_CLIENTS → ¬ (bitTest c2.tvPlay.playerBitmask i = true ∧
          CL_TV_GetPlayerTeam L X c.gameState i ≠ L.TEAM_SPECTATOR)) →
        c2.tvPlay.viewpoint = c.tvPlay.viewpoint)) ∧
    (¬ (bitTest c2.tvPlay.playerBitmask c.tvPlay.viewpoint = false ∨
        CL_TV_GetPlayerTeam L X c.gameState c.tvPlay.viewpoint = L.TEAM_SPECTATOR) →
      c2.tvPlay.viewpoint = c.tvPlay.viewpoint) ∧
    (c.tvPlay.viewpoint < L.MAX_CLIENTS → c2.tvPlay.viewpoint < L.MAX_CLIENTS) := by
  obtain ⟨_, hv, _, _⟩ := readFrame_ring L X c c2 h hend
  rw [hs] at hv
  refine ⟨fun hc => ?_, fun hc => ?_, fun hlt => ?_⟩
  · have hcond : (!false && (!bitTest c2.tvPlay.playerBitmask c.tvPlay.viewpoint ||
        decide (CL_TV_GetPlayerTeam L X c.gameState c.tvPlay.viewpoint
          = L.TEAM_SPECTATOR))) = true := by
      rcases hc with hc | hc
      · simp [hc]
      · simp [hc]
    rw [if_pos hcond] at hv
    constructor
    · intro i hi hq hfirst
      rw [hv, List.range_eq_range', find?_range'_first _ L.MAX_CLIENTS 0 i (Nat.zero_le _)
        (by omega) (by simpa using hq) (fun j _ hj => by
          have := hfirst j hj
          simp only [not_and, ne_eq, Decidable.not_not] at this
          by_cases hb : bitTest c2.tvPlay.playerBitmask j = true
          · simp [hb, this hb]
          · simp [hb])]
      rfl
    · intro hnone
      have : (List.range L.MAX_CLIENTS).find? (fun i =>
          bitTest c2.tvPlay.playerBitmask i &&
            decide (CL_TV_GetPlayerTeam L X c.gameState i ≠ L.TEAM_SPECTATOR)) = none := by
        rw [List.find?_eq_none]
        intro x hx
        have hx2 := hnone x (List.mem_range.1 hx)
        simpa using hx2
      rw [hv, this]
      rfl
  · have hcond : ¬ (!false && (!bitTest c2.tvPlay.playerBitmask c.tvPlay.viewpoint ||
        decide (CL_TV_GetPlayerTeam L X c.gameState c.tvPlay.viewpoint
          = L.TEAM_SPECTATOR))) = true := by
      intro hx
      apply hc
      simp only [Bool.not_false, Bool.true_and, Bool.or_eq_true, Bool.not_eq_true',
        decide_eq_true_eq] at hx
      exact hx
    rw [if_neg hcond] at hv
    exact hv
  · rw [hv]
    split
    · cases hf : (List.range L.MAX_CLIENTS).find? (fun i =>
          bitTest c2.tvPlay.playerBitmask i &&
            decide (CL_TV_GetPlayerTeam L X c.gameState i ≠ L.TEAM_SPECTATOR)) with
      | none => exact hlt
      | some i => exact List.mem_range.1 (List.mem_of_find?_eq_some hf)
    · exact hlt

set_option maxRecDepth 100000 in
/-- C27 at a concrete input: the client follows client 1 and reads the frame
of tick B, in which client 1 is gone and client 0 is live: the viewpoint
becomes 0. -/
theorem C27_auto_viewpoint_witness :
    clientFollowsOne.tvPlay.viewpoint = 1 ∧
    ((CL_TV_ReadFrame tiny toyExternals clientFollowsOne).getD clientFollowsOne).tvPlay.viewpoint
      = 0 :=
  ⟨by decide,
   ((C27_auto_viewpoint tiny toyExternals clientFollowsOne
      ((CL_TV_ReadFrame tiny toyExternals clientFollowsOne).getD clientFollowsOne)
      (by decide) (by decide) (by decide)).1 (Or.inl (by decide))).1 0 (by decide)
      ⟨by decide, by decide⟩ (fun j hj => absurd hj (by omega))⟩

/-! ## Snapshots: candidates within the cap, rebuilds -/

theorem injectScores_eq (L : Limits) (X : Externals) (tv : tvPlayback_t) :
    CL_TV_InjectScores L X tv = pushCommand L tv (scoresCommand L X tv) := rfl

theorem snapshotSlots_within_cap (L : Limits) (X : Externals) (tv : tvPlayback_t)
    (h : ((List.range (L.MAX_GENTITIES - 1)).filter (isCandidate L tv)).length
      ≤ L.MAX_ENTITIES_IN_SNAPSHOT) :
    snapshotSlots L X tv = (List.range (L.MAX_GENTITIES - 1)).filter (isCandidate L tv) := by
  unfold snapshotSlots
  dsimp only
  rw [if_pos h]

theorem buildSnapshot_entities (L : Limits) (X : Externals) (tv : tvPlayback_t) (which : Fin 2) :
    ((CL_TV_BuildSnapshot L X tv which).snapshots which).numEntities
      = (snapshotSlots L X tv).length ∧
    ((CL_TV_BuildSnapshot L X tv which).snapshots which).parseEntitiesNum
      = which.val * L.MAX_ENTITIES_IN_SNAPSHOT ∧
    ((CL_TV_BuildSnapshot L X tv which).snapEntities which).take (snapshotSlots L X tv).length
      = (snapshotSlots L X tv).map (fun i => tv.entities.getD i entityState_t.zero) := by
  have hlen : (snapshotSlots L X tv).length
      = ((snapshotSlots L X tv).map (fun i => tv.entities.getD i entityState_t.zero)).length := by
    simp
  unfold CL_TV_BuildSnapshot tvPlayback_t.snapshots tvPlayback_t.snapEntities
  by_cases hw : which = 0
  · simp only [hw, if_true, snapshotSlots_injectScores, true_and]
    conv_lhs => rw [hlen]
    exact take_writePrefix _ _
  · simp only [hw, if_false, snapshotSlots_injectScores, true_and]
    conv_lhs => rw [hlen]
    exact take_writePrefix _ _

/-- C24: when the candidates (the slots below `MAX_GENTITIES - 1` whose
`entityBitmask` bit is set, that differ from the viewpoint and do not hold a
score-plum event for another client) are at most `MAX_ENTITIES_IN_SNAPSHOT`,
`CL_TV_BuildSnapshot( which )` makes the first `numEntities` elements of
`snapEntities[which]` the states of the candidates in ascending slot order,
with `numEntities` the number of candidates and
`parseEntitiesNum = which * MAX_ENTITIES_IN_SNAPSHOT`. -/
theorem C24_candidates_within_cap_copied_in_slot_order (L : Limits) (X : Externals)
    (tv : tvPlayback_t) (which : Fin 2)
    (h : ((List.range (L.MAX_GENTITIES - 1)).filter (isCandidate L tv)).length
      ≤ L.MAX_ENTITIES_IN_SNAPSHOT) :
    ((CL_TV_BuildSnapshot L X tv which).snapshots which).numEntities
      = ((List.range (L.MAX_GENTITIES - 1)).filter (isCandidate L tv)).length ∧
    ((CL_TV_BuildSnapshot L X tv which).snapEntities which).take
        ((CL_TV_BuildSnapshot L X tv which).snapshots which).numEntities
      = ((List.range (L.MAX_GENTITIES - 1)).filter (isCandidate L tv)).map
          (fun i => tv.entities.getD i entityState_t.zero) ∧
    ((CL_TV_BuildSnapshot L X tv which).snapshots which).parseEntitiesNum
      = which.val * L.MAX_ENTITIES_IN_SNAPSHOT ∧
    ((List.range (L.MAX_GENTITIES - 1)).filter (isCandidate L tv)).Pairwise (fun i j => i < j) ∧
    (∀ i, i ∈ (List.range (L.MAX_GENTITIES - 1)).filter (isCandidate L tv) ↔
      (i < L.MAX_GENTITIES - 1 ∧ bitTest tv.entityBitmask i = true ∧ i ≠ tv.viewpoint ∧
        ¬ ((tv.entities.getD i entityState_t.zero).eType = L.ET_EVENTS + L.EV_SCOREPLUM ∧
          (tv.entities.getD i entityState_t.zero).otherEntityNum ≠ (tv.viewpoint : Int)))) := by
  obtain ⟨e1, e2, e3⟩ := buildSnapshot_entities L X tv which
  rw [snapshotSlots_within_cap L X tv h] at e1 e3
  refine ⟨e1, ?_, e2, ?_, ?_⟩
  · rw [e1]
    exact e3
  · exact List.Pairwise.filter _ (List.pairwise_lt_range _)
  · intro i
    rw [List.mem_filter, List.mem_range]
    unfold isCandidate CL_TV_SkipEventEntity
    simp only [Bool.and_eq_true, bne_iff_ne, ne_eq, Bool.not_eq_true', decide_eq_false_iff_not]
    tauto

/-- C24 at a concrete input: the candidates 2 and 4 for two places. -/
theorem C24_candidates_within_cap_copied_in_slot_order_witness :
    ((CL_TV_BuildSnapshot tiny toyExternals tvSparse 1).snapshots 1).numEntities = 2 ∧
    ((CL_TV_BuildSnapshot tiny toyExternals tvSparse 1).snapEntities 1).take 2
      = [tvSparse.entities.getD 2 entityState_t.zero,
         tvSparse.entities.getD 4 entityState_t.zero] ∧
    ((CL_TV_BuildSnapshot tiny toyExternals tvSparse 1).snapshots 1).parseEntitiesNum = 2 :=
  ⟨(C24_candidates_within_cap_copied_in_slot_order tiny toyExternals tvSparse 1
      (by decide)).1,
   by decide, by decide⟩

theorem buildSnapshot_facts (L : Limits) (X : Externals) (tv : tvPlayback_t) (which : Fin 2) :
    (CL_TV_BuildSnapshot L X tv which).snapCount = tv.snapCount + 1 ∧
    (CL_TV_BuildSnapshot L X tv which).cmdSequence = tv.cmdSequence + 1 ∧
    (CL_TV_BuildSnapshot L X tv which).cmds = (pushCommand L tv (scoresCommand L X tv)).cmds ∧
    (CL_TV_BuildSnapshot L X tv which).seeking = tv.seeking ∧
    (CL_TV_BuildSnapshot L X tv which).running = tv.running ∧
    ((CL_TV_BuildSnapshot L X tv which).snapshots which).messageNum = tv.snapCount ∧
    ((CL_TV_BuildSnapshot L X tv which).snapshots which).ps.clientNum = (tv.viewpoint : Int) ∧
    ((CL_TV_BuildSnapshot L X tv which).snapshots which).serverCommandNum
      = tv.cmdSequence + 1 ∧
    (which = 0 → (CL_TV_BuildSnapshot L X tv which).snapshots1 = tv.snapshots1) ∧
    (which = 1 → (CL_TV_BuildSnapshot L X tv which).snapshots0 = tv.snapshots0) := by
  by_cases hw : which = 0
  · subst hw
    exact ⟨rfl, rfl, rfl, rfl, rfl, rfl, rfl, rfl, fun _ => rfl, fun h => absurd h (by decide)⟩
  · have h1 : which = 1 := by
      rcases which with ⟨v, hv⟩
      have : v = 1 := by
        have : v ≠ 0 := fun e => hw (by subst e; rfl)
        omega
      subst this
      rfl
    subst h1
    exact ⟨rfl, rfl, rfl, rfl, rfl, rfl, rfl, rfl, fun h => absurd h (by decide), fun _ => rfl⟩

theorem scoresCommand_congr (L : Limits) (X : Externals) (a b : tvPlayback_t)
    (h : a.running = b.running) : scoresCommand L X a = scoresCommand L X b := by
  unfold tvPlayback_t.running at h
  simp only [Prod.mk.injEq] at h
  obtain ⟨h1, _, h3, h4⟩ := h
  unfold scoresCommand
  rw [h4]
  have : scoreFields X a = scoreFields X b := by
    funext i
    unfold scoreFields
    rw [h1, h3]
  rw [this]

theorem rebuildSnapshots_facts (L : Limits) (X : Externals) (c : Client) :
    (CL_TV_RebuildSnapshots L X c).tvPlay.snapshots0.messageNum
      = (if c.tvPlay.snapCount - 2 < 0 then 0 else c.tvPlay.snapCount - 2) ∧
    (CL_TV_RebuildSnapshots L X c).tvPlay.snapshots1.messageNum
      = (if c.tvPlay.snapCount - 2 < 0 then 0 else c.tvPlay.snapCount - 2) + 1 ∧
    (CL_TV_RebuildSnapshots L X c).tvPlay.snapCount
      = (if c.tvPlay.snapCount - 2 < 0 then 0 else c.tvPlay.snapCount - 2) + 2 ∧
    (CL_TV_RebuildSnapshots L X c).tvPlay.snapshots0.ps.clientNum = (c.tvPlay.viewpoint : Int) ∧
    (CL_TV_RebuildSnapshots L X c).tvPlay.snapshots1.ps.clientNum = (c.tvPlay.viewpoint : Int) ∧
    (CL_TV_RebuildSnapshots L X c).tvPlay.cmdSequence = c.tvPlay.cmdSequence + 2 ∧
    (CL_TV_RebuildSnapshots L X c).tvPlay.cmds
      = (pushAll L c.tvPlay
          [scoresCommand L X c.tvPlay, scoresCommand L X c.tvPlay]).cmds := by
  refine ⟨rfl, rfl, ?_, rfl, rfl, rfl, ?_⟩
  · show (if c.tvPlay.snapCount - 2 < 0 then 0 else c.tvPlay.snapCount - 2) + 1 + 1 = _
    omega
  · rfl

theorem viewNext_cases (L : Limits) (X : Externals) (c : Client) :
    CL_TV_ViewNext_f L X c = c ∨
    CL_TV_ViewNext_f L X c = CL_TV_RebuildSnapshots L X
      { c with tvPlay := { c.tvPlay with
        viewpoint := (CL_TV_ViewNext_f L X c).tvPlay.viewpoint } } := by
  unfold CL_TV_ViewNext_f
  split
  · exact Or.inl rfl
  · unfold switchViewpoint
    split
    · right
      rw [rebuildSnapshots_viewpoint]
    · exact Or.inl rfl

theorem viewPrev_cases (L : Limits) (X : Externals) (c : Client) :
    CL_TV_ViewPrev_f L X c = c ∨
    CL_TV_ViewPrev_f L X c = CL_TV_RebuildSnapshots L X
      { c with tvPlay := { c.tvPlay with
        viewpoint := (CL_TV_ViewPrev_f L X c).tvPlay.viewpoint } } := by
  unfold CL_TV_ViewPrev_f
  split
  · exact Or.inl rfl
  · unfold switchViewpoint
    split
    · right
      rw [rebuildSnapshots_viewpoint]
    · exact Or.inl rfl

theorem view_cases (L : Limits) (X : Externals) (c : Client) :
    CL_TV_View_f L X c = c ∨
    CL_TV_View_f L X c = CL_TV_RebuildSnapshots L X
      { c with tvPlay := { c.tvPlay with
        viewpoint := (CL_TV_View_f L X c).tvPlay.viewpoint } } := by
  unfold CL_TV_View_f
  split
  · exact Or.inl rfl
  · split
    · exact Or.inl rfl
    · dsimp only
      split
      · exact Or.inl rfl
      · split
        · exact Or.inl rfl
        · split
          · exact Or.inl rfl
          · right
            rw [rebuildSnapshots_viewpoint]

/-- C28: a snapshot rebuild for the new viewpoint `v` from `snapCount = n`
leaves `snapshots[0].messageNum = n - 2`, `snapshots[1].messageNum = n - 1` and
`snapCount = n` when `n >= 2`, and message numbers 0 and 1 with `snapCount = 2`
when `n < 2`; both snapshots have `ps.clientNum = v`.  Each of `tv_view`,
`tv_view_next` and `tv_view_prev` either leaves the client as it is or is this
rebuild for the viewpoint it ends with. -/
theorem C28_rebuild_reuses_message_numbers (L : Limits) (X : Externals) (c : Client) (v : Nat) :
    (2 ≤ c.tvPlay.snapCount →
      (CL_TV_RebuildSnapshots L X
        { c with tvPlay := { c.tvPlay with viewpoint := v } }).tvPlay.snapshots0.messageNum
          = c.tvPlay.snapCount - 2 ∧
      (CL_TV_RebuildSnapshots L X
        { c with tvPlay := { c.tvPlay with viewpoint := v } }).tvPlay.snapshots1.messageNum
          = c.tvPlay.snapCount - 1 ∧
      (CL_TV_RebuildSnapshots L X
        { c with tvPlay := { c.tvPlay with viewpoint := v } }).tvPlay.snapCount
          = c.tvPlay.snapCount) ∧
    (c.tvPlay.snapCount < 2 →
      (CL_TV_RebuildSnapshots L X
        { c with tvPlay := { c.tvPlay with viewpoint := v } }).tvPlay.snapshots0.messageNum = 0 ∧
      (CL_TV_RebuildSnapshots L X
        { c with tvPlay := { c.tvPlay with viewpoint := v } }).tvPlay.snapshots1.messageNum = 1 ∧
      (CL_TV_RebuildSnapshots L X
        { c with tvPlay := { c.tvPlay with viewpoint := v } }).tvPlay.snapCount = 2) ∧
    (CL_TV_RebuildSnapshots L X
      { c with tvPlay := { c.tvPlay with viewpoint := v } }).tvPlay.snapshots0.ps.clientNum
        = (v : Int) ∧
    (CL_TV_RebuildSnapshots L X
      { c with tvPlay := { c.tvPlay with viewpoint := v } }).tvPlay.snapshots1.ps.clientNum
        = (v : Int) ∧
    (CL_TV_RebuildSnapshots L X
      { c with tvPlay := { c.tvPlay with viewpoint := v } }).tvPlay.viewpoint = v ∧
    (CL_TV_View_f L X c = c ∨
      CL_TV_View_f L X c = CL_TV_RebuildSnapshots L X
        { c with tvPlay := { c.tvPlay with
          viewpoint := (CL_TV_View_f L X c).tvPlay.viewpoint } }) ∧
    (CL_TV_ViewNext_f L X c = c ∨
      CL_TV_ViewNext_f L X c = CL_TV_RebuildSnapshots L X
        { c with tvPlay := { c.tvPlay with
          viewpoint := (CL_TV_ViewNext_f L X c).tvPlay.viewpoint } }) ∧
    (CL_TV_ViewPrev_f L X c = c ∨
      CL_TV_ViewPrev_f L X c = CL_TV_RebuildSnapshots L X
        { c with tvPlay := { c.tvPlay with
          viewpoint := (CL_TV_ViewPrev_f L X c).tvPlay.viewpoint } }) := by
  obtain ⟨e0, e1, e2, e3, e4, _, _⟩ := rebuildSnapshots_facts L X
    { c with tvPlay := { c.tvPlay with viewpoint := v } }
  refine ⟨fun h => ?_, fun h => ?_, e3, e4, rebuildSnapshots_viewpoint L X _,
    view_cases L X c, viewNext_cases L X c, viewPrev_cases L X c⟩
  · rw [e0, e1, e2]
    have hn : ¬ (c.tvPlay.snapCount - 2 < 0) := by omega
    simp only [hn, if_false]
    refine ⟨trivial, ?_, ?_⟩ <;> omega
  · rw [e0, e1, e2]
    have hn : c.tvPlay.snapCount - 2 < 0 := by omega
    simp only [hn, if_true]
    refine ⟨trivial, ?_, ?_⟩ <;> omega

set_option maxRecDepth 100000 in
/-- C28 at a concrete input: `tv_view 7` with viewpoint 5, live clients 1, 5
and 7 and `snapCount = 5`. -/
theorem C28_rebuild_reuses_message_numbers_witness :
    (CL_TV_View_f tiny toyExternals clientViewSeven).tvPlay.viewpoint = 7 ∧
    CL_TV_View_f tiny toyExternals clientViewSeven
      = CL_TV_RebuildSnapshots tiny toyExternals
          { clientViewSeven with tvPlay := { clientViewSeven.tvPlay with viewpoint := 7 } } ∧
    (CL_TV_RebuildSnapshots tiny toyExternals
      { clientViewSeven with tvPlay := { clientViewSeven.tvPlay with viewpoint := 7 } }
      ).tvPlay.snapshots0.messageNum = 5 - 2 ∧
    (CL_TV_RebuildSnapshots tiny toyExternals
      { clientViewSeven with tvPlay := { clientViewSeven.tvPlay with viewpoint := 7 } }
      ).tvPlay.snapshots1.messageNum = 5 - 1 ∧
    (CL_TV_RebuildSnapshots tiny toyExternals
      { clientViewSeven with tvPlay := { clientViewSeven.tvPlay with viewpoint := 7 } }
      ).tvPlay.snapCount = 5 :=
  ⟨by decide, by decide,
   (C28_rebuild_reuses_message_numbers tiny toyExternals clientViewSeven 7).1 (by decide)⟩

/-! ## `cmdSequence`, the ring size and `seeking` through the playback calls -/

theorem ringView_eq (a b : tvPlayback_t) (h : a.ringView = b.ringView) :
    a.cmds = b.cmds ∧ a.cmdSequence = b.cmdSequence ∧ a.seeking = b.seeking ∧
    a.viewpoint = b.viewpoint := by
  unfold tvPlayback_t.ringView at h
  simp only [Prod.mk.injEq] at h
  exact h

theorem readEntitySection_ringView (L : Limits) (X : Externals) (tv : tvPlayback_t)
    (m : List Nat) : (readEntitySection L X tv m).state.ringView = tv.ringView := by
  unfold readEntitySection
  dsimp only
  split <;> rfl

theorem readPlayerSection_ringView (L : Limits) (X : Externals) (tv : tvPlayback_t)
    (m : List Nat) : (readPlayerSection L X tv m).state.ringView = tv.ringView := by
  unfold readPlayerSection
  dsimp only
  split <;> rfl

theorem readFrame_cases (L : Limits) (X : Externals) (c c2 : Client)
    (h : CL_TV_ReadFrame L X c = some c2) :
    (c2.tvPlay.ringView = c.tvPlay.ringView ∧ c2.tvPlay.atEnd = true) ∨
    ∃ tv2 m2 t, tv2.ringView = c.tvPlay.ringView ∧
      readFrameTail L X { c with tvPlay := tv2 } m2 t = some c2 := by
  unfold CL_TV_ReadFrame at h
  dsimp only at h
  split at h
  · simp only [Option.some.injEq] at h
    subst h
    exact Or.inl ⟨rfl, rfl⟩
  · split at h
    · simp only [Option.some.injEq] at h
      subst h
      exact Or.inl ⟨rfl, rfl⟩
    · split at h
      · simp only [Option.some.injEq] at h
        subst h
        exact Or.inl ⟨rfl, rfl⟩
      · split at h
        · rename_i tv1 he
          simp only [Option.some.injEq] at h
          subst h
          have := readEntitySection_ringView L X
            { c.tvPlay with plain := (c.tvPlay.plain.drop 4).drop (le32 (frameSizeBytes c)) }
            (X.MSG_ReadLong (framePayload c)).2
          rw [he] at this
          exact Or.inl ⟨this, rfl⟩
        · rename_i tv1 m1 he
          have e1 := readEntitySection_ringView L X
            { c.tvPlay with plain := (c.tvPlay.plain.drop 4).drop (le32 (frameSizeBytes c)) }
            (X.MSG_ReadLong (framePayload c)).2
          rw [he] at e1
          split at h
          · rename_i tv2 hp
            simp only [Option.some.injEq] at h
            subst h
            have e2 := readPlayerSection_ringView L X tv1 m1
            rw [hp] at e2
            exact Or.inl ⟨e2.trans e1, rfl⟩
          · rename_i tv2 m2 hp
            have e2 := readPlayerSection_ringView L X tv1 m1
            rw [hp] at e2
            exact Or.inr ⟨tv2, m2, _, e2.trans e1, h⟩

theorem readFrame_ringFacts (L : Limits) (X : Externals) (c c2 : Client)
    (h : CL_TV_ReadFrame L X c = some c2) :
    c2.tvPlay.seeking = c.tvPlay.seeking ∧ c2.tvPlay.cmds.length = c.tvPlay.cmds.length ∧
    c.tvPlay.cmdSequence ≤ c2.tvPlay.cmdSequence := by
  rcases readFrame_cases L X c c2 h with ⟨hv, _⟩ | ⟨tv2, m2, t, hv, ht⟩
  · obtain ⟨e1, e2, e3, _⟩ := ringView_eq _ _ hv
    rw [e1, e2, e3]
    exact ⟨rfl, rfl, Nat.le_refl _⟩
  · obtain ⟨e1, e2, e3, _⟩ := ringView_eq _ _ hv
    obtain ⟨ring, hring, hc2⟩ := readFrameTail_ring L X _ _ _ _ ht
    obtain ⟨a1, _⟩ := autoViewpoint_tvPlay L X { c with tvPlay := tv2 }
    have h1 : (autoViewpoint L X { c with tvPlay := tv2 }).tvPlay.seeking = c.tvPlay.seeking := by
      rw [a1]
      exact e3
    have h2 : (autoViewpoint L X { c with tvPlay := tv2 }).tvPlay.cmds = c.tvPlay.cmds := by
      rw [a1]
      exact e1
    have h3 : (autoViewpoint L X { c with tvPlay := tv2 }).tvPlay.cmdSequence
        = c.tvPlay.cmdSequence := by
      rw [a1]
      exact e2
    rw [hc2]
    show ring.seeking = _ ∧ ring.cmds.length = _ ∧ _ ≤ ring.cmdSequence
    rw [hring]
    split
    · rw [h1, h2, h3]
      exact ⟨rfl, rfl, Nat.le_refl _⟩
    · rw [pushAll_seeking, pushAll_cmds_length, pushAll_cmdSequence, h1, h2, h3]
      exact ⟨rfl, rfl, Nat.le_add_right _ _⟩

theorem readFrames_ringFacts (L : Limits) (X : Externals) (k : Nat) :
    ∀ c c2 : Client, readFrames L X k c = some c2 →
      c2.tvPlay.seeking = c.tvPlay.seeking ∧ c2.tvPlay.cmds.length = c.tvPlay.cmds.length ∧
      c.tvPlay.cmdSequence ≤ c2.tvPlay.cmdSequence := by
  induction k with
  | zero =>
    intro c c2 h
    simp only [readFrames, Option.some.injEq] at h
    subst h
    exact ⟨rfl, rfl, Nat.le_refl _⟩
  | succ n ih =>
    intro c c2 h
    rw [readFrames_step] at h
    cases hr : CL_TV_ReadFrame L X c with
    | none =>
      rw [hr] at h
      cases h
    | some c3 =>
      rw [hr] at h
      obtain ⟨a1, a2, a3⟩ := readFrame_ringFacts L X c c3 hr
      obtain ⟨b1, b2, b3⟩ := ih c3 c2 h
      exact ⟨b1.trans a1, b2.trans a2, Nat.le_trans a3 b3⟩

theorem seekSnapshots_facts (L : Limits) (X : Externals) (d pre : Client)
    (h : seekSnapshots L X d = some pre) :
    pre.tvPlay.seeking = d.tvPlay.seeking ∧ pre.tvPlay.cmds.length = d.tvPlay.cmds.length ∧
    d.tvPlay.cmdSequence < pre.tvPlay.cmdSequence ∧
    pre.tvPlay.snapshots1.messageNum = pre.tvPlay.snapshots0.messageNum + 1 := by
  obtain ⟨b1, b2, b3, b4, _, b6, _, _, _, _⟩ := buildSnapshot_facts L X d.tvPlay 0
  have b6 : (CL_TV_BuildSnapshot L X d.tvPlay 0).snapshots0.messageNum = d.tvPlay.snapCount := b6
  have blen : (CL_TV_BuildSnapshot L X d.tvPlay 0).cmds.length = d.tvPlay.cmds.length := by
    rw [b3]
    show (d.tvPlay.cmds.set _ _).length = _
    rw [List.length_set]
  unfold seekSnapshots at h
  dsimp only at h
  split at h
  · split at h
    · cases h
    · rename_i c3 hr
      simp only [Option.some.injEq] at h
      subst h
      obtain ⟨r1, r2, r3⟩ := readFrame_ringFacts L X _ c3 hr
      obtain ⟨f1, f2, _⟩ := fixed_snapshots _ _ (readFrame_fixed L X _ c3 hr)
      obtain ⟨g1, g2, g3, g4, _, g6, _, _, _, g10⟩ := buildSnapshot_facts L X c3.tvPlay 1
      have g6 : (CL_TV_BuildSnapshot L X c3.tvPlay 1).snapshots1.messageNum
          = c3.tvPlay.snapCount := g6
      dsimp only at r1 r2 r3 f1 f2 ⊢
      refine ⟨?_, ?_, ?_, ?_⟩
      · rw [g4, r1, b4]
      · rw [g3]
        show (c3.tvPlay.cmds.set _ _).length = _
        rw [List.length_set, r2, blen]
      · rw [g2]
        omega
      · rw [g6, g10 rfl, f1, f2, b1, b6]
  · simp only [Option.some.injEq] at h
    subst h
    refine ⟨b4, blen, ?_, ?_⟩
    · show d.tvPlay.cmdSequence < (CL_TV_BuildSnapshot L X d.tvPlay 0).cmdSequence
      rw [b2]
      omega
    · show (CL_TV_BuildSnapshot L X d.tvPlay 0).snapCount
        = (CL_TV_BuildSnapshot L X d.tvPlay 0).snapshots0.messageNum + 1
      rw [b1, b6]

theorem seek_shape (L : Limits) (X : Externals) (Z : List Nat → List Nat) (file : List Nat)
    (c c2 : Client) (t : Int) (hact : c.tvPlay.active = true)
    (h : CL_TV_Seek L X Z file c t = some c2) :
    ∃ pre, c2 = seekFinish L X pre ∧ pre.tvPlay.seeking = false ∧
      pre.tvPlay.cmds.length = c.tvPlay.cmds.length ∧
      c.tvPlay.cmdSequence < pre.tvPlay.cmdSequence ∧
      pre.tvPlay.snapshots1.messageNum = pre.tvPlay.snapshots0.messageNum + 1 := by
  rw [seek_unfold L X Z file c t hact] at h
  obtain ⟨j, _, hl, _⟩ := seekLoop_as_readFrames L X (seekTarget c.tvPlay t)
    ((seekStart L Z file c t).tvPlay.plain.length + 1) ((seekStart L Z file c t).setSeeking true)
  rw [hl] at h
  cases hr : readFrames L X j ((seekStart L Z file c t).setSeeking true) with
  | none =>
    rw [hr] at h
    cases h
  | some c3 =>
    rw [hr] at h
    obtain ⟨_, r2, r3⟩ := readFrames_ringFacts L X j _ c3 hr
    simp only [Option.some_bind, Option.map_eq_some'] at h
    obtain ⟨pre, hp, hfin⟩ := h
    obtain ⟨s1, s2, s3, s4⟩ := seekSnapshots_facts L X _ pre hp
    have hstart : (seekStart L Z file c t).tvPlay.cmds = c.tvPlay.cmds ∧
        (seekStart L Z file c t).tvPlay.cmdSequence = c.tvPlay.cmdSequence := by
      unfold seekStart
      split <;> exact ⟨rfl, rfl⟩
    have e1 : ((seekStart L Z file c t).setSeeking true).tvPlay.cmds.length
        = c.tvPlay.cmds.length := by
      show (seekStart L Z file c t).tvPlay.cmds.length = _
      rw [hstart.1]
    have e2 : ((seekStart L Z file c t).setSeeking true).tvPlay.cmdSequence
        = c.tvPlay.cmdSequence := hstart.2
    have e3 : (c3.setSeeking false).tvPlay.cmds.length = c3.tvPlay.cmds.length := rfl
    have e4 : (c3.setSeeking false).tvPlay.cmdSequence = c3.tvPlay.cmdSequence := rfl
    refine ⟨pre, hfin.symm, s1, ?_, ?_, s4⟩
    · rw [s2, e3, r2, e1]
    · rw [e4] at s3
      rw [e2] at r3
      omega

theorem Q_strncpyz_of_fits (s : List Nat) (n : Nat) (h0 : 0 ∉ s) (hn : s.length < n) :
    Q_strncpyz s n = s := by
  unfold Q_strncpyz
  rw [cstr_of_not_mem_zero s h0]
  exact List.take_of_length_le (by omega)

theorem seekFinish_facts (L : Limits) (X : Externals) (pre : Client) :
    (seekFinish L X pre).tvPlay.seeking = pre.tvPlay.seeking ∧
    (seekFinish L X pre).tvPlay.viewpoint = pre.tvPlay.viewpoint ∧
    (seekFinish L X pre).tvPlay.cmdSequence = pre.tvPlay.cmdSequence + 1 ∧
    (seekFinish L X pre).tvPlay.cmds
      = pre.tvPlay.cmds.set (pre.tvPlay.cmdSequence &&& (L.MAX_RELIABLE_COMMANDS - 1))
          (Q_strncpyz (seekSyncCommand X pre.tvPlay.viewpoint) L.MAX_STRING_CHARS) ∧
    (seekFinish L X pre).tvPlay.snapshots1.serverCommandNum = pre.tvPlay.cmdSequence + 1 ∧
    (seekFinish L X pre).tvPlay.snapshots1.messageNum = pre.tvPlay.snapshots1.messageNum ∧
    (seekFinish L X pre).tvPlay.snapshots0 = pre.tvPlay.snapshots0 :=
  ⟨rfl, rfl, rfl, rfl, rfl, rfl, rfl⟩

/-- C25: a `CL_TV_Seek` while playback is not active changes nothing.  On an
active playback whose command ring has its `MAX_RELIABLE_COMMANDS` slots, a
`CL_TV_Seek` that returns, on either path, ends with `seeking` clear; its last
step (`seekFinish`, after both snapshots are built with `seeking` clear) queues
one command, so that the most recently written entry, number
`cmdSequence - 1`, is the text `tv_seek_sync <viewpoint>` for the current
viewpoint as `Q_strncpyz` stores it (the text itself when it is free of NUL and
shorter than `MAX_STRING_CHARS`); `snapshots[1].serverCommandNum` equals
`cmdSequence` and `snapshots[1].messageNum = snapshots[0].messageNum + 1`. -/
theorem C25_seek_sync_command (L : Limits) (X : Externals) (Z : List Nat → List Nat)
    (file : List Nat) (c : Client) (t : Int) :
    (c.tvPlay.active = false → CL_TV_Seek L X Z file c t = some c) ∧
    (c.tvPlay.active = true → c.tvPlay.cmds.length = L.MAX_RELIABLE_COMMANDS →
      0 < L.MAX_RELIABLE_COMMANDS →
      ∀ c2, CL_TV_Seek L X Z file c t = some c2 →
        c2.tvPlay.seeking = false ∧
        (∃ pre, c2 = seekFinish L X pre ∧ pre.tvPlay.seeking = false ∧
          c2.tvPlay.cmdSequence = pre.tvPlay.cmdSequence + 1) ∧
        c.tvPlay.cmdSequence < c2.tvPlay.cmdSequence ∧
        c2.tvPlay.cmds.getD ((c2.tvPlay.cmdSequence - 1) &&& (L.MAX_RELIABLE_COMMANDS - 1)) []
          = Q_strncpyz (seekSyncCommand X c2.tvPlay.viewpoint) L.MAX_STRING_CHARS ∧
        (0 ∉ seekSyncCommand X c2.tvPlay.viewpoint →
          (seekSyncCommand X c2.tvPlay.viewpoint).length < L.MAX_STRING_CHARS →
          c2.tvPlay.cmds.getD ((c2.tvPlay.cmdSequence - 1) &&& (L.MAX_RELIABLE_COMMANDS - 1)) []
            = seekSyncCommand X c2.tvPlay.viewpoint) ∧
        c2.tvPlay.snapshots1.serverCommandNum = c2.tvPlay.cmdSequence ∧
        c2.tvPlay.snapshots1.messageNum = c2.tvPlay.snapshots0.messageNum + 1) := by
  constructor
  · intro h
    unfold CL_TV_Seek
    rw [if_pos h]
  · intro hact hlen hpos c2 h
    obtain ⟨pre, hc2, p1, p2, p3, p4⟩ := seek_shape L X Z file c c2 t hact h
    obtain ⟨f1, f2, f3, f4, f5, f6, f7⟩ := seekFinish_facts L X pre
    subst hc2
    have hidx : pre.tvPlay.cmdSequence &&& (L.MAX_RELIABLE_COMMANDS - 1)
        < pre.tvPlay.cmds.length := by
      have := @Nat.and_le_right pre.tvPlay.cmdSequence (L.MAX_RELIABLE_COMMANDS - 1)
      omega
    have hentry : (seekFinish L X pre).tvPlay.cmds.getD
        (((seekFinish L X pre).tvPlay.cmdSequence - 1) &&& (L.MAX_RELIABLE_COMMANDS - 1)) []
        = Q_strncpyz (seekSyncCommand X (seekFinish L X pre).tvPlay.viewpoint)
            L.MAX_STRING_CHARS := by
      rw [f3, f4, f2, Nat.add_sub_cancel]
      exact getD_set_eq _ _ _ _ hidx
    refine ⟨f1.trans p1, ⟨pre, rfl, p1, f3⟩, ?_, hentry, fun h0 hn => ?_, ?_, ?_⟩
    · rw [f3]
      omega
    · rw [hentry]
      exact Q_strncpyz_of_fits _ _ h0 hn
    · rw [f5, f3]
    · rw [f6, f7, p4]

set_option maxRecDepth 100000 in
/-- C25 at a concrete input: the seek to 150 in the file with frames at 100,
125 and 150, from the state `CL_TV_Open` returns. -/
theorem C25_seek_sync_command_witness :
    (soughtClient fileSeek (openedClient fileSeek) 150).tvPlay.seeking = false ∧
    (soughtClient fileSeek (openedClient fileSeek) 150).tvPlay.cmds.getD
        (((soughtClient fileSeek (openedClient fileSeek) 150).tvPlay.cmdSequence - 1) &&& 3) []
      = [116, 118, 95, 115, 101, 101, 107, 95, 115, 121, 110, 99, 32, 48] ∧
    (soughtClient fileSeek (openedClient fileSeek) 150).tvPlay.snapshots1.serverCommandNum
      = (soughtClient fileSeek (openedClient fileSeek) 150).tvPlay.cmdSequence ∧
    (soughtClient fileSeek (openedClient fileSeek) 150).tvPlay.snapshots1.messageNum
      = (soughtClient fileSeek (openedClient fileSeek) 150).tvPlay.snapshots0.messageNum + 1 :=
  ⟨((C25_seek_sync_command tiny toyExternals toyUnzstd fileSeek (openedClient fileSeek) 150).2
      (by decide) (by decide) (by decide)
      (soughtClient fileSeek (openedClient fileSeek) 150) (by decide)).1,
   by decide, by decide, by decide⟩

set_option maxRecDepth 100000 in
/-- C29 fails as stated: with live clients 1, 5 and 7 and viewpoint 5,
`tv_view_next` changes the viewpoint to 7 and takes `cmdSequence` from 0 to 2;
the ring slots 0 and 1, empty before, hold the two `scores` commands of the
rebuilt snapshots. -/
theorem C29_counterexample_rebuild_queues_scores :
    clientView.tvPlay.cmdSequence = 0 ∧
    clientView.tvPlay.cmds = [[], [], [], []] ∧
    (CL_TV_ViewNext_f tiny toyExternals clientView).tvPlay.viewpoint = 7 ∧
    (CL_TV_ViewNext_f tiny toyExternals clientView).tvPlay.cmdSequence = 2 ∧
    (CL_TV_ViewNext_f tiny toyExternals clientView).tvPlay.cmds
      = [Q_strncpyz (scoresCommand tiny toyExternals clientView.tvPlay) 16,
         Q_strncpyz (scoresCommand tiny toyExternals clientView.tvPlay) 16, [], []] ∧
    Q_strncpyz (scoresCommand tiny toyExternals clientView.tvPlay) 16
      = [115, 99, 111, 114, 101, 115, 32, 51, 32, 48, 32, 48, 32, 49, 32] := by
  decide

/-- C29, amended: a snapshot rebuild (`CL_TV_RebuildSnapshots`, which every
viewpoint change through `tv_view`, `tv_view_next` or `tv_view_prev` runs)
takes `cmdSequence` up by exactly 2 and queues two `scores` commands, one per
rebuilt snapshot; `CL_TV_BuildSnapshot` takes `cmdSequence` up by 1;
`CL_TV_ReadFrame`, the three viewpoint commands and `CL_TV_Seek` never take it
down, and a `CL_TV_Seek` on an active playback takes it up. -/
theorem C29_cmdSequence_never_decreases (L : Limits) (X : Externals) (c : Client) :
    (CL_TV_RebuildSnapshots L X c).tvPlay.cmdSequence = c.tvPlay.cmdSequence + 2 ∧
    (CL_TV_RebuildSnapshots L X c).tvPlay.cmds
      = (pushAll L c.tvPlay [scoresCommand L X c.tvPlay, scoresCommand L X c.tvPlay]).cmds ∧
    (∀ which, (CL_TV_BuildSnapshot L X c.tvPlay which).cmdSequence = c.tvPlay.cmdSequence + 1) ∧
    (∀ c2, CL_TV_ReadFrame L X c = some c2 → c.tvPlay.cmdSequence ≤ c2.tvPlay.cmdSequence) ∧
    (CL_TV_View_f L X c = c ∨
      (CL_TV_View_f L X c).tvPlay.cmdSequence = c.tvPlay.cmdSequence + 2) ∧
    (CL_TV_ViewNext_f L X c = c ∨
      (CL_TV_ViewNext_f L X c).tvPlay.cmdSequence = c.tvPlay.cmdSequence + 2) ∧
    (CL_TV_ViewPrev_f L X c = c ∨
      (CL_TV_ViewPrev_f L X c).tvPlay.cmdSequence = c.tvPlay.cmdSequence + 2) ∧
    (∀ Z file t c2, CL_TV_Seek L X Z file c t = some c2 →
      c.tvPlay.cmdSequence ≤ c2.tvPlay.cmdSequence ∧
      (c.tvPlay.active = true → c.tvPlay.cmdSequence < c2.tvPlay.cmdSequence)) := by
  obtain ⟨_, _, _, _, _, e5, e6⟩ := rebuildSnapshots_facts L X c
  have hview : ∀ v : Nat, (CL_TV_RebuildSnapshots L X
      { c with tvPlay := { c.tvPlay with viewpoint := v } }).tvPlay.cmdSequence
      = c.tvPlay.cmdSequence + 2 := fun v =>
    (rebuildSnapshots_facts L X { c with tvPlay := { c.tvPlay with viewpoint := v } }).2.2.2.2.2.1
  refine ⟨e5, e6, fun which => (buildSnapshot_facts L X c.tvPlay which).2.1,
    fun c2 h => (readFrame_ringFacts L X c c2 h).2.2, ?_, ?_, ?_, ?_⟩
  · rcases view_cases L X c with h | h
    · exact Or.inl h
    · right
      rw [h]
      exact hview _
  · rcases viewNext_cases L X c with h | h
    · exact Or.inl h
    · right
      rw [h]
      exact hview _
  · rcases viewPrev_cases L X c with h | h
    · exact Or.inl h
    · right
      rw [h]
      exact hview _
  · intro Z file t c2 h
    by_cases hact : c.tvPlay.active = true
    · obtain ⟨pre, hc2, _, _, p3, _⟩ := seek_shape L X Z file c c2 t hact h
      subst hc2
      have : (seekFinish L X pre).tvPlay.cmdSequence = pre.tvPlay.cmdSequence + 1 := rfl
      exact ⟨by omega, fun _ => by omega⟩
    · unfold CL_TV_Seek at h
      rw [if_pos (by simpa using hact)] at h
      simp only [Option.some.injEq] at h
      subst h
      exact ⟨Nat.le_refl _, fun hx => absurd hx hact⟩

set_option maxRecDepth 100000 in
/-- C29, amended, at a concrete input: the seek to 150 in the file with frames
at 100, 125 and 150 takes `cmdSequence` up, and `tv_view_next` with live
clients 1, 5 and 7 takes it up by 2. -/
theorem C29_cmdSequence_never_decreases_witness :
    (openedClient fileSeek).tvPlay.cmdSequence
      < (soughtClient fileSeek (openedClient fileSeek) 150).tvPlay.cmdSequence ∧
    (CL_TV_ViewNext_f tiny toyExternals clientView).tvPlay.cmdSequence
      = clientView.tvPlay.cmdSequence + 2 :=
  ⟨((C29_cmdSequence_never_decreases tiny toyExternals (openedClient fileSeek)).2.2.2.2.2.2.2
      toyUnzstd fileSeek 150 (soughtClient fileSeek (openedClient fileSeek) 150)
      (by decide)).2 (by decide),
   by decide⟩

/-! ## Where `CL_TV_ReadFrame` sets `atEnd` -/

theorem readEntities_bad_iff (L : Limits) (X : Externals) (fuel : Nat) :
    ∀ (m : List Nat) (ents : List entityState_t), m.length < fuel →
      ((∃ e, readEntities L X fuel m ents = Scan.bad e) ↔
        ∃ n ∈ entityNumsRead L X fuel m ents, badEntityNum L n) := by
  induction fuel with
  | zero => exact fun m ents h => absurd h (by omega)
  | succ k ih =>
    intro m ents hf
    unfold readEntities entityNumsRead
    dsimp only
    by_cases h1 : (X.MSG_ReadEntitynum m).1 = (L.MAX_GENTITIES : Int) - 1
    · rw [if_pos h1, if_pos h1]
      constructor
      · rintro ⟨e, he⟩
        cases he
      · rintro ⟨n, hn, hb⟩
        simp only [List.mem_singleton] at hn
        subst hn
        exact absurd h1 hb.1
    · rw [if_neg h1, if_neg h1]
      by_cases h2 : (X.MSG_ReadEntitynum m).1 < 0
      · rw [if_pos h2, if_pos h2]
        exact ⟨fun _ => ⟨_, List.mem_singleton.2 rfl, h1, Or.inl h2⟩, fun _ => ⟨_, rfl⟩⟩
      · rw [if_neg h2, if_neg h2]
        by_cases h3 : (X.MSG_ReadEntitynum m).1 ≥ (L.MAX_GENTITIES : Int) - 1
        · rw [if_pos h3, if_pos h3]
          exact ⟨fun _ => ⟨_, List.mem_singleton.2 rfl, h1, Or.inr h3⟩, fun _ => ⟨_, rfl⟩⟩
        · rw [if_neg h3, if_neg h3]
          have hp1 := X.MSG_ReadEntitynum_progress m
          have hp2 := X.MSG_ReadDeltaEntity_progress (X.MSG_ReadEntitynum m).2
            (ents.getD (X.MSG_ReadEntitynum m).1.toNat entityState_t.zero)
            (X.MSG_ReadEntitynum m).1
          have hlen : (X.MSG_ReadDeltaEntity (X.MSG_ReadEntitynum m).2
              (ents.getD (X.MSG_ReadEntitynum m).1.toNat entityState_t.zero)
              (X.MSG_ReadEntitynum m).1).2.length < k := by
            rcases hp1 with hp1 | hp1
            · exact absurd hp1 h2
            · omega
          have hgood : ¬ badEntityNum L (X.MSG_ReadEntitynum m).1 := by
            unfold badEntityNum
            omega
          split
          · rw [ih _ _ hlen]
            constructor
            · rintro ⟨n, hn, hb⟩
              exact ⟨n, List.mem_cons_of_mem _ hn, hb⟩
            · rintro ⟨n, hn, hb⟩
              rcases List.mem_cons.1 hn with hn | hn
              · subst hn
                exact absurd hb hgood
              · exact ⟨n, hn, hb⟩
          · rw [ih _ _ hlen]
            constructor
            · rintro ⟨n, hn, hb⟩
              exact ⟨n, List.mem_cons_of_mem _ hn, hb⟩
            · rintro ⟨n, hn, hb⟩
              rcases List.mem_cons.1 hn with hn | hn
              · subst hn
                exact absurd hb hgood
              · exact ⟨n, hn, hb⟩

theorem readPlayers_bad_iff (L : Limits) (X : Externals) (mask : List Nat) (slots : List Nat) :
    ∀ (m : List Nat) (ps : List playerState_t),
      ((∃ e, readPlayers L X mask slots m ps = Scan.bad e) ↔
        ∃ n ∈ clientNumsRead L X mask slots m ps, badClientNum L n) := by
  induction slots with
  | nil =>
    intro m ps
    unfold readPlayers clientNumsRead
    constructor
    · rintro ⟨e, he⟩
      cases he
    · rintro ⟨n, hn, _⟩
      cases hn
  | cons i rest ih =>
    intro m ps
    unfold readPlayers clientNumsRead
    dsimp only
    by_cases hb : (!bitTest mask i) = true
    · rw [if_pos hb, if_pos hb]
      exact ih m ps
    · rw [if_neg hb, if_neg hb]
      by_cases hr : (X.MSG_ReadByte m).1 < 0 ∨ (X.MSG_ReadByte m).1 ≥ (L.MAX_CLIENTS : Int)
      · rw [if_pos hr, if_pos hr]
        exact ⟨fun _ => ⟨_, List.mem_singleton.2 rfl, hr⟩, fun _ => ⟨_, rfl⟩⟩
      · rw [if_neg hr, if_neg hr, ih]
        constructor
        · rintro ⟨n, hn, hbad⟩
          exact ⟨n, List.mem_cons_of_mem _ hn, hbad⟩
        · rintro ⟨n, hn, hbad⟩
          rcases List.mem_cons.1 hn with hn | hn
          · subst hn
            exact absurd hbad hr
          · exact ⟨n, hn, hbad⟩

theorem readEntitySection_bad_iff (L : Limits) (X : Externals) (tv : tvPlayback_t)
    (m : List Nat) :
    ((∃ e, readEntitySection L X tv m = Scan.bad e) ↔
      ∃ n ∈ entityNumsRead L X ((X.MSG_ReadData m (L.MAX_GENTITIES / 8)).2.length + 1)
        (X.MSG_ReadData m (L.MAX_GENTITIES / 8)).2 tv.entities, badEntityNum L n) := by
  rw [← readEntities_bad_iff L X _ _ _ (Nat.lt_succ_self _)]
  unfold readEntitySection
  dsimp only
  constructor
  · rintro ⟨e, he⟩
    split at he
    · rename_i ents hx
      exact ⟨ents, hx⟩
    · cases he
  · rintro ⟨e, he⟩
    rw [he]
    exact ⟨_, rfl⟩

theorem readPlayerSection_bad_iff (L : Limits) (X : Externals) (tv : tvPlayback_t)
    (m : List Nat) :
    ((∃ e, readPlayerSection L X tv m = Scan.bad e) ↔
      ∃ n ∈ clientNumsRead L X (X.MSG_ReadData m (L.MAX_CLIENTS / 8)).1
        (List.range L.MAX_CLIENTS) (X.MSG_ReadData m (L.MAX_CLIENTS / 8)).2 tv.players,
        badClientNum L n) := by
  rw [← readPlayers_bad_iff L X]
  unfold readPlayerSection
  dsimp only
  constructor
  · rintro ⟨e, he⟩
    split at he
    · rename_i ps hx
      exact ⟨ps, hx⟩
    · cases he
  · rintro ⟨e, he⟩
    rw [he]
    exact ⟨_, rfl⟩

theorem readFrame_readable (L : Limits) (X : Externals) (c : Client)
    (h : ¬ frameUnreadable L c) :
    CL_TV_ReadFrame L X c
      = match readEntitySection L X
          { c.tvPlay with plain := (c.tvPlay.plain.drop 4).drop (le32 (frameSizeBytes c)) }
          (frameAfterTime X c) with
        | Scan.bad tv => some (c.atEnd tv)
        | Scan.done tv m =>
          match readPlayerSection L X tv m with
          | Scan.bad tv => some (c.atEnd tv)
          | Scan.done tv m =>
            readFrameTail L X { c with tvPlay := tv } m (X.MSG_ReadLong (framePayload c)).1 := by
  unfold frameUnreadable at h
  unfold CL_TV_ReadFrame
  dsimp only
  rw [if_neg (fun hx => h (hx.elim Or.inl (fun y => Or.inr (Or.inl y)))),
    if_neg (fun hx => h (Or.inr (Or.inr (Or.inl hx)))),
    if_neg (fun hx => h (Or.inr (Or.inr (Or.inr hx))))]
  rfl

theorem sections_atEnd (L : Limits) (X : Externals) (tv tv1 tv2 : tvPlayback_t)
    (m m1 m2 : List Nat) (he : readEntitySection L X tv m = Scan.done tv1 m1)
    (hp : readPlayerSection L X tv1 m1 = Scan.done tv2 m2) : tv2.atEnd = tv.atEnd := by
  obtain ⟨_, _, e1⟩ := readEntitySection_done L X _ _ _ _ he
  obtain ⟨_, _, e2⟩ := readPlayerSection_done L X _ _ _ _ hp
  subst e1 e2
  rfl

set_option maxRecDepth 100000 in
/-- C21 fails as stated.  With readers that return -1 on an exhausted message,
as those of `msg.c` do: a frame whose payload ends right after the player
section (server time 100, empty bitmasks, end marker) is readable, its numbers
are in range, `MSG_ReadShort` finds the payload exhausted where the
configstring count should be, and `CL_TV_ReadFrame` completes the frame with
`atEnd` clear and `serverTime = 100`; the same happens to a frame that
announces two configstring changes and ends after the first, and to a frame
that ends inside the delta of its last player. -/
theorem C21_counterexample_exhausted_lists :
    ¬ frameUnreadable tiny (clientCut [200, 0, 14, 0]) ∧
    frameEntityNums tiny exhaustingExternals (clientCut [200, 0, 14, 0]) = [7] ∧
    frameClientNums tiny exhaustingExternals (clientCut [200, 0, 14, 0]) = [] ∧
    afterPlayerSection tiny exhaustingExternals (clientCut [200, 0, 14, 0]) = [] ∧
    exhaustingExternals.MSG_ReadShort [] = (-1, []) ∧
    (CL_TV_ReadFrame tiny exhaustingExternals (clientCut [200, 0, 14, 0])).map
        (fun d => (d.tvPlay.atEnd, d.tvPlay.serverTime)) = some (false, 100) ∧
    (frameChanges tiny exhaustingExternals (clientCut [200, 0, 14, 0, 4, 2, 2, 97])).1
      = [(1, [97, 0]), (-1, [0])] ∧
    (CL_TV_ReadFrame tiny exhaustingExternals (clientCut [200, 0, 14, 0, 4, 2, 2, 97])).map
        (fun d => (d.tvPlay.atEnd, d.tvPlay.serverTime)) = some (false, 100) ∧
    (CL_TV_ReadFrame tiny exhaustingExternals (clientCut [200, 0, 14, 1, 0, 5, 6])).map
        (fun d => (d.tvPlay.atEnd, d.tvPlay.serverTime)) = some (false, 100) := by
  decide

/-- C21, amended: `CL_TV_ReadFrame` sets `atEnd` when the stream ends before a
full frame is available or `frameSize` is zero or above the buffer size, and
then nothing but `atEnd` and the stream position changes; on a readable frame
it sets `atEnd` when a number read in the entity loop is not the end marker
and is negative (the payload is exhausted) or not below `MAX_GENTITIES - 1`,
or a client number read in the player loop is negative or not below
`MAX_CLIENTS`; on a readable frame without such a number it leaves `atEnd` as
it was, whatever the configstring list and the command list hold. -/
theorem C21_readFrame_sets_atEnd (L : Limits) (X : Externals) (c : Client) :
    (frameUnreadable L c →
      ∃ rest, CL_TV_ReadFrame L X c
        = some { c with tvPlay := { c.tvPlay with atEnd := true, plain := rest } }) ∧
    (¬ frameUnreadable L c →
      ((∃ n ∈ frameEntityNums L X c, badEntityNum L n) ∨
        (∃ n ∈ frameClientNums L X c, badClientNum L n)) →
      ∃ c2, CL_TV_ReadFrame L X c = some c2 ∧ c2.tvPlay.atEnd = true) ∧
    (¬ frameUnreadable L c →
      (∀ n ∈ frameEntityNums L X c, ¬ badEntityNum L n) →
      (∀ n ∈ frameClientNums L X c, ¬ badClientNum L n) →
      ∀ c2, CL_TV_ReadFrame L X c = some c2 → c2.tvPlay.atEnd = c.tvPlay.atEnd) := by
  refine ⟨fun h => ?_, fun h hbad => ?_, fun h hents hclients c2 hc2 => ?_⟩
  · unfold CL_TV_ReadFrame
    dsimp only
    by_cases h1 : (frameSizeBytes c).length ≠ 4 ∨ le32 (frameSizeBytes c) = 0
    · rw [if_pos h1]
      exact ⟨_, rfl⟩
    · rw [if_neg h1]
      by_cases h2 : le32 (frameSizeBytes c) > L.TV_PLAY_MSGLEN
      · rw [if_pos h2]
        exact ⟨_, rfl⟩
      · rw [if_neg h2]
        by_cases h3 : (framePayload c).length ≠ le32 (frameSizeBytes c)
        · rw [if_pos h3]
          exact ⟨_, rfl⟩
        · exfalso
          unfold frameUnreadable at h
          rcases h with hx | hx | hx | hx
          · exact h1 (Or.inl hx)
          · exact h1 (Or.inr hx)
          · exact h2 hx
          · exact h3 hx
  · rw [readFrame_readable L X c h]
    rcases hbad with hb | hb
    · obtain ⟨e, he⟩ := (readEntitySection_bad_iff L X
        { c.tvPlay with plain := (c.tvPlay.plain.drop 4).drop (le32 (frameSizeBytes c)) }
        (frameAfterTime X c)).2 hb
      dsimp only at he ⊢
      rw [he]
      exact ⟨_, rfl, rfl⟩
    · unfold frameClientNums at hb
      split at hb
      · obtain ⟨n, hn, _⟩ := hb
        cases hn
      · rename_i tv1 m1 he
        obtain ⟨e, hp⟩ := (readPlayerSection_bad_iff L X tv1 m1).2 hb
        rw [hp]
        exact ⟨_, rfl, rfl⟩
  · rw [readFrame_readable L X c h] at hc2
    unfold frameClientNums at hclients
    dsimp only at hc2 hclients
    cases he : readEntitySection L X
        { active := c.tvPlay.active, atEnd := c.tvPlay.atEnd, seeking := c.tvPlay.seeking,
          svFps := c.tvPlay.svFps, maxclients := c.tvPlay.maxclients,
          serverTime := c.tvPlay.serverTime, firstServerTime := c.tvPlay.firstServerTime,
          lastServerTime := c.tvPlay.lastServerTime, totalDuration := c.tvPlay.totalDuration,
          viewpoint := c.tvPlay.viewpoint, viewOrigin := c.tvPlay.viewOrigin,
          entities := c.tvPlay.entities, entityBitmask := c.tvPlay.entityBitmask,
          players := c.tvPlay.players, playerBitmask := c.tvPlay.playerBitmask,
          cmds := c.tvPlay.cmds, cmdSequence := c.tvPlay.cmdSequence,
          snapCount := c.tvPlay.snapCount, snapshots0 := c.tvPlay.snapshots0,
          snapshots1 := c.tvPlay.snapshots1, snapEntities0 := c.tvPlay.snapEntities0,
          snapEntities1 := c.tvPlay.snapEntities1,
          initialGameState := c.tvPlay.initialGameState,
          firstFrameOffset := c.tvPlay.firstFrameOffset,
          plain := (c.tvPlay.plain.drop 4).drop (le32 (frameSizeBytes c)) }
        (frameAfterTime X c) with
    | bad e =>
      obtain ⟨n, hn, hb⟩ := (readEntitySection_bad_iff L X _ _).1 ⟨e, he⟩
      exact absurd hb (hents n hn)
    | done tv1 m1 =>
      rw [he] at hc2 hclients
      dsimp only at hc2 hclients
      cases hp : readPlayerSection L X tv1 m1 with
      | bad e =>
        obtain ⟨n, hn, hb⟩ := (readPlayerSection_bad_iff L X _ _).1 ⟨e, hp⟩
        exact absurd hb (hclients n hn)
      | done tv2 m2 =>
        rw [hp] at hc2
        dsimp only at hc2
        obtain ⟨_, _, r3⟩ := readFrameTail_running L X _ _ _ _ hc2
        rw [r3]
        have e := sections_atEnd L X _ tv1 tv2 _ m1 m2 he hp
        exact e

set_option maxRecDepth 100000 in
/-- C21, amended, at concrete inputs: a stream that ends inside the frame
size, and a frame that ends inside the entity section. -/
theorem C21_readFrame_sets_atEnd_witness :
    (∃ rest, CL_TV_ReadFrame tiny exhaustingExternals (clientReading tiny [9, 0])
      = some { clientReading tiny [9, 0] with
          tvPlay := { (clientReading tiny [9, 0]).tvPlay with atEnd := true, plain := rest } }) ∧
    (∃ c2, CL_TV_ReadFrame tiny exhaustingExternals (clientCut [200, 0]) = some c2 ∧
      c2.tvPlay.atEnd = true) :=
  ⟨(C21_readFrame_sets_atEnd tiny exhaustingExternals (clientReading tiny [9, 0])).1
      (by decide),
   (C21_readFrame_sets_atEnd tiny exhaustingExternals (clientCut [200, 0])).2.1
      (by decide) (Or.inl ⟨-1, by decide, by decide⟩)⟩

/-! ## Selection by distance -/

theorem compare_le_zero (X : Externals) (hasym : ∀ a b, X.floatLt a b = true → X.floatLt b a = false)
    (a b : tvEntDist_t) (h : TV_EntDistCompare X a b ≤ 0) : ¬ X.floatLt b.distSq a.distSq = true := by
  unfold TV_EntDistCompare at h
  intro hba
  have hab := hasym _ _ hba
  rw [hab, hba] at h
  simp at h

theorem snapshotSlots_beyond_cap (L : Limits) (X : Externals) (tv : tvPlayback_t)
    (h : L.MAX_ENTITIES_IN_SNAPSHOT
      < ((List.range (L.MAX_GENTITIES - 1)).filter (isCandidate L tv)).length) :
    snapshotSlots L X tv
      = ((X.qsort (TV_EntDistCompare X)
          (((List.range (L.MAX_GENTITIES - 1)).filter (isCandidate L tv)).map (fun i =>
            ({ entityNum := i, distSq := distSqOf X tv i } : tvEntDist_t)))).take
          L.MAX_ENTITIES_IN_SNAPSHOT).map (fun c => c.entityNum) := by
  unfold snapshotSlots
  dsimp only
  rw [if_neg (by omega), List.length_map, if_neg (by omega)]
  rfl

/-- C23 fails as stated.  The candidates 2, 3 and 4 are all at distance 0, the
cap is 2, and `qsort` is one that sorts and leaves equal elements in the
reverse of their input order (the C library does not promise an order for
them): `CL_TV_BuildSnapshot` keeps the slots 4 and 3, in this order, where a
stable sort of the slot-ordered candidates keeps 2 and 3. -/
theorem C23_counterexample_ties_follow_qsort :
    (List.range (tiny.MAX_GENTITIES - 1)).filter (isCandidate tiny tvTied) = [2, 3, 4] ∧
    distSqOf reversingExternals tvTied 2 = 0 ∧ distSqOf reversingExternals tvTied 3 = 0 ∧
    distSqOf reversingExternals tvTied 4 = 0 ∧
    snapshotSlots tiny reversingExternals tvTied = [4, 3] ∧
    ((CL_TV_BuildSnapshot tiny reversingExternals tvTied 0).snapEntities 0).take 2
      = [tvTied.entities.getD 4 entityState_t.zero, tvTied.entities.getD 3 entityState_t.zero] ∧
    stableNearestSlots tiny reversingExternals tvTied = [2, 3] := by
  decide

/-- C23, amended: let `qsort` return a permutation of its array in which no
element compares above a later one, and let the comparison of floats be
asymmetric.  When more than `MAX_ENTITIES_IN_SNAPSHOT` candidates exist,
`CL_TV_BuildSnapshot` keeps exactly `MAX_ENTITIES_IN_SNAPSHOT` of them, each
once, stored in order of non-decreasing squared distance from `viewOrigin` to
`pos.trBase`, and every kept candidate is at least as near as every dropped
one. -/
theorem C23_nearest_candidates_kept (L : Limits) (X : Externals) (tv : tvPlayback_t)
    (which : Fin 2)
    (hperm : ∀ l, (X.qsort (TV_EntDistCompare X) l).Perm l)
    (hsorted : ∀ l, (X.qsort (TV_EntDistCompare X) l).Pairwise
      (fun a b => TV_EntDistCompare X a b ≤ 0))
    (hasym : ∀ a b, X.floatLt a b = true → X.floatLt b a = false)
    (hmany : L.MAX_ENTITIES_IN_SNAPSHOT
      < ((List.range (L.MAX_GENTITIES - 1)).filter (isCandidate L tv)).length) :
    ((CL_TV_BuildSnapshot L X tv which).snapshots which).numEntities
      = L.MAX_ENTITIES_IN_SNAPSHOT ∧
    ((CL_TV_BuildSnapshot L X tv which).snapEntities which).take L.MAX_ENTITIES_IN_SNAPSHOT
      = (snapshotSlots L X tv).map (fun i => tv.entities.getD i entityState_t.zero) ∧
    (snapshotSlots L X tv).Nodup ∧
    (∀ i ∈ snapshotSlots L X tv,
      i ∈ (List.range (L.MAX_GENTITIES - 1)).filter (isCandidate L tv)) ∧
    (snapshotSlots L X tv).Pairwise
      (fun i j => ¬ X.floatLt (distSqOf X tv j) (distSqOf X tv i) = true) ∧
    (∀ i ∈ snapshotSlots L X tv,
      ∀ j ∈ (List.range (L.MAX_GENTITIES - 1)).filter (isCandidate L tv),
        j ∉ snapshotSlots L X tv →
        ¬ X.floatLt (distSqOf X tv j) (distSqOf X tv i) = true) := by
  have hslots := snapshotSlots_beyond_cap L X tv hmany
  have hp := hperm (((List.range (L.MAX_GENTITIES - 1)).filter (isCandidate L tv)).map
    (fun i => ({ entityNum := i, distSq := distSqOf X tv i } : tvEntDist_t)))
  have hs := hsorted (((List.range (L.MAX_GENTITIES - 1)).filter (isCandidate L tv)).map
    (fun i => ({ entityNum := i, distSq := distSqOf X tv i } : tvEntDist_t)))
  generalize hS : X.qsort (TV_EntDistCompare X)
    (((List.range (L.MAX_GENTITIES - 1)).filter (isCandidate L tv)).map
      (fun i => ({ entityNum := i, distSq := distSqOf X tv i } : tvEntDist_t))) = sorted
    at hslots hp hs
  have hmemS : ∀ a ∈ sorted, a.distSq = distSqOf X tv a.entityNum ∧
      a.entityNum ∈ (List.range (L.MAX_GENTITIES - 1)).filter (isCandidate L tv) := by
    intro a ha
    obtain ⟨i, hi, rfl⟩ := List.mem_map.1 (hp.mem_iff.1 ha)
    exact ⟨rfl, hi⟩
  have hlenS : sorted.length
      = ((List.range (L.MAX_GENTITIES - 1)).filter (isCandidate L tv)).length := by
    rw [hp.length_eq, List.length_map]
  have hlen : (snapshotSlots L X tv).length = L.MAX_ENTITIES_IN_SNAPSHOT := by
    rw [hslots, List.length_map, List.length_take, hlenS]
    omega
  have hR : sorted.Pairwise (fun a b => ¬ X.floatLt (distSqOf X tv b.entityNum)
      (distSqOf X tv a.entityNum) = true) := by
    refine List.Pairwise.imp_of_mem ?_ hs
    intro a b ha hb hab
    rw [← (hmemS a ha).1, ← (hmemS b hb).1]
    exact compare_le_zero X hasym a b hab
  obtain ⟨e1, _, e3⟩ := buildSnapshot_entities L X tv which
  have hnodupS : (sorted.map (fun c => c.entityNum)).Nodup := by
    have : (sorted.map (fun c => c.entityNum)).Perm
        ((List.range (L.MAX_GENTITIES - 1)).filter (isCandidate L tv)) := by
      refine (hp.map _).trans ?_
      rw [List.map_map]
      have hid : ((fun c : tvEntDist_t => c.entityNum) ∘ fun i =>
          ({ entityNum := i, distSq := distSqOf X tv i } : tvEntDist_t)) = id := by
        funext i; rfl
      rw [hid, List.map_id]
    exact this.nodup_iff.2 ((List.nodup_range _).filter _)
  refine ⟨by rw [e1, hlen], by rw [← hlen]; exact e3, ?_, ?_, ?_, ?_⟩
  · rw [hslots]
    exact hnodupS.sublist ((List.take_sublist _ _).map _)
  · intro i hi
    rw [hslots] at hi
    obtain ⟨a, ha, rfl⟩ := List.mem_map.1 hi
    exact (hmemS a (List.mem_of_mem_take ha)).2
  · rw [hslots, List.pairwise_map]
    exact hR.sublist (List.take_sublist _ _)
  · intro i hi j hj hjn
    rw [hslots] at hi hjn
    obtain ⟨a, ha, rfl⟩ := List.mem_map.1 hi
    have hjS : ({ entityNum := j, distSq := distSqOf X tv j } : tvEntDist_t) ∈ sorted :=
      hp.mem_iff.2 (List.mem_map.2 ⟨j, hj, rfl⟩)
    rw [← List.take_append_drop L.MAX_ENTITIES_IN_SNAPSHOT sorted] at hjS hR
    rcases List.mem_append.1 hjS with hjt | hjd
    · exact absurd (List.mem_map.2 ⟨_, hjt, rfl⟩) hjn
    · exact (List.pairwise_append.1 hR).2.2 a ha _ hjd

theorem toy_compare_le (a b : tvEntDist_t) :
    TV_EntDistCompare reversingExternals a b ≤ 0 ↔ a.distSq ≤ b.distSq := by
  unfold TV_EntDistCompare
  show (if decide (a.distSq < b.distSq) = true then (-1 : Int)
    else if decide (b.distSq < a.distSq) = true then 1 else 0) ≤ 0 ↔ _
  by_cases h1 : a.distSq < b.distSq
  · simp [h1]
    omega
  · by_cases h2 : b.distSq < a.distSq
    · simp [h1, h2]
    · simp [h1, h2]
      omega

theorem reversing_qsort_perm (l : List tvEntDist_t) :
    (reversingExternals.qsort (TV_EntDistCompare reversingExternals) l).Perm l :=
  (List.perm_insertionSort _ l.reverse).trans (List.reverse_perm l)

theorem reversing_qsort_sorted (l : List tvEntDist_t) :
    (reversingExternals.qsort (TV_EntDistCompare reversingExternals) l).Pairwise
      (fun a b => TV_EntDistCompare reversingExternals a b ≤ 0) :=
  @List.sorted_insertionSort tvEntDist_t
    (fun a b => TV_EntDistCompare reversingExternals a b ≤ 0) _
    ⟨fun a b => by
      rw [toy_compare_le, toy_compare_le]
      omega⟩
    ⟨fun a b c hab hbc => by
      rw [toy_compare_le] at hab hbc ⊢
      omega⟩
    l.reverse

theorem toy_floatLt_asymm (a b : Nat) (h : reversingExternals.floatLt a b = true) :
    reversingExternals.floatLt b a = false := by
  have h1 : a < b := by simpa [reversingExternals, toyExternals] using h
  show decide (b < a) = false
  simp
  omega

/-- C23, amended, at a concrete input: the `qsort` that reverses ties, three
candidates at distance 0 and a cap of 2. -/
theorem C23_nearest_candidates_kept_witness :
    ((CL_TV_BuildSnapshot tiny reversingExternals tvTied 0).snapshots 0).numEntities = 2 ∧
    (snapshotSlots tiny reversingExternals tvTied).Pairwise
      (fun i j => ¬ reversingExternals.floatLt (distSqOf reversingExternals tvTied j)
        (distSqOf reversingExternals tvTied i) = true) ∧
    (∀ i ∈ snapshotSlots tiny reversingExternals tvTied,
      ∀ j ∈ (List.range (tiny.MAX_GENTITIES - 1)).filter (isCandidate tiny tvTied),
        j ∉ snapshotSlots tiny reversingExternals tvTied →
        ¬ reversingExternals.floatLt (distSqOf reversingExternals tvTied j)
          (distSqOf reversingExternals tvTied i) = true) :=
  ⟨(C23_nearest_candidates_kept tiny reversingExternals tvTied 0 reversing_qsort_perm
      reversing_qsort_sorted toy_floatLt_asymm (by decide)).1,
   (C23_nearest_candidates_kept tiny reversingExternals tvTied 0 reversing_qsort_perm
      reversing_qsort_sorted toy_floatLt_asymm (by decide)).2.2.2.2.1,
   (C23_nearest_candidates_kept tiny reversingExternals tvTied 0 reversing_qsort_perm
      reversing_qsort_sorted toy_floatLt_asymm (by decide)).2.2.2.2.2⟩

set_option maxRecDepth 100000 in
/-- C22, the code at the failing input: a file that ends in the trailer
`TVDt`, an entry with a key of 63 bytes `k` and an empty value, the entry `dur`
with the four bytes of 5000, the empty key, and the trailer size 85.  The key
loop stops after 63 bytes without reading the NUL that ends the key, the two
bytes read as the value length are that NUL and the low byte of the real
length, the high byte of the real length is then read as the empty key, and
`CL_TV_ReadTrailer` returns true with `totalDuration` 0, not 5000.  With a key
of 62 bytes the result is 5000. -/
theorem C22_trailer_key_of_63_bytes_is_misparsed :
    (trailerKey 63).length = 85 ∧
    (trailerKey 63).drop 81 = le32Bytes 85 ∧
    CL_TV_ReadTrailer ([1, 2, 3] ++ trailerKey 63) = (true, 0) ∧
    CL_TV_ReadTrailer ([1, 2, 3] ++ trailerKey 62) = (true, 5000) := by
  decide

set_option maxRecDepth 100000 in
/-- C30, the code at the failing input: a file with two frames; client 0, the
viewpoint, is at (3, 4, 5) in the first frame and at (300, 4, 5) in the second,
and the entities 1, 3 and 5 at (1, 1, 2), (3, 1, 2) and (5, 1, 2) are live in
both.  When `CL_TV_Open` comes to `CL_TV_BuildSnapshot( 1 )`, there are three
candidates for two places, `viewOrigin` is still (3, 4, 5) while
`players[viewpoint].origin` is (300, 4, 5), and the selection by distance keeps
the slots 3 and 1, where the distances from (300, 4, 5) give 5 and 3.
`CL_TV_Open` returns true with that snapshot and the stale `viewOrigin`. -/
theorem C30_viewOrigin_is_stale_after_second_frame :
    (List.range (tiny.MAX_GENTITIES - 1)).filter
        (isCandidate tiny (beforeSecondSnapshot fileCrowd).tvPlay) = [1, 3, 5] ∧
    (beforeSecondSnapshot fileCrowd).tvPlay.viewpoint = 0 ∧
    (beforeSecondSnapshot fileCrowd).tvPlay.viewOrigin = ⟨3, 4, 5⟩ ∧
    ((beforeSecondSnapshot fileCrowd).tvPlay.players.getD 0 playerState_t.zero).origin
      = ⟨300, 4, 5⟩ ∧
    snapshotSlots tiny toyExternals (beforeSecondSnapshot fileCrowd).tvPlay = [3, 1] ∧
    snapshotSlots tiny toyExternals
      { (beforeSecondSnapshot fileCrowd).tvPlay with viewOrigin := ⟨300, 4, 5⟩ } = [5, 3] ∧
    CL_TV_Open tiny toyExternals toyUnzstd fileCrowd (Client.zero tiny)
      = some (some (openFinish tiny toyExternals (beforeSecondSnapshot fileCrowd))) ∧
    (openedClient fileCrowd).tvPlay.viewOrigin = ⟨3, 4, 5⟩ ∧
    ((openedClient fileCrowd).tvPlay.players.getD
      (openedClient fileCrowd).tvPlay.viewpoint playerState_t.zero).origin = ⟨300, 4, 5⟩ ∧
    ((openedClient fileCrowd).tvPlay.snapEntities1.take 2).map (fun e => e.number) = [3, 1] := by
  decide

/-! ## `viewOrigin` after `CL_TV_Open` -/

theorem fixed_viewOrigin (a b : tvPlayback_t) (h : a.fixed = b.fixed) :
    a.viewOrigin = b.viewOrigin := by
  unfold tvPlayback_t.fixed at h
  simp only [Prod.mk.injEq] at h
  exact h.2.2.2.2.2.1

theorem readFrames_viewOrigin (L : Limits) (X : Externals) (k : Nat) :
    ∀ c c2 : Client, readFrames L X k c = some c2 →
      c2.tvPlay.viewOrigin = c.tvPlay.viewOrigin := by
  induction k with
  | zero =>
    intro c c2 h
    simp only [readFrames, Option.some.injEq] at h
    rw [h]
  | succ n ih =>
    intro c c2 h
    rw [readFrames_step] at h
    cases hr : CL_TV_ReadFrame L X c with
    | none =>
      rw [hr] at h
      cases h
    | some c3 =>
      rw [hr] at h
      rw [ih c3 c2 h, fixed_viewOrigin _ _ (readFrame_fixed L X c c3 hr)]

theorem buildSnapshot_viewOrigin (L : Limits) (X : Externals) (tv : tvPlayback_t)
    (which : Fin 2) : (CL_TV_BuildSnapshot L X tv which).viewOrigin = tv.viewOrigin := by
  unfold CL_TV_BuildSnapshot
  dsimp only
  split <;> rfl

theorem seekSnapshots_viewOrigin (L : Limits) (X : Externals) (c c2 : Client)
    (h : seekSnapshots L X c = some c2) : c2.tvPlay.viewOrigin = c.tvPlay.viewOrigin := by
  unfold seekSnapshots at h
  dsimp only at h
  split at h
  · split at h
    · cases h
    · rename_i c3 hr
      simp only [Option.some.injEq] at h
      subst h
      dsimp only
      rw [buildSnapshot_viewOrigin, fixed_viewOrigin _ _ (readFrame_fixed L X _ c3 hr)]
      exact buildSnapshot_viewOrigin L X c.tvPlay 0
  · simp only [Option.some.injEq] at h
    subst h
    exact buildSnapshot_viewOrigin L X c.tvPlay 0

/-- After `CL_TV_Open` nothing writes `viewOrigin`: `CL_TV_ReadFrame`,
`CL_TV_BuildSnapshot`, `CL_TV_RebuildSnapshots` for any new viewpoint and
`CL_TV_Seek` leave it as it is. -/
theorem viewOrigin_never_refreshed (L : Limits) (X : Externals) (c : Client) :
    (∀ c2, CL_TV_ReadFrame L X c = some c2 → c2.tvPlay.viewOrigin = c.tvPlay.viewOrigin) ∧
    (∀ v, (CL_TV_RebuildSnapshots L X
      { c with tvPlay := { c.tvPlay with viewpoint := v } }).tvPlay.viewOrigin
        = c.tvPlay.viewOrigin) ∧
    (∀ Z file t c2, CL_TV_Seek L X Z file c t = some c2 →
      c2.tvPlay.viewOrigin = c.tvPlay.viewOrigin) := by
  refine ⟨fun c2 h => fixed_viewOrigin _ _ (readFrame_fixed L X c c2 h), fun v => ?_,
    fun Z file t c2 h => ?_⟩
  · unfold CL_TV_RebuildSnapshots
    dsimp only
    rw [buildSnapshot_viewOrigin, buildSnapshot_viewOrigin]
  · by_cases ha : c.tvPlay.active = true
    · rw [seek_unfold L X Z file c t ha] at h
      obtain ⟨j, _, hl, _⟩ := seekLoop_as_readFrames L X (seekTarget c.tvPlay t)
        ((seekStart L Z file c t).tvPlay.plain.length + 1)
        ((seekStart L Z file c t).setSeeking true)
      rw [hl] at h
      cases hr : readFrames L X j ((seekStart L Z file c t).setSeeking true) with
      | none =>
        rw [hr] at h
        cases h
      | some c3 =>
        rw [hr] at h
        have e3 := readFrames_viewOrigin L X j _ c3 hr
        simp only [Option.some_bind, Option.map_eq_some'] at h
        obtain ⟨c4, h4, h5⟩ := h
        have e4 := seekSnapshots_viewOrigin L X _ c4 h4
        have e5 : (seekFinish L X c4).tvPlay.viewOrigin = c4.tvPlay.viewOrigin := rfl
        have e6 : (c3.setSeeking false).tvPlay.viewOrigin = c3.tvPlay.viewOrigin := rfl
        have e7 : ((seekStart L Z file c t).setSeeking true).tvPlay.viewOrigin
            = (seekStart L Z file c t).tvPlay.viewOrigin := rfl
        rw [← h5, e5, e4, e6, e3, e7]
        unfold seekStart
        split <;> rfl
    · unfold CL_TV_Seek at h
      rw [if_pos (by simpa using ha)] at h
      simp only [Option.some.injEq] at h
      rw [h]

/-! ## The trailer parser on trailers with keys of at most 62 bytes -/

theorem get?_of_drop {α : Type} (file : List α) (p : Nat) (a : α) (t : List α)
    (h : file.drop p = a :: t) : file.get? p = some a ∧ file.drop (p + 1) = t := by
  constructor
  · rw [List.get?_eq_getElem?, ← List.head?_drop, h]
    rfl
  · rw [← List.drop_drop, h]
    rfl

theorem FS_Read_of_drop (file : List Nat) (p : Nat) (a t : List Nat)
    (h : file.drop p = a ++ t) :
    FS_Read file p a.length = a ∧ file.drop (p + a.length) = t := by
  constructor
  · unfold FS_Read
    rw [h, List.take_left']
    rfl
  · rw [← List.drop_drop, h, List.drop_left']
    rfl

theorem readTrailerKey_spec (file : List Nat) (k : List Nat) :
    ∀ (n p : Nat) (acc t : List Nat), file.drop p = k ++ 0 :: t → 0 ∉ k → k.length < n →
      readTrailerKey file n p acc = some (acc ++ k, p + k.length + 1) := by
  induction k with
  | nil =>
    intro n p acc t h _ hn
    obtain ⟨n2, rfl⟩ : ∃ n2, n = n2 + 1 := ⟨n - 1, by simp at hn; omega⟩
    unfold readTrailerKey
    rw [(get?_of_drop file p 0 t h).1]
    simp
  | cons b k ih =>
    intro n p acc t h h0 hn
    obtain ⟨n2, rfl⟩ : ∃ n2, n = n2 + 1 := ⟨n - 1, by simp at hn; omega⟩
    have hb : b ≠ 0 := fun e => h0 (by rw [e]; exact List.mem_cons_self _ _)
    obtain ⟨g1, g2⟩ := get?_of_drop file p b (k ++ 0 :: t) h
    unfold readTrailerKey
    rw [g1]
    dsimp only
    rw [if_neg hb, ih n2 (p + 1) (acc ++ [b]) t g2
      (fun hx => h0 (List.mem_cons_of_mem _ hx)) (by simp at hn; omega)]
    simp only [List.append_assoc, List.singleton_append, List.length_cons, Option.some.injEq,
      Prod.mk.injEq, true_and]
    omega

theorem le16_le16Bytes (n : Nat) (h : n < 65536) : le16 (le16Bytes n) = n := by
  unfold le16 le16Bytes
  simp only [List.getD_cons_zero, List.getD_cons_succ]
  omega

theorem readTrailerEntries_spec (file : List Nat) (entries : List (List Nat × List Nat)) :
    ∀ (fuel p : Nat) (dur : Int) (t : List Nat),
      file.drop p = (entries.map trailerEntry).flatten ++ 0 :: t →
      entries.length < fuel →
      (∀ e ∈ entries, e.1 ≠ [] ∧ 0 ∉ e.1 ∧ e.1.length ≤ 62 ∧ e.2.length ≤ 65535) →
      readTrailerEntries file fuel p dur = (true, lastDuration dur entries) := by
  induction entries with
  | nil =>
    intro fuel p dur t h hf _
    obtain ⟨f2, rfl⟩ : ∃ f2, fuel = f2 + 1 := ⟨fuel - 1, by simp at hf; omega⟩
    unfold readTrailerEntries
    rw [readTrailerKey_spec file [] 63 p [] t (by simpa using h) (by simp) (by simp)]
    rfl
  | cons e rest ih =>
    intro fuel p dur t h hf hwf
    obtain ⟨f2, rfl⟩ : ∃ f2, fuel = f2 + 1 := ⟨fuel - 1, by simp at hf; omega⟩
    obtain ⟨hk1, hk2, hk3, hv⟩ := hwf e (List.mem_cons_self _ _)
    have hrest : ∀ x ∈ rest, x.1 ≠ [] ∧ 0 ∉ x.1 ∧ x.1.length ≤ 62 ∧ x.2.length ≤ 65535 :=
      fun x hx => hwf x (List.mem_cons_of_mem _ hx)
    have h1 : file.drop p = e.1 ++ 0 :: (le16Bytes e.2.length ++ (e.2
        ++ ((rest.map trailerEntry).flatten ++ 0 :: t))) := by
      rw [h]
      simp [trailerEntry]
    have hkey := readTrailerKey_spec file e.1 63 p [] _ h1 hk2 (by omega)
    have h2 : file.drop (p + e.1.length + 1) = le16Bytes e.2.length ++ (e.2
        ++ ((rest.map trailerEntry).flatten ++ 0 :: t)) := by
      have := (FS_Read_of_drop file p (e.1 ++ [0]) (le16Bytes e.2.length ++ (e.2
        ++ ((rest.map trailerEntry).flatten ++ 0 :: t))) (by rw [h1]; simp)).2
      rw [List.length_append, List.length_singleton, ← Nat.add_assoc] at this
      exact this
    obtain ⟨r1, r2⟩ := FS_Read_of_drop file (p + e.1.length + 1) (le16Bytes e.2.length) _ h2
    have hl2 : (le16Bytes e.2.length).length = 2 := rfl
    rw [hl2] at r1 r2
    obtain ⟨v1, v2⟩ := FS_Read_of_drop file (p + e.1.length + 1 + 2) e.2 _ r2
    have hle := le16_le16Bytes e.2.length (by omega)
    have hL : ∀ d, lastDuration d (e :: rest)
        = if Q_stricmpEq e.1 [100, 117, 114] = true ∧ e.2.length = 4
          then lastDuration (int32Of e.2) rest else lastDuration d rest := fun _ => rfl
    unfold readTrailerEntries
    rw [hkey]
    dsimp only
    rw [List.nil_append, if_neg hk1, r1, hle, if_neg (by simp [le16Bytes])]
    by_cases hbig : e.2.length > 256
    · rw [if_pos hbig, ih f2 _ dur t v2 (by simp at hf; omega) hrest, hL,
        if_neg (by omega)]
    · rw [if_neg hbig, v1, if_neg (by simp), hL]
      by_cases hd : Q_stricmpEq e.1 [100, 117, 114] = true ∧ e.2.length = 4
      · rw [if_pos hd, if_pos hd]
        exact ih f2 _ _ t v2 (by simp at hf; omega) hrest
      · rw [if_neg hd, if_neg hd]
        exact ih f2 _ _ t v2 (by simp at hf; omega) hrest

/-- For a file that ends in a trailer in the layout of the header comment of
`CL_TV_ReadTrailer`, with every key free of NUL and of 1 to 62 bytes and every
value of at most 65535 bytes, `CL_TV_ReadTrailer` returns true and leaves in
`totalDuration` the `int` of the last entry whose key is `dur` for `Q_stricmp`
and whose value has four bytes, and 0 when there is none. -/
theorem readTrailer_short_keys (front : List Nat) (entries : List (List Nat × List Nat))
    (hwf : ∀ e ∈ entries, e.1 ≠ [] ∧ 0 ∉ e.1 ∧ e.1.length ≤ 62 ∧ e.2.length ≤ 65535)
    (hsize : (trailerBytes entries).length < 2147483648) :
    CL_TV_ReadTrailer (front ++ trailerBytes entries) = (true, lastDuration 0 entries) := by
  have hT : (trailerBytes entries).length
      = ((entries.map trailerEntry).flatten).length + 9 := by
    simp [trailerBytes, le32Bytes]
  have hlen : (front ++ trailerBytes entries).length
      = front.length + (((entries.map trailerEntry).flatten).length + 9) := by
    rw [List.length_append, hT]
  have hsz : FS_Read (front ++ trailerBytes entries)
      ((front ++ trailerBytes entries).length - 4) 4
      = le32Bytes (((entries.map trailerEntry).flatten).length + 9) := by
    have hd : (front ++ trailerBytes entries).drop
        (front.length + (((entries.map trailerEntry).flatten).length + 5))
        = le32Bytes (((entries.map trailerEntry).flatten).length + 9) ++ [] := by
      rw [List.drop_append_eq_append_drop, List.drop_of_length_le (by omega)]
      simp [trailerBytes]
      rw [List.drop_append_eq_append_drop, List.drop_of_length_le (by simp), List.nil_append]
      simp
    have := (FS_Read_of_drop _ _ _ _ hd).1
    rw [le32Bytes_length] at this
    rw [hlen]
    rw [show front.length + (((entries.map trailerEntry).flatten).length + 9) - 4
      = front.length + (((entries.map trailerEntry).flatten).length + 5) by omega]
    exact this
  have hint : int32Of (le32Bytes (((entries.map trailerEntry).flatten).length + 9))
      = ((((entries.map trailerEntry).flatten).length + 9 : Nat) : Int) := by
    unfold int32Of
    rw [le32_le32Bytes _ (by omega), if_pos (by omega)]
  have hbody : (front ++ trailerBytes entries).drop front.length
      = [84, 86, 68, 116] ++ ((entries.map trailerEntry).flatten ++ 0
          :: le32Bytes (((entries.map trailerEntry).flatten).length + 9)) := by
    rw [List.drop_left']
    · simp [trailerBytes]
    · rfl
  obtain ⟨m1, m2⟩ := FS_Read_of_drop _ _ _ _ hbody
  unfold CL_TV_ReadTrailer
  rw [if_neg (by rw [hlen]; omega)]
  dsimp only
  rw [hsz, hint, if_neg (by rw [hlen]; push_cast; omega), Int.toNat_ofNat, hlen,
    show front.length + (((entries.map trailerEntry).flatten).length + 9)
      - (((entries.map trailerEntry).flatten).length + 9) = front.length by omega]
  have m1b : FS_Read (front ++ trailerBytes entries) front.length 4 = [84, 86, 68, 116] := m1
  rw [m1b, if_neg (by simp)]
  exact readTrailerEntries_spec _ entries _ _ 0 _ m2 (by
    have : entries.length ≤ ((entries.map trailerEntry).flatten).length := by
      clear hwf hsize hT hlen hsz hint hbody m1 m2 m1b
      induction entries with
      | nil => simp
      | cons e rest ih =>
        simp only [List.map_cons, List.flatten_cons, List.length_append, List.length_cons]
        have : 1 ≤ (trailerEntry e).length := by simp [trailerEntry]; omega
        omega
    omega) hwf


/-- C31, the code at the failing input: the trailer holds the entry `dur` =
5000 and no empty key after it.  The entry is parsed and stored, the bytes of
the trailer size are then read as a key and an empty value, the next key read
runs off the end of the file, and `CL_TV_ReadTrailer` returns false with
`totalDuration` still 5000; the same with bytes in front of the trailer.  With
the empty key in place the same trailer is read with success. -/
theorem C31_late_trailer_failure_keeps_duration :
    fileTrailerOpen
      = [84, 86, 68, 116, 100, 117, 114, 0, 4, 0, 136, 19, 0, 0, 18, 0, 0, 0] ∧
    CL_TV_ReadTrailer fileTrailerOpen = (false, 5000) ∧
    CL_TV_ReadTrailer ([9, 9, 9] ++ fileTrailerOpen) = (false, 5000) ∧
    CL_TV_ReadTrailer (trailerBytes [([100, 117, 114], le32Bytes 5000)]) = (true, 5000) := by
  decide

theorem pushAll_snoc (L : Limits) (tv : tvPlayback_t) (a : List (List Nat)) (t : List Nat) :
    pushAll L tv (a ++ [t]) = pushCommand L (pushAll L tv a) t := by
  rw [pushAll_append]
  rfl

theorem ring_index_mod (L : Limits) (k : Nat) (hk : L.MAX_RELIABLE_COMMANDS = 2 ^ k) (x : Nat) :
    x &&& (L.MAX_RELIABLE_COMMANDS - 1) = x % L.MAX_RELIABLE_COMMANDS := by
  rw [hk]
  exact Nat.and_pow_two_sub_one_eq_mod x k

/-- With a ring of `2 ^ k` slots, after the texts `texts` have been queued one
by one, the slot of the `n`-th of them still holds its text (cut by the
bounded copy) as long as fewer than `MAX_RELIABLE_COMMANDS` texts were queued
after it. -/
theorem pushAll_slot (L : Limits) (k : Nat) (hk : L.MAX_RELIABLE_COMMANDS = 2 ^ k)
    (tv : tvPlayback_t) (hlen : tv.cmds.length = L.MAX_RELIABLE_COMMANDS)
    (texts : List (List Nat)) :
    ∀ n, n < texts.length → texts.length ≤ n + L.MAX_RELIABLE_COMMANDS →
      (pushAll L tv texts).cmds.getD ((tv.cmdSequence + n) &&& (L.MAX_RELIABLE_COMMANDS - 1)) []
        = Q_strncpyz (texts.getD n []) L.MAX_STRING_CHARS := by
  have hM : 0 < L.MAX_RELIABLE_COMMANDS := by rw [hk]; exact Nat.pos_pow_of_pos k (by decide)
  induction texts using List.reverseRecOn with
  | nil => intro n hn; simp at hn
  | append_singleton init last ih =>
    intro n hn hw
    rw [List.length_append, List.length_singleton] at hn hw
    rw [pushAll_snoc]
    show ((pushAll L tv init).cmds.set
        ((pushAll L tv init).cmdSequence &&& (L.MAX_RELIABLE_COMMANDS - 1))
        (Q_strncpyz last L.MAX_STRING_CHARS)).getD _ [] = _
    rw [pushAll_cmdSequence, ring_index_mod L k hk, ring_index_mod L k hk]
    by_cases e : n = init.length
    · subst e
      rw [getD_set_eq _ _ _ _ (by
        rw [pushAll_cmds_length, hlen]
        exact Nat.mod_lt _ hM)]
      rw [List.getD_append_right _ _ _ _ (Nat.le_refl _)]
      simp
    · have hlt : n < init.length := by omega
      have hne : (tv.cmdSequence + n) % L.MAX_RELIABLE_COMMANDS
          ≠ (tv.cmdSequence + init.length) % L.MAX_RELIABLE_COMMANDS := by
        intro heq
        have h0 := Nat.sub_mod_eq_zero_of_mod_eq heq.symm
        have h1 : tv.cmdSequence + init.length - (tv.cmdSequence + n) = init.length - n := by
          omega
        rw [h1, Nat.mod_eq_of_lt (by omega)] at h0
        omega
      rw [getD_set_ne _ _ _ _ _ hne, ← ring_index_mod L k hk, ih n hlt (by omega)]
      rw [List.getD_append _ _ _ _ hlt]

/-- A request for the number `cmdSequence` itself passes both range checks of
`CL_TV_GetServerCommand`: the entry of ring slot
`cmdSequence & ( MAX_RELIABLE_COMMANDS - 1 )` is executed. -/
theorem getServerCommand_at_cmdSequence (L : Limits) (X : Externals) (c : Client)
    (hM : 0 < L.MAX_RELIABLE_COMMANDS) :
    CL_TV_GetServerCommand L X c c.tvPlay.cmdSequence
      = rescan L X L.BIG_INFO_STRING
          { c with lastExecutedServerCommand := c.tvPlay.cmdSequence }
          (ringEntry L c c.tvPlay.cmdSequence) :=
  getServerCommand_in_window L X c _ (by omega) (by omega)

theorem int_land_cast (a m : Nat) (hm : 0 < m) :
    (Int.land (a : Int) ((m : Int) - 1)).toNat = a &&& (m - 1) := by
  have h : ((m : Int) - 1) = ((m - 1 : Nat) : Int) := by omega
  rw [h]
  rfl

/-- Numbering the queued commands from 0: with a ring of `2 ^ k` slots that has
taken the texts `texts` since `cmdSequence` was 0, every request number `n`
below `cmdSequence` that is not reported as too old reads the text of command
number `n`. -/
theorem ringEntry_of_queued (L : Limits) (k : Nat) (hk : L.MAX_RELIABLE_COMMANDS = 2 ^ k)
    (c : Client) (tv0 : tvPlayback_t) (hlen : tv0.cmds.length = L.MAX_RELIABLE_COMMANDS)
    (h0 : tv0.cmdSequence = 0) (texts : List (List Nat))
    (hc : c.tvPlay.cmds = (pushAll L tv0 texts).cmds)
    (hs : c.tvPlay.cmdSequence = (pushAll L tv0 texts).cmdSequence)
    (n : Nat) (hn : n < c.tvPlay.cmdSequence)
    (hw : (c.tvPlay.cmdSequence : Int) - n < (L.MAX_RELIABLE_COMMANDS : Int)) :
    ringEntry L c n = Q_strncpyz (texts.getD n []) L.MAX_STRING_CHARS := by
  have hM : 0 < L.MAX_RELIABLE_COMMANDS := by rw [hk]; exact Nat.pos_pow_of_pos k (by decide)
  rw [hs, pushAll_cmdSequence, h0, Nat.zero_add] at hn hw
  unfold ringEntry
  rw [int_land_cast n _ hM, hc]
  have h := pushAll_slot L k hk tv0 hlen texts n hn (by omega)
  rw [h0, Nat.zero_add] at h
  exact h

set_option maxRecDepth 100000 in
/-- C32, the code at the failing input: the ring has four slots, the commands
`a`, `b`, `c`, `d` were queued as numbers 0 to 3 and `CL_TV_BuildSnapshot`
queued the scores command as number 4, over `a` in slot 0.  `cmdSequence` and
the `serverCommandNum` of the snapshot are 5, a number no command has.  The
request for number 5 is accepted: it returns true after tokenizing slot 1, the
text of command number 1 (`b`), which the same call reports as not available
when it is asked for by its own number.  The scores command is number 4, one
below the `serverCommandNum` of its snapshot. -/
theorem C32_request_at_cmdSequence_reads_older_command :
    tvRingFull.cmdSequence = 5 ∧
    tvRingFull.snapshots0.serverCommandNum = 5 ∧
    tvRingFull.cmds
      = [scoresCommand tiny toyExternals (tvPlayback_t.zero tiny), [98], [99], [100]] ∧
    (CL_TV_GetServerCommand tiny toyExternals clientRingFull 5).map
        (fun r => (r.1, r.2.lastExecutedServerCommand, r.2.cmdArgv))
      = some (true, 5, [[98]]) ∧
    (CL_TV_GetServerCommand tiny toyExternals clientRingFull 1).map
        (fun r => (r.1, r.2.lastExecutedServerCommand, r.2.cmdArgv))
      = some (false, 0, []) ∧
    (CL_TV_GetServerCommand tiny toyExternals clientRingFull 4).map
        (fun r => (r.1, r.2.lastExecutedServerCommand, r.2.cmdArgv))
      = some (true, 4, [[115, 99, 111, 114, 101, 115], [48], [48], [48]]) := by
  decide

theorem readLenData_out_of_range (L : Limits) (X : Externals) (m : List Nat) (len : Int)
    (h : len ≤ 0 ∨ (L.BIG_INFO_STRING : Int) ≤ len) : readLenData L X m len = ([0], m) := by
  unfold readLenData
  rw [if_neg (by omega)]

/-- What `CL_TV_UpdateConfigstring` does with the one-byte buffer `csData[0] =
0` and a positive length `dl`, for an index other than `CS_SERVERINFO`: it
raises the fatal drop, or it returns with at least `dl + 1` bytes of the arena
taken for this index. -/
theorem updateConfigstring_length_beyond_data (L : Limits) (X : Externals) (gs : gameState_t)
    (index : Nat) (hi : index < L.MAX_CONFIGSTRINGS) (hs : index ≠ L.CS_SERVERINFO)
    (dl : Int) (hdl : 0 < dl) (hG : 0 < L.MAX_GAMESTATE_CHARS) :
    CL_TV_UpdateConfigstring L X gs index [0] dl = none ∨
    ∃ gs2, CL_TV_UpdateConfigstring L X gs index [0] dl = some gs2 ∧
      dl.toNat + 2 ≤ gs2.dataCount ∧ 1 ≤ gs2.stringOffsets.getD index 0 := by
  have he : effectiveData L X index [0] dl = ([0], dl) := by
    unfold effectiveData
    rw [if_neg (fun h => hs h.1)]
  have hentry : rebuiltEntry gs index [0] dl index = memRead [0] dl.toNat := by
    unfold rebuiltEntry
    rw [if_pos rfl, if_neg (by omega)]
  have hlen : (rebuiltEntry gs index [0] dl index).length = dl.toNat := by
    rw [hentry, memRead_length]
  have hne : rebuiltEntry gs index [0] dl index ≠ [] := by
    intro e
    rw [e] at hlen
    simp at hlen
    omega
  have hneed : dl.toNat + 2 ≤ arenaNeed (rebuiltEntry gs index [0] dl) L.MAX_CONFIGSTRINGS := by
    have h1 := arenaNeed_mono (rebuiltEntry gs index [0] dl) (Nat.succ_le_of_lt hi)
    rw [Nat.succ_eq_add_one, arenaNeed_succ, if_neg hne, hlen] at h1
    have h2 : 1 ≤ arenaNeed (rebuiltEntry gs index [0] dl) index := by
      unfold arenaNeed; omega
    omega
  obtain ⟨hok, hbad⟩ := rebuild_prefix L gs index [0] dl hG L.MAX_CONFIGSTRINGS (Nat.le_refl _)
  unfold CL_TV_UpdateConfigstring
  rw [he]
  dsimp only
  by_cases hfit : arenaNeed (rebuiltEntry gs index [0] dl) L.MAX_CONFIGSTRINGS
      ≤ L.MAX_GAMESTATE_CHARS
  · obtain ⟨gs2, h1, h2⟩ := hok hfit
    refine Or.inr ⟨gs2, h1, ?_, (rebuildInv_offset L _ _ gs2 h2 index hi hne).1⟩
    rw [h2.1]
    exact hneed
  · exact Or.inl (hbad (by omega))

set_option maxRecDepth 100000 in
/-- C33, the code at the failing input, with `BIG_INFO_STRING = 16` and
`MAX_GAMESTATE_CHARS = 24`: a frame whose only configstring change is for
index 1 with the length 16 and no value bytes.  `CL_TV_ReadFrame` hands the
length 16 on, and the arena, empty before, has 17 bytes taken (`dataCount` 18,
offset 1 for index 1), where the lengths 0 and -3 leave `dataCount` at 1 and
the offset at 0.  With the length 23 the same frame raises the fatal drop.  For
`CS_SERVERINFO` the length 16 stores `\tv\1`, not the empty string.  A command
with the length 16 is queued as the empty text: that branch sets `cmdLen` to
0. -/
theorem C33_length_beyond_buffer_is_handed_on :
    (CL_TV_ReadFrame tiny toyExternals (clientLength 1 16)).map
        (fun c => (c.gameState.dataCount, c.gameState.stringOffsets, c.gameState.configString 1))
      = some (18, [0, 1, 0, 0], []) ∧
    (CL_TV_ReadFrame tiny toyExternals (clientLength 1 0)).map
        (fun c => (c.gameState.dataCount, c.gameState.stringOffsets, c.gameState.configString 1))
      = some (1, [0, 0, 0, 0], []) ∧
    (CL_TV_ReadFrame tiny toyExternals (clientLength 1 (-3))).map
        (fun c => (c.gameState.dataCount, c.gameState.stringOffsets, c.gameState.configString 1))
      = some (1, [0, 0, 0, 0], []) ∧
    CL_TV_ReadFrame tiny toyExternals (clientLength 1 23) = none ∧
    (CL_TV_ReadFrame tiny toyExternals (clientLength 0 16)).map
        (fun c => c.gameState.configString 0) = some tvPair ∧
    (CL_TV_ReadFrame tiny toyExternals (clientCommandLength 16)).map
        (fun c => (c.tvPlay.cmds, c.tvPlay.cmdSequence)) = some ([[], [], [], []], 1) := by
  decide

/-! ## Round trips of `tv_view_next` and `tv_view_prev` -/

theorem find?_candidates_least (q : Nat → Bool) (f : Nat → Nat) (n : Nat)
    (h : ∃ i, 1 ≤ i ∧ i ≤ n ∧ q (f i) = true) :
    ∃ i0, 1 ≤ i0 ∧ i0 ≤ n ∧ q (f i0) = true ∧
      (∀ j, 1 ≤ j → j < i0 → q (f j) = false) ∧
      ((List.range' 1 n).map f).find? q = some (f i0) := by
  classical
  obtain ⟨h1, h2, h3⟩ := Nat.find_spec h
  have hmin : ∀ j, 1 ≤ j → j < Nat.find h → q (f j) = false := by
    intro j hj1 hj2
    have := Nat.find_min h hj2
    cases hq : q (f j) with
    | false => rfl
    | true => exact absurd ⟨hj1, by omega, hq⟩ this
  exact ⟨Nat.find h, h1, h2, h3, hmin, find?_candidates_first q f n _ h1 h2 h3 hmin⟩

theorem bitTest_index_lt (mask : List Nat) (i : Nat) (h : bitTest mask i = true) :
    i / 8 < mask.length := by
  by_contra hge
  unfold bitTest at h
  rw [shiftRight_three, List.getD_eq_default _ _ (by omega)] at h
  simp at h

theorem buildSnapshot_players (L : Limits) (X : Externals) (tv : tvPlayback_t)
    (which : Fin 2) :
    (CL_TV_BuildSnapshot L X tv which).playerBitmask = tv.playerBitmask ∧
    (CL_TV_BuildSnapshot L X tv which).active = tv.active := by
  unfold CL_TV_BuildSnapshot
  dsimp only
  split <;> exact ⟨rfl, rfl⟩

theorem rebuildSnapshots_players (L : Limits) (X : Externals) (c : Client) :
    (CL_TV_RebuildSnapshots L X c).tvPlay.playerBitmask = c.tvPlay.playerBitmask ∧
    (CL_TV_RebuildSnapshots L X c).tvPlay.active = c.tvPlay.active ∧
    (CL_TV_RebuildSnapshots L X c).gameState = c.gameState := by
  unfold CL_TV_RebuildSnapshots
  dsimp only
  rw [(buildSnapshot_players L X _ 1).1, (buildSnapshot_players L X _ 0).1,
    (buildSnapshot_players L X _ 1).2, (buildSnapshot_players L X _ 0).2]
  exact ⟨rfl, rfl, rfl⟩

theorem switchViewpoint_facts (L : Limits) (X : Externals) (c : Client) (slot : Nat) :
    (switchViewpoint L X c slot).tvPlay.viewpoint = slot ∧
    (switchViewpoint L X c slot).tvPlay.playerBitmask = c.tvPlay.playerBitmask ∧
    (switchViewpoint L X c slot).tvPlay.active = c.tvPlay.active ∧
    (switchViewpoint L X c slot).gameState = c.gameState := by
  unfold switchViewpoint
  split
  · obtain ⟨h1, h2, h3⟩ := rebuildSnapshots_players L X
      { c with tvPlay := { c.tvPlay with viewpoint := slot } }
    exact ⟨rebuildSnapshots_viewpoint L X _, h1, h2, h3⟩
  · rename_i h
    exact ⟨(not_not.mp h).symm, rfl, rfl, rfl⟩

theorem viewQualifies_congr (L : Limits) (X : Externals) (a b : Client)
    (h1 : a.tvPlay.playerBitmask = b.tvPlay.playerBitmask) (h2 : a.gameState = b.gameState) :
    viewQualifies L X a = viewQualifies L X b := by
  funext i
  unfold viewQualifies
  rw [h1, h2]

theorem mod_step_back (v i j n : Nat) (hv : v < n) (hi : i ≤ n) (hj : j ≤ i) :
    ((v + i) % n + n - j) % n = (v + (i - j)) % n := by
  by_cases h : v + i < n
  · have hu : (v + i) % n = v + i := Nat.mod_eq_of_lt h
    have e : v + i + n - j = v + (i - j) + n := by omega
    rw [hu, e, Nat.add_mod_right]
  · have hu : (v + i) % n = v + i - n := by
      rw [Nat.mod_eq_sub_mod (by omega)]
      exact Nat.mod_eq_of_lt (by omega)
    have e : v + i - n + n - j = v + (i - j) := by omega
    rw [hu, e]

theorem mod_step_forth (v i j n : Nat) (hv : v < n) (hi : i ≤ n) (hj : j ≤ i) :
    ((v + n - i) % n + j) % n = (v + n - (i - j)) % n := by
  by_cases h : i ≤ v
  · have e1 : v + n - i = v - i + n := by omega
    have e2 : v + n - (i - j) = v - i + j + n := by omega
    have hu : (v + n - i) % n = v - i := by
      rw [e1, Nat.add_mod_right]
      exact Nat.mod_eq_of_lt (by omega)
    rw [hu, e2, Nat.add_mod_right]
  · have hu : (v + n - i) % n = v + n - i := Nat.mod_eq_of_lt (by omega)
    have e : v + n - i + j = v + n - (i - j) := by omega
    rw [hu, e]

theorem viewNext_unfold (L : Limits) (X : Externals) (c : Client)
    (hact : ¬ c.tvPlay.active = false) (s : Nat)
    (h : ((List.range' 1 L.MAX_CLIENTS).map
      (fun i => (c.tvPlay.viewpoint + i) % L.MAX_CLIENTS)).find? (viewQualifies L X c) = some s) :
    CL_TV_ViewNext_f L X c = switchViewpoint L X c s := by
  unfold CL_TV_ViewNext_f
  rw [if_neg hact, h]
  rfl

theorem viewPrev_unfold (L : Limits) (X : Externals) (c : Client)
    (hact : ¬ c.tvPlay.active = false) (s : Nat)
    (h : ((List.range' 1 L.MAX_CLIENTS).map
      (fun i => (c.tvPlay.viewpoint + L.MAX_CLIENTS - i) % L.MAX_CLIENTS)).find?
        (viewQualifies L X c) = some s) :
    CL_TV_ViewPrev_f L X c = switchViewpoint L X c s := by
  unfold CL_TV_ViewPrev_f
  rw [if_neg hact, h]
  rfl

theorem viewNext_then_prev (L : Limits) (X : Externals) (c : Client)
    (hn : c.tvPlay.viewpoint < L.MAX_CLIENTS)
    (hq : viewQualifies L X c c.tvPlay.viewpoint = true) :
    (CL_TV_ViewPrev_f L X (CL_TV_ViewNext_f L X c)).tvPlay.viewpoint = c.tvPlay.viewpoint := by
  by_cases hact : c.tvPlay.active = false
  · have e1 : CL_TV_ViewNext_f L X c = c := by unfold CL_TV_ViewNext_f; rw [if_pos hact]
    have e2 : CL_TV_ViewPrev_f L X c = c := by unfold CL_TV_ViewPrev_f; rw [if_pos hact]
    rw [e1, e2]
  · obtain ⟨i0, h1, h2, _, h4, h5⟩ := find?_candidates_least (viewQualifies L X c)
      (fun i => (c.tvPlay.viewpoint + i) % L.MAX_CLIENTS) L.MAX_CLIENTS
      ⟨L.MAX_CLIENTS, by omega, Nat.le_refl _, by
        show viewQualifies L X c ((c.tvPlay.viewpoint + L.MAX_CLIENTS) % L.MAX_CLIENTS) = true
        rw [Nat.add_mod_right, Nat.mod_eq_of_lt hn]
        exact hq⟩
    have e1 := viewNext_unfold L X c hact _ h5
    obtain ⟨s1, s2, s3, s4⟩ :=
      switchViewpoint_facts L X c ((c.tvPlay.viewpoint + i0) % L.MAX_CLIENTS)
    rw [← e1] at s1 s2 s3 s4
    generalize CL_TV_ViewNext_f L X c = c1 at s1 s2 s3 s4 ⊢
    have hqq := viewQualifies_congr L X c1 c s2 s4
    have hback : ∀ j, j ≤ i0 →
        ((c.tvPlay.viewpoint + i0) % L.MAX_CLIENTS + L.MAX_CLIENTS - j) % L.MAX_CLIENTS
          = (c.tvPlay.viewpoint + (i0 - j)) % L.MAX_CLIENTS :=
      fun j hj => mod_step_back _ _ _ _ hn h2 hj
    have hv0 : ((c.tvPlay.viewpoint + i0) % L.MAX_CLIENTS + L.MAX_CLIENTS - i0) % L.MAX_CLIENTS
        = c.tvPlay.viewpoint := by
      rw [hback i0 (Nat.le_refl _), Nat.sub_self, Nat.add_zero, Nat.mod_eq_of_lt hn]
    have hf := find?_candidates_first (viewQualifies L X c)
      (fun i => ((c.tvPlay.viewpoint + i0) % L.MAX_CLIENTS + L.MAX_CLIENTS - i) % L.MAX_CLIENTS)
      L.MAX_CLIENTS i0 h1 h2
      (by
        show viewQualifies L X c
          (((c.tvPlay.viewpoint + i0) % L.MAX_CLIENTS + L.MAX_CLIENTS - i0) % L.MAX_CLIENTS) = true
        rw [hv0]
        exact hq)
      (fun j hj1 hj2 => by
        show viewQualifies L X c
          (((c.tvPlay.viewpoint + i0) % L.MAX_CLIENTS + L.MAX_CLIENTS - j) % L.MAX_CLIENTS) = false
        rw [hback j (by omega)]
        exact h4 (i0 - j) (by omega) (by omega))
    have hf2 : ((List.range' 1 L.MAX_CLIENTS).map
        (fun i => (c1.tvPlay.viewpoint + L.MAX_CLIENTS - i) % L.MAX_CLIENTS)).find?
          (viewQualifies L X c1) = some c.tvPlay.viewpoint := by
      rw [hqq, s1, hf]
      exact congrArg some hv0
    rw [viewPrev_unfold L X c1 (by rw [s3]; exact hact) _ hf2]
    exact (switchViewpoint_facts L X c1 _).1

theorem viewPrev_then_next (L : Limits) (X : Externals) (c : Client)
    (hn : c.tvPlay.viewpoint < L.MAX_CLIENTS)
    (hq : viewQualifies L X c c.tvPlay.viewpoint = true) :
    (CL_TV_ViewNext_f L X (CL_TV_ViewPrev_f L X c)).tvPlay.viewpoint = c.tvPlay.viewpoint := by
  by_cases hact : c.tvPlay.active = false
  · have e1 : CL_TV_ViewNext_f L X c = c := by unfold CL_TV_ViewNext_f; rw [if_pos hact]
    have e2 : CL_TV_ViewPrev_f L X c = c := by unfold CL_TV_ViewPrev_f; rw [if_pos hact]
    rw [e2, e1]
  · obtain ⟨i0, h1, h2, _, h4, h5⟩ := find?_candidates_least (viewQualifies L X c)
      (fun i => (c.tvPlay.viewpoint + L.MAX_CLIENTS - i) % L.MAX_CLIENTS) L.MAX_CLIENTS
      ⟨L.MAX_CLIENTS, by omega, Nat.le_refl _, by
        show viewQualifies L X c
          ((c.tvPlay.viewpoint + L.MAX_CLIENTS - L.MAX_CLIENTS) % L.MAX_CLIENTS) = true
        rw [Nat.add_sub_cancel, Nat.mod_eq_of_lt hn]
        exact hq⟩
    have e1 := viewPrev_unfold L X c hact _ h5
    obtain ⟨s1, s2, s3, s4⟩ :=
      switchViewpoint_facts L X c ((c.tvPlay.viewpoint + L.MAX_CLIENTS - i0) % L.MAX_CLIENTS)
    rw [← e1] at s1 s2 s3 s4
    generalize CL_TV_ViewPrev_f L X c = c1 at s1 s2 s3 s4 ⊢
    have hqq := viewQualifies_congr L X c1 c s2 s4
    have hforth : ∀ j, j ≤ i0 →
        ((c.tvPlay.viewpoint + L.MAX_CLIENTS - i0) % L.MAX_CLIENTS + j) % L.MAX_CLIENTS
          = (c.tvPlay.viewpoint + L.MAX_CLIENTS - (i0 - j)) % L.MAX_CLIENTS :=
      fun j hj => mod_step_forth _ _ _ _ hn h2 hj
    have hv0 : ((c.tvPlay.viewpoint + L.MAX_CLIENTS - i0) % L.MAX_CLIENTS + i0) % L.MAX_CLIENTS
        = c.tvPlay.viewpoint := by
      rw [hforth i0 (Nat.le_refl _), Nat.sub_self, Nat.sub_zero, Nat.add_mod_right,
        Nat.mod_eq_of_lt hn]
    have hf := find?_candidates_first (viewQualifies L X c)
      (fun i => ((c.tvPlay.viewpoint + L.MAX_CLIENTS - i0) % L.MAX_CLIENTS + i) % L.MAX_CLIENTS)
      L.MAX_CLIENTS i0 h1 h2
      (by
        show viewQualifies L X c
          (((c.tvPlay.viewpoint + L.MAX_CLIENTS - i0) % L.MAX_CLIENTS + i0) % L.MAX_CLIENTS) = true
        rw [hv0]
        exact hq)
      (fun j hj1 hj2 => by
        show viewQualifies L X c
          (((c.tvPlay.viewpoint + L.MAX_CLIENTS - i0) % L.MAX_CLIENTS + j) % L.MAX_CLIENTS) = false
        rw [hforth j (by omega)]
        exact h4 (i0 - j) (by omega) (by omega))
    have hf2 : ((List.range' 1 L.MAX_CLIENTS).map
        (fun i => (c1.tvPlay.viewpoint + i) % L.MAX_CLIENTS)).find?
          (viewQualifies L X c1) = some c.tvPlay.viewpoint := by
      rw [hqq, s1, hf]
      exact congrArg some hv0
    rw [viewNext_unfold L X c1 (by rw [s3]; exact hact) _ hf2]
    exact (switchViewpoint_facts L X c1 _).1

/-- C34: with a player bitmask of `MAX_CLIENTS / 8` bytes, any team
assignment, and a viewpoint `v` that is live and not a spectator,
`tv_view_next` followed by `tv_view_prev` leaves the viewpoint at `v`, and so
does `tv_view_prev` followed by `tv_view_next`. -/
theorem C34_view_next_prev_round_trip (L : Limits) (X : Externals) (c : Client)
    (hmask : c.tvPlay.playerBitmask.length = L.MAX_CLIENTS / 8)
    (hlive : bitTest c.tvPlay.playerBitmask c.tvPlay.viewpoint = true)
    (hteam : CL_TV_GetPlayerTeam L X c.gameState c.tvPlay.viewpoint ≠ L.TEAM_SPECTATOR) :
    (CL_TV_ViewPrev_f L X (CL_TV_ViewNext_f L X c)).tvPlay.viewpoint = c.tvPlay.viewpoint ∧
    (CL_TV_ViewNext_f L X (CL_TV_ViewPrev_f L X c)).tvPlay.viewpoint = c.tvPlay.viewpoint := by
  have hn : c.tvPlay.viewpoint < L.MAX_CLIENTS := by
    have h := bitTest_index_lt _ _ hlive
    rw [hmask] at h
    omega
  have hq : viewQualifies L X c c.tvPlay.viewpoint = true := by
    unfold viewQualifies
    rw [hlive]
    simpa using hteam
  exact ⟨viewNext_then_prev L X c hn hq, viewPrev_then_next L X c hn hq⟩

/-- C34 at a concrete input: clients 1, 5 and 7 are live, none is a spectator,
and the viewpoint is client 5; `tv_view_next` goes to 7 and `tv_view_prev`
back to 5, `tv_view_prev` goes to 1 and `tv_view_next` back to 5. -/
theorem C34_view_next_prev_round_trip_witness :
    (CL_TV_ViewNext_f tiny toyExternals clientView).tvPlay.viewpoint = 7 ∧
    (CL_TV_ViewPrev_f tiny toyExternals clientView).tvPlay.viewpoint = 1 ∧
    (CL_TV_ViewPrev_f tiny toyExternals
      (CL_TV_ViewNext_f tiny toyExternals clientView)).tvPlay.viewpoint
        = clientView.tvPlay.viewpoint ∧
    (CL_TV_ViewNext_f tiny toyExternals
      (CL_TV_ViewPrev_f tiny toyExternals clientView)).tvPlay.viewpoint
        = clientView.tvPlay.viewpoint :=
  ⟨by decide, by decide,
    C34_view_next_prev_round_trip tiny toyExternals clientView (by decide) (by decide)
      (by decide)⟩

/-! ## `recording` and `autoPending` exclude each other -/

theorem fileWrite_flags (r : Recorder) (data : List Nat) :
    (SV_TV_FileWrite r data).tv.recording = r.tv.recording ∧
    (SV_TV_FileWrite r data).tv.autoPending = r.tv.autoPending ∧
    (SV_TV_FileWrite r data).tv.frameCount = r.tv.frameCount := ⟨rfl, rfl, rfl⟩

theorem startRecord_exclusive (L : Limits) (sv : Server) (r : Recorder) (filename : List Nat)
    (h : r.tv.recording = true → r.tv.autoPending = false) :
    (SV_TV_StartRecord L sv r filename).tv.recording = true →
      (SV_TV_StartRecord L sv r filename).tv.autoPending = false := by
  unfold SV_TV_StartRecord
  by_cases h1 : sv.inGame = true
  · by_cases h2 : r.tv.recording = true
    · simpa [h1, h2] using h h2
    · by_cases h3 : sv.openOk = true
      · simp only [h1, h2, h3, Bool.not_true, Bool.false_eq_true, if_false]
        intro _
        show (SV_TV_FileWrite (writeHeaderConfigstrings L sv _) _).tv.autoPending = false
        rw [(fileWrite_flags _ _).2.1, (writeHeaderConfigstrings_path L sv _).2]
        rfl
      · simp only [h1, h2, h3, Bool.not_true, Bool.not_false, Bool.false_eq_true, if_false,
          if_true]
        intro _
        rfl
  · simpa [h1] using h

theorem stopRecord_flags (L : Limits) (r : Recorder) (discard : Bool) :
    (SV_TV_StopRecord L r discard).tv.autoPending = false ∧
    (SV_TV_StopRecord L r discard).tv.recording = false := by
  unfold SV_TV_StopRecord
  by_cases h : r.tv.recording = true <;> simp [h]

theorem resolveAutoStart_exclusive (L : Limits) (sv : Server) (r : Recorder)
    (h : r.tv.recording = true → r.tv.autoPending = false) :
    (resolveAutoStart L sv r).tv.recording = true →
      (resolveAutoStart L sv r).tv.autoPending = false := by
  unfold resolveAutoStart
  dsimp only
  split
  · split
    · exact startRecord_exclusive L sv _ _ (fun _ => rfl)
    · exact h
  · split
    · exact startRecord_exclusive L sv _ _ (fun _ => rfl)
    · exact h

/-- What `SV_TV_WriteFrame` does when a recording is active and no auto-start
is pending: the message fits and one frame (its size, then its bytes) is
written and counted, or the message overflowed and the recording is stopped
with discard. -/
theorem writeFrame_while_recording (L : Limits) (X : Externals) (sv : Server) (r : Recorder)
    (hauto : r.tv.autoPending = false) (hrec : r.tv.recording = true) :
    ((frameMessage L X sv r.tv).overflowed = false ∧
      (SV_TV_WriteFrame L X sv r).fs
        = r.fs ++ [FsOp.write (le32Bytes (frameMessage L X sv r.tv).data.length),
            FsOp.write (frameMessage L X sv r.tv).data] ∧
      (SV_TV_WriteFrame L X sv r).tv.frameCount = r.tv.frameCount + 1 ∧
      (SV_TV_WriteFrame L X sv r).tv.recording = true ∧
      (SV_TV_WriteFrame L X sv r).tv.autoPending = false) ∨
    ((frameMessage L X sv r.tv).overflowed = true ∧
      (SV_TV_WriteFrame L X sv r).fs
        = r.fs ++ [FsOp.close,
            FsOp.remove ((r.tv.recordingPath ++ extTmp).take (L.MAX_QPATH - 1))] ∧
      (SV_TV_WriteFrame L X sv r).tv.frameCount = r.tv.frameCount ∧
      (SV_TV_WriteFrame L X sv r).tv.recording = false ∧
      (SV_TV_WriteFrame L X sv r).tv.autoPending = false) := by
  cases hov : (frameMessage L X sv r.tv).overflowed with
  | false =>
    left
    have hov2 : (frameMessage L X sv
        { r.tv with
          hadHuman := r.tv.hadHuman || humanPresent sv
          firstServerTime := if r.tv.frameCount = 0 then sv.time else r.tv.firstServerTime
          lastServerTime := sv.time }).overflowed = false := hov
    refine ⟨rfl, writeFrame_fs L X sv r ⟨hauto, hrec, hov⟩, ?_, ?_, ?_⟩
    all_goals
      unfold SV_TV_WriteFrame
      rw [if_neg (by rw [hauto]; simp), if_neg (by rw [hrec]; simp)]
      dsimp only
      rw [if_neg (by rw [hov2]; simp)]
    · rfl
    · exact hrec
    · exact hauto
  | true =>
    right
    have hov2 : (frameMessage L X sv
        { r.tv with
          hadHuman := r.tv.hadHuman || humanPresent sv
          firstServerTime := if r.tv.frameCount = 0 then sv.time else r.tv.firstServerTime
          lastServerTime := sv.time }).overflowed = true := hov
    refine ⟨rfl, ?_, ?_, ?_, ?_⟩
    all_goals
      unfold SV_TV_WriteFrame
      rw [if_neg (by rw [hauto]; simp), if_neg (by rw [hrec]; simp)]
      dsimp only
      rw [if_pos hov2]
      unfold SV_TV_StopRecord
      simp [hrec]

theorem writeFrame_exclusive (L : Limits) (X : Externals) (sv : Server) (r : Recorder)
    (h : r.tv.recording = true → r.tv.autoPending = false) :
    (SV_TV_WriteFrame L X sv r).tv.recording = true →
      (SV_TV_WriteFrame L X sv r).tv.autoPending = false := by
  by_cases h1 : r.tv.autoPending = true
  · unfold SV_TV_WriteFrame
    rw [if_pos h1]
    exact resolveAutoStart_exclusive L sv r h
  · by_cases h2 : r.tv.recording = true
    · have ha : r.tv.autoPending = false := by simpa using h1
      intro _
      rcases writeFrame_while_recording L X sv r ha h2 with hw | hw
      · exact hw.2.2.2.2
      · exact hw.2.2.2.2
    · unfold SV_TV_WriteFrame
      rw [if_neg h1, if_pos (by simpa using h2)]
      exact h

theorem apply_exclusive (L : Limits) (X : Externals) (r : Recorder) (op : RecOp)
    (h : r.tv.recording = true → r.tv.autoPending = false) :
    (op.apply L X r).tv.recording = true → (op.apply L X r).tv.autoPending = false := by
  cases op with
  | autoStart sv =>
    simp only [RecOp.apply, SV_TV_AutoStart]
    split
    · exact h
    · rename_i hc
      intro hr
      have hr2 : r.tv.recording = true := hr
      simp [hr2] at hc
  | startRecord sv filename => exact startRecord_exclusive L sv r filename h
  | writeFrame sv => exact writeFrame_exclusive L X sv r h
  | stopRecord discard =>
    intro _
    exact (stopRecord_flags L r discard).1
  | configstringChanged index =>
    simp only [RecOp.apply, SV_TV_ConfigstringChanged]
    split
    · exact h
    · exact h
  | captureServerCommand target cmd =>
    simp only [RecOp.apply, SV_TV_CaptureServerCommand]
    split
    · exact h
    · split
      · exact h
      · exact h

theorem foldl_apply_exclusive (L : Limits) (X : Externals) (ops : List RecOp) (r : Recorder)
    (h : r.tv.recording = true → r.tv.autoPending = false) :
    (ops.foldl (RecOp.apply L X) r).tv.recording = true →
      (ops.foldl (RecOp.apply L X) r).tv.autoPending = false := by
  induction ops generalizing r with
  | nil => exact h
  | cons op t ih =>
    simp only [List.foldl_cons]
    exact ih _ (apply_exclusive L X r op h)

/-- C35: in every recorder state reached from the all-zero state by calls of
`SV_TV_AutoStart`, `SV_TV_StartRecord`, `SV_TV_WriteFrame`, `SV_TV_StopRecord`,
`SV_TV_ConfigstringChanged` and `SV_TV_CaptureServerCommand`, `recording` and
`autoPending` are not both true; and a call of `SV_TV_WriteFrame` in such a
state with `recording` true either writes exactly one frame (its size, then
its bytes), adds 1 to `frameCount` and keeps recording, or, the message having
overflowed, closes and removes the file, clears `recording` and leaves
`frameCount` as it was. -/
theorem C35_recording_excludes_autoPending (L : Limits) (X : Externals) (ops : List RecOp) :
    ¬ ((runOps L X ops).tv.recording = true ∧ (runOps L X ops).tv.autoPending = true) ∧
    ∀ sv : Server, (runOps L X ops).tv.recording = true →
      ((frameMessage L X sv (runOps L X ops).tv).overflowed = false ∧
        (SV_TV_WriteFrame L X sv (runOps L X ops)).fs
          = (runOps L X ops).fs ++
            [FsOp.write (le32Bytes (frameMessage L X sv (runOps L X ops).tv).data.length),
              FsOp.write (frameMessage L X sv (runOps L X ops).tv).data] ∧
        (SV_TV_WriteFrame L X sv (runOps L X ops)).tv.frameCount
          = (runOps L X ops).tv.frameCount + 1 ∧
        (SV_TV_WriteFrame L X sv (runOps L X ops)).tv.recording = true) ∨
      ((frameMessage L X sv (runOps L X ops).tv).overflowed = true ∧
        (SV_TV_WriteFrame L X sv (runOps L X ops)).fs
          = (runOps L X ops).fs ++ [FsOp.close,
              FsOp.remove (((runOps L X ops).tv.recordingPath ++ extTmp).take
                (L.MAX_QPATH - 1))] ∧
        (SV_TV_WriteFrame L X sv (runOps L X ops)).tv.frameCount
          = (runOps L X ops).tv.frameCount ∧
        (SV_TV_WriteFrame L X sv (runOps L X ops)).tv.recording = false) := by
  have hex : (runOps L X ops).tv.recording = true → (runOps L X ops).tv.autoPending = false :=
    foldl_apply_exclusive L X ops (Recorder.init L) (fun _ => rfl)
  refine ⟨fun hb => ?_, fun sv hrec => ?_⟩
  · have := hex hb.1
    rw [hb.2] at this
    exact absurd this (by decide)
  · rcases writeFrame_while_recording L X sv (runOps L X ops) (hex hrec) hrec with hw | hw
    · exact Or.inl ⟨hw.1, hw.2.1, hw.2.2.1, hw.2.2.2.1⟩
    · exact Or.inr ⟨hw.1, hw.2.1, hw.2.2.1, hw.2.2.2.1⟩

set_option maxRecDepth 100000 in
/-- C35 at a concrete input: after `SV_TV_AutoStart` with `sv_tvauto` set and
the tick that resolves it, `recording` is true and `autoPending` false, no
frame has been counted, and the next `SV_TV_WriteFrame` is one of the two
cases; here the message fits and `frameCount` becomes 1. -/
theorem C35_recording_excludes_autoPending_witness :
    (runOps tiny toyExternals opsAutoRecord).tv.recording = true ∧
    (runOps tiny toyExternals opsAutoRecord).tv.autoPending = false ∧
    (runOps tiny toyExternals [RecOp.autoStart { svA with sv_tvauto := true }]).tv.autoPending
      = true ∧
    (SV_TV_WriteFrame tiny toyExternals svB (runOps tiny toyExternals opsAutoRecord)).tv.frameCount
      = 1 ∧
    (((frameMessage tiny toyExternals svB
          (runOps tiny toyExternals opsAutoRecord).tv).overflowed = false ∧
        (SV_TV_WriteFrame tiny toyExternals svB (runOps tiny toyExternals opsAutoRecord)).fs
          = (runOps tiny toyExternals opsAutoRecord).fs ++
            [FsOp.write (le32Bytes (frameMessage tiny toyExternals svB
                (runOps tiny toyExternals opsAutoRecord).tv).data.length),
              FsOp.write (frameMessage tiny toyExternals svB
                (runOps tiny toyExternals opsAutoRecord).tv).data] ∧
        (SV_TV_WriteFrame tiny toyExternals svB
            (runOps tiny toyExternals opsAutoRecord)).tv.frameCount
          = (runOps tiny toyExternals opsAutoRecord).tv.frameCount + 1 ∧
        (SV_TV_WriteFrame tiny toyExternals svB
            (runOps tiny toyExternals opsAutoRecord)).tv.recording = true) ∨
      ((frameMessage tiny toyExternals svB
          (runOps tiny toyExternals opsAutoRecord).tv).overflowed = true ∧
        (SV_TV_WriteFrame tiny toyExternals svB (runOps tiny toyExternals opsAutoRecord)).fs
          = (runOps tiny toyExternals opsAutoRecord).fs ++ [FsOp.close,
              FsOp.remove (((runOps tiny toyExternals opsAutoRecord).tv.recordingPath
                ++ extTmp).take (tiny.MAX_QPATH - 1))] ∧
        (SV_TV_WriteFrame tiny toyExternals svB
            (runOps tiny toyExternals opsAutoRecord)).tv.frameCount
          = (runOps tiny toyExternals opsAutoRecord).tv.frameCount ∧
        (SV_TV_WriteFrame tiny toyExternals svB
            (runOps tiny toyExternals opsAutoRecord)).tv.recording = false)) :=
  ⟨by decide, by decide, by decide, by decide,
    (C35_recording_excludes_autoPending tiny toyExternals opsAutoRecord).2 svB (by decide)⟩
end TV
